import Mathlib

/-!
# Siloz: address decode, subarray groups and logical NUMA topology

A shallow embedding of the Skylake address-decode pipeline
(`drivers/edac/skx_base.c`), of the SRAT/SLIT handling
(`drivers/acpi/numa/srat.c`) and of the shared declarations
(`include/linux/skx_common.h`), followed by theorems about them.

Conventions of the embedding.

* `u64`/`u32`/`u8` values are `Nat`; where the C arithmetic can wrap the
  reduction `% 2 ^ 64` / `% 2 ^ 32` / `% 2 ^ 8` is written out.
* `int` values are `Int`.
* A C array is a total function of its index; a C pointer to a `skx_dev`
  is the index of the device in `skx_sock_devs`.
* A function `bool f(struct decoded_addr *res)` becomes
  `decoded_addr → Bool × decoded_addr`: the returned flag and the record
  as the call leaves it.
-/

namespace Siloz

/-! ## include/linux/skx_common.h -/

def MAX_SUBARRAY_GROUP_BITS : Nat := 10
def MAX_SUBARRAY_GROUPS : Nat := 1 <<< MAX_SUBARRAY_GROUP_BITS

def SKX_NUM_IMC : Nat := 2
def SKX_NUM_CHANNELS : Nat := 3
def SKX_NUM_DIMMS : Nat := 2

def SOCKET_0_EPT_NODE : Int := 2
def SOCKET_0_GUARD_ROWS_NODE : Int := 3
def SOCKET_1_EPT_NODE : Int := 4
def SOCKET_1_GUARD_ROWS_NODE : Int := 5

/-- Modelled from the spec: `GENMASK_ULL` (linux/bits.h) is not among the
sources; `GET_BITFIELD(v, lo, hi)` is the field made of bits `lo..hi` of
`v`, shifted down to bit 0. -/
def GET_BITFIELD (v lo hi : Nat) : Nat := (v >>> lo) % 2 ^ (hi + 1 - lo)

def IS_DIMM_PRESENT (r : Nat) : Nat := GET_BITFIELD r 15 15

/-- The `struct skx_dimm` geometry. -/
structure skx_dimm where
  close_pg : Nat
  bank_xor_enable : Nat
  fine_grain_bank : Nat
  rowbits : Nat
  colbits : Nat

/-- The `struct skx_channel`: `cdev` is the attached PCI device handle,
`cdev_bus/dev/func` the address used before attachment. -/
structure skx_channel where
  cdev : Nat
  dimms : Int → skx_dimm
  cdev_bus : Nat
  cdev_dev : Nat
  cdev_func : Nat

/-- The `struct skx_imc`. -/
structure skx_imc where
  src_id : Nat
  node_id : Nat
  chan : Int → skx_channel
  close_pg : Nat
  bank_xor_enable : Nat
  fine_grain_bank : Nat
  rowbits : Nat
  colbits : Nat

/-- The `struct skx_dev`. -/
structure skx_dev where
  sad_all : Nat
  mcroute : Nat
  imc : Int → skx_imc
  sad_all_bus : Nat
  sad_all_dev : Nat
  sad_all_func : Nat

/-- The `struct decoded_addr`; `dev` is the index of the owning device in
`skx_sock_devs`. -/
structure decoded_addr where
  dev : Nat
  addr : Nat
  socket : Int
  imc : Int
  channel : Int
  chan_addr : Nat
  sktways : Int
  chanways : Int
  dimm : Int
  rank : Int
  channel_rank : Int
  rank_address : Nat
  row : Int
  column : Int
  bank_address : Int
  bank_group : Int
  subarray_group : Int

/-! ## drivers/edac/skx_base.c: globals and register access -/

/-- The file-scope state of `skx_base.c` that the decoders read, together
with the two register-access functions declared in `skx_common.h`
(`early_read_pci_config`, whose offset parameter is a `u8`, and
`pci_read_config_dword`); a failed early read is `none`. -/
structure SkxEnv where
  early_read_pci_config : Nat → Nat → Nat → Nat → Option Nat
  pci_read_config_dword : Nat → Nat → Nat
  skx_tolm : Nat
  skx_tohm : Nat
  skx_num_sockets : Int
  skx_sock_devs : Nat → skx_dev
  num_rows_per_subarray : Nat
  himem_subarray_boundary_row : Nat
  early_skx_tadbases : Int → Int → Nat → Nat
  early_skx_tadwayness : Int → Int → Nat → Nat
  early_skx_tadchnilvoffset : Int → Int → Int → Nat → Nat
  early_skx_rirwayness : Int → Int → Int → Nat → Nat
  early_skx_ririlv : Int → Int → Int → Nat → Nat → Nat

def MASK26 : Nat := 0x3FFFFFF
def MASK29 : Nat := 0x1FFFFFFF

def SKX_MAX_SAD : Nat := 24

/-- `EARLY_SKX_GET_SAD(d, i, reg)`; the offset is passed through a `u8`. -/
def EARLY_SKX_GET_SAD (env : SkxEnv) (d : skx_dev) (i : Nat) : Option Nat :=
  env.early_read_pci_config d.sad_all_bus d.sad_all_dev d.sad_all_func ((0x60 + 8 * i) % 2 ^ 8)

/-- `EARLY_SKX_GET_ILV(d, i, reg)`; the offset is passed through a `u8`. -/
def EARLY_SKX_GET_ILV (env : SkxEnv) (d : skx_dev) (i : Nat) : Option Nat :=
  env.early_read_pci_config d.sad_all_bus d.sad_all_dev d.sad_all_func ((0x64 + 8 * i) % 2 ^ 8)

def SKX_SAD_MOD3MODE (sad : Nat) : Nat := GET_BITFIELD sad 30 31
def SKX_SAD_MOD3 (sad : Nat) : Nat := GET_BITFIELD sad 27 27
def SKX_SAD_LIMIT (sad : Nat) : Nat := (GET_BITFIELD sad 7 26 <<< 26) ||| MASK26
def SKX_SAD_MOD3ASMOD2 (sad : Nat) : Nat := GET_BITFIELD sad 5 6
def SKX_SAD_ATTR (sad : Nat) : Nat := GET_BITFIELD sad 3 4
def SKX_SAD_INTERLEAVE (sad : Nat) : Nat := GET_BITFIELD sad 1 2
def SKX_SAD_ENABLE (sad : Nat) : Nat := GET_BITFIELD sad 0 0

def SKX_ILV_REMOTE (tgt : Nat) : Bool := (tgt &&& 8) == 0
def SKX_ILV_TARGET (tgt : Nat) : Nat := tgt &&& 7

/-! ### Stage 1: SAD -/

/-- Result of the `for (i = 0; i < SKX_MAX_SAD; i++)` scan. -/
inductive SadScan where
  | read_failed
  | not_found
  | sad_found (i : Nat) (sad : Nat)

/-- The SAD scan loop of `early_skx_sad_decode`, started at entry `i` with
`n` entries left. -/
def early_skx_sad_scan (env : SkxEnv) (d : skx_dev) (addr : Nat) :
    Nat → Nat → Nat → SadScan
  | 0, _, _ => SadScan.not_found
  | n + 1, i, prev_limit =>
    match EARLY_SKX_GET_SAD env d i with
    | none => SadScan.read_failed
    | some sad =>
      let limit := SKX_SAD_LIMIT sad
      if SKX_SAD_ENABLE sad ≠ 0 ∧ addr ≥ prev_limit ∧ addr ≤ limit then
        SadScan.sad_found i sad
      else
        early_skx_sad_scan env d addr n (i + 1) (limit + 1)

/-- What one pass from `restart:` to the remote test yields. -/
inductive SadPass where
  | failed
  | remote (tgt : Nat)
  | hit (sad : Nat) (tgt : Nat)

/-- One pass of `early_skx_sad_decode` from `restart:` up to the
`SKX_ILV_REMOTE` test, on device `d`. -/
def early_skx_sad_pass (env : SkxEnv) (d : skx_dev) (addr : Nat) : SadPass :=
  match early_skx_sad_scan env d addr SKX_MAX_SAD 0 0 with
  | SadScan.read_failed => SadPass.failed
  | SadScan.not_found => SadPass.failed
  | SadScan.sad_found i sad =>
    match EARLY_SKX_GET_ILV env d i with
    | none => SadPass.failed
    | some ilv =>
      let idx :=
        match SKX_SAD_INTERLEAVE sad with
        | 0 => GET_BITFIELD addr 6 8
        | 1 => GET_BITFIELD addr 8 10
        | 2 => GET_BITFIELD addr 12 14
        | _ => GET_BITFIELD addr 30 32
      let tgt := GET_BITFIELD ilv (4 * idx) (4 * idx + 3)
      if SKX_ILV_REMOTE tgt then SadPass.remote tgt else SadPass.hit sad tgt

/-- The search `for (i = 0; i < skx_num_sockets; i++)` for the socket
whose `imc[0].src_id` is the interleave target. -/
def early_skx_find_node (env : SkxEnv) (tgt : Nat) : Option Nat :=
  (List.range env.skx_num_sockets.toNat).find?
    (fun i => ((env.skx_sock_devs i).imc 0).src_id == SKX_ILV_TARGET tgt)

/-- The logical channel computed after `sad_found:`; `none` is the
`illegal mod3mode` exit. -/
def skx_sad_lchan (addr sad tgt : Nat) : Option Nat :=
  if SKX_SAD_MOD3 sad = 0 then
    some (SKX_ILV_TARGET tgt)
  else
    let shift? : Option Nat :=
      match SKX_SAD_MOD3MODE sad with
      | 0 => some 6
      | 1 => some 8
      | 2 => some 12
      | _ => none
    match shift? with
    | none => none
    | some shift =>
      let lchan :=
        match SKX_SAD_MOD3ASMOD2 sad with
        | 0 => (addr >>> shift) % 3
        | 1 => (addr >>> shift) % 2
        | 2 =>
          let l := (addr >>> shift) % 2
          (l <<< 1) ||| (if l = 0 then 1 else 0)
        | _ => ((addr >>> shift) % 2) <<< 1
      some ((lchan <<< 1) ||| (SKX_ILV_TARGET tgt &&& 1))

/-- The tail of `early_skx_sad_decode`: the writes to `res` on device
number `di`. -/
def early_skx_sad_finish (env : SkxEnv) (di : Nat) (sad tgt : Nat)
    (res : decoded_addr) : Bool × decoded_addr :=
  let d := env.skx_sock_devs di
  match skx_sad_lchan res.addr sad tgt with
  | none => (false, res)
  | some lchan =>
    (true, { res with
      dev := di
      socket := ((d.imc 0).src_id : Int)
      imc := (GET_BITFIELD d.mcroute (lchan * 3) (lchan * 3 + 2) : Int)
      channel := (GET_BITFIELD d.mcroute (lchan * 2 + 18) (lchan * 2 + 19) : Int) })

/-- The function `early_skx_sad_decode`.  The out-of-range test at its
head only prints.  The `goto restart` can be taken once: a second remote
target is the `Double remote!` exit. -/
def early_skx_sad_decode (env : SkxEnv) (res : decoded_addr) : Bool × decoded_addr :=
  match early_skx_sad_pass env (env.skx_sock_devs 0) res.addr with
  | SadPass.failed => (false, res)
  | SadPass.hit sad tgt => early_skx_sad_finish env 0 sad tgt res
  | SadPass.remote tgt =>
    match early_skx_find_node env tgt with
    | none => (false, res)
    | some i =>
      match early_skx_sad_pass env (env.skx_sock_devs i) res.addr with
      | SadPass.failed => (false, res)
      | SadPass.remote _ => (false, res)
      | SadPass.hit sad2 tgt2 => early_skx_sad_finish env i sad2 tgt2 res

/-! ### Stage 2: TAD -/

def SKX_MAX_TAD : Nat := 8

def SKX_TAD_BASE (b : Nat) : Nat := GET_BITFIELD b 12 31 <<< 26
def SKX_TAD_SKT_GRAN (b : Nat) : Nat := GET_BITFIELD b 4 5
def SKX_TAD_CHN_GRAN (b : Nat) : Nat := GET_BITFIELD b 6 7
def SKX_TAD_LIMIT (b : Nat) : Nat := (GET_BITFIELD b 12 31 <<< 26) ||| MASK26
def SKX_TAD_OFFSET (b : Nat) : Nat := GET_BITFIELD b 4 23 <<< 26
def SKX_TAD_SKTWAYS (b : Nat) : Nat := 1 <<< GET_BITFIELD b 10 11
def SKX_TAD_CHNWAYS (b : Nat) : Nat := GET_BITFIELD b 8 9 + 1

def skx_granularity : List Nat := [6, 8, 12, 30]

def skx_do_interleave (addr shift ways lowbits : Nat) : Nat :=
  ((((addr >>> shift) / ways) <<< shift) % 2 ^ 64) ||| (lowbits &&& ((1 <<< shift) - 1))

/-- The TAD scan loop of `early_skx_tad_decode`: entry index, base and
wayness of the first matching entry. -/
def early_skx_tad_scan (env : SkxEnv) (res : decoded_addr) :
    Nat → Nat → Option (Nat × Nat × Nat)
  | 0, _ => none
  | n + 1, i =>
    let base := env.early_skx_tadbases res.socket res.imc i
    let wayness := env.early_skx_tadwayness res.socket res.imc i
    if SKX_TAD_BASE base ≤ res.addr ∧ res.addr ≤ SKX_TAD_LIMIT wayness then
      some (i, base, wayness)
    else
      early_skx_tad_scan env res n (i + 1)

/-- The function `early_skx_tad_decode`. -/
def early_skx_tad_decode (env : SkxEnv) (res : decoded_addr) : Bool × decoded_addr :=
  match early_skx_tad_scan env res SKX_MAX_TAD 0 with
  | none => (false, res)
  | some (i, base, wayness) =>
    let sktways := SKX_TAD_SKTWAYS wayness
    let chanways := SKX_TAD_CHNWAYS wayness
    let skt_interleave_bit := skx_granularity.getD (SKX_TAD_SKT_GRAN base) 0
    let chn_interleave_bit := skx_granularity.getD (SKX_TAD_CHN_GRAN base) 0
    let chnilvoffset := env.early_skx_tadchnilvoffset res.socket res.imc res.channel i
    let channel_addr := (res.addr + 2 ^ 64 - SKX_TAD_OFFSET chnilvoffset) % 2 ^ 64
    let channel_addr :=
      if chanways = 3 ∧ skt_interleave_bit > chn_interleave_bit then
        let c1 := skx_do_interleave channel_addr chn_interleave_bit chanways channel_addr
        skx_do_interleave c1 skt_interleave_bit sktways c1
      else
        let c1 := skx_do_interleave channel_addr skt_interleave_bit sktways res.addr
        skx_do_interleave c1 chn_interleave_bit chanways res.addr
    (true, { res with
      sktways := (sktways : Int)
      chanways := (chanways : Int)
      chan_addr := channel_addr })

/-! ### Stage 3: RIR -/

def SKX_MAX_RIR : Nat := 4

def SKX_RIR_VALID (b : Nat) : Nat := GET_BITFIELD b 31 31
def SKX_RIR_LIMIT (b : Nat) : Nat := (GET_BITFIELD b 1 11 <<< 29) ||| MASK29
def SKX_RIR_WAYS (b : Nat) : Nat := 1 <<< GET_BITFIELD b 28 29
def SKX_RIR_CHAN_RANK (b : Nat) : Nat := GET_BITFIELD b 16 19
def SKX_RIR_OFFSET (b : Nat) : Nat := GET_BITFIELD b 2 15 <<< 26

/-- The RIR scan loop of `early_skx_rir_decode`: index and wayness of the
first valid entry whose range holds the channel address. -/
def early_skx_rir_scan (env : SkxEnv) (res : decoded_addr) :
    Nat → Nat → Nat → Option (Nat × Nat)
  | 0, _, _ => none
  | n + 1, i, prev_limit =>
    let rirway := env.early_skx_rirwayness res.socket res.imc res.channel i
    let limit := SKX_RIR_LIMIT rirway
    if SKX_RIR_VALID rirway ≠ 0 ∧ prev_limit ≤ res.chan_addr ∧ res.chan_addr ≤ limit then
      some (i, rirway)
    else
      early_skx_rir_scan env res n (i + 1) limit

/-- The function `early_skx_rir_decode`. -/
def early_skx_rir_decode (env : SkxEnv) (res : decoded_addr) : Bool × decoded_addr :=
  let shift : Nat := if ((env.skx_sock_devs res.dev).imc res.imc).close_pg ≠ 0 then 6 else 13
  match early_skx_rir_scan env res SKX_MAX_RIR 0 0 with
  | none => (false, res)
  | some (i, rirway) =>
    let rank_addr := res.chan_addr >>> shift
    let rank_addr := rank_addr / SKX_RIR_WAYS rirway
    let rank_addr := (rank_addr <<< shift) % 2 ^ 64
    let rank_addr := rank_addr ||| (res.chan_addr &&& (2 ^ shift - 1))
    let idx := (res.chan_addr >>> shift) % SKX_RIR_WAYS rirway
    let rirlv := env.early_skx_ririlv res.socket res.imc res.channel i idx
    let chan_rank := SKX_RIR_CHAN_RANK rirlv
    (true, { res with
      rank_address := (rank_addr + 2 ^ 64 - SKX_RIR_OFFSET rirlv) % 2 ^ 64
      channel_rank := (chan_rank : Int)
      dimm := ((chan_rank / 4 : Nat) : Int)
      rank := ((chan_rank % 4 : Nat) : Int) })

/-! ### Stage 4: MAD and the subarray group -/

def skx_close_row : List Nat :=
  [15, 16, 17, 18, 20, 21, 22, 28, 10, 11, 12, 13, 29, 30, 31, 32, 33]

def skx_close_column : List Nat := [3, 4, 5, 14, 19, 23, 24, 25, 26, 27]

def skx_open_row : List Nat :=
  [14, 15, 16, 20, 28, 21, 22, 23, 24, 25, 26, 27, 29, 30, 31, 32, 33]

def skx_open_column : List Nat := [3, 4, 5, 6, 7, 8, 9, 10, 11, 12]

def skx_open_fine_column : List Nat := [3, 4, 5, 7, 8, 9, 10, 11, 12, 13]

/-- The function `skx_bits`: bit `i` of the result is bit `bits[i]` of
`addr`, for `i < nbits`. -/
def skx_bits (addr : Nat) (nbits : Nat) (bits : List Nat) : Nat :=
  (List.range nbits).foldl
    (fun res i => res ||| (((addr >>> bits.getD i 0) &&& 1) <<< i)) 0

/-- The function `skx_bank_bits`. -/
def skx_bank_bits (addr b0 b1 do_xor x0 x1 : Nat) : Nat :=
  let ret := GET_BITFIELD addr b0 b0 ||| (GET_BITFIELD addr b1 b1 <<< 1)
  if do_xor ≠ 0 then
    ret ^^^ (GET_BITFIELD addr x0 x0 ||| (GET_BITFIELD addr x1 x1 <<< 1))
  else ret

/-- Conversion of an `int` to `unsigned long`. -/
def u64_of_int (i : Int) : Nat := (i % 2 ^ 64).toNat

/-- Conversion of an `unsigned long` to `int` (the low 32 bits, as a
two's-complement value). -/
def int_of_u64 (x : Nat) : Int :=
  if x % 2 ^ 32 < 2 ^ 31 then ((x % 2 ^ 32 : Nat) : Int) else ((x % 2 ^ 32 : Nat) : Int) - 2 ^ 32

/-- The function `early_skx_mad_decode`.  `1 << rowbits` is taken as
`2 ^ rowbits` (C defines it for `rowbits < 31` only), and the quotient by a
zero divisor, which C leaves undefined, is `0` as in `Nat`.  In close-page
mode with `num_rows_per_subarray = 0` the C local
`num_subarrays_touched_per_huge_page` is never assigned and never read. -/
def early_skx_mad_decode (env : SkxEnv) (r : decoded_addr) : Bool × decoded_addr :=
  let imc := (env.skx_sock_devs r.dev).imc r.imc
  let bg0 : Nat := if imc.fine_grain_bank ≠ 0 then 6 else 13
  let row0 : Nat :=
    if imc.close_pg ≠ 0 then skx_bits r.rank_address imc.rowbits skx_close_row
    else skx_bits r.rank_address imc.rowbits skx_open_row
  let column : Nat :=
    if imc.close_pg ≠ 0 then
      skx_bits r.rank_address imc.colbits skx_close_column ||| 0x400
    else if imc.fine_grain_bank ≠ 0 then
      skx_bits r.rank_address imc.colbits skx_open_fine_column
    else
      skx_bits r.rank_address imc.colbits skx_open_column
  let bank_address : Nat :=
    if imc.close_pg ≠ 0 then skx_bank_bits r.rank_address 8 9 imc.bank_xor_enable 22 28
    else skx_bank_bits r.rank_address 18 19 imc.bank_xor_enable 22 23
  let bank_group : Nat :=
    if imc.close_pg ≠ 0 then skx_bank_bits r.rank_address 6 7 imc.bank_xor_enable 20 21
    else skx_bank_bits r.rank_address bg0 17 imc.bank_xor_enable 20 21
  let num_subarrays_touched_per_huge_page : Int :=
    if imc.close_pg ≠ 0 then
      int_of_u64 (((4096 + env.num_rows_per_subarray - 1) % 2 ^ 64) / env.num_rows_per_subarray)
    else 1
  let row : Nat := row0 &&& (2 ^ imc.rowbits - 1)
  let group0 : Int :=
    if env.num_rows_per_subarray ≠ 0 then
      int_of_u64
        (u64_of_int (r.socket * (2 ^ imc.rowbits : Nat) + (row : Int)) /
          ((env.num_rows_per_subarray * u64_of_int num_subarrays_touched_per_huge_page) % 2 ^ 64))
    else 0
  let B := env.himem_subarray_boundary_row
  let group : Int :=
    if r.socket ≠ 0 then
      if row < 32 then
        if row ≠ 0xc then SOCKET_1_GUARD_ROWS_NODE else SOCKET_1_EPT_NODE
      else group0 + (SOCKET_1_GUARD_ROWS_NODE - SOCKET_0_EPT_NODE + 1)
    else if B ≠ 0 then
      if row ≥ B ∧ row < (B + 32) % 2 ^ 32 then
        if row ≠ (B + 0xc) % 2 ^ 32 then SOCKET_0_GUARD_ROWS_NODE else SOCKET_0_EPT_NODE
      else if group0 ≥ SOCKET_0_EPT_NODE then
        group0 + (SOCKET_1_GUARD_ROWS_NODE - SOCKET_0_EPT_NODE + 1)
      else group0
    else if group0 ≥ SOCKET_0_EPT_NODE then
      group0 + (SOCKET_1_GUARD_ROWS_NODE - SOCKET_0_EPT_NODE + 1)
    else group0
  (true, { r with
    row := (row : Int)
    column := (column : Int)
    bank_address := (bank_address : Int)
    bank_group := (bank_group : Int)
    subarray_group := group })

/-- The function `skx_mad_decode` (the attached decoder's stage 4): the
geometry is that of the DIMM `imc[r.imc].chan[r.channel].dimms[r.dimm]`. -/
def skx_mad_decode (env : SkxEnv) (r : decoded_addr) : Bool × decoded_addr :=
  let dimm := ((((env.skx_sock_devs r.dev).imc r.imc).chan r.channel).dimms r.dimm)
  let bg0 : Nat := if dimm.fine_grain_bank ≠ 0 then 6 else 13
  let row0 : Nat :=
    if dimm.close_pg ≠ 0 then skx_bits r.rank_address dimm.rowbits skx_close_row
    else skx_bits r.rank_address dimm.rowbits skx_open_row
  let column : Nat :=
    if dimm.close_pg ≠ 0 then
      skx_bits r.rank_address dimm.colbits skx_close_column ||| 0x400
    else if dimm.fine_grain_bank ≠ 0 then
      skx_bits r.rank_address dimm.colbits skx_open_fine_column
    else
      skx_bits r.rank_address dimm.colbits skx_open_column
  let bank_address : Nat :=
    if dimm.close_pg ≠ 0 then skx_bank_bits r.rank_address 8 9 dimm.bank_xor_enable 22 28
    else skx_bank_bits r.rank_address 18 19 dimm.bank_xor_enable 22 23
  let bank_group : Nat :=
    if dimm.close_pg ≠ 0 then skx_bank_bits r.rank_address 6 7 dimm.bank_xor_enable 20 21
    else skx_bank_bits r.rank_address bg0 17 dimm.bank_xor_enable 20 21
  let row : Nat := row0 &&& (2 ^ dimm.rowbits - 1)
  (true, { r with
    row := (row : Int)
    column := (column : Int)
    bank_address := (bank_address : Int)
    bank_group := (bank_group : Int) })

/-- The function `early_skx_decode_local`: the four stages joined by
`&&`, so a stage runs only when every earlier one returned true. -/
def early_skx_decode_local (env : SkxEnv) (res : decoded_addr) : Bool × decoded_addr :=
  let s1 := early_skx_sad_decode env res
  if s1.1 then
    let s2 := early_skx_tad_decode env s1.2
    if s2.1 then
      let s3 := early_skx_rir_decode env s2.2
      if s3.1 then
        early_skx_mad_decode env s3.2
      else (false, s3.2)
    else (false, s2.2)
  else (false, s1.2)

/-! ### The subarray group as a function of socket and row -/

/-- The value `early_skx_mad_decode` leaves in `r->row`: the row bits of
the rank address, masked to `rowbits` bits. -/
def early_skx_mad_row (env : SkxEnv) (r : decoded_addr) : Nat :=
  let imc := (env.skx_sock_devs r.dev).imc r.imc
  (if imc.close_pg ≠ 0 then skx_bits r.rank_address imc.rowbits skx_close_row
   else skx_bits r.rank_address imc.rowbits skx_open_row) &&& (2 ^ imc.rowbits - 1)

/-- The local `num_subarrays_touched_per_huge_page` of
`early_skx_mad_decode`, for the geometry `imc`. -/
def early_skx_subarrays_touched (env : SkxEnv) (imc : skx_imc) : Int :=
  if imc.close_pg ≠ 0 then
    int_of_u64 (((4096 + env.num_rows_per_subarray - 1) % 2 ^ 64) / env.num_rows_per_subarray)
  else 1

/-- The group id `early_skx_mad_decode` computes under `calculate subarray
group from translation and subarray group size`, before the reserved ids
are handled, for the geometry `imc`, the socket and the row. -/
def early_skx_provisional_group (env : SkxEnv) (imc : skx_imc) (socket : Int) (row : Nat) :
    Int :=
  if env.num_rows_per_subarray ≠ 0 then
    int_of_u64
      (u64_of_int (socket * (2 ^ imc.rowbits : Nat) + (row : Int)) /
        ((env.num_rows_per_subarray * u64_of_int (early_skx_subarrays_touched env imc)) % 2 ^ 64))
  else 0

/-- The `handle EPT+guard (reserved) nodes` statement of
`early_skx_mad_decode`: the final group id for the socket, the row and the
provisional group id `group0`. -/
def early_skx_reserved_group (env : SkxEnv) (socket : Int) (row : Nat) (group0 : Int) : Int :=
  let B := env.himem_subarray_boundary_row
  if socket ≠ 0 then
    if row < 32 then
      if row ≠ 0xc then SOCKET_1_GUARD_ROWS_NODE else SOCKET_1_EPT_NODE
    else group0 + (SOCKET_1_GUARD_ROWS_NODE - SOCKET_0_EPT_NODE + 1)
  else if B ≠ 0 then
    if row ≥ B ∧ row < (B + 32) % 2 ^ 32 then
      if row ≠ (B + 0xc) % 2 ^ 32 then SOCKET_0_GUARD_ROWS_NODE else SOCKET_0_EPT_NODE
    else if group0 ≥ SOCKET_0_EPT_NODE then
      group0 + (SOCKET_1_GUARD_ROWS_NODE - SOCKET_0_EPT_NODE + 1)
    else group0
  else if group0 ≥ SOCKET_0_EPT_NODE then
    group0 + (SOCKET_1_GUARD_ROWS_NODE - SOCKET_0_EPT_NODE + 1)
  else group0

/-- The subarray group `early_skx_mad_decode` gives the row `row` of the
socket `socket`, for the geometry `imc`. -/
def early_skx_subarray_group (env : SkxEnv) (imc : skx_imc) (socket : Int) (row : Nat) : Int :=
  early_skx_reserved_group env socket row (early_skx_provisional_group env imc socket row)

/-! ## drivers/acpi/numa/srat.c -/

/-- Modelled from the spec: the sentinel "no node" of the domain→node map
(`NUMA_NO_NODE`, linux/numa.h, is not among the sources). -/
def NUMA_NO_NODE : Int := -1

/-- Modelled from the spec: the sentinel of the node→domain map
(`PXM_INVAL`, linux/acpi.h, is not among the sources). -/
def PXM_INVAL : Int := -1

/-- Modelled from the spec: the error code returned for a rejected table
or record (`EINVAL`, not among the sources). -/
def EINVAL : Int := 22

/-- Kernel configuration that `srat.c` uses and the sources do not define:
the array sizes, the distance constants, the page shift, the size of a
memory-affinity record, the `numa_off` switch and whether memory hotplug
is configured. -/
structure SratConst where
  MAX_NUMNODES : Nat
  MAX_PXM_DOMAINS : Nat
  LOCAL_DISTANCE : Nat
  DISTANCE_BITS : Nat
  PAGE_SHIFT : Nat
  sizeof_mem_affinity : Nat
  numa_off : Bool
  CONFIG_MEMORY_HOTPLUG : Bool

/-- The two maps `pxm_to_node_map`, `node_to_pxm_map` and the node mask
`nodes_found_map`. -/
structure PxmMaps where
  pxm_to_node_map : Int → Int
  node_to_pxm_map : Int → Int
  nodes_found_map : Nat → Bool

/-- The initial maps: every entry the sentinel, no node found. -/
def pxm_maps_init : PxmMaps :=
  { pxm_to_node_map := fun _ => NUMA_NO_NODE
    node_to_pxm_map := fun _ => PXM_INVAL
    nodes_found_map := fun _ => false }

/-- The function `pxm_to_node`. -/
def pxm_to_node (k : SratConst) (m : PxmMaps) (pxm : Int) : Int :=
  if pxm < 0 ∨ pxm ≥ (k.MAX_PXM_DOMAINS : Int) ∨ k.numa_off = true then NUMA_NO_NODE
  else m.pxm_to_node_map pxm

/-- The function `node_to_pxm`. -/
def node_to_pxm (m : PxmMaps) (node : Int) : Int :=
  if node < 0 then PXM_INVAL else m.node_to_pxm_map node

/-- The function `__acpi_map_pxm_to_node`. -/
def __acpi_map_pxm_to_node (m : PxmMaps) (pxm node : Int) : PxmMaps :=
  let p2n :=
    if m.pxm_to_node_map pxm = NUMA_NO_NODE ∨ node < m.pxm_to_node_map pxm then
      fun x => if x = pxm then node else m.pxm_to_node_map x
    else m.pxm_to_node_map
  let n2p :=
    if m.node_to_pxm_map node = PXM_INVAL ∨ pxm < m.node_to_pxm_map node then
      fun x => if x = node then pxm else m.node_to_pxm_map x
    else m.node_to_pxm_map
  { m with pxm_to_node_map := p2n, node_to_pxm_map := n2p }

/-- Modelled from the spec: `nodes_weight` (linux/nodemask.h, not among
the sources), the number of nodes already allocated. -/
def nodes_weight (k : SratConst) (found : Nat → Bool) : Nat :=
  ((List.range k.MAX_NUMNODES).filter (fun n => found n)).length

/-- Modelled from the spec: `first_unset_node` (linux/nodemask.h, not
among the sources), the lowest node not yet allocated, `MAX_NUMNODES` when
there is none. -/
def first_unset_node (k : SratConst) (found : Nat → Bool) : Nat :=
  ((List.range k.MAX_NUMNODES).find? (fun n => !found n)).getD k.MAX_NUMNODES

/-- Modelled from the spec: `node_set` (linux/nodemask.h, not among the
sources). -/
def node_set (node : Nat) (found : Nat → Bool) : Nat → Bool :=
  fun n => if n = node then true else found n

/-- The function `acpi_map_pxm_to_node`: the node returned and the maps
it leaves. -/
def acpi_map_pxm_to_node (k : SratConst) (m : PxmMaps) (pxm : Int) : Int × PxmMaps :=
  if pxm < 0 ∨ pxm ≥ (k.MAX_PXM_DOMAINS : Int) ∨ k.numa_off = true then (NUMA_NO_NODE, m)
  else
    let node := m.pxm_to_node_map pxm
    if node = NUMA_NO_NODE then
      if nodes_weight k m.nodes_found_map ≥ k.MAX_NUMNODES then (NUMA_NO_NODE, m)
      else
        let node := first_unset_node k m.nodes_found_map
        let m1 := __acpi_map_pxm_to_node m pxm (node : Int)
        ((node : Int), { m1 with nodes_found_map := node_set node m1.nodes_found_map })
    else (node, m)

/-- The states of the maps reachable from the initial maps by calls of
`acpi_map_pxm_to_node`. -/
inductive PxmReachable (k : SratConst) : PxmMaps → Prop where
  | init : PxmReachable k pxm_maps_init
  | step (m : PxmMaps) (pxm : Int) :
      PxmReachable k m → PxmReachable k (acpi_map_pxm_to_node k m pxm).2

/-! ### SLIT -/

/-- The `struct acpi_table_slit`: the `u64` locality count and the `u8`
entries that follow it. -/
structure acpi_table_slit where
  locality_count : Nat
  entry : Nat → Nat

/-- The function `slit_valid`: `d` is the locality count converted to
`int`; the result is `0` as soon as a diagonal entry differs from
`LOCAL_DISTANCE` or an off-diagonal one does not exceed it, `1` when the
loops run to their end. -/
def slit_valid (k : SratConst) (slit : acpi_table_slit) : Int :=
  let d : Int := int_of_u64 slit.locality_count
  if (List.range d.toNat).all (fun i =>
      (List.range d.toNat).all (fun j =>
        let val := slit.entry (d * (i : Int) + (j : Int)).toNat
        if i = j then decide (val = k.LOCAL_DISTANCE) else decide (¬ val ≤ k.LOCAL_DISTANCE)))
  then 1 else 0

/-- The statics `local_distance`, `remote_distance` and, modelled from the
spec (`numa_set_distance` is not among the sources), the node distance
table: `numa_distance a b` is the value last set for the pair, `none` when
none was set. -/
structure SlitState where
  local_distance : Int
  remote_distance : Int
  numa_distance : Int → Int → Option Int

/-- Modelled from the spec: `numa_set_distance(from, to, distance)` sets
the distance of the pair. -/
def numa_set_distance (st : SlitState) (from_node to_node : Int) (distance : Int) : SlitState :=
  { st with numa_distance := fun a b =>
      if a = from_node ∧ b = to_node then some distance else st.numa_distance a b }

/-- The value of `first_remote_group` while no remote group is known,
`(unsigned int) -1`. -/
def FIRST_REMOTE_GROUP_UNSET : Nat := 2 ^ 32 - 1

/-- The body of the inner `for (j ...)` loop in the `else` branch of
`acpi_numa_slit_init`, for the cell `(i, j)`. -/
def acpi_numa_slit_init_cell (k : SratConst) (m : PxmMaps) (siloz_total_nodes : Int)
    (first_remote_group : Nat) (slit : acpi_table_slit) (i : Nat) (from_node : Int)
    (st : SlitState) (j : Nat) : SlitState :=
  let to_node : Int := if j < slit.locality_count then pxm_to_node k m (j : Int) else (j : Int)
  if to_node = NUMA_NO_NODE then st
  else if i < slit.locality_count ∧ j < slit.locality_count then
    let v : Int := (slit.entry ((slit.locality_count * i + j) % 2 ^ 64) : Int)
    let st1 : SlitState :=
      if i = j then { st with local_distance := v } else { st with remote_distance := v }
    numa_set_distance st1 from_node to_node v
  else if i = j then
    numa_set_distance st from_node to_node st.local_distance
  else if (i : Int) = SOCKET_0_GUARD_ROWS_NODE ∨ (i : Int) = SOCKET_1_GUARD_ROWS_NODE ∨
      (j : Int) = SOCKET_0_GUARD_ROWS_NODE ∨ (j : Int) = SOCKET_1_GUARD_ROWS_NODE then
    numa_set_distance st from_node to_node ((2 ^ k.DISTANCE_BITS : Nat) - 1)
  else if i = 1 ∨ (i : Int) = SOCKET_1_EPT_NODE then
    if j < first_remote_group ∨ (j : Int) = siloz_total_nodes - 1 ∨
        (j : Int) = SOCKET_0_EPT_NODE then
      numa_set_distance st from_node to_node st.remote_distance
    else numa_set_distance st from_node to_node st.local_distance
  else if j = 1 ∨ (j : Int) = SOCKET_1_EPT_NODE then
    if i < first_remote_group ∨ (i : Int) = siloz_total_nodes - 1 ∨
        (i : Int) = SOCKET_0_EPT_NODE then
      numa_set_distance st from_node to_node st.remote_distance
    else numa_set_distance st from_node to_node st.local_distance
  else if (i : Int) = siloz_total_nodes - 1 ∨ (i : Int) = SOCKET_0_EPT_NODE then
    if ((j : Int) < siloz_total_nodes - 1 ∧ j ≥ first_remote_group) ∨ j = 1 ∨
        (j : Int) = SOCKET_1_EPT_NODE then
      numa_set_distance st from_node to_node st.remote_distance
    else numa_set_distance st from_node to_node st.local_distance
  else if (j : Int) = siloz_total_nodes - 1 ∨ (j : Int) = SOCKET_0_EPT_NODE ∨
      (j : Int) = SOCKET_0_GUARD_ROWS_NODE then
    if ((i : Int) < siloz_total_nodes - 1 ∧ i ≥ first_remote_group) ∨ i = 1 ∨
        (i : Int) = SOCKET_1_EPT_NODE ∨ (i : Int) = SOCKET_1_GUARD_ROWS_NODE then
      numa_set_distance st from_node to_node st.remote_distance
    else numa_set_distance st from_node to_node st.local_distance
  else if (i < first_remote_group ∧ j ≤ first_remote_group) ∨
      (i > first_remote_group ∧ j > first_remote_group) then
    numa_set_distance st from_node to_node st.local_distance
  else numa_set_distance st from_node to_node st.remote_distance

/-- The body of the outer `for (i ...)` loop in the `else` branch of
`acpi_numa_slit_init`: row `i`. -/
def acpi_numa_slit_init_row (k : SratConst) (m : PxmMaps) (siloz_total_nodes : Int)
    (first_remote_group : Nat) (slit : acpi_table_slit) (st : SlitState) (i : Nat) : SlitState :=
  let from_node : Int := if i < slit.locality_count then pxm_to_node k m (i : Int) else (i : Int)
  if from_node = NUMA_NO_NODE then st
  else
    (List.range siloz_total_nodes.toNat).foldl
      (acpi_numa_slit_init_cell k m siloz_total_nodes first_remote_group slit i from_node) st

/-- The function `acpi_numa_slit_init`. -/
def acpi_numa_slit_init (k : SratConst) (m : PxmMaps) (siloz_total_nodes : Int)
    (first_remote_group : Nat) (slit : acpi_table_slit) (st : SlitState) : SlitState :=
  if first_remote_group = FIRST_REMOTE_GROUP_UNSET then
    (List.range siloz_total_nodes.toNat).foldl
      (fun (st : SlitState) (i : Nat) =>
        (List.range siloz_total_nodes.toNat).foldl
          (fun (st : SlitState) (j : Nat) =>
            numa_set_distance st (i : Int) (j : Int) st.local_distance) st) st
  else
    (List.range siloz_total_nodes.toNat).foldl
      (acpi_numa_slit_init_row k m siloz_total_nodes first_remote_group slit) st

/-- The logical node that the loops of `acpi_numa_slit_init` take for the
index `i` (`from_node` for a row, `to_node` for a column): `pxm_to_node(i)`
below the firmware locality count, `i` itself from there on. -/
def slit_node (k : SratConst) (m : PxmMaps) (slit : acpi_table_slit) (i : Nat) : Int :=
  if i < slit.locality_count then pxm_to_node k m (i : Int) else (i : Int)

/-- The distance that the `else` branch of `acpi_numa_slit_init` gives a
cell `(i, j)` that is not inside the firmware matrix, as a function of the
current `local_distance` and `remote_distance`: the chain of tests of
`acpi_numa_slit_init_cell` with the value in place of the call. -/
def slit_synth_distance (k : SratConst) (siloz_total_nodes : Int) (first_remote_group : Nat)
    (loc rem : Int) (i j : Nat) : Int :=
  if i = j then loc
  else if (i : Int) = SOCKET_0_GUARD_ROWS_NODE ∨ (i : Int) = SOCKET_1_GUARD_ROWS_NODE ∨
      (j : Int) = SOCKET_0_GUARD_ROWS_NODE ∨ (j : Int) = SOCKET_1_GUARD_ROWS_NODE then
    ((2 ^ k.DISTANCE_BITS : Nat) - 1)
  else if i = 1 ∨ (i : Int) = SOCKET_1_EPT_NODE then
    if j < first_remote_group ∨ (j : Int) = siloz_total_nodes - 1 ∨
        (j : Int) = SOCKET_0_EPT_NODE then rem
    else loc
  else if j = 1 ∨ (j : Int) = SOCKET_1_EPT_NODE then
    if i < first_remote_group ∨ (i : Int) = siloz_total_nodes - 1 ∨
        (i : Int) = SOCKET_0_EPT_NODE then rem
    else loc
  else if (i : Int) = siloz_total_nodes - 1 ∨ (i : Int) = SOCKET_0_EPT_NODE then
    if ((j : Int) < siloz_total_nodes - 1 ∧ j ≥ first_remote_group) ∨ j = 1 ∨
        (j : Int) = SOCKET_1_EPT_NODE then rem
    else loc
  else if (j : Int) = siloz_total_nodes - 1 ∨ (j : Int) = SOCKET_0_EPT_NODE ∨
      (j : Int) = SOCKET_0_GUARD_ROWS_NODE then
    if ((i : Int) < siloz_total_nodes - 1 ∧ i ≥ first_remote_group) ∨ i = 1 ∨
        (i : Int) = SOCKET_1_EPT_NODE ∨ (i : Int) = SOCKET_1_GUARD_ROWS_NODE then rem
    else loc
  else if (i < first_remote_group ∧ j ≤ first_remote_group) ∨
      (i > first_remote_group ∧ j > first_remote_group) then loc
  else rem

/-- The distance that the `else` branch of `acpi_numa_slit_init` gives
the cell `(a, b)`, for the values `loc` and `rem` of the two recorded
distances: the firmware entry inside the firmware matrix, the synthesized
distance outside. -/
def slit_expected_distance (k : SratConst) (siloz_total_nodes : Int) (first_remote_group : Nat)
    (slit : acpi_table_slit) (loc rem : Int) (a b : Nat) : Int :=
  if a < slit.locality_count ∧ b < slit.locality_count then
    (slit.entry ((slit.locality_count * a + b) % 2 ^ 64) : Int)
  else slit_synth_distance k siloz_total_nodes first_remote_group loc rem a b

/-- The function `acpi_parse_slit`: the value returned and the state
left. -/
def acpi_parse_slit (k : SratConst) (m : PxmMaps) (siloz_total_nodes : Int)
    (first_remote_group : Nat) (slit : acpi_table_slit) (st : SlitState) : Int × SlitState :=
  if slit_valid k slit = 0 then (-EINVAL, st)
  else (0, acpi_numa_slit_init k m siloz_total_nodes first_remote_group slit st)

/-! ### SRAT memory affinity -/

/-- Modelled from the spec: the memory-affinity record
`{base, length, proximity_domain, flags: enabled|hot-pluggable|non-volatile}`
with its header length (the ACPI table declarations are not among the
sources); the three flag bits are kept as booleans. -/
structure acpi_srat_mem_affinity where
  header_length : Nat
  proximity_domain : Nat
  base_address : Nat
  length : Nat
  enabled : Bool
  hot_pluggable : Bool
  non_volatile : Bool

/-- One call `numa_add_memblk(nid, start, end)`. -/
structure MemBlk where
  nid : Int
  start : Nat
  end_ : Nat

/-- The type `skx_decode_f` of the decode function pointer `skx_decode`. -/
abbrev skx_decode_f : Type := decoded_addr → Bool × decoded_addr

/-- What a call `early_skx_init(&himem_subarray_boundary_addr,
&first_remote_group, &num_banks_per_socket)` returns and leaves in its
three out-parameters, in `skx_tolm` and in `skx_decode`. -/
structure EarlyInit where
  rc : Int
  himem_subarray_boundary_addr : Nat
  first_remote_group : Nat
  num_banks_per_socket : Int
  skx_tolm : Nat
  skx_decode : skx_decode_f

/-- What `acpi_numa_memory_affinity_init` takes from outside `srat.c`: the
kernel configuration, the SRAT revision, `num_rows_per_subarray`, the value
`numa_add_memblk` returns (given the blocks added before), and the effect of
`early_skx_init` on the current boundary address and first remote group. -/
structure SratEnv where
  k : SratConst
  acpi_srat_revision : Nat
  num_rows_per_subarray : Nat
  numa_add_memblk : List MemBlk → Int → Nat → Nat → Int
  early_skx_init : Nat → Nat → EarlyInit

/-- The file-scope state of `srat.c` (and `skx_decode`, `skx_tolm`) that
`acpi_numa_memory_affinity_init` reads and writes; `memblks` lists the
calls of `numa_add_memblk` in the order they were made. -/
structure SratState where
  maps : PxmMaps
  acpi_numa : Int
  skx_decode : Option skx_decode_f
  skx_tolm : Nat
  siloz_total_nodes : Int
  first_remote_group : Nat
  himem_subarray_boundary_addr : Nat
  full_subarray_group_size_bytes : Nat
  parsed_numa_memblks : Int
  max_possible_pfn : Nat
  memblks : List MemBlk

/-- How a call ends: it returns a value, or it stops in `panic()`. -/
inductive ParseOutcome where
  | returned (rc : Int)
  | panicked

/-- The locals and statics the walking loops update. -/
structure Walk where
  res : decoded_addr
  start : Nat
  last_subarray_group : Int
  himem_increment : Nat
  siloz_total_nodes : Int
  parsed_numa_memblks : Int
  memblks : List MemBlk

/-- How a walking loop ends: in `panic()`, at `goto out_err_bad_srat`, or
past its last iteration (or at its `break`) with the loop variable
`subarray_boundary`. -/
inductive WalkExit where
  | panicked
  | bad_srat (w : Walk)
  | finished (w : Walk) (subarray_boundary : Nat)

/-- The loop `for (subarray_boundary = start + 0x1000; subarray_boundary <
end; subarray_boundary += 0x1000)` that sets up the first subarray group;
`none` when the fuel runs out. -/
def first_group_walk (env : SratEnv) (decode : skx_decode_f) (end_ : Nat) :
    Nat → Walk → Nat → Option WalkExit
  | 0, _, _ => none
  | fuel + 1, w, subarray_boundary =>
    if subarray_boundary < end_ then
      let d := decode { w.res with addr := subarray_boundary, subarray_group := -1 }
      if d.1 = false then some WalkExit.panicked
      else if d.2.subarray_group ≠ w.last_subarray_group then
        let blks := w.memblks ++ [⟨w.last_subarray_group, w.start, subarray_boundary⟩]
        if env.numa_add_memblk w.memblks w.last_subarray_group w.start subarray_boundary < 0 then
          some (WalkExit.bad_srat { w with res := d.2, memblks := blks })
        else
          some (WalkExit.finished
            { w with
              res := d.2
              start := subarray_boundary
              last_subarray_group := d.2.subarray_group
              parsed_numa_memblks := w.parsed_numa_memblks + 1
              memblks := blks } subarray_boundary)
      else
        first_group_walk env decode end_ fuel { w with res := d.2 }
          ((subarray_boundary + 0x1000) % 2 ^ 64)
    else some (WalkExit.finished w subarray_boundary)

/-- The stride chosen from a group id: 2 MiB outside the reserved ids
`SOCKET_0_EPT_NODE .. SOCKET_1_GUARD_ROWS_NODE`, else the given one. -/
def himem_stride (group : Int) (otherwise : Nat) : Nat :=
  if group < SOCKET_0_EPT_NODE ∨ group > SOCKET_1_GUARD_ROWS_NODE then 0x200000 else otherwise

/-- The loop `for (subarray_boundary = start + himem_increment;
subarray_boundary < end; subarray_boundary += himem_increment)` over the
rest of the record; `none` when the fuel runs out. -/
def rest_walk (env : SratEnv) (decode : skx_decode_f) (end_ : Nat) :
    Nat → Walk → Nat → Option WalkExit
  | 0, _, _ => none
  | fuel + 1, w, subarray_boundary =>
    if subarray_boundary < end_ then
      let d := decode { w.res with addr := subarray_boundary, subarray_group := -1 }
      if d.1 = false then some WalkExit.panicked
      else if d.2.subarray_group ≠ w.last_subarray_group then
        let node := w.last_subarray_group
        let blks := w.memblks ++ [⟨node, w.start, subarray_boundary⟩]
        if env.numa_add_memblk w.memblks node w.start subarray_boundary < 0 then
          some (WalkExit.bad_srat { w with res := d.2, memblks := blks })
        else
          let inc : Nat :=
            if env.num_rows_per_subarray % 512 = 0 then himem_stride d.2.subarray_group 0x1000
            else w.himem_increment
          rest_walk env decode end_ fuel
            { w with
              res := d.2
              start := subarray_boundary
              last_subarray_group := d.2.subarray_group
              himem_increment := inc
              siloz_total_nodes := max w.siloz_total_nodes (node + 1)
              parsed_numa_memblks := w.parsed_numa_memblks + 1
              memblks := blks }
            ((subarray_boundary + inc) % 2 ^ 64)
      else
        rest_walk env decode end_ fuel { w with res := d.2 }
          ((subarray_boundary + w.himem_increment) % 2 ^ 64)
    else some (WalkExit.finished w subarray_boundary)

/-- The `if (node != 0 || start == 0) ... else ...` statement of
`acpi_numa_memory_affinity_init`: the start of the record's range. -/
def srat_range_start (env : SratEnv) (decode : skx_decode_f) (fuel : Nat)
    (himem_subarray_boundary_addr skx_tolm : Nat) (node : Int) (end_ : Nat) (w : Walk) :
    Option WalkExit :=
  if node ≠ 0 ∨ w.start = 0 then
    let d := decode { w.res with addr := w.start, subarray_group := -1 }
    if d.1 = false then some WalkExit.panicked
    else if node = 0 ∧ node ≠ d.2.subarray_group then some WalkExit.panicked
    else if node ≠ 0 ∧ SOCKET_1_GUARD_ROWS_NODE ≠ d.2.subarray_group then some WalkExit.panicked
    else
      first_group_walk env decode end_ fuel
        { w with res := d.2, last_subarray_group := d.2.subarray_group }
        ((w.start + 0x1000) % 2 ^ 64)
  else if himem_subarray_boundary_addr = 0 then some WalkExit.panicked
  else
    let subarray_boundary := himem_subarray_boundary_addr
    let jump : Option WalkExit :=
      if subarray_boundary ≠ w.start then
        let d := decode { w.res with addr := (skx_tolm + 2 ^ 64 - 0x1000) % 2 ^ 64,
                                     subarray_group := -1 }
        if d.1 = false then some WalkExit.panicked
        else
          let blks := w.memblks ++ [⟨d.2.subarray_group, w.start, subarray_boundary⟩]
          if env.numa_add_memblk w.memblks d.2.subarray_group w.start subarray_boundary < 0 then
            some (WalkExit.bad_srat { w with res := d.2, memblks := blks })
          else
            some (WalkExit.finished
              { w with res := d.2, parsed_numa_memblks := w.parsed_numa_memblks + 1,
                       memblks := blks } subarray_boundary)
      else some (WalkExit.finished w subarray_boundary)
    match jump with
    | some (WalkExit.finished w1 _) =>
      let d := decode { w1.res with addr := subarray_boundary, subarray_group := -1 }
      if d.1 = false then some WalkExit.panicked
      else
        some (WalkExit.finished
          { w1 with res := d.2, last_subarray_group := d.2.subarray_group,
                    start := subarray_boundary } subarray_boundary)
    | other => other

/-- The statics of `st` with the walk's values written back. -/
def srat_commit (st : SratState) (w : Walk) : SratState :=
  { st with
    siloz_total_nodes := w.siloz_total_nodes
    parsed_numa_memblks := w.parsed_numa_memblks
    memblks := w.memblks }

/-- The function `bad_srat`. -/
def bad_srat (st : SratState) : SratState := { st with acpi_numa := -1 }

/-- The part of `acpi_numa_memory_affinity_init` from `need to handle start
of physical node ranges specially` to its end, for the node, the range
`start .. end` and the uninitialised local `res`. -/
def memory_affinity_walk (env : SratEnv) (decode : skx_decode_f) (fuel : Nat) (st : SratState)
    (node : Int) (start end_ : Nat) (res : decoded_addr) :
    Option (ParseOutcome × SratState) :=
  let w0 : Walk :=
    { res := res, start := start, last_subarray_group := 0, himem_increment := 0x1000,
      siloz_total_nodes := st.siloz_total_nodes, parsed_numa_memblks := st.parsed_numa_memblks,
      memblks := st.memblks }
  match srat_range_start env decode fuel st.himem_subarray_boundary_addr st.skx_tolm node end_ w0
  with
  | none => none
  | some WalkExit.panicked => some (ParseOutcome.panicked, st)
  | some (WalkExit.bad_srat w) => some (ParseOutcome.returned (-EINVAL), bad_srat (srat_commit st w))
  | some (WalkExit.finished w1 _) =>
    let inc : Nat :=
      if env.num_rows_per_subarray % 512 = 0 then
        himem_stride w1.last_subarray_group w1.himem_increment
      else w1.himem_increment
    match rest_walk env decode end_ fuel { w1 with himem_increment := inc }
        ((w1.start + inc) % 2 ^ 64) with
    | none => none
    | some WalkExit.panicked => some (ParseOutcome.panicked, st)
    | some (WalkExit.bad_srat w) =>
      some (ParseOutcome.returned (-EINVAL), bad_srat (srat_commit st w))
    | some (WalkExit.finished w2 subarray_boundary) =>
      if subarray_boundary ≠ end_ then some (ParseOutcome.panicked, st)
      else
        let node := w2.res.subarray_group
        let blks := w2.memblks ++ [⟨node, w2.start, subarray_boundary⟩]
        if env.numa_add_memblk w2.memblks node w2.start subarray_boundary < 0 then
          some (ParseOutcome.returned (-EINVAL),
            bad_srat (srat_commit st { w2 with memblks := blks }))
        else
          let w3 : Walk :=
            { w2 with memblks := blks, siloz_total_nodes := max w2.siloz_total_nodes (node + 1) }
          let pfn_up : Nat :=
            (((end_ + 2 ^ 64 - 1) % 2 ^ 64 + 2 ^ env.k.PAGE_SHIFT - 1) % 2 ^ 64) >>>
              env.k.PAGE_SHIFT
          some (ParseOutcome.returned 0,
            { srat_commit st w3 with max_possible_pfn := max st.max_possible_pfn pfn_up })

/-- The proximity domain of a record: the `u32` field read into an `int`,
reduced to its low byte for SRAT revisions up to 1. -/
def srat_record_pxm (env : SratEnv) (ma : acpi_srat_mem_affinity) : Int :=
  if env.acpi_srat_revision ≤ 1 then int_of_u64 ma.proximity_domain % 256
  else int_of_u64 ma.proximity_domain

/-- The head of `acpi_numa_memory_affinity_init`: when `skx_decode` is
still null, `early_skx_init` is called and a non-zero result is a `panic`
(`none` here); otherwise the state with the topology written to it, and the
decode function in force. -/
def srat_early_init (env : SratEnv) (st : SratState) : Option (SratState × skx_decode_f) :=
  match st.skx_decode with
  | some f => some (st, f)
  | none =>
    let r := env.early_skx_init st.himem_subarray_boundary_addr st.first_remote_group
    if r.rc ≠ 0 then none
    else
      some ({ st with
        himem_subarray_boundary_addr := r.himem_subarray_boundary_addr
        first_remote_group := r.first_remote_group
        skx_tolm := r.skx_tolm
        skx_decode := some r.skx_decode
        full_subarray_group_size_bytes :=
          (u64_of_int r.num_banks_per_socket * env.num_rows_per_subarray * (8 * 1024)) % 2 ^ 64 },
        r.skx_decode)

/-- The function `acpi_numa_memory_affinity_init`, for a record `ma` and
the uninitialised local `res`: how the call ends and the state it leaves;
`none` when a walking loop runs out of fuel. -/
def acpi_numa_memory_affinity_init (env : SratEnv) (fuel : Nat) (st : SratState)
    (ma : acpi_srat_mem_affinity) (res : decoded_addr) : Option (ParseOutcome × SratState) :=
  match srat_early_init env st with
  | none => some (ParseOutcome.panicked, st)
  | some (st1, decode) =>
    if st1.acpi_numa < 0 then some (ParseOutcome.returned (-EINVAL), st1)
    else if ma.header_length < env.k.sizeof_mem_affinity then
      some (ParseOutcome.returned (-EINVAL), bad_srat st1)
    else if ma.enabled = false then some (ParseOutcome.returned (-EINVAL), st1)
    else if ma.hot_pluggable = true ∧ env.k.CONFIG_MEMORY_HOTPLUG = false then
      some (ParseOutcome.returned (-EINVAL), st1)
    else
      let start := ma.base_address
      let end_ := (start + ma.length) % 2 ^ 64
      let mapped := acpi_map_pxm_to_node env.k st1.maps (srat_record_pxm env ma)
      let st2 : SratState := { st1 with maps := mapped.2 }
      if mapped.1 = NUMA_NO_NODE ∨ mapped.1 ≥ (env.k.MAX_NUMNODES : Int) then
        some (ParseOutcome.returned (-EINVAL), bad_srat st2)
      else memory_affinity_walk env decode fuel st2 mapped.1 start end_ res

/-- The blocks `blks`, in order, are half-open non-empty ranges that tile
`[s, e)`: the first starts at `s`, each next one starts where the one
before it ends, the last ends at `e`. -/
def TileChain : List MemBlk → Nat → Nat → Prop
  | [], s, e => s = e
  | b :: rest, s, e => b.start = s ∧ b.start < b.end_ ∧ TileChain rest b.end_ e

/-- The blocks `blks`, in order, are runs of the walk from `s` to `e`: each
starts where the one before it ends, has as node id the group `grp`
decodes at its start, and ends at an address that decodes to another
group. -/
def GroupTile (grp : Nat → Int) : List MemBlk → Nat → Nat → Prop
  | [], s, e => s = e
  | b :: rest, s, e =>
    b.start = s ∧ b.nid = grp b.start ∧ grp b.end_ ≠ b.nid ∧ GroupTile grp rest b.end_ e

/-- Every block of `blks` has as node id the group `grp` decodes at its
start address, and each next block starts where the one before it ends, at
an address that decodes to a group other than that block's node id. -/
def GroupWalk (grp : Nat → Int) : List MemBlk → Prop
  | [] => True
  | [b] => b.nid = grp b.start
  | b :: c :: rest =>
    b.nid = grp b.start ∧ c.start = b.end_ ∧ grp c.start ≠ b.nid ∧ GroupWalk grp (c :: rest)

/-- What a call left, in comparable form: `none` when the fuel ran out,
else whether it returned (with which value) or stopped in `panic()`, and
the blocks passed to `numa_add_memblk` as triples `(nid, start, end)`. -/
def outcome_blocks (o : Option (ParseOutcome × SratState)) :
    Option (Option Int × List (Int × Nat × Nat)) :=
  match o with
  | none => none
  | some (ParseOutcome.panicked, st) =>
    some (none, st.memblks.map (fun b => (b.nid, b.start, b.end_)))
  | some (ParseOutcome.returned rc, st) =>
    some (some rc, st.memblks.map (fun b => (b.nid, b.start, b.end_)))

/-! ## drivers/edac/skx_base.c: the attached decoder and topology discovery -/

/-! ### The attached decoder -/

/-- `SKX_GET_SAD(d, i, reg)`: the register is read through the attached
device `d->sad_all`. -/
def SKX_GET_SAD (env : SkxEnv) (d : skx_dev) (i : Nat) : Nat :=
  env.pci_read_config_dword d.sad_all (0x60 + 8 * i)

/-- `SKX_GET_ILV(d, i, reg)`. -/
def SKX_GET_ILV (env : SkxEnv) (d : skx_dev) (i : Nat) : Nat :=
  env.pci_read_config_dword d.sad_all (0x64 + 8 * i)

/-- The SAD scan loop of `skx_sad_decode`, started at entry `i` with `n`
entries left; the reads cannot fail. -/
def skx_sad_scan (env : SkxEnv) (d : skx_dev) (addr : Nat) : Nat → Nat → Nat → SadScan
  | 0, _, _ => SadScan.not_found
  | n + 1, i, prev_limit =>
    let sad := SKX_GET_SAD env d i
    let limit := SKX_SAD_LIMIT sad
    if SKX_SAD_ENABLE sad ≠ 0 ∧ addr ≥ prev_limit ∧ addr ≤ limit then
      SadScan.sad_found i sad
    else
      skx_sad_scan env d addr n (i + 1) (limit + 1)

/-- One pass of `skx_sad_decode` from `restart:` up to the
`SKX_ILV_REMOTE` test, on device `d`. -/
def skx_sad_pass (env : SkxEnv) (d : skx_dev) (addr : Nat) : SadPass :=
  match skx_sad_scan env d addr SKX_MAX_SAD 0 0 with
  | SadScan.read_failed => SadPass.failed
  | SadScan.not_found => SadPass.failed
  | SadScan.sad_found i sad =>
    let ilv := SKX_GET_ILV env d i
    let idx :=
      match SKX_SAD_INTERLEAVE sad with
      | 0 => GET_BITFIELD addr 6 8
      | 1 => GET_BITFIELD addr 8 10
      | 2 => GET_BITFIELD addr 12 14
      | _ => GET_BITFIELD addr 30 32
    let tgt := GET_BITFIELD ilv (4 * idx) (4 * idx + 3)
    if SKX_ILV_REMOTE tgt then SadPass.remote tgt else SadPass.hit sad tgt

/-- The search `list_for_each_entry(d, skx_edac_list, list)` for the
device whose `imc[0].src_id` is the interleave target; the list holds the
devices as indices into `skx_sock_devs`. -/
def skx_find_node (env : SkxEnv) (skx_edac_list : List Nat) (tgt : Nat) : Option Nat :=
  skx_edac_list.find? (fun i => ((env.skx_sock_devs i).imc 0).src_id == SKX_ILV_TARGET tgt)

/-- The tail of `skx_sad_decode`: the writes to `res` on device `di`. -/
def skx_sad_finish (env : SkxEnv) (di : Nat) (sad tgt : Nat)
    (res : decoded_addr) : Bool × decoded_addr :=
  let d := env.skx_sock_devs di
  match skx_sad_lchan res.addr sad tgt with
  | none => (false, res)
  | some lchan =>
    (true, { res with
      dev := di
      socket := ((d.imc 0).src_id : Int)
      imc := (GET_BITFIELD d.mcroute (lchan * 3) (lchan * 3 + 2) : Int)
      channel := (GET_BITFIELD d.mcroute (lchan * 2 + 18) (lchan * 2 + 19) : Int) })

/-- The function `skx_sad_decode`, for the device list `skx_edac_list`
(`list_first_entry` of an empty list, which C leaves undefined, is taken as
device 0).  An address out of range is refused. -/
def skx_sad_decode (env : SkxEnv) (skx_edac_list : List Nat) (res : decoded_addr) :
    Bool × decoded_addr :=
  if res.addr ≥ env.skx_tohm ∨ (res.addr ≥ env.skx_tolm ∧ res.addr < 2 ^ 32) then (false, res)
  else
    let d0 := skx_edac_list.headD 0
    match skx_sad_pass env (env.skx_sock_devs d0) res.addr with
    | SadPass.failed => (false, res)
    | SadPass.hit sad tgt => skx_sad_finish env d0 sad tgt res
    | SadPass.remote tgt =>
      match skx_find_node env skx_edac_list tgt with
      | none => (false, res)
      | some i =>
        match skx_sad_pass env (env.skx_sock_devs i) res.addr with
        | SadPass.failed => (false, res)
        | SadPass.remote _ => (false, res)
        | SadPass.hit sad2 tgt2 => skx_sad_finish env i sad2 tgt2 res

/-- The TAD scan loop of `skx_tad_decode`: entry index, base and wayness
of the first matching entry, read from channel 0 of the controller. -/
def skx_tad_scan (env : SkxEnv) (res : decoded_addr) : Nat → Nat → Option (Nat × Nat × Nat)
  | 0, _ => none
  | n + 1, i =>
    let cdev := (((env.skx_sock_devs res.dev).imc res.imc).chan 0).cdev
    let base := env.pci_read_config_dword cdev (0x850 + 4 * i)
    let wayness := env.pci_read_config_dword cdev (0x880 + 4 * i)
    if SKX_TAD_BASE base ≤ res.addr ∧ res.addr ≤ SKX_TAD_LIMIT wayness then
      some (i, base, wayness)
    else
      skx_tad_scan env res n (i + 1)

/-- The function `skx_tad_decode`. -/
def skx_tad_decode (env : SkxEnv) (res : decoded_addr) : Bool × decoded_addr :=
  match skx_tad_scan env res SKX_MAX_TAD 0 with
  | none => (false, res)
  | some (i, base, wayness) =>
    let sktways := SKX_TAD_SKTWAYS wayness
    let chanways := SKX_TAD_CHNWAYS wayness
    let skt_interleave_bit := skx_granularity.getD (SKX_TAD_SKT_GRAN base) 0
    let chn_interleave_bit := skx_granularity.getD (SKX_TAD_CHN_GRAN base) 0
    let chnilvoffset := env.pci_read_config_dword
      (((env.skx_sock_devs res.dev).imc res.imc).chan res.channel).cdev (0x90 + 4 * i)
    let channel_addr := (res.addr + 2 ^ 64 - SKX_TAD_OFFSET chnilvoffset) % 2 ^ 64
    let channel_addr :=
      if chanways = 3 ∧ skt_interleave_bit > chn_interleave_bit then
        let c1 := skx_do_interleave channel_addr chn_interleave_bit chanways channel_addr
        skx_do_interleave c1 skt_interleave_bit sktways c1
      else
        let c1 := skx_do_interleave channel_addr skt_interleave_bit sktways res.addr
        skx_do_interleave c1 chn_interleave_bit chanways res.addr
    (true, { res with
      sktways := (sktways : Int)
      chanways := (chanways : Int)
      chan_addr := channel_addr })

/-- The RIR scan loop of `skx_rir_decode`: index and wayness of the first
valid entry whose range holds the channel address. -/
def skx_rir_scan (env : SkxEnv) (res : decoded_addr) : Nat → Nat → Nat → Option (Nat × Nat)
  | 0, _, _ => none
  | n + 1, i, prev_limit =>
    let rirway := env.pci_read_config_dword
      (((env.skx_sock_devs res.dev).imc res.imc).chan res.channel).cdev (0x108 + 4 * i)
    let limit := SKX_RIR_LIMIT rirway
    if SKX_RIR_VALID rirway ≠ 0 ∧ prev_limit ≤ res.chan_addr ∧ res.chan_addr ≤ limit then
      some (i, rirway)
    else
      skx_rir_scan env res n (i + 1) limit

/-- The function `skx_rir_decode`; the page mode is that of DIMM 0 of the
channel. -/
def skx_rir_decode (env : SkxEnv) (res : decoded_addr) : Bool × decoded_addr :=
  let chan := ((env.skx_sock_devs res.dev).imc res.imc).chan res.channel
  let shift : Nat := if (chan.dimms 0).close_pg ≠ 0 then 6 else 13
  match skx_rir_scan env res SKX_MAX_RIR 0 0 with
  | none => (false, res)
  | some (i, rirway) =>
    let rank_addr := res.chan_addr >>> shift
    let rank_addr := rank_addr / SKX_RIR_WAYS rirway
    let rank_addr := (rank_addr <<< shift) % 2 ^ 64
    let rank_addr := rank_addr ||| (res.chan_addr &&& (2 ^ shift - 1))
    let idx := (res.chan_addr >>> shift) % SKX_RIR_WAYS rirway
    let rirlv := env.pci_read_config_dword chan.cdev (0x120 + 16 * idx + 4 * i)
    let chan_rank := SKX_RIR_CHAN_RANK rirlv
    (true, { res with
      rank_address := (rank_addr + 2 ^ 64 - SKX_RIR_OFFSET rirlv) % 2 ^ 64
      channel_rank := (chan_rank : Int)
      dimm := ((chan_rank / 4 : Nat) : Int)
      rank := ((chan_rank % 4 : Nat) : Int) })

/-- The function `skx_decode_local`: the four attached stages joined by
`&&`. -/
def skx_decode_local (env : SkxEnv) (skx_edac_list : List Nat) (res : decoded_addr) :
    Bool × decoded_addr :=
  let s1 := skx_sad_decode env skx_edac_list res
  if s1.1 then
    let s2 := skx_tad_decode env s1.2
    if s2.1 then
      let s3 := skx_rir_decode env s2.2
      if s3.1 then
        skx_mad_decode env s3.2
      else (false, s3.2)
    else (false, s2.2)
  else (false, s1.2)

/-! ### The discovery sweeps of `early_skx_init` -/

/-- Conversion of an `int` to `unsigned int`. -/
def u32_of_int (i : Int) : Nat := (i % 2 ^ 32).toNat

/-- The lines `skx_tolm += 0x4000000; skx_tohm += 0x4000000; if (skx_tohm <
0x3200000000) second_socket_empty = 1;` of `early_skx_init`: the two tops
with their cushion and the flag. -/
def early_skx_cushion (skx_tolm skx_tohm : Nat) (second_socket_empty : Int) : Nat × Nat × Int :=
  let tolm := (skx_tolm + 0x4000000) % 2 ^ 64
  let tohm := (skx_tohm + 0x4000000) % 2 ^ 64
  (tolm, tohm, if tohm < 0x3200000000 then 1 else second_socket_empty)

/-- What the three sweeps of `early_skx_init` read and write: the local
`res`, the local array `lomem_subarray_groups_map`, `rc`, the out-parameters
`*himem_subarray_boundary_addr` and `*first_remote_group`, and the static
`himem_subarray_boundary_row`. -/
structure Sweep where
  res : decoded_addr
  lomem_subarray_groups_map : Int → Bool
  rc : Int
  himem_subarray_boundary_addr : Nat
  himem_subarray_boundary_row : Nat
  first_remote_group : Nat

/-- How a sweep ends: with an index outside
`lomem_subarray_groups_map[MAX_SUBARRAY_GROUPS]`, which C leaves undefined,
or past its last iteration (or at a `break`). -/
inductive SweepExit where
  | out_of_bounds
  | done (s : Sweep)

/-- The loop `for (addr = 0x0; addr < skx_tolm; addr += 0x1000)` of
`early_skx_init`, from `addr` on; `none` when the fuel runs out. -/
def lomem_sweep (skx_decode : skx_decode_f) (skx_tolm : Nat) :
    Nat → Nat → Sweep → Option SweepExit
  | 0, _, _ => none
  | fuel + 1, addr, s =>
    if addr < skx_tolm then
      let d := skx_decode { s.res with addr := addr }
      if d.1 = false ∨ d.2.socket ≠ 0 then
        some (SweepExit.done { s with res := d.2, rc := 1 })
      else if d.2.subarray_group < 0 ∨ d.2.subarray_group ≥ (MAX_SUBARRAY_GROUPS : Int) then
        some SweepExit.out_of_bounds
      else
        let map : Int → Bool :=
          if s.lomem_subarray_groups_map d.2.subarray_group = false then
            fun g => if g = d.2.subarray_group then true else s.lomem_subarray_groups_map g
          else s.lomem_subarray_groups_map
        lomem_sweep skx_decode skx_tolm fuel ((addr + 0x1000) % 2 ^ 64)
          { s with res := d.2, lomem_subarray_groups_map := map }
    else some (SweepExit.done s)

/-- The loop `for (addr = 0x100000000; addr < skx_tohm; addr += 0x1000)`
of `early_skx_init`, from `addr` on; `none` when the fuel runs out. -/
def himem_sweep (skx_decode : skx_decode_f) (skx_tohm num_rows_per_subarray : Nat) :
    Nat → Nat → Sweep → Option SweepExit
  | 0, _, _ => none
  | fuel + 1, addr, s =>
    if addr < skx_tohm then
      let d := skx_decode { s.res with addr := addr }
      if d.1 = false then
        some (SweepExit.done { s with res := d.2, rc := 1 })
      else if d.2.subarray_group < 0 ∨ d.2.subarray_group ≥ (MAX_SUBARRAY_GROUPS : Int) then
        some SweepExit.out_of_bounds
      else if s.lomem_subarray_groups_map d.2.subarray_group = false then
        some (SweepExit.done
          { s with
            res := { d.2 with subarray_group := SOCKET_0_GUARD_ROWS_NODE }
            himem_subarray_boundary_addr := addr
            himem_subarray_boundary_row :=
              ((u64_of_int d.2.row + num_rows_per_subarray) % 2 ^ 64) % 2 ^ 32 })
      else
        himem_sweep skx_decode skx_tohm num_rows_per_subarray fuel ((addr + 0x1000) % 2 ^ 64)
          { s with res := d.2 }
    else some (SweepExit.done s)

/-- The loop `for (addr = skx_tohm / 2; addr < skx_tohm; addr += 0x1000)`
of `early_skx_init`, from `addr` on; `none` when the fuel runs out. -/
def remote_sweep (skx_decode : skx_decode_f) (skx_tohm : Nat) :
    Nat → Nat → Sweep → Option SweepExit
  | 0, _, _ => none
  | fuel + 1, addr, s =>
    if addr < skx_tohm then
      let d := skx_decode { s.res with addr := addr }
      if d.1 = false then
        some (SweepExit.done { s with res := d.2, rc := 1 })
      else if d.2.socket ≠ 0 ∧ d.2.subarray_group ≠ SOCKET_1_EPT_NODE ∧
          d.2.subarray_group ≠ SOCKET_1_GUARD_ROWS_NODE then
        some (SweepExit.done
          { s with res := d.2, first_remote_group := u32_of_int d.2.subarray_group })
      else
        remote_sweep skx_decode skx_tohm fuel ((addr + 0x1000) % 2 ^ 64) { s with res := d.2 }
    else some (SweepExit.done s)

/-- The part of `early_skx_init` from `rc = 0;` to its `return rc`: the
three sweeps.  `skx_decode B` is what the call `skx_decode(&res)` does
while the static `himem_subarray_boundary_row` is `B`; the arguments are
the values of `num_rows_per_subarray`, `skx_tolm`, `skx_tohm` and
`second_socket_empty` at that point, the local `res` and the values of
`*himem_subarray_boundary_addr`, `himem_subarray_boundary_row` and
`*first_remote_group`.  The value returned is the final `rc`. -/
def early_skx_init_sweeps (skx_decode : Nat → skx_decode_f)
    (num_rows_per_subarray skx_tolm skx_tohm : Nat) (second_socket_empty : Int) (fuel : Nat)
    (res : decoded_addr) (himem_subarray_boundary_addr himem_subarray_boundary_row
      first_remote_group : Nat) : Option SweepExit :=
  let s0 : Sweep :=
    { res := res, lomem_subarray_groups_map := fun _ => false, rc := 0,
      himem_subarray_boundary_addr := himem_subarray_boundary_addr,
      himem_subarray_boundary_row := himem_subarray_boundary_row,
      first_remote_group := first_remote_group }
  match lomem_sweep (skx_decode s0.himem_subarray_boundary_row) skx_tolm fuel 0 s0 with
  | none => none
  | some SweepExit.out_of_bounds => some SweepExit.out_of_bounds
  | some (SweepExit.done s1) =>
    if s1.rc = 0 then
      match himem_sweep (skx_decode s1.himem_subarray_boundary_row) skx_tohm
          num_rows_per_subarray fuel 0x100000000 s1 with
      | none => none
      | some SweepExit.out_of_bounds => some SweepExit.out_of_bounds
      | some (SweepExit.done s2) =>
        if s2.rc = 0 ∧ second_socket_empty = 0 then
          remote_sweep (skx_decode s2.himem_subarray_boundary_row) skx_tohm fuel (skx_tohm / 2) s2
        else some (SweepExit.done s2)
    else some (SweepExit.done s1)

/-- Modelled from the spec: `skx_set_decode` (not among the sources)
installs the decode pipeline as the active decode strategy; this is what a
call through `skx_decode` then does while the boundary row is `B`. -/
def early_skx_decode_at (env : SkxEnv) (B : Nat) : skx_decode_f :=
  early_skx_decode_local { env with himem_subarray_boundary_row := B }

/-! ## Concrete configurations used to instantiate the theorems -/

def dimm0 : skx_dimm :=
  { close_pg := 0, bank_xor_enable := 1, fine_grain_bank := 0, rowbits := 17, colbits := 10 }

def chan0 : skx_channel :=
  { cdev := 0, dimms := fun _ => dimm0, cdev_bus := 0x3a, cdev_dev := 10, cdev_func := 0 }

def imc0 : skx_imc :=
  { src_id := 0, node_id := 0, chan := fun _ => chan0, close_pg := 0, bank_xor_enable := 1,
    fine_grain_bank := 0, rowbits := 17, colbits := 10 }

def dev0 : skx_dev :=
  { sad_all := 0, mcroute := 0, imc := fun _ => imc0, sad_all_bus := 0x17, sad_all_dev := 0x1d,
    sad_all_func := 0 }

/-- A one-socket configuration in which every register reads `0`. -/
def env0 : SkxEnv :=
  { early_read_pci_config := fun _ _ _ _ => some 0
    pci_read_config_dword := fun _ _ => 0
    skx_tolm := 0x80000000
    skx_tohm := 0x880000000
    skx_num_sockets := 1
    skx_sock_devs := fun _ => dev0
    num_rows_per_subarray := 512
    himem_subarray_boundary_row := 0
    early_skx_tadbases := fun _ _ _ => 0
    early_skx_tadwayness := fun _ _ _ => 0
    early_skx_tadchnilvoffset := fun _ _ _ _ => 0
    early_skx_rirwayness := fun _ _ _ _ => 0
    early_skx_ririlv := fun _ _ _ _ _ => 0 }

/-- The all-zero record with the given address. -/
def rec0 (a : Nat) : decoded_addr :=
  { dev := 0, addr := a, socket := 0, imc := 0, channel := 0, chan_addr := 0, sktways := 0,
    chanways := 0, dimm := 0, rank := 0, channel_rank := 0, rank_address := 0, row := 0,
    column := 0, bank_address := 0, bank_group := 0, subarray_group := 0 }

/-- A record with the given address and other, non-zero field contents. -/
def rec1 (a : Nat) : decoded_addr :=
  { dev := 5, addr := a, socket := 7, imc := -1, channel := 9, chan_addr := 11, sktways := 3,
    chanways := 3, dimm := 1, rank := 2, channel_rank := 6, rank_address := 0xabcdef, row := 99,
    column := 77, bank_address := 3, bank_group := 2, subarray_group := -1 }

/-- A kernel configuration: 8 nodes, 8 proximity domains, local distance
10, 8 distance bits, 4 KiB pages. -/
def k0 : SratConst :=
  { MAX_NUMNODES := 8, MAX_PXM_DOMAINS := 8, LOCAL_DISTANCE := 10, DISTANCE_BITS := 8,
    PAGE_SHIFT := 12, sizeof_mem_affinity := 40, numa_off := false,
    CONFIG_MEMORY_HOTPLUG := false }

/-- The maps after domain 0 and then domain 1 were mapped: domain `i` is
node `i`. -/
def pxm_maps_two : PxmMaps :=
  (acpi_map_pxm_to_node k0 (acpi_map_pxm_to_node k0 pxm_maps_init 0).2 1).2

/-- The maps after domain 3 and then domain 0 were mapped. -/
def pxm_maps_three_zero : PxmMaps :=
  (acpi_map_pxm_to_node k0 (acpi_map_pxm_to_node k0 pxm_maps_init 3).2 0).2

/-- A two-socket firmware table: local distance 10, remote distance 21. -/
def slit_two : acpi_table_slit :=
  { locality_count := 2, entry := fun n => if n = 0 ∨ n = 3 then 10 else 21 }

/-- A two-locality table every entry of which is 10. -/
def slit_flat : acpi_table_slit :=
  { locality_count := 2, entry := fun _ => 10 }

/-- A one-socket firmware table. -/
def slit_one : acpi_table_slit :=
  { locality_count := 1, entry := fun _ => 10 }

/-- The statics of `srat.c` before `acpi_numa_slit_init` ran: both
distances `0`, no distance set. -/
def slit_state_init : SlitState :=
  { local_distance := 0, remote_distance := 0, numa_distance := fun _ _ => none }

/-- A two-socket firmware table that passes `slit_valid` and is not
symmetric: distance 20 from locality 0 to 1, distance 30 back. -/
def slit_asym : acpi_table_slit :=
  { locality_count := 2,
    entry := fun n => if n = 0 ∨ n = 3 then 10 else if n = 1 then 20 else 30 }

/-- A decode function that succeeds everywhere with subarray group 0. -/
def decode_group_zero : skx_decode_f := fun r => (true, { r with subarray_group := 0 })

/-- A decode function that succeeds everywhere, with subarray group 0
below address `0x1800` and `SOCKET_0_GUARD_ROWS_NODE` from there on. -/
def decode_split_page : skx_decode_f :=
  fun r => (true, { r with subarray_group := if r.addr < 0x1800 then 0 else 3 })

/-- The result of an `early_skx_init` that is never called here. -/
def early_init_unused : EarlyInit :=
  { rc := 1, himem_subarray_boundary_addr := 0, first_remote_group := FIRST_REMOTE_GROUP_UNSET,
    num_banks_per_socket := 0, skx_tolm := 0, skx_decode := decode_group_zero }

/-- An environment with SRAT revision 3, 512 rows per subarray and a
`numa_add_memblk` that accepts every block. -/
def srat_env0 : SratEnv :=
  { k := k0, acpi_srat_revision := 3, num_rows_per_subarray := 512,
    numa_add_memblk := fun _ _ _ _ => 0, early_skx_init := fun _ _ => early_init_unused }

/-- The state before the first record is parsed, once topology discovery
has installed `decode` and found the boundary address `himem`. -/
def srat_state0 (decode : skx_decode_f) (himem : Nat) : SratState :=
  { maps := pxm_maps_init, acpi_numa := 0, skx_decode := some decode, skx_tolm := 0x80000000,
    siloz_total_nodes := 0, first_remote_group := FIRST_REMOTE_GROUP_UNSET,
    himem_subarray_boundary_addr := himem, full_subarray_group_size_bytes := 0,
    parsed_numa_memblks := 0, max_possible_pfn := 0, memblks := [] }

/-- An enabled record of proximity domain 0 for `[base, base + length)`. -/
def srat_record0 (base length : Nat) : acpi_srat_mem_affinity :=
  { header_length := 40, proximity_domain := 0, base_address := base, length := length,
    enabled := true, hot_pluggable := false, non_volatile := false }

/-- The state the parse of `[0, 0x3000)` leaves when the decode changes
group at `0x1800`. -/
def srat_state_after_split : SratState :=
  match acpi_numa_memory_affinity_init srat_env0 4 (srat_state0 decode_split_page 0x200000)
      (srat_record0 0 0x3000) (rec0 0) with
  | some (_, s) => s
  | none => srat_state0 decode_split_page 0x200000

/-- The all-zero record with the given socket and rank address. -/
def rec_rank (socket : Int) (ra : Nat) : decoded_addr :=
  { rec0 0 with socket := socket, rank_address := ra }

/-- The one-socket configuration with the boundary row 1112 discovered. -/
def env_boundary : SkxEnv := { env0 with himem_subarray_boundary_row := 1112 }

/-- A device whose SAD unit and channel units have different handles. -/
def dev_flat : skx_dev :=
  { sad_all := 1, mcroute := 0,
    imc := fun _ => { imc0 with chan := fun _ => { chan0 with cdev := 2 } },
    sad_all_bus := 0x17, sad_all_dev := 0x1d, sad_all_func := 0 }

/-- A one-socket configuration with `rows` rows per subarray whose
registers map every address below `2 ^ 40` to itself: one enabled SAD
entry up to `2 ^ 46 - 1` with local target 0, one TAD range with one way
and no offset, one valid RIR range with one way and no offset; open-page
geometry with 17 row bits. -/
def env_flat (rows : Nat) : SkxEnv :=
  { early_read_pci_config := fun bus _ _ off =>
      some (if bus = 0x17 then
        (if off = 0x60 then 0x07FFFF81 else if off = 0x64 then 0x88888888 else 0) else 0)
    pci_read_config_dword := fun h off =>
      if h = 1 then
        (if off = 0x60 then 0x07FFFF81 else if off = 0x64 then 0x88888888 else 0)
      else if 0x880 ≤ off ∧ off < 0x8a0 then 0xFFFFF000
      else if 0x108 ≤ off ∧ off < 0x118 then 0x80000FFE
      else 0
    skx_tolm := 0x80000000
    skx_tohm := 0x880000000
    skx_num_sockets := 1
    skx_sock_devs := fun _ => dev_flat
    num_rows_per_subarray := rows
    himem_subarray_boundary_row := 0
    early_skx_tadbases := fun _ _ _ => 0
    early_skx_tadwayness := fun _ _ _ => 0xFFFFF000
    early_skx_tadchnilvoffset := fun _ _ _ _ => 0
    early_skx_rirwayness := fun _ _ _ _ => 0x80000FFE
    early_skx_ririlv := fun _ _ _ _ _ => 0 }

/-- The state the parse of the record `[0x300000, 0x800000)` of node 0
leaves when the boundary address is `0x400000` and every address decodes to
group 0. -/
def srat_state_after_jump : SratState :=
  match acpi_numa_memory_affinity_init srat_env0 4 (srat_state0 decode_group_zero 0x400000)
      (srat_record0 0x300000 0x500000) (rec0 0) with
  | some (_, s) => s
  | none => srat_state0 decode_group_zero 0x400000

/-- The decode function `dec` returns the same flag and, when it succeeds,
the same socket, row and subarray group for any two records with the same
address. -/
def DecodesByAddr (dec : skx_decode_f) : Prop :=
  ∀ r1 r2 : decoded_addr, r1.addr = r2.addr →
    (dec r1).1 = (dec r2).1 ∧
    ((dec r1).1 = true →
      (dec r1).2.socket = (dec r2).2.socket ∧ (dec r1).2.row = (dec r2).2.row ∧
      (dec r1).2.subarray_group = (dec r2).2.subarray_group)

/-- A decode function for the sweeps that succeeds everywhere: socket 0
below 100 GiB and socket 1 from there on; group 0 (row 0) below
`0x100001000`, group 1 (row 600) from there up to 100 GiB, group
`SOCKET_1_GUARD_ROWS_NODE` (row 5) on the page at 100 GiB and group 260
(row 40) above it. -/
def decode_sweep_stub : Nat → skx_decode_f := fun _ r =>
  (true, { r with
    socket := if r.addr < 0x1900000000 then 0 else 1
    row := if r.addr < 0x100001000 then 0 else if r.addr < 0x1900000000 then 600
      else if r.addr < 0x1900001000 then 5 else 40
    subarray_group := if r.addr < 0x100001000 then 0 else if r.addr < 0x1900000000 then 1
      else if r.addr < 0x1900001000 then 5 else 260 })

/-- What a run of the sweeps left, in comparable form: `rc`, the boundary
address, the boundary row and the first remote group; `none` when the run
did not end or left the map. -/
def sweep_summary (o : Option SweepExit) : Option (Int × Nat × Nat × Nat) :=
  match o with
  | some (SweepExit.done s) =>
    some (s.rc, s.himem_subarray_boundary_addr, s.himem_subarray_boundary_row,
      s.first_remote_group)
  | _ => none

/-- The early reads of the SAD and interleave registers return what the
attached reads return, for the devices below `skx_num_sockets`. -/
def EarlyReadsAgree (env : SkxEnv) : Prop :=
  ∀ di i : Nat, di < env.skx_num_sockets.toNat → i < SKX_MAX_SAD →
    EARLY_SKX_GET_SAD env (env.skx_sock_devs di) i =
      some (SKX_GET_SAD env (env.skx_sock_devs di) i) ∧
    EARLY_SKX_GET_ILV env (env.skx_sock_devs di) i =
      some (SKX_GET_ILV env (env.skx_sock_devs di) i)

/-- The early snapshot tables hold the values the attached register reads
return, for the devices below `skx_num_sockets`: the tables are indexed by
the socket id of the device. -/
def SnapshotHolds (env : SkxEnv) : Prop :=
  ∀ di : Nat, di < env.skx_num_sockets.toNat → ∀ imc ch : Int,
    (∀ i : Nat, i < SKX_MAX_TAD →
      env.early_skx_tadbases (((env.skx_sock_devs di).imc 0).src_id : Int) imc i =
        env.pci_read_config_dword (((env.skx_sock_devs di).imc imc).chan 0).cdev
          (0x850 + 4 * i) ∧
      env.early_skx_tadwayness (((env.skx_sock_devs di).imc 0).src_id : Int) imc i =
        env.pci_read_config_dword (((env.skx_sock_devs di).imc imc).chan 0).cdev
          (0x880 + 4 * i) ∧
      env.early_skx_tadchnilvoffset (((env.skx_sock_devs di).imc 0).src_id : Int) imc ch i =
        env.pci_read_config_dword (((env.skx_sock_devs di).imc imc).chan ch).cdev
          (0x90 + 4 * i)) ∧
    (∀ i : Nat, i < SKX_MAX_RIR →
      env.early_skx_rirwayness (((env.skx_sock_devs di).imc 0).src_id : Int) imc ch i =
        env.pci_read_config_dword (((env.skx_sock_devs di).imc imc).chan ch).cdev
          (0x108 + 4 * i) ∧
      ∀ idx : Nat, idx < 8 →
        env.early_skx_ririlv (((env.skx_sock_devs di).imc 0).src_id : Int) imc ch i idx =
          env.pci_read_config_dword (((env.skx_sock_devs di).imc imc).chan ch).cdev
            (0x120 + 16 * idx + 4 * i))

/-- Every DIMM has the geometry of its controller, for the devices below
`skx_num_sockets`. -/
def DimmsHaveControllerGeometry (env : SkxEnv) : Prop :=
  ∀ di : Nat, di < env.skx_num_sockets.toNat → ∀ imc ch dm : Int,
    ((((env.skx_sock_devs di).imc imc).chan ch).dimms dm).close_pg =
      ((env.skx_sock_devs di).imc imc).close_pg ∧
    ((((env.skx_sock_devs di).imc imc).chan ch).dimms dm).bank_xor_enable =
      ((env.skx_sock_devs di).imc imc).bank_xor_enable ∧
    ((((env.skx_sock_devs di).imc imc).chan ch).dimms dm).fine_grain_bank =
      ((env.skx_sock_devs di).imc imc).fine_grain_bank ∧
    ((((env.skx_sock_devs di).imc imc).chan ch).dimms dm).rowbits =
      ((env.skx_sock_devs di).imc imc).rowbits ∧
    ((((env.skx_sock_devs di).imc imc).chan ch).dimms dm).colbits =
      ((env.skx_sock_devs di).imc imc).colbits

/-- The device of socket `s` in the two-socket configuration. -/
def dev_two (s : Nat) : skx_dev :=
  { sad_all := 1 + 10 * s, mcroute := 0,
    imc := fun _ =>
      { imc0 with src_id := s, node_id := s, chan := fun _ => { chan0 with cdev := 2 + 10 * s } },
    sad_all_bus := if s = 0 then 0x17 else 0x85, sad_all_dev := 0x1d, sad_all_func := 0 }

/-- A two-socket configuration with 512 rows per subarray: addresses below
100 GiB belong to socket 0 and map to themselves; addresses from 100 GiB on
belong to socket 1 (socket 0's second SAD entry is remote, target 1) and
map to their offset from 100 GiB.  Open-page geometry with 17 row bits. -/
def env_two : SkxEnv :=
  { early_read_pci_config := fun bus _ _ off =>
      some (if bus = 0x17 then
        (if off = 0x60 then 0x31F81 else if off = 0x64 then 0x88888888
         else if off = 0x68 then 0x07FFFF81 else if off = 0x6c then 0x11111111 else 0)
      else if bus = 0x85 then
        (if off = 0x60 then 0x31F81 else if off = 0x64 then 0
         else if off = 0x68 then 0x07FFFF81 else if off = 0x6c then 0x99999999 else 0)
      else 0)
    pci_read_config_dword := fun _ _ => 0
    skx_tolm := 0x2000
    skx_tohm := 0x32003FE000
    skx_num_sockets := 2
    skx_sock_devs := fun i => dev_two (if i = 0 then 0 else 1)
    num_rows_per_subarray := 512
    himem_subarray_boundary_row := 0
    early_skx_tadbases := fun _ _ _ => 0
    early_skx_tadwayness := fun _ _ _ => 0xFFFFF000
    early_skx_tadchnilvoffset := fun socket _ _ _ => if socket = 1 then 0x6400 else 0
    early_skx_rirwayness := fun _ _ _ _ => 0x80000FFE
    early_skx_ririlv := fun _ _ _ _ _ => 0 }

/-- Whether a run of the sweeps ended with an index outside
`lomem_subarray_groups_map`. -/
def sweep_out_of_bounds (o : Option SweepExit) : Bool :=
  match o with
  | some SweepExit.out_of_bounds => true
  | _ => false

/-! ## The first-fit rule of stage 1 -/

/-- The lower bound that the scan of stage 1 has in force at entry `i` of a
table whose entry `j` holds the register value `sad j`: 0 at the first
entry, else one more than the limit of the entry before, whether that one
is enabled or not. -/
def sad_prev_limit (sad : Nat → Nat) (i : Nat) : Nat :=
  match i with
  | 0 => 0
  | j + 1 => SKX_SAD_LIMIT (sad j) + 1

/-- Entry `i` of the table is enabled and its range holds the address. -/
def SadEntryFits (sad : Nat → Nat) (addr i : Nat) : Prop :=
  SKX_SAD_ENABLE (sad i) ≠ 0 ∧ sad_prev_limit sad i ≤ addr ∧ addr ≤ SKX_SAD_LIMIT (sad i)

instance (sad : Nat → Nat) (addr i : Nat) : Decidable (SadEntryFits sad addr i) := by
  unfold SadEntryFits
  infer_instance

/-- The SAD table of device `d` as the attached pipeline reads it. -/
def skx_sad_table (env : SkxEnv) (d : skx_dev) : Nat → Nat := fun i => SKX_GET_SAD env d i

/-- The SAD table of device `d` as the early pipeline reads it; an entry
whose read fails is taken as 0 (disabled). -/
def early_skx_sad_table (env : SkxEnv) (d : skx_dev) : Nat → Nat :=
  fun i => (EARLY_SKX_GET_SAD env d i).getD 0

/-! ## The `restart:` loop of stage 1 -/

/-- The body of `early_skx_sad_decode` from `restart:` on, as the loop the
`goto restart` makes: `fuel` bounds the number of passes (one scan of the
table each), `di` is the device `d` points to and `remote` the flag; `none`
when the fuel runs out. -/
def early_skx_sad_restart (env : SkxEnv) (res : decoded_addr) :
    Nat → Nat → Int → Option (Bool × decoded_addr)
  | 0, _, _ => none
  | fuel + 1, di, remote =>
    match early_skx_sad_pass env (env.skx_sock_devs di) res.addr with
    | SadPass.failed => some (false, res)
    | SadPass.hit sad tgt => some (early_skx_sad_finish env di sad tgt res)
    | SadPass.remote tgt =>
      if remote ≠ 0 then some (false, res)
      else
        match early_skx_find_node env tgt with
        | none => some (false, res)
        | some i => early_skx_sad_restart env res fuel i 1

/-- The body of `skx_sad_decode` from `restart:` on, as the loop the
`goto restart` makes. -/
def skx_sad_restart (env : SkxEnv) (skx_edac_list : List Nat) (res : decoded_addr) :
    Nat → Nat → Int → Option (Bool × decoded_addr)
  | 0, _, _ => none
  | fuel + 1, di, remote =>
    match skx_sad_pass env (env.skx_sock_devs di) res.addr with
    | SadPass.failed => some (false, res)
    | SadPass.hit sad tgt => some (skx_sad_finish env di sad tgt res)
    | SadPass.remote tgt =>
      if remote ≠ 0 then some (false, res)
      else
        match skx_find_node env skx_edac_list tgt with
        | none => some (false, res)
        | some i => skx_sad_restart env skx_edac_list res fuel i 1

/-! ## The node-to-domain adjustment of `acpi_numa_init` -/

/-- The statement under `with groups setup, need to adjust node to pxm
mapping` of `acpi_numa_init`, for the values `siloz_total_nodes` and
`first_remote_group` have after `numa_cleanup_partial_subarray_groups`:
the maps with `node_to_pxm_map[i]` written for every `i` below
`siloz_total_nodes`. -/
def acpi_numa_init_adjust (m : PxmMaps) (siloz_total_nodes : Int) (first_remote_group : Nat) :
    PxmMaps :=
  if first_remote_group = FIRST_REMOTE_GROUP_UNSET then
    (List.range siloz_total_nodes.toNat).foldl
      (fun (m : PxmMaps) (i : Nat) =>
        { m with node_to_pxm_map := fun x => if x = (i : Int) then 0 else m.node_to_pxm_map x }) m
  else
    (List.range siloz_total_nodes.toNat).foldl
      (fun (m : PxmMaps) (i : Nat) =>
        if i = 1 ∨ (i : Int) = SOCKET_1_EPT_NODE ∨ (i : Int) = SOCKET_1_GUARD_ROWS_NODE ∨
            (i ≥ first_remote_group ∧ (i : Int) ≠ siloz_total_nodes - 1) then
          { m with node_to_pxm_map := fun x => if x = (i : Int) then 1 else m.node_to_pxm_map x }
        else
          { m with node_to_pxm_map := fun x => if x = (i : Int) then 0 else m.node_to_pxm_map x })
      m

/-- The kernel configuration `k0` with room for 1024 nodes. -/
def k1 : SratConst := { k0 with MAX_NUMNODES := 1024 }

/-- An enabled record of proximity domain 9 for `[0, 0x1000)`. -/
def srat_record_far : acpi_srat_mem_affinity :=
  { header_length := 40, proximity_domain := 9, base_address := 0, length := 0x1000,
    enabled := true, hot_pluggable := false, non_volatile := false }

/-- A decode function that fails from address `0x3000` on and below it
succeeds with subarray group 0 below `0x1800` and
`SOCKET_0_GUARD_ROWS_NODE` from there on. -/
def decode_split_page_short : skx_decode_f :=
  fun r => (decide (r.addr < 0x3000),
    { r with subarray_group := if r.addr < 0x1800 then 0 else 3 })

/-- The state the parse of `[0, 0x3000)` leaves under
`decode_split_page_short`. -/
def srat_state_after_short : SratState :=
  match acpi_numa_memory_affinity_init srat_env0 4
      (srat_state0 decode_split_page_short 0x200000) (srat_record0 0 0x3000) (rec0 0) with
  | some (_, s) => s
  | none => srat_state0 decode_split_page_short 0x200000

/-! ## drivers/edac/skx_base.c: the enumeration of `early_skx_init` -/

def SAD_DEV_START : Nat := 0x0e
def SAD_FUNC_START : Nat := 0x0

/-- Modelled from the spec: `PCI_DEVFN` (linux/pci.h, not among the
sources), the device number in bits 3..7 and the function in bits 0..2. -/
def PCI_DEVFN (slot func : Nat) : Nat := ((slot &&& 0x1f) <<< 3) ||| (func &&& 0x07)

/-- Modelled from the spec: `PCI_SLOT` (linux/pci.h, not among the
sources). -/
def PCI_SLOT (devfn : Nat) : Nat := (devfn >>> 3) &&& 0x1f

/-- Modelled from the spec: `PCI_FUNC` (linux/pci.h, not among the
sources). -/
def PCI_FUNC (devfn : Nat) : Nat := devfn &&& 0x07

/-- The `enum munittype`. -/
inductive munittype where
  | CHAN0
  | CHAN1
  | CHAN2
  | SAD_ALL
  | UTIL_ALL
  | SAD
  | ERRCHAN0
  | ERRCHAN1
  | ERRCHAN2

/-- The `struct munit`; an array entry that the initializer leaves out is
0. -/
structure munit where
  did : Nat
  devfn : List Nat
  busidx : Nat
  per_socket : Nat
  mtype : munittype
  bus_numbers : List Nat

/-- The table `skx_all_munits`, without its terminating empty entry. -/
def skx_all_munits : List munit :=
  [ { did := 0x2054, devfn := [PCI_DEVFN 0x1d 0], busidx := 1, per_socket := 1,
      mtype := munittype.SAD_ALL, bus_numbers := [0x17, 0x85] },
    { did := 0x2055, devfn := [PCI_DEVFN 0x1d 1], busidx := 1, per_socket := 1,
      mtype := munittype.UTIL_ALL, bus_numbers := [0x17, 0x85] },
    { did := 0x2040, devfn := [PCI_DEVFN 10 0, PCI_DEVFN 12 0], busidx := 2, per_socket := 2,
      mtype := munittype.CHAN0, bus_numbers := [0x3a, 0xae] },
    { did := 0x2044, devfn := [PCI_DEVFN 10 4, PCI_DEVFN 12 4], busidx := 2, per_socket := 2,
      mtype := munittype.CHAN1, bus_numbers := [0x3a, 0xae] },
    { did := 0x2048, devfn := [PCI_DEVFN 11 0, PCI_DEVFN 13 0], busidx := 2, per_socket := 2,
      mtype := munittype.CHAN2, bus_numbers := [0x3a, 0xae] },
    { did := 0x2043, devfn := [PCI_DEVFN 10 3, PCI_DEVFN 12 3], busidx := 2, per_socket := 2,
      mtype := munittype.ERRCHAN0, bus_numbers := [0x3a, 0xae] },
    { did := 0x2047, devfn := [PCI_DEVFN 10 7, PCI_DEVFN 12 7], busidx := 2, per_socket := 2,
      mtype := munittype.ERRCHAN1, bus_numbers := [0x3a, 0xae] },
    { did := 0x204b, devfn := [PCI_DEVFN 11 3, PCI_DEVFN 13 3], busidx := 2, per_socket := 2,
      mtype := munittype.ERRCHAN2, bus_numbers := [0x3a, 0xae] },
    { did := 0x208e, devfn := [], busidx := 1, per_socket := 0,
      mtype := munittype.SAD, bus_numbers := [0x17, 0x85] } ]

/-- The assignment `a[i] = v` on an array indexed by a `Nat`. -/
def set_at {α : Type} (a : Nat → α) (i : Nat) (v : α) : Nat → α :=
  fun x => if x = i then v else a x

/-- The assignment `a[i] = v` on an array indexed by an `int`. -/
def set_at_int {α : Type} (a : Int → α) (i : Int) (v : α) : Int → α :=
  fun x => if x = i then v else a x

/-- How a piece of a function body ends: at a `return rc`, or past its
last statement. -/
inductive Step (σ : Type) where
  | ret (rc : Int) (s : σ)
  | go (s : σ)

/-- The loop `for (i = lo; i < lo + n; i++)` whose body, given `i`, either
returns from the function or leaves a new state. -/
def for_loop {σ : Type} (body : Nat → σ → Step σ) : Nat → Nat → σ → Step σ
  | 0, _, s => Step.go s
  | n + 1, i, s =>
    match body i s with
    | Step.ret rc s1 => Step.ret rc s1
    | Step.go s1 => for_loop body n (i + 1) s1

/-- What `early_skx_init` calls that is declared in `skx_common.h` and
defined outside the sources: the early read with a 32-bit offset (a failed
read is `none`), `early_skx_get_hi_lo` (from the current `skx_tolm`,
`skx_tohm`: the value returned and the two values it leaves),
`early_skx_get_all_bus_mappings` (from `skx_sock_devs`: the value returned
and the array it leaves), `early_skx_get_src_id` and
`early_skx_get_node_id` for the device of a socket index (the value
returned and the id), and `early_skx_get_dimm_info` (the controller as it
leaves it). -/
structure EarlyHw where
  early_init_read_pci_config : Nat → Nat → Nat → Nat → Option Nat
  early_skx_get_hi_lo : Nat → Nat → Int × Nat × Nat
  early_skx_get_all_bus_mappings : (Nat → skx_dev) → Int × (Nat → skx_dev)
  early_skx_get_src_id : Nat → Int × Nat
  early_skx_get_node_id : Nat → Int × Nat
  early_skx_get_dimm_info : Nat → Nat → Nat → skx_imc → Nat → Nat → skx_imc

/-- The loop `for (iter = 0; iter < skx_num_sockets; iter++)` of the
`per_socket == 0` branch of `early_get_all_munits`, from `iter` on: the
value returned and the state left; `none` when the fuel runs out. -/
def early_get_all_munits_sad (m : munit) : Nat → Int → SkxEnv → Option (Int × SkxEnv)
  | 0, _, _ => none
  | fuel + 1, iter, env =>
    if iter < env.skx_num_sockets then
      match m.mtype with
      | munittype.SAD =>
        match env.early_read_pci_config (m.bus_numbers.getD iter.toNat 0) SAD_DEV_START
            SAD_FUNC_START 0xB4 with
        | none => some (1, env)
        | some reg =>
          if reg ≠ 0 then
            early_get_all_munits_sad m fuel (iter + 1)
              { env with skx_sock_devs := (set_at env.skx_sock_devs iter.toNat
                  { (env.skx_sock_devs iter.toNat) with mcroute := reg }) }
          else
            early_get_all_munits_sad m fuel (iter + 1)
              { env with
                skx_sock_devs := (set_at env.skx_sock_devs iter.toNat
                  { (env.skx_sock_devs iter.toNat) with mcroute := 0 })
                skx_num_sockets := env.skx_num_sockets - 1 }
      | _ => some (1, env)
    else some ((m.per_socket : Int) * env.skx_num_sockets, env)

/-- The channel `chan[ch]` of controller `imc[mc]` of a device with the
early address `bus`, `dev`, `func` written to it. -/
def skx_dev_set_chan (d : skx_dev) (mc ch : Int) (bus dev func : Nat) : skx_dev :=
  { d with imc := (set_at_int d.imc mc
      { (d.imc mc) with chan := (set_at_int (d.imc mc).chan ch
          { ((d.imc mc).chan ch) with cdev_bus := bus, cdev_dev := dev, cdev_func := func }) }) }

/-- One iteration of the loop of the `else` branch of
`early_get_all_munits`, for a unit type other than `SAD`; the `UTIL_ALL`
address is not part of the embedding of `struct skx_dev`. -/
def early_get_all_munits_dev (m : munit) (devs : Nat → skx_dev) (iter : Nat) : Nat → skx_dev :=
  let di := iter / m.per_socket
  let bus := m.bus_numbers.getD di 0
  let devfn := m.devfn.getD (iter % m.per_socket) 0
  match m.mtype with
  | munittype.CHAN0 =>
    set_at devs di (skx_dev_set_chan (devs di) ((iter % m.per_socket : Nat) : Int) 0 bus
      (PCI_SLOT devfn) (PCI_FUNC devfn))
  | munittype.CHAN1 =>
    set_at devs di (skx_dev_set_chan (devs di) ((iter % m.per_socket : Nat) : Int) 1 bus
      (PCI_SLOT devfn) (PCI_FUNC devfn))
  | munittype.CHAN2 =>
    set_at devs di (skx_dev_set_chan (devs di) ((iter % m.per_socket : Nat) : Int) 2 bus
      (PCI_SLOT devfn) (PCI_FUNC devfn))
  | munittype.SAD_ALL =>
    set_at devs di
      { (devs di) with sad_all_bus := bus, sad_all_dev := (PCI_SLOT devfn),
                       sad_all_func := (PCI_FUNC devfn) }
  | _ => devs

/-- The function `early_get_all_munits`: the value returned and the state
left. -/
def early_get_all_munits (m : munit) (env : SkxEnv) : Option (Int × SkxEnv) :=
  if env.skx_num_sockets > 2 then some (1, env)
  else if m.per_socket = 0 then early_get_all_munits_sad m 3 0 env
  else
    match m.mtype with
    | munittype.SAD =>
      if 0 < (m.per_socket : Int) * env.skx_num_sockets then some (1, env)
      else some ((m.per_socket : Int) * env.skx_num_sockets, env)
    | _ =>
      some ((m.per_socket : Int) * env.skx_num_sockets,
        { env with skx_sock_devs :=
            ((List.range ((m.per_socket : Int) * env.skx_num_sockets).toNat).foldl
              (early_get_all_munits_dev m) env.skx_sock_devs) })

/-- The loop `for (m = skx_all_munits; m->did; m++)` of `early_skx_init`. -/
def early_skx_init_munits : List munit → SkxEnv → Option (Step SkxEnv)
  | [], env => some (Step.go env)
  | m :: ms, env =>
    match early_get_all_munits m env with
    | none => none
    | some (rc, env1) =>
      if rc < 0 then some (Step.ret (-1) env1)
      else if rc ≠ (m.per_socket : Int) * env1.skx_num_sockets then some (Step.ret (-1) env1)
      else early_skx_init_munits ms env1

/-- The loop `for (j = 0; j < SKX_NUM_DIMMS; j++)` of
`early_skx_get_dimm_config` for channel `i`, from `j` on with `n` DIMMs
left: `false` when a read failed (the function returns 1), and the
controller. -/
def early_skx_get_dimm_config_dimms (hw : EarlyHw) (env : SkxEnv) (mcmtr amap i : Nat)
    (imc : skx_imc) : Nat → Nat → Bool × skx_imc
  | 0, _ => (true, imc)
  | n + 1, j =>
    match env.early_read_pci_config (imc.chan i).cdev_bus (imc.chan i).cdev_dev
        (imc.chan i).cdev_func ((0x80 + 4 * j) % 2 ^ 8) with
    | none => (false, imc)
    | some mtr =>
      if IS_DIMM_PRESENT mtr ≠ 0 then (true, hw.early_skx_get_dimm_info mtr mcmtr amap imc i j)
      else early_skx_get_dimm_config_dimms hw env mcmtr amap i imc n (j + 1)

/-- The loop `for (i = 0; i < SKX_NUM_CHANNELS; i++)` of
`early_skx_get_dimm_config`, from `i` on with `n` channels left. -/
def early_skx_get_dimm_config_chans (hw : EarlyHw) (env : SkxEnv) (mcmtr : Nat) :
    Nat → Nat → skx_imc → Int × skx_imc
  | 0, _, imc => (0, imc)
  | n + 1, i, imc =>
    match env.early_read_pci_config (imc.chan i).cdev_bus (imc.chan i).cdev_dev
        (imc.chan i).cdev_func 0x8C with
    | none => (1, imc)
    | some amap =>
      let r := early_skx_get_dimm_config_dimms hw env mcmtr amap i imc SKX_NUM_DIMMS 0
      if r.1 = false then (1, r.2)
      else early_skx_get_dimm_config_chans hw env mcmtr n (i + 1) r.2

/-- The function `early_skx_get_dimm_config`: the value returned and the
controller as it leaves it. -/
def early_skx_get_dimm_config (hw : EarlyHw) (env : SkxEnv) (imc : skx_imc) : Int × skx_imc :=
  match hw.early_init_read_pci_config (imc.chan 0).cdev_bus (imc.chan 0).cdev_dev
      (imc.chan 0).cdev_func 0x87c with
  | none => (1, imc)
  | some mcmtr => early_skx_get_dimm_config_chans hw env mcmtr SKX_NUM_CHANNELS 0 imc

/-- The statics and the out-parameter `*num_banks_per_socket` that the
enumeration of `early_skx_init` writes. -/
structure EarlyGlobals where
  env : SkxEnv
  second_socket_empty : Int
  num_banks_per_socket : Int

/-- The body of the loop `for (i = 0; i < SKX_MAX_TAD; i++)` of
`early_skx_init`, for controller `imc` of the device of socket index
`sock_idx`. -/
def early_skx_init_tad (hw : EarlyHw) (sock_idx : Nat) (imc : Int) (i : Nat)
    (g : EarlyGlobals) : Step EarlyGlobals :=
  let m := (g.env.skx_sock_devs sock_idx).imc imc
  match hw.early_init_read_pci_config (m.chan 0).cdev_bus (m.chan 0).cdev_dev
      (m.chan 0).cdev_func (0x850 + 4 * i) with
  | none => Step.ret 1 g
  | some base =>
    let g1 : EarlyGlobals := { g with env := { g.env with
      early_skx_tadbases := fun s c x =>
        if s = (sock_idx : Int) ∧ c = imc ∧ x = i then base else g.env.early_skx_tadbases s c x } }
    match hw.early_init_read_pci_config (m.chan 0).cdev_bus (m.chan 0).cdev_dev
        (m.chan 0).cdev_func (0x880 + 4 * i) with
    | none => Step.ret 1 g1
    | some wayness =>
      let g2 : EarlyGlobals := { g1 with env := { g1.env with
        early_skx_tadwayness := fun s c x =>
          if s = (sock_idx : Int) ∧ c = imc ∧ x = i then wayness
          else g1.env.early_skx_tadwayness s c x } }
      for_loop (fun chan (g : EarlyGlobals) =>
        match g.env.early_read_pci_config (m.chan chan).cdev_bus (m.chan chan).cdev_dev
            (m.chan chan).cdev_func ((0x90 + 4 * i) % 2 ^ 8) with
        | none => Step.ret 1 g
        | some v =>
          Step.go { g with env := { g.env with
            early_skx_tadchnilvoffset := fun s c ch x =>
              if s = (sock_idx : Int) ∧ c = imc ∧ ch = (chan : Int) ∧ x = i then v
              else g.env.early_skx_tadchnilvoffset s c ch x } })
        SKX_NUM_CHANNELS 0 g2

/-- The body of the loop `for (chan = 0; chan < SKX_NUM_CHANNELS; chan++)`
inside `for (i = 0; i < SKX_MAX_RIR; i++)` of `early_skx_init`.  The array
`early_skx_ririlv` has 4 entries in its last dimension; an index past them
is written to the function all the same. -/
def early_skx_init_rir (hw : EarlyHw) (sock_idx : Nat) (imc : Int) (i chan : Nat)
    (g : EarlyGlobals) : Step EarlyGlobals :=
  let c := ((g.env.skx_sock_devs sock_idx).imc imc).chan chan
  match hw.early_init_read_pci_config c.cdev_bus c.cdev_dev c.cdev_func (0x108 + 4 * i) with
  | none => Step.ret 1 g
  | some rirway =>
    let g1 : EarlyGlobals := { g with env := { g.env with
      early_skx_rirwayness := fun s m ch x =>
        if s = (sock_idx : Int) ∧ m = imc ∧ ch = (chan : Int) ∧ x = i then rirway
        else g.env.early_skx_rirwayness s m ch x } }
    if SKX_RIR_VALID rirway ≠ 0 then
      for_loop (fun idx (g : EarlyGlobals) =>
        match hw.early_init_read_pci_config c.cdev_bus c.cdev_dev c.cdev_func
            (0x120 + 16 * idx + 4 * i) with
        | none => Step.ret 1 g
        | some v =>
          Step.go { g with
            env := { g.env with
              early_skx_ririlv := fun s m ch x y =>
                if s = (sock_idx : Int) ∧ m = imc ∧ ch = (chan : Int) ∧ x = i ∧ y = idx then v
                else g.env.early_skx_ririlv s m ch x y }
            num_banks_per_socket :=
              if sock_idx = 0 then g.num_banks_per_socket + 16 else g.num_banks_per_socket })
        (SKX_RIR_WAYS rirway) 0 g1
    else Step.go g1

/-- The body of the loop `for (imc = 0; imc < SKX_NUM_IMC; imc++)` of
`early_skx_init`; the fields `mc` and `lmc` are not part of the embedding
of `struct skx_imc`. -/
def early_skx_init_imc (hw : EarlyHw) (sock_idx src_id node_id : Nat) (imc : Nat)
    (g : EarlyGlobals) : Step EarlyGlobals :=
  let d := g.env.skx_sock_devs sock_idx
  let m0 : skx_imc := { (d.imc imc) with src_id := src_id, node_id := node_id }
  let r := early_skx_get_dimm_config hw g.env m0
  let g1 : EarlyGlobals := { g with env := { g.env with
    skx_sock_devs := (set_at g.env.skx_sock_devs sock_idx
      { d with imc := (set_at_int d.imc imc r.2) }) } }
  if r.1 < 0 then Step.ret (-1) g1
  else
    match for_loop (early_skx_init_tad hw sock_idx imc) SKX_MAX_TAD 0 g1 with
    | Step.ret rc g2 => Step.ret rc g2
    | Step.go g2 =>
      for_loop (fun i (g : EarlyGlobals) =>
        for_loop (early_skx_init_rir hw sock_idx imc i) SKX_NUM_CHANNELS 0 g) SKX_MAX_RIR 0 g2

/-- The body of the loop `for (sock_idx = 0; sock_idx < skx_num_sockets;
++sock_idx)` of `early_skx_init`. -/
def early_skx_init_socket (hw : EarlyHw) (sock_idx : Nat) (g : EarlyGlobals) :
    Step EarlyGlobals :=
  let s := hw.early_skx_get_src_id sock_idx
  if s.1 < 0 then Step.ret (-1) g
  else
    let n := hw.early_skx_get_node_id sock_idx
    if n.1 < 0 then Step.ret (-1) g
    else for_loop (early_skx_init_imc hw sock_idx s.2 n.2) SKX_NUM_IMC 0 g

/-- How a call of `early_skx_init` ends: it returns `rc` and leaves the
statics and the out-parameters `*himem_subarray_boundary_addr` and
`*first_remote_group`, or a sweep indexes past
`lomem_subarray_groups_map`. -/
inductive EarlyInitExit where
  | returned (rc : Int) (g : EarlyGlobals)
      (himem_subarray_boundary_addr first_remote_group : Nat)
  | out_of_bounds

/-- The part of `early_skx_init` before `skx_set_decode`, called with three
non-null pointers (`srat.c` passes the addresses of two statics and of a
local); `g` holds the statics at the call.  It ends at a `return` or falls
through to the sweeps; `none` when the fuel of a loop runs out. -/
def early_skx_init_enumerate (hw : EarlyHw) (g : EarlyGlobals) : Option (Step EarlyGlobals) :=
  let g0 : EarlyGlobals := { g with num_banks_per_socket := 0 }
  let hl := hw.early_skx_get_hi_lo g0.env.skx_tolm g0.env.skx_tohm
  if hl.1 ≠ 0 then
    some (Step.ret (-1)
      { g0 with env := { g0.env with skx_tolm := hl.2.1, skx_tohm := hl.2.2 } })
  else
    let c := early_skx_cushion hl.2.1 hl.2.2 g0.second_socket_empty
    let bm := hw.early_skx_get_all_bus_mappings g0.env.skx_sock_devs
    let g1 : EarlyGlobals :=
      { g0 with
        env := { g0.env with skx_tolm := c.1, skx_tohm := c.2.1, skx_sock_devs := bm.2 }
        second_socket_empty := c.2.2 }
    if bm.1 < 0 then some (Step.ret (-1) g1)
    else if bm.1 = 0 then some (Step.ret (-1) g1)
    else
      match early_skx_init_munits skx_all_munits { g1.env with skx_num_sockets := bm.1 } with
      | none => none
      | some (Step.ret rc env2) => some (Step.ret rc { g1 with env := env2 })
      | some (Step.go env2) =>
        some (for_loop (early_skx_init_socket hw) env2.skx_num_sockets.toNat 0
          { g1 with env := env2 })

/-- The function `early_skx_init`: the enumeration, then
`skx_set_decode(early_skx_decode_local, ...)` and the three sweeps.  `res`
is the uninitialised local, and the last two arguments are the values of
`*himem_subarray_boundary_addr` and `*first_remote_group` at the call;
`none` when the fuel of a loop runs out. -/
def early_skx_init (hw : EarlyHw) (fuel : Nat) (g : EarlyGlobals) (res : decoded_addr)
    (himem_subarray_boundary_addr first_remote_group : Nat) : Option EarlyInitExit :=
  match early_skx_init_enumerate hw g with
  | none => none
  | some (Step.ret rc g1) =>
    some (EarlyInitExit.returned rc g1 himem_subarray_boundary_addr first_remote_group)
  | some (Step.go g3) =>
    match early_skx_init_sweeps (early_skx_decode_at g3.env) g3.env.num_rows_per_subarray
        g3.env.skx_tolm g3.env.skx_tohm g3.second_socket_empty fuel res
        himem_subarray_boundary_addr g3.env.himem_subarray_boundary_row
        first_remote_group with
    | none => none
    | some SweepExit.out_of_bounds => some EarlyInitExit.out_of_bounds
    | some (SweepExit.done s) =>
      some (EarlyInitExit.returned s.rc
        { g3 with env := { g3.env with
            himem_subarray_boundary_row := s.himem_subarray_boundary_row } }
        s.himem_subarray_boundary_addr s.first_remote_group)

/-- The value a call of `early_skx_init` returned; `none` when it did not
return. -/
def early_skx_init_rc (o : Option EarlyInitExit) : Option Int :=
  match o with
  | some (EarlyInitExit.returned rc _ _ _) => some rc
  | _ => none

/-- A configuration in which every address up to `2 ^ 40` is routed to
controller 1, channel 0 of socket 0 and maps to itself, and that controller
has no row bits: SAD entry 0 enabled up to `2 ^ 46 - 1` with local target
0, routing word 1, TAD range 0 over everything with one way and no offset,
RIR range 0 valid up to `2 ^ 40 - 1`, 512 rows per subarray, no boundary
row. -/
def BlankGeometry (env : SkxEnv) : Prop :=
  EARLY_SKX_GET_SAD env (env.skx_sock_devs 0) 0 = some 0x07FFFF81 ∧
  EARLY_SKX_GET_ILV env (env.skx_sock_devs 0) 0 = some 0x88888888 ∧
  ((env.skx_sock_devs 0).imc 0).src_id = 0 ∧
  (env.skx_sock_devs 0).mcroute = 1 ∧
  env.early_skx_tadbases 0 1 0 = 0 ∧
  env.early_skx_tadwayness 0 1 0 = 0xFFFFF000 ∧
  env.early_skx_tadchnilvoffset 0 1 0 0 = 0 ∧
  env.early_skx_rirwayness 0 1 0 0 = 0x80000FFE ∧
  ((env.skx_sock_devs 0).imc 1).rowbits = 0 ∧
  env.num_rows_per_subarray = 512 ∧
  env.himem_subarray_boundary_row = 0

instance (env : SkxEnv) : Decidable (BlankGeometry env) := by
  unfold BlankGeometry
  infer_instance

/-! ## A machine whose `mcmtr` read fails -/

/-- A `struct skx_dimm` of the zero-initialised static `skx_sock_devs`. -/
def skx_dimm_zero : skx_dimm :=
  { close_pg := 0, bank_xor_enable := 0, fine_grain_bank := 0, rowbits := 0, colbits := 0 }

/-- A `struct skx_channel` of the zero-initialised static `skx_sock_devs`. -/
def skx_channel_zero : skx_channel :=
  { cdev := 0, dimms := fun _ => skx_dimm_zero, cdev_bus := 0, cdev_dev := 0, cdev_func := 0 }

/-- A `struct skx_imc` of the zero-initialised static `skx_sock_devs`. -/
def skx_imc_zero : skx_imc :=
  { src_id := 0, node_id := 0, chan := fun _ => skx_channel_zero, close_pg := 0,
    bank_xor_enable := 0, fine_grain_bank := 0, rowbits := 0, colbits := 0 }

/-- An entry of the zero-initialised static `skx_sock_devs`. -/
def skx_dev_zero : skx_dev :=
  { sad_all := 0, mcroute := 0, imc := fun _ => skx_imc_zero, sad_all_bus := 0,
    sad_all_dev := 0, sad_all_func := 0 }

/-- The registers behind `early_read_pci_config` on a machine with one
socket: device `0x0e` answers 1 at offset `0xB4` (the routing word), device
`0x1d` holds one enabled SAD rule up to `2 ^ 40 - 1` whose eight targets are
all local, every other register reads 0. -/
def regs_one_socket (_bus dev _func off : Nat) : Option Nat :=
  some (if dev = 0x0e then (if off = 0xB4 then 1 else 0)
    else if dev = 0x1d then
      (if off = 0x60 then 0x07FFFF81 else if off = 0x64 then 0x88888888 else 0)
    else 0)

/-- The statics of `skx_base.c` as the file initialises them, over
`regs_one_socket`. -/
def env_boot : SkxEnv :=
  { early_read_pci_config := regs_one_socket
    pci_read_config_dword := fun _ _ => 0
    skx_tolm := 0, skx_tohm := 0, skx_num_sockets := 0
    skx_sock_devs := fun _ => skx_dev_zero
    num_rows_per_subarray := 512
    himem_subarray_boundary_row := 0
    early_skx_tadbases := fun _ _ _ => 0
    early_skx_tadwayness := fun _ _ _ => 0
    early_skx_tadchnilvoffset := fun _ _ _ _ => 0
    early_skx_rirwayness := fun _ _ _ _ => 0
    early_skx_ririlv := fun _ _ _ _ _ => 0 }

/-- The statics of `early_skx_init` before its first call. -/
def g_boot : EarlyGlobals :=
  { env := env_boot, second_socket_empty := 0, num_banks_per_socket := 0 }

/-- A machine on which every read of `mcmtr` (offset `0x87c`) fails and
every other read succeeds: the TAD wayness registers hold `0xFFFFF000`, the
RIR wayness registers `0x80000FFE`, the rest 0; the tops are `0x7C000000`
and `0x87C000000`, and one socket is found. -/
def hw_mcmtr_fails : EarlyHw :=
  { early_init_read_pci_config := fun _ _ _ off =>
      if off = 0x87c then none
      else some (if 0x880 ≤ off ∧ off < 0x8a0 then 0xFFFFF000
        else if 0x108 ≤ off ∧ off < 0x118 then 0x80000FFE else 0)
    early_skx_get_hi_lo := fun _ _ => (0, 0x7C000000, 0x87C000000)
    early_skx_get_all_bus_mappings := fun devs => (1, devs)
    early_skx_get_src_id := fun _ => (0, 0)
    early_skx_get_node_id := fun _ => (0, 0)
    early_skx_get_dimm_info := fun _ _ _ imc _ _ => imc }

/-- Whether the part of `early_skx_init` before the sweeps fell through to
them. -/
def enumerate_fell_through (o : Option (Step EarlyGlobals)) : Bool :=
  match o with
  | some (Step.go _) => true
  | _ => false

/-- The statics that the enumeration of `early_skx_init` leaves on
`hw_mcmtr_fails`. -/
def g_enumerated : EarlyGlobals :=
  match early_skx_init_enumerate hw_mcmtr_fails g_boot with
  | some (Step.go g) => g
  | _ => g_boot

/-! ## The address bits read by stage 4 -/

/-- The bit positions of the rank address from which `early_skx_mad_decode`
builds the row (`rowbits` entries of the row table), the column (`colbits`
entries of the column table), the bank address and the bank group for the
geometry `imc`; the positions xor-ed into the bank fields are not
listed. -/
def early_skx_mad_positions (imc : skx_imc) : List Nat :=
  if imc.close_pg ≠ 0 then
    skx_close_row.take imc.rowbits ++ skx_close_column.take imc.colbits ++ [8, 9] ++ [6, 7]
  else
    skx_open_row.take imc.rowbits ++
      (if imc.fine_grain_bank ≠ 0 then skx_open_fine_column.take imc.colbits
       else skx_open_column.take imc.colbits) ++
      [18, 19] ++ [if imc.fine_grain_bank ≠ 0 then 6 else 13, 17]

/-! ## The first-fit rule of stage 3 -/

/-- The lower bound that the scan of stage 3 has in force at entry `i` of a
table whose entry `j` holds the register value `rir j`: 0 at the first
entry, else the limit of the entry before, whether that one is valid or
not. -/
def rir_prev_limit (rir : Nat → Nat) (i : Nat) : Nat :=
  match i with
  | 0 => 0
  | j + 1 => SKX_RIR_LIMIT (rir j)

/-- Entry `i` of the table passes the test of the scan of stage 3 for the
channel address: it is valid and `prev_limit <= chan_addr <= limit`. -/
def RirEntryFits (rir : Nat → Nat) (chan_addr i : Nat) : Prop :=
  SKX_RIR_VALID (rir i) ≠ 0 ∧ rir_prev_limit rir i ≤ chan_addr ∧ chan_addr ≤ SKX_RIR_LIMIT (rir i)

instance (rir : Nat → Nat) (chan_addr i : Nat) : Decidable (RirEntryFits rir chan_addr i) := by
  unfold RirEntryFits
  infer_instance

/-- The rule as the specification words it: entry `i` is valid and its
limit is at least the channel address. -/
def RirEntryValidBelowLimit (rir : Nat → Nat) (chan_addr i : Nat) : Prop :=
  SKX_RIR_VALID (rir i) ≠ 0 ∧ chan_addr ≤ SKX_RIR_LIMIT (rir i)

instance (rir : Nat → Nat) (chan_addr i : Nat) :
    Decidable (RirEntryValidBelowLimit rir chan_addr i) := by
  unfold RirEntryValidBelowLimit
  infer_instance

/-- The table the early scan of stage 3 reads for the record: the snapshot
`early_skx_rirwayness[socket][imc][channel]`. -/
def early_skx_rir_table (env : SkxEnv) (res : decoded_addr) : Nat → Nat :=
  fun i => env.early_skx_rirwayness res.socket res.imc res.channel i

/-- The table the attached scan of stage 3 reads for the record:
`SKX_GET_RIRWAYNESS(res->dev, res->imc, res->channel, i, rirway)`. -/
def skx_rir_table (env : SkxEnv) (res : decoded_addr) : Nat → Nat :=
  fun i => env.pci_read_config_dword
    (((env.skx_sock_devs res.dev).imc res.imc).chan res.channel).cdev (0x108 + 4 * i)

/-- The shift of the early stage 3: 6 when the controller is in close-page
mode, 13 otherwise. -/
def early_skx_rir_shift (env : SkxEnv) (res : decoded_addr) : Nat :=
  if ((env.skx_sock_devs res.dev).imc res.imc).close_pg ≠ 0 then 6 else 13

/-- The shift of the attached stage 3: 6 when DIMM 0 of the channel is in
close-page mode, 13 otherwise. -/
def skx_rir_shift (env : SkxEnv) (res : decoded_addr) : Nat :=
  if ((((env.skx_sock_devs res.dev).imc res.imc).chan res.channel).dimms 0).close_pg ≠ 0 then 6
  else 13

/-- A configuration whose RIR table has an invalid entry 0 (register value
0, limit `2 ^ 29 - 1`) followed by the valid entry `0x80000FFE`. -/
def env_rir_gap : SkxEnv :=
  { env0 with
    early_skx_rirwayness := fun _ _ _ i => if i = 1 then 0x80000FFE else 0
    pci_read_config_dword := fun _ off => if off = 0x10c then 0x80000FFE else 0 }

/-! ## The indices stage 1 and stage 3 compute -/

/-- The index `idx` that `early_skx_rir_decode` computes after `rir_found:`
and uses as the last subscript of `early_skx_ririlv`; `none` when the scan
finds no entry. -/
def early_skx_rir_idx (env : SkxEnv) (res : decoded_addr) : Option Nat :=
  let shift : Nat := if ((env.skx_sock_devs res.dev).imc res.imc).close_pg ≠ 0 then 6 else 13
  match early_skx_rir_scan env res SKX_MAX_RIR 0 0 with
  | none => none
  | some (_, rirway) => some ((res.chan_addr >>> shift) % SKX_RIR_WAYS rirway)

/-- A configuration whose RIR entry 0 is valid with an 8-way rank
interleave (way field 3) and whose sub-table holds the rank identifier 5 at
sub-entry 4 and 0 elsewhere; open-page geometry. -/
def env_rir_eight : SkxEnv :=
  { env0 with
    early_skx_rirwayness := fun _ _ _ i => if i = 0 then 0xB0000FFE else 0
    early_skx_ririlv := fun _ _ _ _ idx => if idx = 4 then 0x50000 else 0 }

/-- A one-socket configuration whose routing word `0xC0007` holds the
controller number 7 and the channel number 3 for logical channel 0; the
snapshot tables hold a TAD range and a RIR range at these indices only. -/
def env_route_wide : SkxEnv :=
  { env_flat 512 with
    skx_sock_devs := fun _ => { dev_flat with mcroute := 0xC0007 }
    early_skx_tadwayness := fun _ m _ => if m = 7 then 0xFFFFF000 else 0
    early_skx_rirwayness := fun _ m c _ => if m = 7 ∧ c = 3 then 0x80000FFE else 0 }

/-- A decode function that succeeds everywhere, with subarray group 7 below
`0x80000000` and 1 from there on. -/
def decode_lomem_seven : skx_decode_f :=
  fun r => (true, { r with subarray_group := if r.addr < 0x80000000 then 7 else 1 })

/-- The state the parse of the record `[0x100000000, 0x100400000)` of node 0
leaves when the boundary address is `0x100200000` and the decode is
`decode_lomem_seven`. -/
def srat_state_after_seven : SratState :=
  match acpi_numa_memory_affinity_init srat_env0 4 (srat_state0 decode_lomem_seven 0x100200000)
      (srat_record0 0x100000000 0x400000) (rec0 0) with
  | some (_, s) => s
  | none => srat_state0 decode_lomem_seven 0x100200000

/-! # Theorems -/

/-! ## Stage 4 bounds -/

theorem GET_BITFIELD_bit_lt (v b : Nat) : GET_BITFIELD v b b < 2 := by
  unfold GET_BITFIELD
  have h : b + 1 - b = 1 := by omega
  rw [h]
  exact Nat.mod_lt _ (by norm_num)

theorem skx_bank_pair_lt (v b0 b1 : Nat) :
    GET_BITFIELD v b0 b0 ||| (GET_BITFIELD v b1 b1 <<< 1) < 2 ^ 2 := by
  have h0 := GET_BITFIELD_bit_lt v b0
  have h1 := GET_BITFIELD_bit_lt v b1
  apply Nat.or_lt_two_pow
  · omega
  · rw [Nat.shiftLeft_eq]; omega

theorem skx_bank_bits_lt (addr b0 b1 do_xor x0 x1 : Nat) :
    skx_bank_bits addr b0 b1 do_xor x0 x1 < 4 := by
  unfold skx_bank_bits
  have h0 := skx_bank_pair_lt addr b0 b1
  have h1 := skx_bank_pair_lt addr x0 x1
  show (if do_xor ≠ 0 then _ else _) < 2 ^ 2
  split
  · exact Nat.xor_lt_two_pow h0 h1
  · exact h0

theorem row_mask_lt (x n : Nat) : x &&& (2 ^ n - 1) < 2 ^ n := by
  have h1 : x &&& (2 ^ n - 1) ≤ 2 ^ n - 1 := Nat.and_le_right
  have h2 : 0 < 2 ^ n := Nat.pow_pos (by norm_num)
  omega

/-- C1: for every rank-relative address and every geometry with
`rowbits ≤ 17` and `colbits ≤ 10` (close-page or open-page, bank-xor on or
off, fine-grain bank on or off), both stage-4 decoders return true with
`0 ≤ row < 2 ^ rowbits`, `0 ≤ bank_address < 4` and `0 ≤ bank_group < 4`. -/
theorem C1_mad_decode_bounds (env : SkxEnv) (r : decoded_addr)
    (_hrow : ((env.skx_sock_devs r.dev).imc r.imc).rowbits ≤ 17)
    (_hcol : ((env.skx_sock_devs r.dev).imc r.imc).colbits ≤ 10)
    (_hdrow : ((((env.skx_sock_devs r.dev).imc r.imc).chan r.channel).dimms r.dimm).rowbits ≤ 17)
    (_hdcol : ((((env.skx_sock_devs r.dev).imc r.imc).chan r.channel).dimms r.dimm).colbits ≤ 10) :
    ((early_skx_mad_decode env r).1 = true ∧
      0 ≤ (early_skx_mad_decode env r).2.row ∧
      (early_skx_mad_decode env r).2.row <
        2 ^ ((env.skx_sock_devs r.dev).imc r.imc).rowbits ∧
      0 ≤ (early_skx_mad_decode env r).2.bank_address ∧
      (early_skx_mad_decode env r).2.bank_address < 4 ∧
      0 ≤ (early_skx_mad_decode env r).2.bank_group ∧
      (early_skx_mad_decode env r).2.bank_group < 4) ∧
    ((skx_mad_decode env r).1 = true ∧
      0 ≤ (skx_mad_decode env r).2.row ∧
      (skx_mad_decode env r).2.row <
        2 ^ ((((env.skx_sock_devs r.dev).imc r.imc).chan r.channel).dimms r.dimm).rowbits ∧
      0 ≤ (skx_mad_decode env r).2.bank_address ∧
      (skx_mad_decode env r).2.bank_address < 4 ∧
      0 ≤ (skx_mad_decode env r).2.bank_group ∧
      (skx_mad_decode env r).2.bank_group < 4) := by
  refine ⟨⟨rfl, ?_, ?_, ?_, ?_, ?_, ?_⟩, ⟨rfl, ?_, ?_, ?_, ?_, ?_, ?_⟩⟩
  · simp only [early_skx_mad_decode]; exact Int.natCast_nonneg _
  · simp only [early_skx_mad_decode]
    exact_mod_cast row_mask_lt _ _
  · simp only [early_skx_mad_decode]; exact Int.natCast_nonneg _
  · simp only [early_skx_mad_decode]
    split <;> exact_mod_cast skx_bank_bits_lt _ _ _ _ _ _
  · simp only [early_skx_mad_decode]; exact Int.natCast_nonneg _
  · simp only [early_skx_mad_decode]
    split <;> exact_mod_cast skx_bank_bits_lt _ _ _ _ _ _
  · simp only [skx_mad_decode]; exact Int.natCast_nonneg _
  · simp only [skx_mad_decode]
    exact_mod_cast row_mask_lt _ _
  · simp only [skx_mad_decode]; exact Int.natCast_nonneg _
  · simp only [skx_mad_decode]
    split <;> exact_mod_cast skx_bank_bits_lt _ _ _ _ _ _
  · simp only [skx_mad_decode]; exact Int.natCast_nonneg _
  · simp only [skx_mad_decode]
    split <;> exact_mod_cast skx_bank_bits_lt _ _ _ _ _ _

/-- Witness of C1 on the one-socket configuration, at an arbitrary record. -/
theorem C1_mad_decode_bounds_witness :
    (early_skx_mad_decode env0 (rec1 0x12345678)).2.row < 2 ^ 17 ∧
    (early_skx_mad_decode env0 (rec1 0x12345678)).2.bank_address < 4 ∧
    (skx_mad_decode env0 (rec1 0x12345678)).2.row < 2 ^ 17 ∧
    (skx_mad_decode env0 (rec1 0x12345678)).2.bank_group < 4 :=
  have h := C1_mad_decode_bounds env0 (rec1 0x12345678)
    (by decide) (by decide) (by decide) (by decide)
  ⟨h.1.2.2.1, h.1.2.2.2.2.1, h.2.2.2.1, h.2.2.2.2.2.2.2⟩

/-! ## Which fields each stage reads and writes -/

theorem early_skx_sad_finish_fail (env : SkxEnv) (di sad tgt : Nat) (res : decoded_addr)
    (h : (early_skx_sad_finish env di sad tgt res).1 = false) :
    (early_skx_sad_finish env di sad tgt res).2 = res := by
  unfold early_skx_sad_finish at h ⊢
  cases hl : skx_sad_lchan res.addr sad tgt with
  | none => simp
  | some l => simp [hl] at h

/-- A failing `early_skx_sad_decode` leaves the record as it was. -/
theorem early_skx_sad_decode_fail (env : SkxEnv) (res : decoded_addr)
    (h : (early_skx_sad_decode env res).1 = false) :
    (early_skx_sad_decode env res).2 = res := by
  unfold early_skx_sad_decode at h ⊢
  cases h1 : early_skx_sad_pass env (env.skx_sock_devs 0) res.addr with
  | failed => simp
  | hit sad tgt =>
    simp only [h1] at h ⊢
    exact early_skx_sad_finish_fail env 0 sad tgt res h
  | remote tgt =>
    simp only [h1] at h ⊢
    cases h2 : early_skx_find_node env tgt with
    | none => simp
    | some i =>
      simp only [h2] at h ⊢
      cases h3 : early_skx_sad_pass env (env.skx_sock_devs i) res.addr with
      | failed => simp
      | remote t2 => simp
      | hit sad2 tgt2 =>
        simp only [h3] at h ⊢
        exact early_skx_sad_finish_fail env i sad2 tgt2 res h

/-- A failing `early_skx_tad_decode` leaves the record as it was. -/
theorem early_skx_tad_decode_fail (env : SkxEnv) (res : decoded_addr)
    (h : (early_skx_tad_decode env res).1 = false) :
    (early_skx_tad_decode env res).2 = res := by
  unfold early_skx_tad_decode at h ⊢
  cases h1 : early_skx_tad_scan env res SKX_MAX_TAD 0 with
  | none => simp
  | some t => obtain ⟨i, base, wayness⟩ := t; simp [h1] at h

/-- A failing `early_skx_rir_decode` leaves the record as it was. -/
theorem early_skx_rir_decode_fail (env : SkxEnv) (res : decoded_addr)
    (h : (early_skx_rir_decode env res).1 = false) :
    (early_skx_rir_decode env res).2 = res := by
  unfold early_skx_rir_decode at h ⊢
  cases h1 : early_skx_rir_scan env res SKX_MAX_RIR 0 0 with
  | none => simp
  | some t => obtain ⟨i, rirway⟩ := t; simp [h1] at h

/-- The function `early_skx_mad_decode` always returns true. -/
theorem early_skx_mad_decode_ok (env : SkxEnv) (r : decoded_addr) :
    (early_skx_mad_decode env r).1 = true := rfl

/-! ## The `&&` chain of `early_skx_decode_local` -/

theorem decode_local_of_sad_fail (env : SkxEnv) (res : decoded_addr)
    (h1 : (early_skx_sad_decode env res).1 = false) :
    early_skx_decode_local env res = (false, (early_skx_sad_decode env res).2) := by
  unfold early_skx_decode_local
  simp only [h1, Bool.false_eq_true, if_false]

theorem decode_local_of_tad_fail (env : SkxEnv) (res : decoded_addr)
    (h1 : (early_skx_sad_decode env res).1 = true)
    (h2 : (early_skx_tad_decode env (early_skx_sad_decode env res).2).1 = false) :
    early_skx_decode_local env res =
      (false, (early_skx_tad_decode env (early_skx_sad_decode env res).2).2) := by
  unfold early_skx_decode_local
  simp only [h1, h2, Bool.false_eq_true, if_false, if_true]

theorem decode_local_of_rir_fail (env : SkxEnv) (res : decoded_addr)
    (h1 : (early_skx_sad_decode env res).1 = true)
    (h2 : (early_skx_tad_decode env (early_skx_sad_decode env res).2).1 = true)
    (h3 : (early_skx_rir_decode env
      (early_skx_tad_decode env (early_skx_sad_decode env res).2).2).1 = false) :
    early_skx_decode_local env res =
      (false, (early_skx_rir_decode env
        (early_skx_tad_decode env (early_skx_sad_decode env res).2).2).2) := by
  unfold early_skx_decode_local
  simp only [h1, h2, h3, Bool.false_eq_true, if_false, if_true]

theorem decode_local_of_rir_ok (env : SkxEnv) (res : decoded_addr)
    (h1 : (early_skx_sad_decode env res).1 = true)
    (h2 : (early_skx_tad_decode env (early_skx_sad_decode env res).2).1 = true)
    (h3 : (early_skx_rir_decode env
      (early_skx_tad_decode env (early_skx_sad_decode env res).2).2).1 = true) :
    early_skx_decode_local env res =
      early_skx_mad_decode env (early_skx_rir_decode env
        (early_skx_tad_decode env (early_skx_sad_decode env res).2).2).2 := by
  unfold early_skx_decode_local
  simp only [h1, h2, h3, if_true]


/-- C3: `early_skx_decode_local` returns true exactly when the SAD, TAD,
RIR and MAD stages, run in that order each on the record the previous one
left, all return true; when SAD fails the record is returned unchanged,
when TAD (RIR) is the first to fail the record is the one SAD (TAD) left,
and when the first three succeed the result is that of MAD, which never
fails. -/
theorem C3_decode_local_short_circuit (env : SkxEnv) (res : decoded_addr) :
    ((early_skx_decode_local env res).1 = true ↔
      (early_skx_sad_decode env res).1 = true ∧
      (early_skx_tad_decode env (early_skx_sad_decode env res).2).1 = true ∧
      (early_skx_rir_decode env
        (early_skx_tad_decode env (early_skx_sad_decode env res).2).2).1 = true ∧
      (early_skx_mad_decode env (early_skx_rir_decode env
        (early_skx_tad_decode env (early_skx_sad_decode env res).2).2).2).1 = true) ∧
    ((early_skx_sad_decode env res).1 = false →
      early_skx_decode_local env res = (false, res)) ∧
    ((early_skx_sad_decode env res).1 = true →
      (early_skx_tad_decode env (early_skx_sad_decode env res).2).1 = false →
      early_skx_decode_local env res = (false, (early_skx_sad_decode env res).2)) ∧
    ((early_skx_sad_decode env res).1 = true →
      (early_skx_tad_decode env (early_skx_sad_decode env res).2).1 = true →
      (early_skx_rir_decode env
        (early_skx_tad_decode env (early_skx_sad_decode env res).2).2).1 = false →
      early_skx_decode_local env res =
        (false, (early_skx_tad_decode env (early_skx_sad_decode env res).2).2)) ∧
    ((early_skx_sad_decode env res).1 = true →
      (early_skx_tad_decode env (early_skx_sad_decode env res).2).1 = true →
      (early_skx_rir_decode env
        (early_skx_tad_decode env (early_skx_sad_decode env res).2).2).1 = true →
      early_skx_decode_local env res =
        early_skx_mad_decode env (early_skx_rir_decode env
          (early_skx_tad_decode env (early_skx_sad_decode env res).2).2).2 ∧
      (early_skx_decode_local env res).1 = true) := by
  refine ⟨?_, ?_, ?_, ?_, ?_⟩
  · cases h1 : (early_skx_sad_decode env res).1 with
    | false =>
      rw [decode_local_of_sad_fail env res h1]
      exact ⟨fun hc => Bool.noConfusion hc, fun hc => Bool.noConfusion hc.1⟩
    | true =>
      cases h2 : (early_skx_tad_decode env (early_skx_sad_decode env res).2).1 with
      | false =>
        rw [decode_local_of_tad_fail env res h1 h2]
        exact ⟨fun hc => Bool.noConfusion hc, fun hc => Bool.noConfusion hc.2.1⟩
      | true =>
        cases h3 : (early_skx_rir_decode env
            (early_skx_tad_decode env (early_skx_sad_decode env res).2).2).1 with
        | false =>
          rw [decode_local_of_rir_fail env res h1 h2 h3]
          exact ⟨fun hc => Bool.noConfusion hc, fun hc => Bool.noConfusion hc.2.2.1⟩
        | true =>
          rw [decode_local_of_rir_ok env res h1 h2 h3]
          exact ⟨fun hc => ⟨rfl, rfl, rfl, hc⟩, fun hc => hc.2.2.2⟩
  · intro h1
    rw [decode_local_of_sad_fail env res h1, early_skx_sad_decode_fail env res h1]
  · intro h1 h2
    rw [decode_local_of_tad_fail env res h1 h2, early_skx_tad_decode_fail env _ h2]
  · intro h1 h2 h3
    rw [decode_local_of_rir_fail env res h1 h2 h3, early_skx_rir_decode_fail env _ h3]
  · intro h1 h2 h3
    rw [decode_local_of_rir_ok env res h1 h2 h3]
    exact ⟨rfl, early_skx_mad_decode_ok env _⟩

/-! ## The decode is a function of the address -/

theorem early_skx_sad_finish_congr (env : SkxEnv) (di sad tgt : Nat) (r1 r2 : decoded_addr)
    (h : r1.addr = r2.addr) :
    (early_skx_sad_finish env di sad tgt r1).1 = (early_skx_sad_finish env di sad tgt r2).1 ∧
    ((early_skx_sad_finish env di sad tgt r1).1 = true →
      (early_skx_sad_finish env di sad tgt r1).2.addr =
        (early_skx_sad_finish env di sad tgt r2).2.addr ∧
      (early_skx_sad_finish env di sad tgt r1).2.dev =
        (early_skx_sad_finish env di sad tgt r2).2.dev ∧
      (early_skx_sad_finish env di sad tgt r1).2.socket =
        (early_skx_sad_finish env di sad tgt r2).2.socket ∧
      (early_skx_sad_finish env di sad tgt r1).2.imc =
        (early_skx_sad_finish env di sad tgt r2).2.imc ∧
      (early_skx_sad_finish env di sad tgt r1).2.channel =
        (early_skx_sad_finish env di sad tgt r2).2.channel) := by
  unfold early_skx_sad_finish
  rw [h]
  cases skx_sad_lchan r2.addr sad tgt with
  | none => simp
  | some l => simp [h]

theorem early_skx_sad_decode_congr (env : SkxEnv) (r1 r2 : decoded_addr)
    (h : r1.addr = r2.addr) :
    (early_skx_sad_decode env r1).1 = (early_skx_sad_decode env r2).1 ∧
    ((early_skx_sad_decode env r1).1 = true →
      (early_skx_sad_decode env r1).2.addr = (early_skx_sad_decode env r2).2.addr ∧
      (early_skx_sad_decode env r1).2.dev = (early_skx_sad_decode env r2).2.dev ∧
      (early_skx_sad_decode env r1).2.socket = (early_skx_sad_decode env r2).2.socket ∧
      (early_skx_sad_decode env r1).2.imc = (early_skx_sad_decode env r2).2.imc ∧
      (early_skx_sad_decode env r1).2.channel = (early_skx_sad_decode env r2).2.channel) := by
  unfold early_skx_sad_decode
  rw [h]
  cases h1 : early_skx_sad_pass env (env.skx_sock_devs 0) r2.addr with
  | failed => simp
  | hit sad tgt => exact early_skx_sad_finish_congr env 0 sad tgt r1 r2 h
  | remote tgt =>
    simp only []
    cases h2 : early_skx_find_node env tgt with
    | none => simp
    | some i =>
      simp only []
      cases h3 : early_skx_sad_pass env (env.skx_sock_devs i) r2.addr with
      | failed => simp
      | remote t2 => simp
      | hit sad2 tgt2 => exact early_skx_sad_finish_congr env i sad2 tgt2 r1 r2 h

theorem early_skx_tad_scan_congr (env : SkxEnv) (a b : decoded_addr)
    (haddr : a.addr = b.addr) (hs : a.socket = b.socket) (hi : a.imc = b.imc) (n i : Nat) :
    early_skx_tad_scan env a n i = early_skx_tad_scan env b n i := by
  induction n generalizing i with
  | zero => rfl
  | succ n ih => simp only [early_skx_tad_scan, haddr, hs, hi, ih]

theorem early_skx_tad_decode_congr (env : SkxEnv) (a b : decoded_addr)
    (haddr : a.addr = b.addr) (hd : a.dev = b.dev) (hs : a.socket = b.socket)
    (hi : a.imc = b.imc) (hc : a.channel = b.channel) :
    (early_skx_tad_decode env a).1 = (early_skx_tad_decode env b).1 ∧
    ((early_skx_tad_decode env a).1 = true →
      (early_skx_tad_decode env a).2.addr = (early_skx_tad_decode env b).2.addr ∧
      (early_skx_tad_decode env a).2.dev = (early_skx_tad_decode env b).2.dev ∧
      (early_skx_tad_decode env a).2.socket = (early_skx_tad_decode env b).2.socket ∧
      (early_skx_tad_decode env a).2.imc = (early_skx_tad_decode env b).2.imc ∧
      (early_skx_tad_decode env a).2.channel = (early_skx_tad_decode env b).2.channel ∧
      (early_skx_tad_decode env a).2.sktways = (early_skx_tad_decode env b).2.sktways ∧
      (early_skx_tad_decode env a).2.chanways = (early_skx_tad_decode env b).2.chanways ∧
      (early_skx_tad_decode env a).2.chan_addr = (early_skx_tad_decode env b).2.chan_addr) := by
  unfold early_skx_tad_decode
  rw [early_skx_tad_scan_congr env a b haddr hs hi]
  cases early_skx_tad_scan env b SKX_MAX_TAD 0 with
  | none => simp
  | some t =>
    obtain ⟨i, base, wayness⟩ := t
    simp [haddr, hd, hs, hi, hc]

theorem early_skx_rir_scan_congr (env : SkxEnv) (a b : decoded_addr)
    (hs : a.socket = b.socket) (hi : a.imc = b.imc) (hc : a.channel = b.channel)
    (hca : a.chan_addr = b.chan_addr) (n i p : Nat) :
    early_skx_rir_scan env a n i p = early_skx_rir_scan env b n i p := by
  induction n generalizing i p with
  | zero => rfl
  | succ n ih => simp only [early_skx_rir_scan, hs, hi, hc, hca, ih]

theorem early_skx_rir_decode_congr (env : SkxEnv) (a b : decoded_addr)
    (haddr : a.addr = b.addr) (hd : a.dev = b.dev) (hs : a.socket = b.socket)
    (hi : a.imc = b.imc) (hc : a.channel = b.channel) (hsw : a.sktways = b.sktways)
    (hcw : a.chanways = b.chanways) (hca : a.chan_addr = b.chan_addr) :
    (early_skx_rir_decode env a).1 = (early_skx_rir_decode env b).1 ∧
    ((early_skx_rir_decode env a).1 = true →
      (early_skx_rir_decode env a).2.addr = (early_skx_rir_decode env b).2.addr ∧
      (early_skx_rir_decode env a).2.dev = (early_skx_rir_decode env b).2.dev ∧
      (early_skx_rir_decode env a).2.socket = (early_skx_rir_decode env b).2.socket ∧
      (early_skx_rir_decode env a).2.imc = (early_skx_rir_decode env b).2.imc ∧
      (early_skx_rir_decode env a).2.channel = (early_skx_rir_decode env b).2.channel ∧
      (early_skx_rir_decode env a).2.sktways = (early_skx_rir_decode env b).2.sktways ∧
      (early_skx_rir_decode env a).2.chanways = (early_skx_rir_decode env b).2.chanways ∧
      (early_skx_rir_decode env a).2.chan_addr = (early_skx_rir_decode env b).2.chan_addr ∧
      (early_skx_rir_decode env a).2.dimm = (early_skx_rir_decode env b).2.dimm ∧
      (early_skx_rir_decode env a).2.rank = (early_skx_rir_decode env b).2.rank ∧
      (early_skx_rir_decode env a).2.rank_address =
        (early_skx_rir_decode env b).2.rank_address) := by
  unfold early_skx_rir_decode
  rw [early_skx_rir_scan_congr env a b hs hi hc hca]
  cases early_skx_rir_scan env b SKX_MAX_RIR 0 0 with
  | none => simp
  | some t =>
    obtain ⟨i, rirway⟩ := t
    simp [haddr, hd, hs, hi, hc, hsw, hcw, hca]

theorem early_skx_mad_decode_congr (env : SkxEnv) (a b : decoded_addr)
    (hd : a.dev = b.dev) (hs : a.socket = b.socket)
    (hi : a.imc = b.imc) (hc : a.channel = b.channel) (hsw : a.sktways = b.sktways)
    (hcw : a.chanways = b.chanways) (hca : a.chan_addr = b.chan_addr)
    (hdi : a.dimm = b.dimm) (hr : a.rank = b.rank) (hra : a.rank_address = b.rank_address) :
    (early_skx_mad_decode env a).2.socket = (early_skx_mad_decode env b).2.socket ∧
    (early_skx_mad_decode env a).2.imc = (early_skx_mad_decode env b).2.imc ∧
    (early_skx_mad_decode env a).2.channel = (early_skx_mad_decode env b).2.channel ∧
    (early_skx_mad_decode env a).2.chan_addr = (early_skx_mad_decode env b).2.chan_addr ∧
    (early_skx_mad_decode env a).2.sktways = (early_skx_mad_decode env b).2.sktways ∧
    (early_skx_mad_decode env a).2.chanways = (early_skx_mad_decode env b).2.chanways ∧
    (early_skx_mad_decode env a).2.dimm = (early_skx_mad_decode env b).2.dimm ∧
    (early_skx_mad_decode env a).2.rank = (early_skx_mad_decode env b).2.rank ∧
    (early_skx_mad_decode env a).2.rank_address = (early_skx_mad_decode env b).2.rank_address ∧
    (early_skx_mad_decode env a).2.row = (early_skx_mad_decode env b).2.row ∧
    (early_skx_mad_decode env a).2.column = (early_skx_mad_decode env b).2.column ∧
    (early_skx_mad_decode env a).2.bank_address = (early_skx_mad_decode env b).2.bank_address ∧
    (early_skx_mad_decode env a).2.bank_group = (early_skx_mad_decode env b).2.bank_group ∧
    (early_skx_mad_decode env a).2.subarray_group =
      (early_skx_mad_decode env b).2.subarray_group := by
  simp only [early_skx_mad_decode, hd, hs, hi, hc, hsw, hcw, hca, hdi, hr, hra]
  simp

/-- C2: for a fixed configuration (tables, geometry, rows per group and
boundary row), two runs of `early_skx_decode_local` on records with the
same `addr` and arbitrary other contents return the same flag and, when it
is true, the same socket, imc, channel, chan_addr, sktways, chanways, dimm,
rank, rank_address, row, column, bank_address, bank_group and
subarray_group. -/
theorem C2_decode_local_function_of_addr (env : SkxEnv) (r1 r2 : decoded_addr)
    (h : r1.addr = r2.addr) :
    (early_skx_decode_local env r1).1 = (early_skx_decode_local env r2).1 ∧
    ((early_skx_decode_local env r1).1 = true →
      (early_skx_decode_local env r1).2.socket = (early_skx_decode_local env r2).2.socket ∧
      (early_skx_decode_local env r1).2.imc = (early_skx_decode_local env r2).2.imc ∧
      (early_skx_decode_local env r1).2.channel = (early_skx_decode_local env r2).2.channel ∧
      (early_skx_decode_local env r1).2.chan_addr = (early_skx_decode_local env r2).2.chan_addr ∧
      (early_skx_decode_local env r1).2.sktways = (early_skx_decode_local env r2).2.sktways ∧
      (early_skx_decode_local env r1).2.chanways = (early_skx_decode_local env r2).2.chanways ∧
      (early_skx_decode_local env r1).2.dimm = (early_skx_decode_local env r2).2.dimm ∧
      (early_skx_decode_local env r1).2.rank = (early_skx_decode_local env r2).2.rank ∧
      (early_skx_decode_local env r1).2.rank_address =
        (early_skx_decode_local env r2).2.rank_address ∧
      (early_skx_decode_local env r1).2.row = (early_skx_decode_local env r2).2.row ∧
      (early_skx_decode_local env r1).2.column = (early_skx_decode_local env r2).2.column ∧
      (early_skx_decode_local env r1).2.bank_address =
        (early_skx_decode_local env r2).2.bank_address ∧
      (early_skx_decode_local env r1).2.bank_group =
        (early_skx_decode_local env r2).2.bank_group ∧
      (early_skx_decode_local env r1).2.subarray_group =
        (early_skx_decode_local env r2).2.subarray_group) := by
  obtain ⟨e1, k1⟩ := early_skx_sad_decode_congr env r1 r2 h
  cases h1 : (early_skx_sad_decode env r2).1 with
  | false =>
    have h1' : (early_skx_sad_decode env r1).1 = false := by rw [e1]; exact h1
    rw [decode_local_of_sad_fail env r1 h1', decode_local_of_sad_fail env r2 h1]
    exact ⟨rfl, fun hc => Bool.noConfusion hc⟩
  | true =>
    have h1' : (early_skx_sad_decode env r1).1 = true := by rw [e1]; exact h1
    obtain ⟨a1, a2, a3, a4, a5⟩ := k1 h1'
    obtain ⟨e2, k2⟩ := early_skx_tad_decode_congr env _ _ a1 a2 a3 a4 a5
    cases h2 : (early_skx_tad_decode env (early_skx_sad_decode env r2).2).1 with
    | false =>
      have h2' : (early_skx_tad_decode env (early_skx_sad_decode env r1).2).1 = false := by
        rw [e2]; exact h2
      rw [decode_local_of_tad_fail env r1 h1' h2', decode_local_of_tad_fail env r2 h1 h2]
      exact ⟨rfl, fun hc => Bool.noConfusion hc⟩
    | true =>
      have h2' : (early_skx_tad_decode env (early_skx_sad_decode env r1).2).1 = true := by
        rw [e2]; exact h2
      obtain ⟨b1, b2, b3, b4, b5, b6, b7, b8⟩ := k2 h2'
      obtain ⟨e3, k3⟩ := early_skx_rir_decode_congr env _ _ b1 b2 b3 b4 b5 b6 b7 b8
      cases h3 : (early_skx_rir_decode env
          (early_skx_tad_decode env (early_skx_sad_decode env r2).2).2).1 with
      | false =>
        have h3' : (early_skx_rir_decode env
            (early_skx_tad_decode env (early_skx_sad_decode env r1).2).2).1 = false := by
          rw [e3]; exact h3
        rw [decode_local_of_rir_fail env r1 h1' h2' h3',
          decode_local_of_rir_fail env r2 h1 h2 h3]
        exact ⟨rfl, fun hc => Bool.noConfusion hc⟩
      | true =>
        have h3' : (early_skx_rir_decode env
            (early_skx_tad_decode env (early_skx_sad_decode env r1).2).2).1 = true := by
          rw [e3]; exact h3
        obtain ⟨c1, c2, c3, c4, c5, c6, c7, c8, c9, c10, c11⟩ := k3 h3'
        rw [decode_local_of_rir_ok env r1 h1' h2' h3', decode_local_of_rir_ok env r2 h1 h2 h3]
        refine ⟨?_, fun _ => ?_⟩
        · rw [early_skx_mad_decode_ok, early_skx_mad_decode_ok]
        · exact early_skx_mad_decode_congr env _ _ c2 c3 c4 c5 c6 c7 c8 c9 c10 c11

/-- Witness of C2: two records with the same address and different other
contents, on the one-socket configuration. -/
theorem C2_decode_local_function_of_addr_witness :
    (rec0 0x1000).addr = (rec1 0x1000).addr ∧
    (early_skx_decode_local env0 (rec0 0x1000)).1 =
      (early_skx_decode_local env0 (rec1 0x1000)).1 :=
  ⟨rfl, (C2_decode_local_function_of_addr env0 (rec0 0x1000) (rec1 0x1000) rfl).1⟩

/-! ## The proximity-domain maps -/

theorem first_unset_node_spec (k : SratConst) (found : Nat → Bool)
    (h : nodes_weight k found < k.MAX_NUMNODES) :
    found (first_unset_node k found) = false := by
  unfold first_unset_node
  cases hf : (List.range k.MAX_NUMNODES).find? (fun n => !found n) with
  | some n =>
    have := List.find?_some hf
    simpa using this
  | none =>
    exfalso
    rw [List.find?_eq_none] at hf
    have hall : (List.range k.MAX_NUMNODES).filter (fun n => found n) =
        List.range k.MAX_NUMNODES := by
      rw [List.filter_eq_self]
      intro a ha
      have := hf a ha
      simpa using this
    unfold nodes_weight at h
    rw [hall, List.length_range] at h
    exact Nat.lt_irrefl _ h

/-- One call of `acpi_map_pxm_to_node` keeps the two maps inverse to each
other on their assigned entries. -/
theorem acpi_map_pxm_to_node_inv (k : SratConst) (m : PxmMaps) (pxm : Int)
    (h1 : ∀ d, m.pxm_to_node_map d ≠ NUMA_NO_NODE →
      0 ≤ d ∧ 0 ≤ m.pxm_to_node_map d ∧
      m.nodes_found_map (m.pxm_to_node_map d).toNat = true ∧
      m.node_to_pxm_map (m.pxm_to_node_map d) = d)
    (h2 : ∀ n, m.node_to_pxm_map n ≠ PXM_INVAL →
      0 ≤ n ∧ 0 ≤ m.node_to_pxm_map n ∧
      m.nodes_found_map n.toNat = true ∧
      m.pxm_to_node_map (m.node_to_pxm_map n) = n) :
    (∀ d, (acpi_map_pxm_to_node k m pxm).2.pxm_to_node_map d ≠ NUMA_NO_NODE →
      0 ≤ d ∧ 0 ≤ (acpi_map_pxm_to_node k m pxm).2.pxm_to_node_map d ∧
      (acpi_map_pxm_to_node k m pxm).2.nodes_found_map
        ((acpi_map_pxm_to_node k m pxm).2.pxm_to_node_map d).toNat = true ∧
      (acpi_map_pxm_to_node k m pxm).2.node_to_pxm_map
        ((acpi_map_pxm_to_node k m pxm).2.pxm_to_node_map d) = d) ∧
    (∀ n, (acpi_map_pxm_to_node k m pxm).2.node_to_pxm_map n ≠ PXM_INVAL →
      0 ≤ n ∧ 0 ≤ (acpi_map_pxm_to_node k m pxm).2.node_to_pxm_map n ∧
      (acpi_map_pxm_to_node k m pxm).2.nodes_found_map n.toNat = true ∧
      (acpi_map_pxm_to_node k m pxm).2.pxm_to_node_map
        ((acpi_map_pxm_to_node k m pxm).2.node_to_pxm_map n) = n) := by
  unfold acpi_map_pxm_to_node
  by_cases hg : pxm < 0 ∨ pxm ≥ (k.MAX_PXM_DOMAINS : Int) ∨ k.numa_off = true
  · simp only [hg, if_true]
    exact ⟨h1, h2⟩
  · simp only [hg, if_false]
    by_cases hn : m.pxm_to_node_map pxm = NUMA_NO_NODE
    · simp only [hn, if_true]
      by_cases hw : nodes_weight k m.nodes_found_map ≥ k.MAX_NUMNODES
      · simp only [hw, if_true]
        exact ⟨h1, h2⟩
      · simp only [hw, if_false]
        have hfree := first_unset_node_spec k m.nodes_found_map (by omega)
        generalize first_unset_node k m.nodes_found_map = node at hfree
        have hpxm0 : 0 ≤ pxm := by
          by_contra hc
          exact hg (Or.inl (by omega))
        have hn2p : m.node_to_pxm_map (node : Int) = PXM_INVAL := by
          by_contra hc
          have := (h2 _ hc).2.2.1
          rw [Int.toNat_ofNat] at this
          rw [this] at hfree
          exact Bool.noConfusion hfree
        have hpx_ne : pxm ≠ PXM_INVAL := by
          unfold PXM_INVAL; omega
        have hnode_ne : (node : Int) ≠ NUMA_NO_NODE := by
          unfold NUMA_NO_NODE; omega
        simp only [__acpi_map_pxm_to_node, hn, hn2p, true_or, if_true, node_set]
        constructor
        · intro d hd
          by_cases hdp : d = pxm
          · subst hdp
            simp only [if_true, Int.toNat_ofNat]
            exact ⟨hpxm0, Int.natCast_nonneg _, trivial, trivial⟩
          · simp only [hdp, if_false] at hd ⊢
            obtain ⟨a, b, c, e⟩ := h1 d hd
            have hne : m.pxm_to_node_map d ≠ (node : Int) := by
              intro hc
              rw [hc, Int.toNat_ofNat, hfree] at c
              exact Bool.noConfusion c
            have hne' : (m.pxm_to_node_map d).toNat ≠ node := by
              intro hc
              apply hne
              rw [← hc, Int.toNat_of_nonneg b]
            simp only [hne, hne', if_false]
            exact ⟨a, b, c, e⟩
        · intro n hnn
          by_cases hnd : n = (node : Int)
          · subst hnd
            simp only [if_true, Int.toNat_ofNat]
            exact ⟨Int.natCast_nonneg _, hpxm0, trivial, trivial⟩
          · simp only [hnd, if_false] at hnn ⊢
            obtain ⟨a, b, c, e⟩ := h2 n hnn
            have hne : m.node_to_pxm_map n ≠ pxm := by
              intro hc
              rw [hc, hn] at e
              rw [← e] at a
              unfold NUMA_NO_NODE at a
              omega
            have hne' : n.toNat ≠ node := by
              intro hc
              apply hnd
              rw [← hc, Int.toNat_of_nonneg a]
            simp only [hne, hne', if_false]
            exact ⟨a, b, c, e⟩
    · simp only [hn, if_false]
      exact ⟨h1, h2⟩

/-- In every reachable state the two maps are inverse to each other on
their assigned entries. -/
theorem pxm_reachable_inv (k : SratConst) (m : PxmMaps) (h : PxmReachable k m) :
    (∀ d, m.pxm_to_node_map d ≠ NUMA_NO_NODE →
      0 ≤ d ∧ 0 ≤ m.pxm_to_node_map d ∧
      m.nodes_found_map (m.pxm_to_node_map d).toNat = true ∧
      m.node_to_pxm_map (m.pxm_to_node_map d) = d) ∧
    (∀ n, m.node_to_pxm_map n ≠ PXM_INVAL →
      0 ≤ n ∧ 0 ≤ m.node_to_pxm_map n ∧
      m.nodes_found_map n.toNat = true ∧
      m.pxm_to_node_map (m.node_to_pxm_map n) = n) := by
  induction h with
  | init =>
    constructor
    · intro d hd; exact absurd rfl hd
    · intro n hn; exact absurd rfl hn
  | step m pxm _ ih => exact acpi_map_pxm_to_node_inv k m pxm ih.1 ih.2

theorem pxm_to_node_assigned (k : SratConst) (m : PxmMaps) (d : Int)
    (h : pxm_to_node k m d ≠ NUMA_NO_NODE) :
    pxm_to_node k m d = m.pxm_to_node_map d := by
  unfold pxm_to_node at h ⊢
  by_cases hg : d < 0 ∨ d ≥ (k.MAX_PXM_DOMAINS : Int) ∨ k.numa_off = true
  · simp only [hg, if_true] at h; exact absurd rfl h
  · simp only [hg, if_false]

theorem node_to_pxm_assigned (m : PxmMaps) (n : Int)
    (h : node_to_pxm m n ≠ PXM_INVAL) :
    node_to_pxm m n = m.node_to_pxm_map n := by
  unfold node_to_pxm at h ⊢
  by_cases hg : n < 0
  · simp only [hg, if_true] at h; exact absurd rfl h
  · simp only [hg, if_false]

/-- C8: in every state reachable from the initial maps by calls of
`acpi_map_pxm_to_node`, two distinct assigned proximity domains map to two
distinct nodes, two distinct assigned nodes map back to two distinct
domains, and `node_to_pxm (pxm_to_node d) = d` for every assigned domain
`d`. -/
theorem C8_pxm_map_bijection (k : SratConst) (m : PxmMaps) (h : PxmReachable k m) :
    (∀ d1 d2 : Int, d1 ≠ d2 → pxm_to_node k m d1 ≠ NUMA_NO_NODE →
      pxm_to_node k m d2 ≠ NUMA_NO_NODE → pxm_to_node k m d1 ≠ pxm_to_node k m d2) ∧
    (∀ n1 n2 : Int, n1 ≠ n2 → node_to_pxm m n1 ≠ PXM_INVAL →
      node_to_pxm m n2 ≠ PXM_INVAL → node_to_pxm m n1 ≠ node_to_pxm m n2) ∧
    (∀ d : Int, pxm_to_node k m d ≠ NUMA_NO_NODE →
      node_to_pxm m (pxm_to_node k m d) = d) := by
  obtain ⟨i1, i2⟩ := pxm_reachable_inv k m h
  refine ⟨?_, ?_, ?_⟩
  · intro d1 d2 hne a1 a2 heq
    have q1 := pxm_to_node_assigned k m d1 a1
    have q2 := pxm_to_node_assigned k m d2 a2
    rw [q1] at a1 heq
    rw [q2] at a2 heq
    have e1 := (i1 d1 a1).2.2.2
    have e2 := (i1 d2 a2).2.2.2
    rw [heq, e2] at e1
    exact hne e1.symm
  · intro n1 n2 hne a1 a2 heq
    have q1 := node_to_pxm_assigned m n1 a1
    have q2 := node_to_pxm_assigned m n2 a2
    rw [q1] at a1 heq
    rw [q2] at a2 heq
    have e1 := (i2 n1 a1).2.2.2
    have e2 := (i2 n2 a2).2.2.2
    rw [heq, e2] at e1
    exact hne e1.symm
  · intro d a
    have q := pxm_to_node_assigned k m d a
    rw [q] at a ⊢
    obtain ⟨_, b, _, e⟩ := i1 d a
    unfold node_to_pxm
    have : ¬ m.pxm_to_node_map d < 0 := by omega
    simp only [this, if_false]
    exact e

/-- Witness of C8: after domain 3 and then domain 0 were mapped. -/
theorem C8_pxm_map_bijection_witness :
    PxmReachable k0 pxm_maps_three_zero ∧
    node_to_pxm pxm_maps_three_zero (pxm_to_node k0 pxm_maps_three_zero 3) = 3 :=
  have hr : PxmReachable k0 pxm_maps_three_zero :=
    PxmReachable.step _ 0 (PxmReachable.step _ 3 PxmReachable.init)
  ⟨hr, (C8_pxm_map_bijection k0 pxm_maps_three_zero hr).2.2 3 (by decide)⟩

/-! ## The SLIT sanity check -/

theorem int_of_u64_small (x : Nat) (h : x < 2 ^ 31) : int_of_u64 x = (x : Int) := by
  unfold int_of_u64
  have h1 : x % 2 ^ 32 = x := Nat.mod_eq_of_lt (by omega)
  rw [h1]
  simp only [h, if_true]

theorem slit_valid_eq_one_iff (k : SratConst) (slit : acpi_table_slit)
    (hfit : slit.locality_count < 2 ^ 31) :
    slit_valid k slit = 1 ↔
      ∀ i j, i < slit.locality_count → j < slit.locality_count →
        (i = j → slit.entry (slit.locality_count * i + j) = k.LOCAL_DISTANCE) ∧
        (i ≠ j → slit.entry (slit.locality_count * i + j) > k.LOCAL_DISTANCE) := by
  unfold slit_valid
  rw [int_of_u64_small _ hfit]
  simp only [Int.toNat_ofNat]
  have hidx : ∀ i j : Nat, ((slit.locality_count : Int) * (i : Int) + (j : Int)).toNat =
      slit.locality_count * i + j := by
    intro i j
    have : ((slit.locality_count : Int) * (i : Int) + (j : Int)) =
        ((slit.locality_count * i + j : Nat) : Int) := by push_cast; ring
    rw [this, Int.toNat_ofNat]
  constructor
  · intro h i j hi hj
    have hall : ((List.range slit.locality_count).all fun i =>
        (List.range slit.locality_count).all fun j =>
          if i = j then
            decide (slit.entry ((slit.locality_count : Int) * (i : Int) + (j : Int)).toNat =
              k.LOCAL_DISTANCE)
          else
            decide (¬ slit.entry ((slit.locality_count : Int) * (i : Int) + (j : Int)).toNat ≤
              k.LOCAL_DISTANCE)) = true := by
      by_contra hc
      simp only [hc] at h
      exact absurd h (by decide)
    rw [List.all_eq_true] at hall
    have hrow := hall i (List.mem_range.mpr hi)
    rw [List.all_eq_true] at hrow
    have hcell := hrow j (List.mem_range.mpr hj)
    rw [hidx] at hcell
    constructor
    · intro hij
      subst hij
      simp only [if_true, decide_eq_true_eq] at hcell
      exact hcell
    · intro hij
      simp only [hij, if_false, decide_eq_true_eq] at hcell
      omega
  · intro h
    have hall : ((List.range slit.locality_count).all fun i =>
        (List.range slit.locality_count).all fun j =>
          if i = j then
            decide (slit.entry ((slit.locality_count : Int) * (i : Int) + (j : Int)).toNat =
              k.LOCAL_DISTANCE)
          else
            decide (¬ slit.entry ((slit.locality_count : Int) * (i : Int) + (j : Int)).toNat ≤
              k.LOCAL_DISTANCE)) = true := by
      rw [List.all_eq_true]
      intro i hi
      rw [List.all_eq_true]
      intro j hj
      rw [hidx]
      obtain ⟨a, b⟩ := h i j (List.mem_range.mp hi) (List.mem_range.mp hj)
      by_cases hij : i = j
      · have := a hij
        subst hij
        simp only [if_true, decide_eq_true_eq]
        exact this
      · simp only [hij, if_false, decide_eq_true_eq]
        have := b hij
        omega
    simp only [hall, if_true]

theorem slit_valid_zero_or_one (k : SratConst) (slit : acpi_table_slit) :
    slit_valid k slit = 0 ∨ slit_valid k slit = 1 := by
  unfold slit_valid
  simp only []
  split
  · exact Or.inr rfl
  · exact Or.inl rfl

/-- C9: on a table whose locality count fits the `int` it is read into,
`slit_valid` returns 1 if and only if every diagonal entry of the
`locality_count × locality_count` matrix equals `LOCAL_DISTANCE` and every
off-diagonal entry is greater than `LOCAL_DISTANCE`, and returns 0
otherwise; when it returns 0, `acpi_parse_slit` returns the error
`-EINVAL` and leaves the distances (and the two recorded constants) as they
were; a table with at least two localities all of whose entries are equal
is rejected in this way. -/
theorem C9_slit_valid_and_reject (k : SratConst) (slit : acpi_table_slit)
    (hfit : slit.locality_count < 2 ^ 31) :
    (slit_valid k slit = 1 ↔
      ∀ i j, i < slit.locality_count → j < slit.locality_count →
        (i = j → slit.entry (slit.locality_count * i + j) = k.LOCAL_DISTANCE) ∧
        (i ≠ j → slit.entry (slit.locality_count * i + j) > k.LOCAL_DISTANCE)) ∧
    (slit_valid k slit ≠ 1 → slit_valid k slit = 0) ∧
    (∀ (m : PxmMaps) (siloz_total_nodes : Int) (first_remote_group : Nat) (st : SlitState),
      slit_valid k slit = 0 →
        acpi_parse_slit k m siloz_total_nodes first_remote_group slit st = (-EINVAL, st) ∧
        (acpi_parse_slit k m siloz_total_nodes first_remote_group slit st).1 < 0) ∧
    (2 ≤ slit.locality_count →
      (∀ i j, i < slit.locality_count → j < slit.locality_count →
        slit.entry (slit.locality_count * i + j) = slit.entry 0) →
      slit_valid k slit = 0) := by
  refine ⟨slit_valid_eq_one_iff k slit hfit, ?_, ?_, ?_⟩
  · intro h
    rcases slit_valid_zero_or_one k slit with h0 | h1
    · exact h0
    · exact absurd h1 h
  · intro m T frg st h0
    unfold acpi_parse_slit
    simp only [h0, if_true]
    exact ⟨trivial, by decide⟩
  · intro h2 hflat
    rcases slit_valid_zero_or_one k slit with h0 | h1
    · exact h0
    · exfalso
      rw [slit_valid_eq_one_iff k slit hfit] at h1
      have hd := (h1 0 0 (by omega) (by omega)).1 rfl
      have ho := (h1 0 1 (by omega) (by omega)).2 (by omega)
      have hf := hflat 0 1 (by omega) (by omega)
      simp only [Nat.mul_zero, Nat.zero_add] at hd ho hf
      omega

/-- Witness of C9: the two-locality table every entry of which is 10 is
rejected and no distance is set. -/
theorem C9_slit_valid_and_reject_witness :
    slit_flat.locality_count < 2 ^ 31 ∧
    slit_valid k0 slit_flat = 0 ∧
    acpi_parse_slit k0 pxm_maps_two 8 7 slit_flat slit_state_init =
      (-EINVAL, slit_state_init) :=
  have h := C9_slit_valid_and_reject k0 slit_flat (by decide)
  have h0 : slit_valid k0 slit_flat = 0 := h.2.2.2 (by decide) (fun _ _ _ _ => rfl)
  ⟨by decide, h0, (h.2.2.1 pxm_maps_two 8 7 slit_state_init h0).1⟩

/-! ## Distance synthesis -/

theorem foldl_range_inv {σ : Type} (f : σ → Nat → σ) (Inv : Nat → σ → Prop) (n : Nat) (s0 : σ)
    (h0 : Inv 0 s0) (hstep : ∀ i s, i < n → Inv i s → Inv (i + 1) (f s i)) :
    Inv n ((List.range n).foldl f s0) := by
  induction n with
  | zero => simpa using h0
  | succ n ih =>
    rw [List.range_succ, List.foldl_append]
    simp only [List.foldl_cons, List.foldl_nil]
    apply hstep n _ (Nat.lt_succ_self n)
    exact ih (fun i s hi => hstep i s (Nat.lt_succ_of_lt hi))

/-- The cell `(i, j)` of the `else` branch, when column `j` has a node, sets
the distance of `(from_node, slit_node j)`: to the firmware entry inside
the firmware matrix (recording it as local or remote distance), to the
synthesized distance outside. -/
theorem slit_init_cell_eq (k : SratConst) (m : PxmMaps) (T : Int) (frg : Nat)
    (slit : acpi_table_slit) (i j : Nat) (from_node : Int) (st : SlitState)
    (hto : slit_node k m slit j ≠ NUMA_NO_NODE) :
    acpi_numa_slit_init_cell k m T frg slit i from_node st j =
      if i < slit.locality_count ∧ j < slit.locality_count then
        numa_set_distance
          (if i = j then
            { st with local_distance :=
                (slit.entry ((slit.locality_count * i + j) % 2 ^ 64) : Int) }
          else
            { st with remote_distance :=
                (slit.entry ((slit.locality_count * i + j) % 2 ^ 64) : Int) })
          from_node (slit_node k m slit j)
          (slit.entry ((slit.locality_count * i + j) % 2 ^ 64) : Int)
      else
        numa_set_distance st from_node (slit_node k m slit j)
          (slit_synth_distance k T frg st.local_distance st.remote_distance i j) := by
  have e : (if j < slit.locality_count then pxm_to_node k m (j : Int) else (j : Int)) =
      slit_node k m slit j := rfl
  unfold acpi_numa_slit_init_cell
  simp only [e]
  generalize slit_node k m slit j = tn at hto ⊢
  simp only [hto, if_false]
  by_cases hf : i < slit.locality_count ∧ j < slit.locality_count
  · simp only [hf, and_self, if_true]
  · simp only [hf, if_false]
    unfold slit_synth_distance
    split_ifs <;> rfl

/-- Row `i` of the `else` branch, when row `i` has a node, is the fold of
its cells with `from_node = slit_node i`. -/
theorem slit_init_row_eq (k : SratConst) (m : PxmMaps) (T : Int) (frg : Nat)
    (slit : acpi_table_slit) (i : Nat) (st : SlitState)
    (hfrom : slit_node k m slit i ≠ NUMA_NO_NODE) :
    acpi_numa_slit_init_row k m T frg slit st i =
      (List.range T.toNat).foldl
        (acpi_numa_slit_init_cell k m T frg slit i (slit_node k m slit i)) st := by
  unfold slit_node at hfrom ⊢
  unfold acpi_numa_slit_init_row
  simp only [hfrom, if_false]

theorem slit_node_ne (k : SratConst) (m : PxmMaps) (slit : acpi_table_slit)
    (hmapped : ∀ a : Nat, a < slit.locality_count → pxm_to_node k m (a : Int) ≠ NUMA_NO_NODE)
    (a : Nat) : slit_node k m slit a ≠ NUMA_NO_NODE := by
  unfold slit_node
  split
  · rename_i h; exact hmapped a h
  · unfold NUMA_NO_NODE; omega

theorem slit_valid_diag (k : SratConst) (slit : acpi_table_slit)
    (hfit : slit.locality_count < 2 ^ 31) (hvalid : slit_valid k slit = 1)
    (a : Nat) (ha : a < slit.locality_count) :
    slit.entry ((slit.locality_count * a + a) % 2 ^ 64) = k.LOCAL_DISTANCE := by
  have h := ((slit_valid_eq_one_iff k slit hfit).mp hvalid a a ha ha).1 rfl
  have hlt : slit.locality_count * a + a < 2 ^ 64 := by nlinarith
  rw [Nat.mod_eq_of_lt hlt]
  exact h

/-- The diagonal after the `else` branch of `acpi_numa_slit_init`, for the
last index of each node. -/
theorem slit_init_diag_last (k : SratConst) (m : PxmMaps) (T : Int) (frg : Nat)
    (slit : acpi_table_slit) (st : SlitState)
    (hfit : slit.locality_count < 2 ^ 31) (hvalid : slit_valid k slit = 1)
    (hlc : 1 ≤ slit.locality_count)
    (hmapped : ∀ a : Nat, a < slit.locality_count → pxm_to_node k m (a : Int) ≠ NUMA_NO_NODE)
    (hfrg : frg ≠ FIRST_REMOTE_GROUP_UNSET) :
    (1 ≤ T.toNat →
      (acpi_numa_slit_init k m T frg slit st).local_distance = (k.LOCAL_DISTANCE : Int)) ∧
    ∀ a : Nat, a < T.toNat →
      (∀ b : Nat, a < b → b < T.toNat → slit_node k m slit b ≠ slit_node k m slit a) →
      (acpi_numa_slit_init k m T frg slit st).numa_distance
        (slit_node k m slit a) (slit_node k m slit a) = some (k.LOCAL_DISTANCE : Int) := by
  unfold acpi_numa_slit_init
  simp only [hfrg, if_false]
  apply foldl_range_inv (acpi_numa_slit_init_row k m T frg slit)
    (fun i s => (1 ≤ i → s.local_distance = (k.LOCAL_DISTANCE : Int)) ∧
      ∀ a : Nat, a < i →
        (∀ b : Nat, a < b → b < T.toNat → slit_node k m slit b ≠ slit_node k m slit a) →
        s.numa_distance (slit_node k m slit a) (slit_node k m slit a) =
          some (k.LOCAL_DISTANCE : Int))
  · exact ⟨fun h => absurd h (by omega), fun a ha => absurd ha (by omega)⟩
  · intro i s hi hQ
    rw [slit_init_row_eq k m T frg slit i s (slit_node_ne k m slit hmapped i)]
    have hR := foldl_range_inv
      (acpi_numa_slit_init_cell k m T frg slit i (slit_node k m slit i))
      (fun n s' => ((1 ≤ i ∨ 1 ≤ n) → s'.local_distance = (k.LOCAL_DISTANCE : Int)) ∧
        (∀ a : Nat, a < i →
          (∀ b : Nat, a < b → b < T.toNat → slit_node k m slit b ≠ slit_node k m slit a) →
          s'.numa_distance (slit_node k m slit a) (slit_node k m slit a) =
            some (k.LOCAL_DISTANCE : Int)) ∧
        ((∀ b : Nat, i < b → b < T.toNat → slit_node k m slit b ≠ slit_node k m slit i) →
          i < n →
          s'.numa_distance (slit_node k m slit i) (slit_node k m slit i) =
            some (k.LOCAL_DISTANCE : Int)))
      T.toNat s
      ⟨fun h => hQ.1 (by omega), hQ.2, fun _ h => absurd h (by omega)⟩
      (by
        intro n s' hn hR
        obtain ⟨r1, r2, r3⟩ := hR
        rw [slit_init_cell_eq k m T frg slit i n (slit_node k m slit i) s'
          (slit_node_ne k m slit hmapped n)]
        have hother : ∀ a : Nat, a < i →
            (∀ b : Nat, a < b → b < T.toNat → slit_node k m slit b ≠ slit_node k m slit a) →
            ¬ (slit_node k m slit a = slit_node k m slit i ∧
              slit_node k m slit a = slit_node k m slit n) := by
          intro a ha hlast hc
          exact hlast i ha hi hc.1.symm
        by_cases hf : i < slit.locality_count ∧ n < slit.locality_count
        · simp only [hf, and_self, if_true]
          by_cases hin : i = n
          · subst hin
            simp only [if_true, numa_set_distance]
            rw [slit_valid_diag k slit hfit hvalid i hf.1]
            refine ⟨fun _ => rfl, ?_, ?_⟩
            · intro a ha hlast
              rw [if_neg (hother a ha hlast)]
              exact r2 a ha hlast
            · intro _ _
              simp only [and_self, if_true]
          · simp only [hin, if_false, numa_set_distance]
            refine ⟨fun _ => r1 (by omega), ?_, ?_⟩
            · intro a ha hlast
              rw [if_neg (hother a ha hlast)]
              exact r2 a ha hlast
            · intro hlast h
              have hlt : i < n := by omega
              have hne : ¬ (True ∧ slit_node k m slit i = slit_node k m slit n) := by
                intro hc
                exact hlast n hlt hn hc.2.symm
              rw [if_neg hne]
              exact r3 hlast hlt
        · simp only [hf, if_false, numa_set_distance]
          have hloc : s'.local_distance = (k.LOCAL_DISTANCE : Int) := r1 (by omega)
          refine ⟨fun _ => hloc, ?_, ?_⟩
          · intro a ha hlast
            rw [if_neg (hother a ha hlast)]
            exact r2 a ha hlast
          · intro hlast h
            by_cases hin : i = n
            · subst hin
              simp only [and_self, if_true, slit_synth_distance, hloc]
            · have hlt : i < n := by omega
              have hne : ¬ (True ∧ slit_node k m slit i = slit_node k m slit n) := by
                intro hc
                exact hlast n hlt hn hc.2.symm
              rw [if_neg hne]
              exact r3 hlast hlt)
    obtain ⟨r1, r2, r3⟩ := hR
    refine ⟨fun _ => r1 (by omega), ?_⟩
    intro a ha hlast
    by_cases hai : a = i
    · subst hai; exact r3 hlast hi
    · exact r2 a (by omega) hlast

/-- Every index below `n` shares its node with a last index below `n`. -/
theorem slit_node_last_index (k : SratConst) (m : PxmMaps) (slit : acpi_table_slit)
    (n i : Nat) (hi : i < n) :
    ∃ a, a < n ∧ slit_node k m slit a = slit_node k m slit i ∧
      ∀ b : Nat, a < b → b < n → slit_node k m slit b ≠ slit_node k m slit a := by
  have hP : slit_node k m slit i = slit_node k m slit i := rfl
  have hle : i ≤ n - 1 := by omega
  have hspec := Nat.findGreatest_spec (P := fun b => slit_node k m slit b = slit_node k m slit i)
    hle hP
  have hge := Nat.findGreatest_le (P := fun b => slit_node k m slit b = slit_node k m slit i)
    (n - 1)
  refine ⟨Nat.findGreatest (fun b => slit_node k m slit b = slit_node k m slit i) (n - 1),
    by omega, hspec, ?_⟩
  intro b hab hbn hc
  have := Nat.findGreatest_is_greatest (P := fun b => slit_node k m slit b = slit_node k m slit i)
    hab (by omega)
  exact this (hc.trans hspec)

/-- C7 (amended): after `acpi_numa_slit_init` in the two-socket case
(`first_remote_group` set) on a valid firmware table with
`locality_count ≥ 1` (fitting the `int` it is read into) whose domains are
all mapped, for every index `i` below `siloz_total_nodes` the distance of
the logical node of `i` to itself is `local_distance`, where the logical
node of `i` is the one the loops take: `pxm_to_node(i)` below the locality
count and `i` from there on.  So `distance(i, i)` is `local_distance`
whenever that node is `i` (domain `i` is mapped to node `i`, or `i` is not
below the locality count); and `local_distance` is the firmware table's
diagonal value. -/
theorem C7_diagonal_is_local_distance (k : SratConst) (m : PxmMaps) (T : Int) (frg : Nat)
    (slit : acpi_table_slit) (st : SlitState)
    (hfit : slit.locality_count < 2 ^ 31) (hvalid : slit_valid k slit = 1)
    (hlc : 1 ≤ slit.locality_count)
    (hmapped : ∀ a : Nat, a < slit.locality_count → pxm_to_node k m (a : Int) ≠ NUMA_NO_NODE)
    (hfrg : frg ≠ FIRST_REMOTE_GROUP_UNSET) :
    ∀ i : Nat, (i : Int) < T →
      (acpi_numa_slit_init k m T frg slit st).numa_distance
          (slit_node k m slit i) (slit_node k m slit i) =
        some (acpi_numa_slit_init k m T frg slit st).local_distance ∧
      (slit_node k m slit i = (i : Int) →
        (acpi_numa_slit_init k m T frg slit st).numa_distance (i : Int) (i : Int) =
          some (acpi_numa_slit_init k m T frg slit st).local_distance) ∧
      (∀ a : Nat, a < slit.locality_count →
        ((slit.entry (slit.locality_count * a + a) : Nat) : Int) =
          (acpi_numa_slit_init k m T frg slit st).local_distance) := by
  intro i hi
  obtain ⟨h1, h2⟩ := slit_init_diag_last k m T frg slit st hfit hvalid hlc hmapped hfrg
  have hloc := h1 (by omega)
  rw [hloc]
  obtain ⟨a, ha, hnode, hlast⟩ := slit_node_last_index k m slit T.toNat i (by omega)
  have hd := h2 a ha hlast
  rw [hnode] at hd
  refine ⟨hd, ?_, ?_⟩
  · intro hii
    rw [hii] at hd
    exact hd
  · intro a ha
    have h := ((slit_valid_eq_one_iff k slit hfit).mp hvalid a a ha ha).1 rfl
    rw [h]

/-- Witness of C7 (amended): the two-socket table, domains 0 and 1 mapped
to nodes 0 and 1, eight logical nodes, first remote group 7. -/
theorem C7_diagonal_is_local_distance_witness :
    (acpi_numa_slit_init k0 pxm_maps_two 8 7 slit_two slit_state_init).numa_distance 6 6 =
      some (acpi_numa_slit_init k0 pxm_maps_two 8 7 slit_two slit_state_init).local_distance :=
  (C7_diagonal_is_local_distance k0 pxm_maps_two 8 7 slit_two slit_state_init
    (by decide) (by decide) (by decide)
    (by intro a ha
        have h2 : a < 2 := ha
        interval_cases a <;> decide)
    (by decide) 6 (by decide)).2.1 (by decide)

/-- C7 (counterexample): the one-locality table `slit_one` (valid, diagonal
value 10) with the maps `pxm_maps_three_zero`, in which domain 0 is mapped
to node 1; two logical nodes, first remote group 7.  Index 0 is taken as
node `pxm_to_node(0) = 1` and index 1 as node 1: both diagonal iterations
set the distance of `(1, 1)` to the local distance 10, and the distance of
`(0, 0)` is never set. -/
theorem C7_counterexample :
    slit_valid k0 slit_one = 1 ∧ slit_one.locality_count = 1 ∧
    pxm_to_node k0 pxm_maps_three_zero 0 = 1 ∧
    (acpi_numa_slit_init k0 pxm_maps_three_zero 2 7 slit_one slit_state_init).local_distance =
      10 ∧
    (acpi_numa_slit_init k0 pxm_maps_three_zero 2 7 slit_one slit_state_init).numa_distance 1 1 =
      some 10 ∧
    (acpi_numa_slit_init k0 pxm_maps_three_zero 2 7 slit_one slit_state_init).numa_distance 0 0 =
      none := by
  decide

set_option maxHeartbeats 4000000 in
theorem slit_synth_distance_symm (k : SratConst) (T : Int) (frg : Nat) (loc rem : Int)
    (i j : Nat) (hfrg : 5 < frg) (hi : i ≠ frg) (hj : j ≠ frg) :
    slit_synth_distance k T frg loc rem i j = slit_synth_distance k T frg loc rem j i := by
  by_cases hij : i = j
  · subst hij; rfl
  have hji : ¬ j = i := fun h => hij h.symm
  unfold slit_synth_distance
  rw [if_neg hij, if_neg hji]
  simp only [SOCKET_0_EPT_NODE, SOCKET_0_GUARD_ROWS_NODE,
    SOCKET_1_EPT_NODE, SOCKET_1_GUARD_ROWS_NODE]
  by_cases g : ((i : Int) = 3 ∨ (i : Int) = 5 ∨ (j : Int) = 3 ∨ (j : Int) = 5)
  · have g' : ((j : Int) = 3 ∨ (j : Int) = 5 ∨ (i : Int) = 3 ∨ (i : Int) = 5) := by omega
    rw [if_pos g, if_pos g']
  · have g' : ¬ ((j : Int) = 3 ∨ (j : Int) = 5 ∨ (i : Int) = 3 ∨ (i : Int) = 5) := by omega
    rw [if_neg g, if_neg g']
    by_cases a : (i = 1 ∨ (i : Int) = 4)
    · rw [if_pos a]
      split_ifs <;> first | rfl | (exfalso; omega)
    · rw [if_neg a]
      by_cases b : (j = 1 ∨ (j : Int) = 4)
      · rw [if_pos b, if_pos b]
      · rw [if_neg b, if_neg b, if_neg a]
        split_ifs <;> first | rfl | (exfalso; omega)

theorem slit_node_id (k : SratConst) (m : PxmMaps) (slit : acpi_table_slit)
    (hid : ∀ a : Nat, a < slit.locality_count → pxm_to_node k m (a : Int) = (a : Int))
    (a : Nat) : slit_node k m slit a = (a : Int) := by
  unfold slit_node
  split
  · rename_i h; exact hid a h
  · rfl

/-- The cell `(i, n)` when every locality is mapped to the node of the
same number: the new distance table and the two recorded distances. -/
theorem slit_init_cell_id (k : SratConst) (m : PxmMaps) (T : Int) (frg : Nat)
    (slit : acpi_table_slit) (i n : Nat) (s : SlitState)
    (hid : ∀ a : Nat, a < slit.locality_count → pxm_to_node k m (a : Int) = (a : Int)) :
    (∀ a b : Nat,
      (acpi_numa_slit_init_cell k m T frg slit i (i : Int) s n).numa_distance (a : Int) (b : Int) =
        if a = i ∧ b = n then
          some (slit_expected_distance k T frg slit s.local_distance s.remote_distance i n)
        else s.numa_distance (a : Int) (b : Int)) ∧
    (acpi_numa_slit_init_cell k m T frg slit i (i : Int) s n).local_distance =
      (if i < slit.locality_count ∧ n < slit.locality_count ∧ i = n then
        (slit.entry ((slit.locality_count * i + n) % 2 ^ 64) : Int)
      else s.local_distance) ∧
    (acpi_numa_slit_init_cell k m T frg slit i (i : Int) s n).remote_distance =
      (if i < slit.locality_count ∧ n < slit.locality_count ∧ i ≠ n then
        (slit.entry ((slit.locality_count * i + n) % 2 ^ 64) : Int)
      else s.remote_distance) := by
  have hto : slit_node k m slit n ≠ NUMA_NO_NODE := by
    rw [slit_node_id k m slit hid n]; unfold NUMA_NO_NODE; omega
  rw [slit_init_cell_eq k m T frg slit i n (i : Int) s hto, slit_node_id k m slit hid n]
  unfold slit_expected_distance
  by_cases hf : i < slit.locality_count ∧ n < slit.locality_count
  · rw [if_pos hf, if_pos hf]
    by_cases hin : i = n
    · rw [if_pos hin]
      refine ⟨?_, ?_, ?_⟩
      · intro a b
        simp only [numa_set_distance, Nat.cast_inj]
      · simp only [numa_set_distance, hf.1, hf.2, hin, and_self, if_true]
      · simp only [numa_set_distance, hin, ne_eq, not_true_eq_false, and_false, if_false]
    · rw [if_neg hin]
      refine ⟨?_, ?_, ?_⟩
      · intro a b
        simp only [numa_set_distance, Nat.cast_inj]
      · simp only [numa_set_distance, hin, and_false, if_false]
      · simp only [numa_set_distance, hf.1, hf.2, hin, ne_eq, not_false_eq_true, and_self, if_true]
  · rw [if_neg hf, if_neg hf]
    refine ⟨?_, ?_, ?_⟩
    · intro a b
      simp only [numa_set_distance, Nat.cast_inj]
    · have hc : ¬ (i < slit.locality_count ∧ n < slit.locality_count ∧ i = n) :=
        fun h => hf ⟨h.1, h.2.1⟩
      simp only [numa_set_distance, hc, if_false]
    · have hc : ¬ (i < slit.locality_count ∧ n < slit.locality_count ∧ i ≠ n) :=
        fun h => hf ⟨h.1, h.2.1⟩
      simp only [numa_set_distance, hc, if_false]

theorem slit_valid_offdiag_idx (slit : acpi_table_slit)
    (hfit : slit.locality_count < 2 ^ 31) (a b : Nat)
    (ha : a < slit.locality_count) (hb : b < slit.locality_count) :
    (slit.locality_count * a + b) % 2 ^ 64 = slit.locality_count * a + b := by
  have hlt : slit.locality_count * a + b < 2 ^ 64 := by nlinarith
  exact Nat.mod_eq_of_lt hlt

/-- The distance table after the `else` branch of `acpi_numa_slit_init`,
when every locality is mapped to the node of the same number and the
firmware table has one off-diagonal value `r`: every cell `(a, b)` below
`siloz_total_nodes` holds its expected distance, for the local distance
`L` and remote distance `R` in force. -/
theorem slit_init_table (k : SratConst) (m : PxmMaps) (T : Int) (frg : Nat)
    (slit : acpi_table_slit) (st : SlitState) (r : Nat) (L R : Int)
    (hfit : slit.locality_count < 2 ^ 31) (hvalid : slit_valid k slit = 1)
    (hoff : ∀ a b, a < slit.locality_count → b < slit.locality_count → a ≠ b →
      slit.entry (slit.locality_count * a + b) = r)
    (hid : ∀ a : Nat, a < slit.locality_count → pxm_to_node k m (a : Int) = (a : Int))
    (hfrg : frg ≠ FIRST_REMOTE_GROUP_UNSET)
    (hL1 : 1 ≤ slit.locality_count → L = (k.LOCAL_DISTANCE : Int))
    (hL0 : slit.locality_count = 0 → L = st.local_distance)
    (hR2 : 2 ≤ slit.locality_count → R = (r : Int))
    (hR1 : slit.locality_count ≤ 1 → R = st.remote_distance) :
    ∀ a b : Nat, a < T.toNat → b < T.toNat →
      (acpi_numa_slit_init k m T frg slit st).numa_distance (a : Int) (b : Int) =
        some (slit_expected_distance k T frg slit L R a b) := by
  have hmain := foldl_range_inv (acpi_numa_slit_init_row k m T frg slit)
    (fun i (s : SlitState) =>
      ((1 ≤ i ∨ slit.locality_count = 0) → s.local_distance = L) ∧
      ((slit.locality_count ≤ 1 ∨ (2 ≤ T.toNat ∧ 1 ≤ i)) → s.remote_distance = R) ∧
      ∀ a b : Nat, a < i → b < T.toNat →
        s.numa_distance (a : Int) (b : Int) =
          some (slit_expected_distance k T frg slit L R a b)) T.toNat st ?h0 ?hstep
  case h0 =>
    · refine ⟨fun h => ?_, fun h => ?_, fun a b ha => absurd ha (by omega)⟩
      · rcases h with h | h
        · omega
        · exact (hL0 h).symm
      · rcases h with h | h
        · exact (hR1 h).symm
        · omega
  case hstep =>
    · intro i s hi hQ
      obtain ⟨q1, q2, q3⟩ := hQ
      have hfrom : slit_node k m slit i ≠ NUMA_NO_NODE := by
        rw [slit_node_id k m slit hid i]; unfold NUMA_NO_NODE; omega
      rw [slit_init_row_eq k m T frg slit i s hfrom, slit_node_id k m slit hid i]
      have hR := foldl_range_inv (acpi_numa_slit_init_cell k m T frg slit i (i : Int))
        (fun n (s' : SlitState) =>
          ((1 ≤ i ∨ 1 ≤ n ∨ slit.locality_count = 0) → s'.local_distance = L) ∧
          ((slit.locality_count ≤ 1 ∨ (2 ≤ T.toNat ∧ (1 ≤ i ∨ 2 ≤ n))) →
            s'.remote_distance = R) ∧
          (∀ a b : Nat, a < i → b < T.toNat →
            s'.numa_distance (a : Int) (b : Int) =
              some (slit_expected_distance k T frg slit L R a b)) ∧
          (∀ b : Nat, b < n →
            s'.numa_distance (i : Int) (b : Int) =
              some (slit_expected_distance k T frg slit L R i b)))
        T.toNat s
        ⟨fun h => q1 (by omega), fun h => q2 (by omega), q3, fun b hb => absurd hb (by omega)⟩
        (by
          intro n s' hn hR
          obtain ⟨r1, r2, r3, r4⟩ := hR
          obtain ⟨cd, cl, cr⟩ := slit_init_cell_id k m T frg slit i n s' hid
          rw [cl, cr]
          have hval : slit_expected_distance k T frg slit s'.local_distance
              s'.remote_distance i n = slit_expected_distance k T frg slit L R i n := by
            unfold slit_expected_distance
            by_cases hf : i < slit.locality_count ∧ n < slit.locality_count
            · rw [if_pos hf, if_pos hf]
            · rw [if_neg hf, if_neg hf]
              have e1 : s'.local_distance = L := r1 (by omega)
              have e2 : s'.remote_distance = R := r2 (by omega)
              rw [e1, e2]
          refine ⟨fun _ => ?_, fun hprem => ?_, ?_, ?_⟩
          · split
            · rename_i hc
              have hin : i = n := hc.2.2
              rw [hin, slit_valid_diag k slit hfit hvalid n hc.2.1]
              exact (hL1 (by omega)).symm
            · rename_i hc
              exact r1 (by omega)
          · split
            · rename_i hc
              rw [slit_valid_offdiag_idx slit hfit i n hc.1 hc.2.1,
                hoff i n hc.1 hc.2.1 hc.2.2]
              exact (hR2 (by omega)).symm
            · rename_i hc
              exact r2 (by omega)
          · intro a b ha hb
            rw [cd a b, if_neg (by omega)]
            exact r3 a b ha hb
          · intro b hb
            rw [cd i b]
            by_cases hbn : b = n
            · rw [if_pos ⟨rfl, hbn⟩, hval, hbn]
            · rw [if_neg (by omega)]
              exact r4 b (by omega))
      obtain ⟨r1, r2, r3, r4⟩ := hR
      refine ⟨fun _ => r1 (by omega), fun h => r2 (by omega), ?_⟩
      intro a b ha hb
      by_cases hai : a = i
      · rw [hai]; exact r4 b hb
      · exact r3 a b (by omega) hb
  unfold acpi_numa_slit_init
  simp only [hfrg, if_false]
  intro a b ha hb
  exact hmain.2.2 a b ha hb

/-- The distance table after the first branch of `acpi_numa_slit_init`
(no remote group): every cell below `siloz_total_nodes` holds the value
`local_distance` had at the call, and `local_distance` is unchanged. -/
theorem slit_init_unset_table (k : SratConst) (m : PxmMaps) (T : Int)
    (slit : acpi_table_slit) (st : SlitState) :
    (acpi_numa_slit_init k m T FIRST_REMOTE_GROUP_UNSET slit st).local_distance =
      st.local_distance ∧
    ∀ a b : Nat, a < T.toNat → b < T.toNat →
      (acpi_numa_slit_init k m T FIRST_REMOTE_GROUP_UNSET slit st).numa_distance
        (a : Int) (b : Int) = some st.local_distance := by
  unfold acpi_numa_slit_init
  simp only [if_true]
  have hmain := foldl_range_inv
    (fun (st : SlitState) (i : Nat) =>
      (List.range T.toNat).foldl
        (fun (st : SlitState) (j : Nat) =>
          numa_set_distance st (i : Int) (j : Int) st.local_distance) st)
    (fun i (s : SlitState) => s.local_distance = st.local_distance ∧
      ∀ a b : Nat, a < i → b < T.toNat →
        s.numa_distance (a : Int) (b : Int) = some st.local_distance)
    T.toNat st ⟨rfl, fun a b ha => absurd ha (by omega)⟩
    (by
      intro i s hi hQ
      obtain ⟨q1, q2⟩ := hQ
      have hR := foldl_range_inv
        (fun (st : SlitState) (j : Nat) =>
          numa_set_distance st (i : Int) (j : Int) st.local_distance)
        (fun n (s' : SlitState) => s'.local_distance = st.local_distance ∧
          (∀ a b : Nat, a < i → b < T.toNat →
            s'.numa_distance (a : Int) (b : Int) = some st.local_distance) ∧
          (∀ b : Nat, b < n → s'.numa_distance (i : Int) (b : Int) = some st.local_distance))
        T.toNat s ⟨q1, q2, fun b hb => absurd hb (by omega)⟩
        (by
          intro n s' hn hR
          obtain ⟨r1, r2, r3⟩ := hR
          refine ⟨r1, ?_, ?_⟩
          · intro a b ha hb
            simp only [numa_set_distance]
            rw [if_neg (by omega)]
            exact r2 a b ha hb
          · intro b hb
            simp only [numa_set_distance]
            by_cases hbn : b = n
            · rw [hbn, r1]
              simp only [and_self, if_true]
            · have hne : ¬ (True ∧ (b : Int) = (n : Int)) := by omega
              rw [if_neg hne]
              exact r3 b (by omega))
      obtain ⟨r1, r2, r3⟩ := hR
      refine ⟨r1, ?_⟩
      intro a b ha hb
      by_cases hai : a = i
      · rw [hai]; exact r3 b hb
      · exact r2 a b (by omega) hb)
  exact hmain

/-- C10 (the code, in general and at the failing input): with
`first_remote_group` unset, `acpi_numa_slit_init` sets the distance of
every pair of logical nodes below `siloz_total_nodes` to the value
`local_distance` has at the call and leaves `local_distance` as it was, for
every firmware table; nothing is recorded from the table.  On the valid
one-socket table `slit_one`, whose diagonal value is 10, with two logical
nodes and the statics at their initial value 0, every pairwise distance is
therefore set to 0. -/
theorem C10_unset_remote_group_sets_initial_local_distance :
    (∀ (k : SratConst) (m : PxmMaps) (T : Int) (slit : acpi_table_slit) (st : SlitState),
      (acpi_numa_slit_init k m T FIRST_REMOTE_GROUP_UNSET slit st).local_distance =
        st.local_distance ∧
      ∀ i j : Nat, (i : Int) < T → (j : Int) < T →
        (acpi_numa_slit_init k m T FIRST_REMOTE_GROUP_UNSET slit st).numa_distance
          (i : Int) (j : Int) = some st.local_distance) ∧
    slit_valid k0 slit_one = 1 ∧ slit_one.entry 0 = 10 ∧
    slit_state_init.local_distance = 0 ∧
    (∀ i j : Nat, i < 2 → j < 2 →
      (acpi_numa_slit_init k0 pxm_maps_two 2 FIRST_REMOTE_GROUP_UNSET slit_one
        slit_state_init).numa_distance (i : Int) (j : Int) = some 0) := by
  refine ⟨?_, by decide, rfl, rfl, ?_⟩
  · intro k m T slit st
    obtain ⟨h1, h2⟩ := slit_init_unset_table k m T slit st
    exact ⟨h1, fun i j hi hj => h2 i j (by omega) (by omega)⟩
  · intro i j hi hj
    exact (slit_init_unset_table k0 pxm_maps_two 2 slit_one slit_state_init).2 i j hi hj

/-- C6 (amended): after `acpi_numa_slit_init` on a valid firmware table
(its locality count fitting the `int` it is read into) whose off-diagonal
entries are all equal, with every locality mapped to the node of the same
number and `first_remote_group` unset or above `SOCKET_1_GUARD_ROWS_NODE`,
for all logical nodes `i`, `j` below `siloz_total_nodes` other than
`first_remote_group` itself the distance set for `(i, j)` equals the
distance set for `(j, i)`. -/
theorem C6_distance_symmetric (k : SratConst) (m : PxmMaps) (T : Int) (frg : Nat)
    (slit : acpi_table_slit) (st : SlitState) (r : Nat)
    (hfit : slit.locality_count < 2 ^ 31) (hvalid : slit_valid k slit = 1)
    (hoff : ∀ a b, a < slit.locality_count → b < slit.locality_count → a ≠ b →
      slit.entry (slit.locality_count * a + b) = r)
    (hid : ∀ a : Nat, a < slit.locality_count → pxm_to_node k m (a : Int) = (a : Int))
    (hfrg : frg = FIRST_REMOTE_GROUP_UNSET ∨ 5 < frg) :
    ∀ i j : Nat, (i : Int) < T → (j : Int) < T → i ≠ frg → j ≠ frg →
      (acpi_numa_slit_init k m T frg slit st).numa_distance (i : Int) (j : Int) =
        (acpi_numa_slit_init k m T frg slit st).numa_distance (j : Int) (i : Int) := by
  intro i j hi hj hif hjf
  have hi' : i < T.toNat := by omega
  have hj' : j < T.toNat := by omega
  by_cases hu : frg = FIRST_REMOTE_GROUP_UNSET
  · rw [hu]
    obtain ⟨_, ht⟩ := slit_init_unset_table k m T slit st
    rw [ht i j hi' hj', ht j i hj' hi']
  · have h5 : 5 < frg := by
      rcases hfrg with h | h
      · exact absurd h hu
      · exact h
    have ht := slit_init_table k m T frg slit st r
      (if 1 ≤ slit.locality_count then (k.LOCAL_DISTANCE : Int) else st.local_distance)
      (if 2 ≤ slit.locality_count then (r : Int) else st.remote_distance)
      hfit hvalid hoff hid hu
      (fun h => by rw [if_pos h])
      (fun h => by rw [if_neg (by omega)])
      (fun h => by rw [if_pos h])
      (fun h => by rw [if_neg (by omega)])
    rw [ht i j hi' hj', ht j i hj' hi']
    congr 1
    unfold slit_expected_distance
    by_cases hf : i < slit.locality_count ∧ j < slit.locality_count
    · have hf' : j < slit.locality_count ∧ i < slit.locality_count := ⟨hf.2, hf.1⟩
      rw [if_pos hf, if_pos hf']
      by_cases hij : i = j
      · rw [hij]
      · rw [slit_valid_offdiag_idx slit hfit i j hf.1 hf.2,
          slit_valid_offdiag_idx slit hfit j i hf.2 hf.1,
          hoff i j hf.1 hf.2 hij, hoff j i hf.2 hf.1 (fun h => hij h.symm)]
    · have hf' : ¬ (j < slit.locality_count ∧ i < slit.locality_count) :=
        fun h => hf ⟨h.2, h.1⟩
      rw [if_neg hf, if_neg hf']
      exact slit_synth_distance_symm k T frg _ _ i j h5 hif hjf

/-- Witness of C6 (amended): the symmetric two-socket table, domains 0 and
1 mapped to nodes 0 and 1, eight logical nodes, first remote group 7; the
pair of nodes 6 and 1. -/
theorem C6_distance_symmetric_witness :
    (acpi_numa_slit_init k0 pxm_maps_two 8 7 slit_two slit_state_init).numa_distance 6 1 =
      (acpi_numa_slit_init k0 pxm_maps_two 8 7 slit_two slit_state_init).numa_distance 1 6 :=
  C6_distance_symmetric k0 pxm_maps_two 8 7 slit_two slit_state_init 21
    (by decide) (by decide)
    (by intro a b ha hb hab
        have ha2 : a < 2 := ha
        have hb2 : b < 2 := hb
        interval_cases a <;> interval_cases b <;> first | rfl | exact absurd rfl hab)
    (by intro a ha
        have h2 : a < 2 := ha
        interval_cases a <;> decide)
    (Or.inr (by decide)) 6 1 (by decide) (by decide) (by decide) (by decide)

/-- C6 (counterexample): the two-socket table `slit_asym` passes
`slit_valid`; with domains 0 and 1 mapped to nodes 0 and 1, eight logical
nodes and first remote group 7, `acpi_numa_slit_init` sets the distance of
`(0, 1)` to 20 and that of `(1, 0)` to 30. -/
theorem C6_counterexample :
    slit_valid k0 slit_asym = 1 ∧
    (acpi_numa_slit_init k0 pxm_maps_two 8 7 slit_asym slit_state_init).numa_distance 0 1 =
      some 20 ∧
    (acpi_numa_slit_init k0 pxm_maps_two 8 7 slit_asym slit_state_init).numa_distance 1 0 =
      some 30 := by
  decide


/-! ## The memory-affinity walk -/

/-- C4 (counterexample): a record of domain 0 (node 0) for
`[0x300000, 0x400000)` parsed when the discovered boundary address is
`0x200000`: the call returns 0 and the blocks passed to `numa_add_memblk`
are `[0x300000, 0x200000)`, whose start is above its end, and
`[0x200000, 0x400000)`, which begins outside the record. -/
theorem C4_counterexample :
    outcome_blocks (acpi_numa_memory_affinity_init srat_env0 4
      (srat_state0 decode_group_zero 0x200000) (srat_record0 0x300000 0x100000) (rec0 0)) =
      some (some 0, [(0, 0x300000, 0x200000), (0, 0x200000, 0x400000)]) := by
  decide

/-- C5 (counterexample): with a decode whose group changes at `0x1800`,
inside a 4 KiB page, the record `[0, 0x3000)` of node 0 is cut into the
blocks `[0, 0x2000)` of node 0 and `[0x2000, 0x3000)` of node 3; the last
address of the first block and the first address of the second decode to
the same group 3, and `0x1800`, inside the first block, does not decode to
that block's node id. -/
theorem C5_counterexample :
    outcome_blocks (acpi_numa_memory_affinity_init srat_env0 4
      (srat_state0 decode_split_page 0x200000) (srat_record0 0 0x3000) (rec0 0)) =
      some (some 0, [(0, 0, 0x2000), (3, 0x2000, 0x3000)]) ∧
    (decode_split_page (rec0 0x1fff)).2.subarray_group = 3 ∧
    (decode_split_page (rec0 0x2000)).2.subarray_group = 3 ∧
    (decode_split_page (rec0 0x1800)).2.subarray_group = 3 := by
  decide

theorem TileChain_append (a b : List MemBlk) (s m e : Nat)
    (ha : TileChain a s m) (hb : TileChain b m e) : TileChain (a ++ b) s e := by
  induction a generalizing s with
  | nil =>
    simp only [TileChain] at ha
    rw [ha]; exact hb
  | cons x rest ih =>
    simp only [TileChain, List.cons_append] at ha ⊢
    exact ⟨ha.1, ha.2.1, ih _ ha.2.2⟩

theorem TileChain_le (blks : List MemBlk) (s e : Nat) (h : TileChain blks s e) : s ≤ e := by
  induction blks generalizing s with
  | nil => simp only [TileChain] at h; omega
  | cons x rest ih =>
    simp only [TileChain] at h
    have := ih _ h.2.2
    omega

theorem TileChain_mem (blks : List MemBlk) (s e : Nat) (h : TileChain blks s e) :
    ∀ b ∈ blks, s ≤ b.start ∧ b.start < b.end_ ∧ b.end_ ≤ e := by
  induction blks generalizing s with
  | nil => intro b hb; cases hb
  | cons x rest ih =>
    simp only [TileChain] at h
    intro b hb
    rcases List.mem_cons.mp hb with hbx | hbr
    · rw [hbx]
      have := TileChain_le rest _ e h.2.2
      omega
    · have := ih _ h.2.2 b hbr
      omega

theorem himem_stride_bounds (g : Int) (o : Nat) (h0 : 0 < o) (h1 : o ≤ 0x200000) :
    0 < himem_stride g o ∧ himem_stride g o ≤ 0x200000 := by
  unfold himem_stride
  split
  · omega
  · omega

/-- The blocks a run of `rest_walk` adds tile the range from the start of
the walk to the start of its last, still open run. -/
theorem rest_walk_tile (env : SratEnv) (decode : skx_decode_f) (end_ : Nat)
    (hend : end_ + 0x200000 < 2 ^ 64) :
    ∀ (fuel : Nat) (w : Walk) (b : Nat) (w' : Walk) (b' : Nat),
      0 < w.himem_increment → w.himem_increment ≤ 0x200000 → w.start < b →
      rest_walk env decode end_ fuel w b = some (WalkExit.finished w' b') →
      ∃ blks, w'.memblks = w.memblks ++ blks ∧ TileChain blks w.start w'.start ∧
        w'.start < b' ∧ ¬ b' < end_ := by
  intro fuel
  induction fuel with
  | zero =>
    intro w b w' b' _ _ _ h
    simp only [rest_walk] at h
    exact absurd h (by simp)
  | succ fuel ih =>
    intro w b w' b' hi0 hi1 hsb h
    simp only [rest_walk] at h
    by_cases hlt : b < end_
    · rw [if_pos hlt] at h
      by_cases hd : (decode { w.res with addr := b, subarray_group := -1 }).1 = false
      · rw [if_pos hd] at h
        exact absurd h (by simp)
      · rw [if_neg hd] at h
        by_cases hg : (decode { w.res with addr := b, subarray_group := -1 }).2.subarray_group ≠
            w.last_subarray_group
        · rw [if_pos hg] at h
          by_cases hadd : env.numa_add_memblk w.memblks w.last_subarray_group w.start b < 0
          · rw [if_pos hadd] at h
            exact absurd h (by simp)
          · rw [if_neg hadd] at h
            have hinc : 0 < (if env.num_rows_per_subarray % 512 = 0 then
                  himem_stride
                    (decode { w.res with addr := b, subarray_group := -1 }).2.subarray_group
                    0x1000
                else w.himem_increment) ∧
                (if env.num_rows_per_subarray % 512 = 0 then
                  himem_stride
                    (decode { w.res with addr := b, subarray_group := -1 }).2.subarray_group
                    0x1000
                else w.himem_increment) ≤ 0x200000 := by
              split
              · exact himem_stride_bounds _ _ (by omega) (by omega)
              · exact ⟨hi0, hi1⟩
            generalize (if env.num_rows_per_subarray % 512 = 0 then
                  himem_stride
                    (decode { w.res with addr := b, subarray_group := -1 }).2.subarray_group
                    0x1000
                else w.himem_increment) = inc at h hinc
            have hb1 : (b + inc) % 2 ^ 64 = b + inc := Nat.mod_eq_of_lt (by omega)
            rw [hb1] at h
            obtain ⟨blks, e1, e2, e3, e4⟩ := ih _ _ w' b' hinc.1 hinc.2
              (show b < b + inc by omega) h
            refine ⟨⟨w.last_subarray_group, w.start, b⟩ :: blks, ?_, ?_, e3, e4⟩
            · rw [e1]; simp only [List.append_assoc, List.singleton_append]
            · simp only [TileChain]
              exact ⟨trivial, hsb, e2⟩
        · rw [if_neg hg] at h
          have hb1 : (b + w.himem_increment) % 2 ^ 64 = b + w.himem_increment :=
            Nat.mod_eq_of_lt (by omega)
          rw [hb1] at h
          obtain ⟨blks, e1, e2, e3, e4⟩ := ih _ _ w' b' (by exact hi0) (by exact hi1)
            (by show w.start < b + w.himem_increment; omega) h
          exact ⟨blks, e1, e2, e3, e4⟩
    · rw [if_neg hlt] at h
      simp only [Option.some.injEq, WalkExit.finished.injEq] at h
      obtain ⟨e1, e2⟩ := h
      subst e1; subst e2
      exact ⟨[], by simp, rfl, hsb, hlt⟩

/-- The block a run of `first_group_walk` adds, if any, is the first run
of the range. -/
theorem first_group_walk_tile (env : SratEnv) (decode : skx_decode_f) (end_ : Nat)
    (hend : end_ + 0x200000 < 2 ^ 64) :
    ∀ (fuel : Nat) (w : Walk) (b : Nat) (w' : Walk) (b' : Nat),
      w.start < b →
      first_group_walk env decode end_ fuel w b = some (WalkExit.finished w' b') →
      ∃ blks, w'.memblks = w.memblks ++ blks ∧ TileChain blks w.start w'.start ∧
        w'.himem_increment = w.himem_increment ∧ (w'.start = w.start ∨ w'.start < end_) := by
  intro fuel
  induction fuel with
  | zero =>
    intro w b w' b' _ h
    simp only [first_group_walk] at h
    exact absurd h (by simp)
  | succ fuel ih =>
    intro w b w' b' hsb h
    simp only [first_group_walk] at h
    by_cases hlt : b < end_
    · rw [if_pos hlt] at h
      by_cases hd : (decode { w.res with addr := b, subarray_group := -1 }).1 = false
      · rw [if_pos hd] at h
        exact absurd h (by simp)
      · rw [if_neg hd] at h
        by_cases hg : (decode { w.res with addr := b, subarray_group := -1 }).2.subarray_group ≠
            w.last_subarray_group
        · rw [if_pos hg] at h
          by_cases hadd : env.numa_add_memblk w.memblks w.last_subarray_group w.start b < 0
          · rw [if_pos hadd] at h
            exact absurd h (by simp)
          · rw [if_neg hadd] at h
            simp only [Option.some.injEq, WalkExit.finished.injEq] at h
            obtain ⟨e1, e2⟩ := h
            subst e1; subst e2
            refine ⟨[⟨w.last_subarray_group, w.start, b⟩], rfl, ?_, rfl, Or.inr hlt⟩
            simp only [TileChain]
            exact ⟨trivial, hsb, trivial⟩
        · rw [if_neg hg] at h
          have hb1 : (b + 0x1000) % 2 ^ 64 = b + 0x1000 := Nat.mod_eq_of_lt (by omega)
          rw [hb1] at h
          obtain ⟨blks, e1, e2, e3, e4⟩ := ih _ _ w' b'
            (by show w.start < b + 0x1000; omega) h
          exact ⟨blks, e1, e2, e3, e4⟩
    · rw [if_neg hlt] at h
      simp only [Option.some.injEq, WalkExit.finished.injEq] at h
      obtain ⟨e1, e2⟩ := h
      subst e1; subst e2
      exact ⟨[], by simp, rfl, rfl, Or.inl rfl⟩

/-- The blocks added at the start of a record's range tile it up to the
start of the run the walk is then in, when the range starts at the address
walked from; that is the record's base or, for node 0 at a non-zero base,
the boundary address, taken to lie inside the range. -/
theorem srat_range_start_tile (env : SratEnv) (decode : skx_decode_f) (fuel : Nat)
    (himem tolm : Nat) (node : Int) (end_ : Nat) (w : Walk) (w' : Walk) (b' : Nat)
    (hend : end_ + 0x200000 < 2 ^ 64) (hse : w.start ≤ end_)
    (hjump : ¬ (node ≠ 0 ∨ w.start = 0) → w.start ≤ himem ∧ himem ≤ end_)
    (h : srat_range_start env decode fuel himem tolm node end_ w =
      some (WalkExit.finished w' b')) :
    ∃ blks, w'.memblks = w.memblks ++ blks ∧ TileChain blks w.start w'.start ∧
      w'.himem_increment = w.himem_increment ∧ w'.start ≤ end_ := by
  unfold srat_range_start at h
  by_cases hbr : node ≠ 0 ∨ w.start = 0
  · rw [if_pos hbr] at h
    simp only [] at h
    by_cases hd : (decode { w.res with addr := w.start, subarray_group := -1 }).1 = false
    · rw [if_pos hd] at h
      exact absurd h (by simp)
    · rw [if_neg hd] at h
      split at h
      · exact absurd h (by simp)
      · split at h
        · exact absurd h (by simp)
        · have hb1 : (w.start + 0x1000) % 2 ^ 64 = w.start + 0x1000 :=
            Nat.mod_eq_of_lt (by omega)
          rw [hb1] at h
          obtain ⟨blks, e1, e2, e3, e4⟩ := first_group_walk_tile env decode end_ hend fuel _ _
            w' b' (by show w.start < w.start + 0x1000; omega) h
          refine ⟨blks, e1, e2, e3, ?_⟩
          rcases e4 with e4 | e4
          · rw [e4]; exact hse
          · exact Nat.le_of_lt e4
  · rw [if_neg hbr] at h
    obtain ⟨hj1, hj2⟩ := hjump hbr
    by_cases hz : himem = 0
    · rw [if_pos hz] at h
      exact absurd h (by simp)
    · rw [if_neg hz] at h
      simp only [] at h
      by_cases hne : himem ≠ w.start
      · rw [if_pos hne] at h
        generalize (tolm + 2 ^ 64 - 0x1000) % 2 ^ 64 = ta at h
        generalize decode { w.res with addr := ta, subarray_group := -1 } = dj at h
        by_cases hd : dj.1 = false
        · rw [if_pos hd] at h
          exact absurd h (by simp)
        · rw [if_neg hd] at h
          by_cases hadd : env.numa_add_memblk w.memblks dj.2.subarray_group w.start himem < 0
          · rw [if_pos hadd] at h
            exact absurd h (by simp)
          · rw [if_neg hadd] at h
            simp only [] at h
            split at h
            · exact absurd h (by simp)
            · simp only [Option.some.injEq, WalkExit.finished.injEq] at h
              obtain ⟨e1, e2⟩ := h
              subst e1; subst e2
              refine ⟨[⟨_, w.start, himem⟩], rfl, ?_, rfl, hj2⟩
              simp only [TileChain]
              exact ⟨trivial, by omega, trivial⟩
      · rw [if_neg hne] at h
        simp only [] at h
        have hs : himem = w.start := by
          by_contra hc
          exact hne hc
        split at h
        · exact absurd h (by simp)
        · simp only [Option.some.injEq, WalkExit.finished.injEq] at h
          obtain ⟨e1, e2⟩ := h
          subst e1; subst e2
          refine ⟨[], by simp, ?_, rfl, hj2⟩
          simp only [TileChain]
          exact hs.symm

theorem returned_ne_zero_of_einval (st st' : SratState)
    (h : some (ParseOutcome.returned (-EINVAL), st) = some (ParseOutcome.returned 0, st')) :
    False := by
  simp only [Option.some.injEq, Prod.mk.injEq, ParseOutcome.returned.injEq] at h
  exact absurd h.1 (by decide)

theorem panicked_ne_returned (st st' : SratState) (rc : Int)
    (h : some (ParseOutcome.panicked, st) = some (ParseOutcome.returned rc, st')) : False := by
  simp only [Option.some.injEq, Prod.mk.injEq] at h
  exact ParseOutcome.noConfusion h.1

/-- When `memory_affinity_walk` returns 0, the blocks it added tile the
range `[start, end)`, provided the walk cannot wrap around and, for node 0
at a non-zero start, the boundary address lies inside the range. -/
theorem memory_affinity_walk_tile (env : SratEnv) (decode : skx_decode_f) (fuel : Nat)
    (st : SratState) (node : Int) (start end_ : Nat) (res : decoded_addr) (st' : SratState)
    (hend : end_ + 0x200000 < 2 ^ 64) (hse : start ≤ end_)
    (hjump : ¬ (node ≠ 0 ∨ start = 0) →
      start ≤ st.himem_subarray_boundary_addr ∧ st.himem_subarray_boundary_addr ≤ end_)
    (h : memory_affinity_walk env decode fuel st node start end_ res =
      some (ParseOutcome.returned 0, st')) :
    ∃ blks, st'.memblks = st.memblks ++ blks ∧ blks ≠ [] ∧ TileChain blks start end_ ∧
      st'.maps = st.maps ∧
      st'.himem_subarray_boundary_addr = st.himem_subarray_boundary_addr := by
  unfold memory_affinity_walk at h
  simp only [] at h
  cases hrs : srat_range_start env decode fuel st.himem_subarray_boundary_addr st.skx_tolm node
      end_
      { res := res, start := start, last_subarray_group := 0, himem_increment := 0x1000,
        siloz_total_nodes := st.siloz_total_nodes,
        parsed_numa_memblks := st.parsed_numa_memblks, memblks := st.memblks } with
  | none => rw [hrs] at h; exact absurd h (by simp)
  | some x =>
    rw [hrs] at h
    cases x with
    | panicked => exact (panicked_ne_returned _ _ _ h).elim
    | bad_srat w => exact (returned_ne_zero_of_einval _ _ h).elim
    | finished w1 b1 =>
      simp only [] at h
      obtain ⟨blks1, a1, a2, a3, a4⟩ := srat_range_start_tile env decode fuel
        st.himem_subarray_boundary_addr st.skx_tolm node end_ _ w1 b1 hend hse hjump hrs
      simp only [] at a1 a2 a3 a4
      have hinc : 0 < (if env.num_rows_per_subarray % 512 = 0 then
            himem_stride w1.last_subarray_group w1.himem_increment
          else w1.himem_increment) ∧
          (if env.num_rows_per_subarray % 512 = 0 then
            himem_stride w1.last_subarray_group w1.himem_increment
          else w1.himem_increment) ≤ 0x200000 := by
        rw [a3]
        split
        · exact himem_stride_bounds _ _ (by omega) (by omega)
        · omega
      generalize (if env.num_rows_per_subarray % 512 = 0 then
            himem_stride w1.last_subarray_group w1.himem_increment
          else w1.himem_increment) = inc at h hinc
      have hb1 : (w1.start + inc) % 2 ^ 64 = w1.start + inc := Nat.mod_eq_of_lt (by omega)
      rw [hb1] at h
      cases hrw : rest_walk env decode end_ fuel { w1 with himem_increment := inc }
          (w1.start + inc) with
      | none => rw [hrw] at h; exact absurd h (by simp)
      | some y =>
        rw [hrw] at h
        cases y with
        | panicked => exact (panicked_ne_returned _ _ _ h).elim
        | bad_srat w => exact (returned_ne_zero_of_einval _ _ h).elim
        | finished w2 b2 =>
          simp only [] at h
          obtain ⟨blks2, c1, c2, c3, c4⟩ := rest_walk_tile env decode end_ hend fuel
            { w1 with himem_increment := inc } (w1.start + inc) w2 b2
            (by exact hinc.1) (by exact hinc.2)
            (by show w1.start < w1.start + inc; omega) hrw
          simp only [] at c1 c2
          by_cases hbe : b2 ≠ end_
          · rw [if_pos hbe] at h
            exact (panicked_ne_returned _ _ _ h).elim
          · rw [if_neg hbe] at h
            have hbe' : b2 = end_ := by
              by_contra hc
              exact hbe hc
            split at h
            · exact (returned_ne_zero_of_einval _ _ h).elim
            · simp only [Option.some.injEq, Prod.mk.injEq, true_and] at h
              rw [← h]
              refine ⟨blks1 ++ (blks2 ++ [⟨w2.res.subarray_group, w2.start, b2⟩]), ?_, ?_, ?_,
                rfl, rfl⟩
              · simp only [srat_commit]
                rw [c1, a1]
                simp only [List.append_assoc]
              · simp
              · apply TileChain_append blks1 _ start w1.start end_ a2
                apply TileChain_append blks2 _ w1.start w2.start end_ c2
                simp only [TileChain]
                exact ⟨trivial, by omega, hbe'⟩

theorem srat_early_init_frame (env : SratEnv) (st st1 : SratState) (f : skx_decode_f)
    (h : srat_early_init env st = some (st1, f)) :
    st1.memblks = st.memblks ∧ st1.maps = st.maps := by
  unfold srat_early_init at h
  cases hd : st.skx_decode with
  | some g =>
    rw [hd] at h
    simp only [Option.some.injEq, Prod.mk.injEq] at h
    rw [← h.1]
    exact ⟨rfl, rfl⟩
  | none =>
    rw [hd] at h
    simp only [] at h
    split at h
    · exact absurd h (by simp)
    · simp only [Option.some.injEq, Prod.mk.injEq] at h
      rw [← h.1]
      exact ⟨rfl, rfl⟩

/-- A node returned by `acpi_map_pxm_to_node` is the entry of the domain
in the map it leaves. -/
theorem acpi_map_pxm_to_node_lookup (k : SratConst) (m : PxmMaps) (pxm : Int)
    (h : (acpi_map_pxm_to_node k m pxm).1 ≠ NUMA_NO_NODE) :
    (acpi_map_pxm_to_node k m pxm).2.pxm_to_node_map pxm = (acpi_map_pxm_to_node k m pxm).1 := by
  unfold acpi_map_pxm_to_node at h ⊢
  by_cases hg : pxm < 0 ∨ pxm ≥ (k.MAX_PXM_DOMAINS : Int) ∨ k.numa_off = true
  · rw [if_pos hg] at h
    exact absurd rfl h
  · rw [if_neg hg] at h ⊢
    simp only [] at h ⊢
    by_cases hn : m.pxm_to_node_map pxm = NUMA_NO_NODE
    · rw [if_pos hn] at h ⊢
      by_cases hw : nodes_weight k m.nodes_found_map ≥ k.MAX_NUMNODES
      · rw [if_pos hw] at h
        exact absurd rfl h
      · rw [if_neg hw]
        simp only [__acpi_map_pxm_to_node, hn, true_or, if_true]
    · rw [if_neg hn]

/-- The walk leaves the maps and the boundary address as they were. -/
theorem memory_affinity_walk_frame (env : SratEnv) (decode : skx_decode_f) (fuel : Nat)
    (st : SratState) (node : Int) (start end_ : Nat) (res : decoded_addr)
    (o : ParseOutcome) (st' : SratState)
    (h : memory_affinity_walk env decode fuel st node start end_ res = some (o, st')) :
    st'.maps = st.maps ∧
    st'.himem_subarray_boundary_addr = st.himem_subarray_boundary_addr := by
  unfold memory_affinity_walk at h
  simp only [] at h
  split at h
  · exact absurd h (by simp)
  · simp only [Option.some.injEq, Prod.mk.injEq] at h
    rw [← h.2]; exact ⟨rfl, rfl⟩
  · simp only [Option.some.injEq, Prod.mk.injEq] at h
    rw [← h.2]; exact ⟨rfl, rfl⟩
  · split at h
    · exact absurd h (by simp)
    · simp only [Option.some.injEq, Prod.mk.injEq] at h
      rw [← h.2]; exact ⟨rfl, rfl⟩
    · simp only [Option.some.injEq, Prod.mk.injEq] at h
      rw [← h.2]; exact ⟨rfl, rfl⟩
    · split at h
      · simp only [Option.some.injEq, Prod.mk.injEq] at h
        rw [← h.2]; exact ⟨rfl, rfl⟩
      · split at h
        · simp only [Option.some.injEq, Prod.mk.injEq] at h
          rw [← h.2]; exact ⟨rfl, rfl⟩
        · simp only [Option.some.injEq, Prod.mk.injEq] at h
          rw [← h.2]; exact ⟨rfl, rfl⟩

/-- C4 (amended): for every memory-affinity record `[base, base + length)`
with `base + length + 2 MiB < 2 ^ 64` (the walk cannot wrap around) on
which `acpi_numa_memory_affinity_init` returns 0, and for every decode
function, provided that, when the record is mapped to node 0 and its base
is not 0, the boundary address `himem_subarray_boundary_addr` lies in
`[base, base + length]`: the record is enabled and the blocks passed to
`numa_add_memblk`, in emission order, are at least one and are half-open
ranges `[s_k, e_k)` with `s_k < e_k`, `s_1 = base`, `e_k = s_(k+1)` and
`e_last = base + length`; none lies outside the record's range. -/
theorem C4_blocks_tile_record (env : SratEnv) (fuel : Nat) (st : SratState)
    (ma : acpi_srat_mem_affinity) (res : decoded_addr) (st' : SratState)
    (hret : acpi_numa_memory_affinity_init env fuel st ma res =
      some (ParseOutcome.returned 0, st'))
    (hnowrap : ma.base_address + ma.length + 0x200000 < 2 ^ 64)
    (hjump : st'.maps.pxm_to_node_map (srat_record_pxm env ma) = 0 → ma.base_address ≠ 0 →
      ma.base_address ≤ st'.himem_subarray_boundary_addr ∧
      st'.himem_subarray_boundary_addr ≤ ma.base_address + ma.length) :
    ma.enabled = true ∧
    ∃ blks, st'.memblks = st.memblks ++ blks ∧ blks ≠ [] ∧
      TileChain blks ma.base_address (ma.base_address + ma.length) ∧
      ∀ b ∈ blks, ma.base_address ≤ b.start ∧ b.start < b.end_ ∧
        b.end_ ≤ ma.base_address + ma.length := by
  unfold acpi_numa_memory_affinity_init at hret
  cases hei : srat_early_init env st with
  | none =>
    rw [hei] at hret
    exact (panicked_ne_returned _ _ _ hret).elim
  | some p =>
    obtain ⟨st1, decode⟩ := p
    rw [hei] at hret
    simp only [] at hret
    obtain ⟨f1, _⟩ := srat_early_init_frame env st st1 decode hei
    split at hret
    · exact (returned_ne_zero_of_einval _ _ hret).elim
    · split at hret
      · exact (returned_ne_zero_of_einval _ _ hret).elim
      · split at hret
        · exact (returned_ne_zero_of_einval _ _ hret).elim
        · rename_i hen
          split at hret
          · exact (returned_ne_zero_of_einval _ _ hret).elim
          · split at hret
            · exact (returned_ne_zero_of_einval _ _ hret).elim
            · rename_i hnode
              have hmod : (ma.base_address + ma.length) % 2 ^ 64 =
                  ma.base_address + ma.length := Nat.mod_eq_of_lt (by omega)
              rw [hmod] at hret
              have hnn : (acpi_map_pxm_to_node env.k st1.maps (srat_record_pxm env ma)).1 ≠
                  NUMA_NO_NODE := fun hc => hnode (Or.inl hc)
              have hlook := acpi_map_pxm_to_node_lookup env.k st1.maps
                (srat_record_pxm env ma) hnn
              obtain ⟨g1, g2⟩ := memory_affinity_walk_frame env decode fuel _ _ _ _ _ _ _ hret
              simp only [] at g1 g2
              rw [g1, hlook, g2] at hjump
              obtain ⟨blks, b1, b2, b3, _, _⟩ := memory_affinity_walk_tile env decode fuel _ _
                ma.base_address (ma.base_address + ma.length) res st' (by omega) (by omega)
                (by
                  intro hbr
                  simp only [ne_eq, not_or, not_not] at hbr
                  exact hjump hbr.1 hbr.2)
                hret
              simp only [] at b1
              refine ⟨?_, blks, ?_, b2, b3, TileChain_mem blks _ _ b3⟩
              · cases hen' : ma.enabled with
                | true => rfl
                | false => exact absurd hen' hen
              · rw [b1, f1]

/-- Witness of C4 (amended): the record `[0, 0x3000)` of node 0, with a
decode that changes group at `0x1800`. -/
theorem C4_blocks_tile_record_witness :
    ∃ blks, srat_state_after_split.memblks =
        (srat_state0 decode_split_page 0x200000).memblks ++ blks ∧ blks ≠ [] ∧
      TileChain blks (srat_record0 0 0x3000).base_address
        ((srat_record0 0 0x3000).base_address + (srat_record0 0 0x3000).length) ∧
      ∀ b ∈ blks, (srat_record0 0 0x3000).base_address ≤ b.start ∧ b.start < b.end_ ∧
        b.end_ ≤ (srat_record0 0 0x3000).base_address + (srat_record0 0 0x3000).length :=
  (C4_blocks_tile_record srat_env0 4 (srat_state0 decode_split_page 0x200000)
    (srat_record0 0 0x3000) (rec0 0) srat_state_after_split rfl (by decide)
    (fun _ h => absurd rfl h)).2

theorem GroupTile_append (grp : Nat → Int) (a b : List MemBlk) (s m e : Nat)
    (ha : GroupTile grp a s m) (hb : GroupTile grp b m e) : GroupTile grp (a ++ b) s e := by
  induction a generalizing s with
  | nil =>
    simp only [GroupTile] at ha
    rw [ha]; exact hb
  | cons x rest ih =>
    simp only [GroupTile, List.cons_append] at ha ⊢
    exact ⟨ha.1, ha.2.1, ha.2.2.1, ih _ ha.2.2.2⟩

theorem GroupWalk_of_tile (grp : Nat → Int) (blks : List MemBlk) (s e : Nat) (l : MemBlk)
    (ht : GroupTile grp blks s e) (hs : l.start = e) (hn : l.nid = grp e) :
    GroupWalk grp (blks ++ [l]) := by
  induction blks generalizing s with
  | nil =>
    simp only [List.nil_append, GroupWalk]
    rw [hs]; exact hn
  | cons b rest ih =>
    simp only [GroupTile] at ht
    obtain ⟨t1, t2, t3, t4⟩ := ht
    cases rest with
    | nil =>
      simp only [GroupTile] at t4
      simp only [List.cons_append, List.nil_append, GroupWalk]
      refine ⟨t2, ?_, ?_, ?_⟩
      · rw [hs, t4]
      · rw [hs, ← t4]; exact t3
      · rw [hs]; exact hn
    | cons c r =>
      have hc := ih _ t4
      simp only [GroupTile] at t4
      simp only [List.cons_append, GroupWalk] at hc ⊢
      refine ⟨t2, t4.1, ?_, hc⟩
      rw [t4.1]; exact t3

/-- The blocks a run of `rest_walk` adds are runs of one decoded group
each, when the group the decode returns is a function `grp` of the
address. -/
theorem rest_walk_group (env : SratEnv) (decode : skx_decode_f) (end_ : Nat)
    (grp : Nat → Int)
    (hdet : ∀ r, (decode r).1 = true → (decode r).2.subarray_group = grp r.addr) :
    ∀ (fuel : Nat) (w : Walk) (b : Nat) (w' : Walk) (b' : Nat),
      w.res.subarray_group = w.last_subarray_group → w.last_subarray_group = grp w.start →
      rest_walk env decode end_ fuel w b = some (WalkExit.finished w' b') →
      ∃ blks, w'.memblks = w.memblks ++ blks ∧ GroupTile grp blks w.start w'.start ∧
        w'.res.subarray_group = w'.last_subarray_group ∧
        w'.last_subarray_group = grp w'.start := by
  intro fuel
  induction fuel with
  | zero =>
    intro w b w' b' _ _ h
    simp only [rest_walk] at h
    exact absurd h (by simp)
  | succ fuel ih =>
    intro w b w' b' hrl hls h
    simp only [rest_walk] at h
    by_cases hlt : b < end_
    · rw [if_pos hlt] at h
      have hdb := hdet { w.res with addr := b, subarray_group := -1 }
      simp only [] at hdb
      generalize decode { w.res with addr := b, subarray_group := -1 } = d at h hdb
      by_cases hd : d.1 = false
      · rw [if_pos hd] at h
        exact absurd h (by simp)
      · rw [if_neg hd] at h
        have hd1 : d.1 = true := by
          cases hx : d.1 with
          | true => rfl
          | false => exact absurd hx hd
        have hgb := hdb hd1
        by_cases hg : d.2.subarray_group ≠ w.last_subarray_group
        · rw [if_pos hg] at h
          by_cases hadd : env.numa_add_memblk w.memblks w.last_subarray_group w.start b < 0
          · rw [if_pos hadd] at h
            exact absurd h (by simp)
          · rw [if_neg hadd] at h
            obtain ⟨blks, e1, e2, e3, e4⟩ := ih _ _ w' b' (by rfl) (by exact hgb) h
            refine ⟨⟨w.last_subarray_group, w.start, b⟩ :: blks, ?_, ?_, e3, e4⟩
            · rw [e1]; simp only [List.append_assoc, List.singleton_append]
            · simp only [GroupTile]
              refine ⟨trivial, hls, ?_, e2⟩
              rw [← hgb]; exact hg
        · rw [if_neg hg] at h
          have hsame : d.2.subarray_group = w.last_subarray_group := by
            by_contra hc
            exact hg hc
          obtain ⟨blks, e1, e2, e3, e4⟩ := ih _ _ w' b' (by exact hsame) (by exact hls) h
          exact ⟨blks, e1, e2, e3, e4⟩
    · rw [if_neg hlt] at h
      simp only [Option.some.injEq, WalkExit.finished.injEq] at h
      obtain ⟨e1, e2⟩ := h
      subst e1; subst e2
      exact ⟨[], by simp, rfl, hrl, hls⟩

/-- The block a run of `first_group_walk` adds, if any, is a run of one
decoded group. -/
theorem first_group_walk_group (env : SratEnv) (decode : skx_decode_f) (end_ : Nat)
    (grp : Nat → Int)
    (hdet : ∀ r, (decode r).1 = true → (decode r).2.subarray_group = grp r.addr) :
    ∀ (fuel : Nat) (w : Walk) (b : Nat) (w' : Walk) (b' : Nat),
      w.res.subarray_group = w.last_subarray_group → w.last_subarray_group = grp w.start →
      first_group_walk env decode end_ fuel w b = some (WalkExit.finished w' b') →
      ∃ blks, w'.memblks = w.memblks ++ blks ∧ GroupTile grp blks w.start w'.start ∧
        w'.res.subarray_group = w'.last_subarray_group ∧
        w'.last_subarray_group = grp w'.start := by
  intro fuel
  induction fuel with
  | zero =>
    intro w b w' b' _ _ h
    simp only [first_group_walk] at h
    exact absurd h (by simp)
  | succ fuel ih =>
    intro w b w' b' hrl hls h
    simp only [first_group_walk] at h
    by_cases hlt : b < end_
    · rw [if_pos hlt] at h
      have hdb := hdet { w.res with addr := b, subarray_group := -1 }
      simp only [] at hdb
      generalize decode { w.res with addr := b, subarray_group := -1 } = d at h hdb
      by_cases hd : d.1 = false
      · rw [if_pos hd] at h
        exact absurd h (by simp)
      · rw [if_neg hd] at h
        have hd1 : d.1 = true := by
          cases hx : d.1 with
          | true => rfl
          | false => exact absurd hx hd
        have hgb := hdb hd1
        by_cases hg : d.2.subarray_group ≠ w.last_subarray_group
        · rw [if_pos hg] at h
          by_cases hadd : env.numa_add_memblk w.memblks w.last_subarray_group w.start b < 0
          · rw [if_pos hadd] at h
            exact absurd h (by simp)
          · rw [if_neg hadd] at h
            simp only [Option.some.injEq, WalkExit.finished.injEq] at h
            obtain ⟨e1, e2⟩ := h
            subst e1; subst e2
            refine ⟨[⟨w.last_subarray_group, w.start, b⟩], rfl, ?_, rfl, hgb⟩
            simp only [GroupTile]
            refine ⟨trivial, hls, ?_, trivial⟩
            rw [← hgb]; exact hg
        · rw [if_neg hg] at h
          have hsame : d.2.subarray_group = w.last_subarray_group := by
            by_contra hc
            exact hg hc
          obtain ⟨blks, e1, e2, e3, e4⟩ := ih _ _ w' b' (by exact hsame) (by exact hls) h
          exact ⟨blks, e1, e2, e3, e4⟩
    · rw [if_neg hlt] at h
      simp only [Option.some.injEq, WalkExit.finished.injEq] at h
      obtain ⟨e1, e2⟩ := h
      subst e1; subst e2
      exact ⟨[], by simp, rfl, hrl, hls⟩

/-- The blocks added at the start of a record's range: at most one jump
block, none when the record is walked from its base, then runs of one
decoded group each. -/
theorem srat_range_start_group (env : SratEnv) (decode : skx_decode_f) (fuel : Nat)
    (himem tolm : Nat) (node : Int) (end_ : Nat) (w : Walk) (w' : Walk) (b' : Nat)
    (grp : Nat → Int)
    (hdet : ∀ r, (decode r).1 = true → (decode r).2.subarray_group = grp r.addr)
    (h : srat_range_start env decode fuel himem tolm node end_ w =
      some (WalkExit.finished w' b')) :
    ∃ jump blks s0, w'.memblks = w.memblks ++ jump ++ blks ∧ jump.length ≤ 1 ∧
      ((node ≠ 0 ∨ w.start = 0) → jump = []) ∧
      GroupTile grp blks s0 w'.start ∧
      w'.res.subarray_group = w'.last_subarray_group ∧
      w'.last_subarray_group = grp w'.start := by
  unfold srat_range_start at h
  by_cases hbr : node ≠ 0 ∨ w.start = 0
  · rw [if_pos hbr] at h
    simp only [] at h
    have hdb := hdet { w.res with addr := w.start, subarray_group := -1 }
    simp only [] at hdb
    generalize decode { w.res with addr := w.start, subarray_group := -1 } = d at h hdb
    by_cases hd : d.1 = false
    · rw [if_pos hd] at h
      exact absurd h (by simp)
    · rw [if_neg hd] at h
      have hd1 : d.1 = true := by
        cases hx : d.1 with
        | true => rfl
        | false => exact absurd hx hd
      split at h
      · exact absurd h (by simp)
      · split at h
        · exact absurd h (by simp)
        · obtain ⟨blks, e1, e2, e3, e4⟩ := first_group_walk_group env decode end_ grp hdet fuel
            _ _ w' b' (by rfl) (by exact hdb hd1) h
          exact ⟨[], blks, w.start, by rw [e1]; simp, by simp, fun _ => rfl, e2, e3, e4⟩
  · rw [if_neg hbr] at h
    by_cases hz : himem = 0
    · rw [if_pos hz] at h
      exact absurd h (by simp)
    · rw [if_neg hz] at h
      simp only [] at h
      by_cases hne : himem ≠ w.start
      · rw [if_pos hne] at h
        generalize (tolm + 2 ^ 64 - 0x1000) % 2 ^ 64 = ta at h
        generalize decode { w.res with addr := ta, subarray_group := -1 } = dj at h
        by_cases hd : dj.1 = false
        · rw [if_pos hd] at h
          exact absurd h (by simp)
        · rw [if_neg hd] at h
          by_cases hadd : env.numa_add_memblk w.memblks dj.2.subarray_group w.start himem < 0
          · rw [if_pos hadd] at h
            exact absurd h (by simp)
          · rw [if_neg hadd] at h
            simp only [] at h
            have hdb := hdet { dj.2 with addr := himem, subarray_group := -1 }
            simp only [] at hdb
            generalize decode { dj.2 with addr := himem, subarray_group := -1 } = d at h hdb
            by_cases hd2 : d.1 = false
            · rw [if_pos hd2] at h
              exact absurd h (by simp)
            · rw [if_neg hd2] at h
              have hd1 : d.1 = true := by
                cases hx : d.1 with
                | true => rfl
                | false => exact absurd hx hd2
              simp only [Option.some.injEq, WalkExit.finished.injEq] at h
              obtain ⟨e1, e2⟩ := h
              subst e1; subst e2
              exact ⟨[⟨dj.2.subarray_group, w.start, himem⟩], [], himem, by simp, by simp,
                fun hc => absurd hc hbr, rfl, rfl, hdb hd1⟩
      · rw [if_neg hne] at h
        simp only [] at h
        have hdb := hdet { w.res with addr := himem, subarray_group := -1 }
        simp only [] at hdb
        generalize decode { w.res with addr := himem, subarray_group := -1 } = d at h hdb
        by_cases hd2 : d.1 = false
        · rw [if_pos hd2] at h
          exact absurd h (by simp)
        · rw [if_neg hd2] at h
          have hd1 : d.1 = true := by
            cases hx : d.1 with
            | true => rfl
            | false => exact absurd hx hd2
          simp only [Option.some.injEq, WalkExit.finished.injEq] at h
          obtain ⟨e1, e2⟩ := h
          subst e1; subst e2
          exact ⟨[], [], himem, by simp, by simp, fun _ => rfl, rfl, rfl, hdb hd1⟩

/-- When `memory_affinity_walk` returns 0 and the group the decode returns
is a function `grp` of the address, the blocks it added are at most one
jump block followed by the blocks of the walk, each with the group decoded
at its start as node id and each starting at an address that decodes to a
group other than the node id of the block before it. -/
theorem memory_affinity_walk_group (env : SratEnv) (decode : skx_decode_f) (fuel : Nat)
    (st : SratState) (node : Int) (start end_ : Nat) (res : decoded_addr) (st' : SratState)
    (grp : Nat → Int)
    (hdet : ∀ r, (decode r).1 = true → (decode r).2.subarray_group = grp r.addr)
    (h : memory_affinity_walk env decode fuel st node start end_ res =
      some (ParseOutcome.returned 0, st')) :
    ∃ jump walk, st'.memblks = st.memblks ++ jump ++ walk ∧ jump.length ≤ 1 ∧
      ((node ≠ 0 ∨ start = 0) → jump = []) ∧ walk ≠ [] ∧ GroupWalk grp walk := by
  unfold memory_affinity_walk at h
  simp only [] at h
  cases hrs : srat_range_start env decode fuel st.himem_subarray_boundary_addr st.skx_tolm node
      end_
      { res := res, start := start, last_subarray_group := 0, himem_increment := 0x1000,
        siloz_total_nodes := st.siloz_total_nodes,
        parsed_numa_memblks := st.parsed_numa_memblks, memblks := st.memblks } with
  | none => rw [hrs] at h; exact absurd h (by simp)
  | some x =>
    rw [hrs] at h
    cases x with
    | panicked => exact (panicked_ne_returned _ _ _ h).elim
    | bad_srat w => exact (returned_ne_zero_of_einval _ _ h).elim
    | finished w1 b1 =>
      simp only [] at h
      obtain ⟨jump, blks1, s0, a1, a2, a3, a4, a5, a6⟩ := srat_range_start_group env decode fuel
        st.himem_subarray_boundary_addr st.skx_tolm node end_ _ w1 b1 grp hdet hrs
      simp only [] at a1 a3
      generalize (if env.num_rows_per_subarray % 512 = 0 then
            himem_stride w1.last_subarray_group w1.himem_increment
          else w1.himem_increment) = inc at h
      generalize (w1.start + inc) % 2 ^ 64 = bi at h
      cases hrw : rest_walk env decode end_ fuel { w1 with himem_increment := inc } bi with
      | none => rw [hrw] at h; exact absurd h (by simp)
      | some y =>
        rw [hrw] at h
        cases y with
        | panicked => exact (panicked_ne_returned _ _ _ h).elim
        | bad_srat w => exact (returned_ne_zero_of_einval _ _ h).elim
        | finished w2 b2 =>
          simp only [] at h
          obtain ⟨blks2, c1, c2, c3, c4⟩ := rest_walk_group env decode end_ grp hdet fuel
            { w1 with himem_increment := inc } bi w2 b2 (by exact a5) (by exact a6) hrw
          simp only [] at c1 c2
          by_cases hbe : b2 ≠ end_
          · rw [if_pos hbe] at h
            exact (panicked_ne_returned _ _ _ h).elim
          · rw [if_neg hbe] at h
            split at h
            · exact (returned_ne_zero_of_einval _ _ h).elim
            · simp only [Option.some.injEq, Prod.mk.injEq, true_and] at h
              rw [← h]
              refine ⟨jump, (blks1 ++ blks2) ++ [⟨w2.res.subarray_group, w2.start, b2⟩],
                ?_, a2, a3, by simp, ?_⟩
              · simp only [srat_commit]
                rw [c1, a1]
                simp only [List.append_assoc]
              · apply GroupWalk_of_tile grp (blks1 ++ blks2) s0 w2.start _
                  (GroupTile_append grp blks1 blks2 s0 w1.start w2.start a4 c2) rfl
                show w2.res.subarray_group = grp w2.start
                rw [c3, c4]

/-- C5 (amended): when `acpi_numa_memory_affinity_init` returns 0 and the
group the decode in force returns is a function `grp` of the address, the
blocks passed to `numa_add_memblk` are at most one jump block (none when
the record is mapped to a node other than 0 or starts at address 0)
followed by one or more blocks of the walk; each block of the walk has as
node id the group decoded at its start address, and each next one starts
where the one before it ends, at an address that decodes to a group other
than that block's node id. -/
theorem C5_walk_blocks_change_group (env : SratEnv) (fuel : Nat) (st : SratState)
    (ma : acpi_srat_mem_affinity) (res : decoded_addr) (st' : SratState) (grp : Nat → Int)
    (hret : acpi_numa_memory_affinity_init env fuel st ma res =
      some (ParseOutcome.returned 0, st'))
    (hdet : ∀ st1 decode, srat_early_init env st = some (st1, decode) →
      ∀ r, (decode r).1 = true → (decode r).2.subarray_group = grp r.addr) :
    ∃ jump walk, st'.memblks = st.memblks ++ jump ++ walk ∧ jump.length ≤ 1 ∧
      ((st'.maps.pxm_to_node_map (srat_record_pxm env ma) ≠ 0 ∨ ma.base_address = 0) →
        jump = []) ∧
      walk ≠ [] ∧ GroupWalk grp walk := by
  unfold acpi_numa_memory_affinity_init at hret
  cases hei : srat_early_init env st with
  | none =>
    rw [hei] at hret
    exact (panicked_ne_returned _ _ _ hret).elim
  | some p =>
    obtain ⟨st1, decode⟩ := p
    rw [hei] at hret
    simp only [] at hret
    obtain ⟨f1, _⟩ := srat_early_init_frame env st st1 decode hei
    split at hret
    · exact (returned_ne_zero_of_einval _ _ hret).elim
    · split at hret
      · exact (returned_ne_zero_of_einval _ _ hret).elim
      · split at hret
        · exact (returned_ne_zero_of_einval _ _ hret).elim
        · split at hret
          · exact (returned_ne_zero_of_einval _ _ hret).elim
          · split at hret
            · exact (returned_ne_zero_of_einval _ _ hret).elim
            · rename_i hnode
              have hnn : (acpi_map_pxm_to_node env.k st1.maps (srat_record_pxm env ma)).1 ≠
                  NUMA_NO_NODE := fun hc => hnode (Or.inl hc)
              have hlook := acpi_map_pxm_to_node_lookup env.k st1.maps
                (srat_record_pxm env ma) hnn
              obtain ⟨g1, _⟩ := memory_affinity_walk_frame env decode fuel _ _ _ _ _ _ _ hret
              simp only [] at g1
              obtain ⟨jump, walk, b1, b2, b3, b4, b5⟩ := memory_affinity_walk_group env decode
                fuel _ _ _ _ res st' grp (hdet st1 decode hei) hret
              simp only [] at b1
              refine ⟨jump, walk, ?_, b2, ?_, b4, b5⟩
              · rw [b1, f1]
              · rw [g1, hlook]
                exact b3

/-- Witness of C5 (amended): the record `[0, 0x3000)` of node 0, with the
decode that changes group at `0x1800`. -/
theorem C5_walk_blocks_change_group_witness :
    ∃ jump walk, srat_state_after_split.memblks =
        (srat_state0 decode_split_page 0x200000).memblks ++ jump ++ walk ∧ jump.length ≤ 1 ∧
      ((srat_state_after_split.maps.pxm_to_node_map
          (srat_record_pxm srat_env0 (srat_record0 0 0x3000)) ≠ 0 ∨
        (srat_record0 0 0x3000).base_address = 0) → jump = []) ∧
      walk ≠ [] ∧ GroupWalk (fun a => if a < 0x1800 then 0 else 3) walk :=
  C5_walk_blocks_change_group srat_env0 4 (srat_state0 decode_split_page 0x200000)
    (srat_record0 0 0x3000) (rec0 0) srat_state_after_split
    (fun a => if a < 0x1800 then 0 else 3) rfl
    (by
      intro st1 decode hei r _
      have hdec : decode = decode_split_page := by
        have h2 : srat_early_init srat_env0 (srat_state0 decode_split_page 0x200000) =
            some (srat_state0 decode_split_page 0x200000, decode_split_page) := rfl
        rw [h2] at hei
        simp only [Option.some.injEq, Prod.mk.injEq] at hei
        exact hei.2.symm
      rw [hdec]
      rfl)

/-! ## The subarray group -/

/-- The row `early_skx_mad_decode` writes is `early_skx_mad_row`. -/
theorem early_skx_mad_decode_row (env : SkxEnv) (r : decoded_addr) :
    (early_skx_mad_decode env r).2.row = (early_skx_mad_row env r : Int) := rfl

/-- The group `early_skx_mad_decode` writes is `early_skx_subarray_group`
at the socket of the record and the row it writes. -/
theorem early_skx_mad_decode_group (env : SkxEnv) (r : decoded_addr) :
    (early_skx_mad_decode env r).2.subarray_group =
      early_skx_subarray_group env ((env.skx_sock_devs r.dev).imc r.imc) r.socket
        (early_skx_mad_row env r) := rfl

theorem early_skx_mad_row_lt (env : SkxEnv) (r : decoded_addr) :
    early_skx_mad_row env r < 2 ^ ((env.skx_sock_devs r.dev).imc r.imc).rowbits := by
  unfold early_skx_mad_row
  exact row_mask_lt _ _

/-- C11: for every record whose socket is not 0, `early_skx_mad_decode`
sets `subarray_group` to `SOCKET_1_EPT_NODE` (4) when the row it writes is
`0xc`, to `SOCKET_1_GUARD_ROWS_NODE` (5) for every other row below 32, and
to the provisional group id plus 4 for every row from 32 on. -/
theorem C11_secondary_socket_groups (env : SkxEnv) (r : decoded_addr) (hs : r.socket ≠ 0) :
    SOCKET_1_EPT_NODE = 4 ∧ SOCKET_1_GUARD_ROWS_NODE = 5 ∧
    ((early_skx_mad_decode env r).2.row = 0xc →
      (early_skx_mad_decode env r).2.subarray_group = SOCKET_1_EPT_NODE) ∧
    ((early_skx_mad_decode env r).2.row < 32 → (early_skx_mad_decode env r).2.row ≠ 0xc →
      (early_skx_mad_decode env r).2.subarray_group = SOCKET_1_GUARD_ROWS_NODE) ∧
    (32 ≤ (early_skx_mad_decode env r).2.row →
      (early_skx_mad_decode env r).2.subarray_group =
        early_skx_provisional_group env ((env.skx_sock_devs r.dev).imc r.imc) r.socket
          (early_skx_mad_row env r) + 4) := by
  rw [early_skx_mad_decode_row, early_skx_mad_decode_group]
  unfold early_skx_subarray_group early_skx_reserved_group
  simp only []
  rw [if_pos hs]
  generalize early_skx_provisional_group env _ r.socket _ = p
  generalize early_skx_mad_row env r = row
  refine ⟨rfl, rfl, ?_, ?_, ?_⟩
  · intro h
    have h' : row = 0xc := by exact_mod_cast h
    subst h'
    simp
  · intro h1 h2
    have h1' : row < 32 := by exact_mod_cast h1
    have h2' : row ≠ 0xc := fun hc => h2 (by rw [hc]; rfl)
    rw [if_pos h1', if_pos h2']
  · intro h
    have h' : ¬ row < 32 := by
      have : 32 ≤ row := by exact_mod_cast h
      omega
    rw [if_neg h']
    simp only [SOCKET_1_GUARD_ROWS_NODE, SOCKET_0_EPT_NODE]
    norm_num

/-- Witness of C11: on socket 1 of the one-socket geometry, the rank
addresses `0x110000` (row `0xc`), `0` (row 0) and `0x12500000` (row 600,
provisional group `(2 ^ 17 + 600) / 512 = 257`). -/
theorem C11_secondary_socket_groups_witness :
    (early_skx_mad_decode env0 (rec_rank 1 0x110000)).2.subarray_group = 4 ∧
    (early_skx_mad_decode env0 (rec_rank 1 0)).2.subarray_group = 5 ∧
    (early_skx_mad_decode env0 (rec_rank 1 0x12500000)).2.subarray_group = 257 + 4 :=
  ⟨(C11_secondary_socket_groups env0 (rec_rank 1 0x110000) (by decide)).2.2.1 (by decide),
   (C11_secondary_socket_groups env0 (rec_rank 1 0) (by decide)).2.2.2.1 (by decide) (by decide),
   (C11_secondary_socket_groups env0 (rec_rank 1 0x12500000) (by decide)).2.2.2.2 (by decide)⟩

/-- C12: for every record on socket 0, with the boundary row `B` a `u32`
value and `rowbits ≤ 31`: when `B ≠ 0`, a row in `[B, B + 32)` gets
`SOCKET_0_EPT_NODE` (2) when it is `B + 0xc` and `SOCKET_0_GUARD_ROWS_NODE`
(3) otherwise; a row outside that window, and every row when `B = 0`, gets
the provisional group id `p` when `p < 2` and `p + 4` otherwise. -/
theorem C12_primary_socket_groups (env : SkxEnv) (r : decoded_addr) (hs : r.socket = 0)
    (hB : env.himem_subarray_boundary_row < 2 ^ 32)
    (hrb : ((env.skx_sock_devs r.dev).imc r.imc).rowbits ≤ 31) :
    SOCKET_0_EPT_NODE = 2 ∧ SOCKET_0_GUARD_ROWS_NODE = 3 ∧
    (env.himem_subarray_boundary_row ≠ 0 →
      env.himem_subarray_boundary_row ≤ early_skx_mad_row env r →
      early_skx_mad_row env r < env.himem_subarray_boundary_row + 32 →
      (early_skx_mad_decode env r).2.subarray_group =
        if early_skx_mad_row env r = env.himem_subarray_boundary_row + 0xc then SOCKET_0_EPT_NODE
        else SOCKET_0_GUARD_ROWS_NODE) ∧
    ((env.himem_subarray_boundary_row = 0 ∨
        early_skx_mad_row env r < env.himem_subarray_boundary_row ∨
        env.himem_subarray_boundary_row + 32 ≤ early_skx_mad_row env r) →
      (early_skx_mad_decode env r).2.subarray_group =
        if early_skx_provisional_group env ((env.skx_sock_devs r.dev).imc r.imc) r.socket
            (early_skx_mad_row env r) < 2 then
          early_skx_provisional_group env ((env.skx_sock_devs r.dev).imc r.imc) r.socket
            (early_skx_mad_row env r)
        else
          early_skx_provisional_group env ((env.skx_sock_devs r.dev).imc r.imc) r.socket
            (early_skx_mad_row env r) + 4) := by
  have hrow := early_skx_mad_row_lt env r
  have hpow : 2 ^ ((env.skx_sock_devs r.dev).imc r.imc).rowbits ≤ 2 ^ 31 :=
    Nat.pow_le_pow_right (by norm_num) hrb
  rw [early_skx_mad_decode_group]
  unfold early_skx_subarray_group early_skx_reserved_group
  simp only []
  rw [if_neg (not_not.mpr hs)]
  generalize early_skx_provisional_group env _ r.socket _ = p
  generalize early_skx_mad_row env r = row at hrow ⊢
  generalize env.himem_subarray_boundary_row = B at hB ⊢
  simp only [SOCKET_1_GUARD_ROWS_NODE, SOCKET_0_EPT_NODE, SOCKET_0_GUARD_ROWS_NODE]
  refine ⟨trivial, trivial, ?_, ?_⟩
  · intro h0 h1 h2
    rw [if_pos h0]
    have e1 : (B + 32) % 2 ^ 32 = B + 32 := Nat.mod_eq_of_lt (by omega)
    have e2 : (B + 12) % 2 ^ 32 = B + 12 := Nat.mod_eq_of_lt (by omega)
    rw [e1, e2, if_pos ⟨h1, h2⟩]
    by_cases hc : row = B + 12
    · rw [if_neg (not_not.mpr hc), if_pos hc]
    · rw [if_pos hc, if_neg hc]
  · intro h
    by_cases h0 : B = 0
    · rw [if_neg (not_not.mpr h0)]
      split_ifs <;> omega
    · rw [if_pos h0]
      have hw : ¬ (row ≥ B ∧ row < (B + 32) % 2 ^ 32) := by
        intro hc
        by_cases hb : B + 32 < 2 ^ 32
        · rw [Nat.mod_eq_of_lt hb] at hc
          omega
        · omega
      rw [if_neg hw]
      split_ifs <;> omega

/-- Witness of C12: on socket 0 with the boundary row 1112, the rank
addresses `0x4610000` (row `1112 + 0xc`), `0x4010000` (row 1028, below the
window, provisional group 2) and `0` (row 0, provisional group 0). -/
theorem C12_primary_socket_groups_witness :
    (early_skx_mad_decode env_boundary (rec_rank 0 0x4610000)).2.subarray_group = 2 ∧
    (early_skx_mad_decode env_boundary (rec_rank 0 0x4010000)).2.subarray_group = 2 + 4 ∧
    (early_skx_mad_decode env_boundary (rec_rank 0 0)).2.subarray_group = 0 :=
  ⟨(C12_primary_socket_groups env_boundary (rec_rank 0 0x4610000) rfl (by decide)
      (by decide)).2.2.1 (by decide) (by decide) (by decide),
   (C12_primary_socket_groups env_boundary (rec_rank 0 0x4010000) rfl (by decide)
      (by decide)).2.2.2 (Or.inr (Or.inl (by decide))),
   (C12_primary_socket_groups env_boundary (rec_rank 0 0) rfl (by decide)
      (by decide)).2.2.2 (Or.inr (Or.inl (by decide)))⟩

theorem u64_of_int_natCast (n : Nat) (h : n < 2 ^ 64) : u64_of_int (n : Int) = n := by
  unfold u64_of_int
  omega

/-- The quotient `(n + 4095) / n` is the least `t` with `4096 ≤ t * n`. -/
theorem ceil_div_4096 (n : Nat) (hn : n ≠ 0) :
    4096 ≤ (4095 + n) / n * n ∧ ∀ t : Nat, 4096 ≤ t * n → (4095 + n) / n ≤ t := by
  have hpos : 0 < n := Nat.pos_of_ne_zero hn
  constructor
  · have h1 := Nat.div_add_mod (4095 + n) n
    have h2 := Nat.mod_lt (4095 + n) hpos
    have h3 : n * ((4095 + n) / n) = (4095 + n) / n * n := Nat.mul_comm _ _
    omega
  · intro t ht
    have h1 : (4095 + n) / n * n ≤ 4095 + n := Nat.div_mul_le_self _ _
    by_contra hc
    have h2 : t + 1 ≤ (4095 + n) / n := by omega
    have h3 : (t + 1) * n ≤ (4095 + n) / n * n := Nat.mul_le_mul_right n h2
    have h4 : (t + 1) * n = t * n + n := by ring
    omega

/-- The provisional group id without the machine conversions, when nothing
wraps: the quotient of `socket * 2 ^ rowbits + row` by `rows * t`. -/
theorem early_skx_provisional_group_eq (env : SkxEnv) (imc : skx_imc) (socket : Int) (row : Nat)
    (hs : 0 ≤ socket) (hfit : socket * (2 ^ imc.rowbits : Nat) + (row : Int) < 2 ^ 31)
    (hn : env.num_rows_per_subarray < 2 ^ 64)
    (hwrap : imc.close_pg ≠ 0 → env.num_rows_per_subarray + 4095 < 2 ^ 64)
    (hnz : env.num_rows_per_subarray ≠ 0) :
    early_skx_provisional_group env imc socket row =
      (socket * (2 ^ imc.rowbits : Nat) + (row : Int)) /
        ((env.num_rows_per_subarray *
          (if imc.close_pg ≠ 0 then (4095 + env.num_rows_per_subarray) / env.num_rows_per_subarray
           else 1) : Nat) : Int) := by
  obtain ⟨s, rfl⟩ := Int.eq_ofNat_of_zero_le hs
  have hN : ((s : Int) * (2 ^ imc.rowbits : Nat) + (row : Int)) =
      ((s * 2 ^ imc.rowbits + row : Nat) : Int) := by push_cast; ring
  unfold early_skx_provisional_group early_skx_subarrays_touched
  rw [hN] at hfit ⊢
  have hfit' : s * 2 ^ imc.rowbits + row < 2 ^ 31 := by exact_mod_cast hfit
  generalize s * 2 ^ imc.rowbits + row = N at hfit' ⊢
  rw [if_pos hnz, u64_of_int_natCast N (by omega)]
  generalize env.num_rows_per_subarray = n at hn hwrap hnz ⊢
  have hc := ceil_div_4096 n hnz
  have hcle : (4095 + n) / n * n ≤ 4095 + n := Nat.div_mul_le_self _ _
  have hpos : 0 < n := Nat.pos_of_ne_zero hnz
  have hcsmall : (4095 + n) / n ≤ 4096 := by
    have h1 : (4095 + n) / n ≤ (4096 * n) / n := Nat.div_le_div_right (by nlinarith)
    rwa [Nat.mul_div_cancel _ hpos] at h1
  by_cases hcp : imc.close_pg ≠ 0
  · have hw := hwrap hcp
    rw [if_pos hcp, if_pos hcp]
    have e1 : (4096 + n - 1) % 2 ^ 64 = 4095 + n := by
      rw [Nat.mod_eq_of_lt (by omega)]; omega
    rw [e1, int_of_u64_small ((4095 + n) / n) (by omega),
      u64_of_int_natCast ((4095 + n) / n) (by omega)]
    have e2 : (n * ((4095 + n) / n)) % 2 ^ 64 = n * ((4095 + n) / n) := by
      apply Nat.mod_eq_of_lt
      rw [Nat.mul_comm]; omega
    rw [e2]
    have hq : N / (n * ((4095 + n) / n)) < 2 ^ 31 :=
      lt_of_le_of_lt (Nat.div_le_self _ _) hfit'
    rw [int_of_u64_small _ hq]
    exact Int.natCast_div _ _
  · rw [if_neg hcp, if_neg hcp]
    have e0 : u64_of_int 1 = 1 := by decide
    rw [e0, Nat.mul_one, Nat.mod_eq_of_lt hn]
    have hq : N / n < 2 ^ 31 := lt_of_le_of_lt (Nat.div_le_self _ _) hfit'
    rw [int_of_u64_small _ hq]
    exact Int.natCast_div _ _

/-- C13: the provisional group id is
`floor((socket * 2 ^ rowbits + row) / (rows_per_group * t))`, where `t = 1`
in open-page mode and `t` is the least number with `4096 ≤ t * rows_per_group`
(that is, `ceil(4096 / rows_per_group)`) in close-page mode, for every
non-zero `rows_per_group`; it is 0 when `rows_per_group` is 0.  The socket
is not negative, `socket * 2 ^ rowbits + row` fits an `int`,
`rows_per_group` is an `unsigned long` and, in close-page mode, the sum
`4096 + rows_per_group - 1` does not wrap around. -/
theorem C13_provisional_group_formula (env : SkxEnv) (imc : skx_imc) (socket : Int) (row : Nat)
    (hs : 0 ≤ socket) (hfit : socket * (2 ^ imc.rowbits : Nat) + (row : Int) < 2 ^ 31)
    (hn : env.num_rows_per_subarray < 2 ^ 64)
    (hwrap : imc.close_pg ≠ 0 → env.num_rows_per_subarray + 4095 < 2 ^ 64) :
    (env.num_rows_per_subarray = 0 → early_skx_provisional_group env imc socket row = 0) ∧
    (env.num_rows_per_subarray ≠ 0 →
      ∃ t : Nat,
        (imc.close_pg = 0 → t = 1) ∧
        (imc.close_pg ≠ 0 → 4096 ≤ t * env.num_rows_per_subarray ∧
          ∀ u : Nat, 4096 ≤ u * env.num_rows_per_subarray → t ≤ u) ∧
        early_skx_provisional_group env imc socket row =
          (socket * (2 ^ imc.rowbits : Nat) + (row : Int)) /
            ((env.num_rows_per_subarray * t : Nat) : Int)) := by
  constructor
  · intro h0
    unfold early_skx_provisional_group
    rw [if_neg (not_not.mpr h0)]
  · intro hnz
    refine ⟨if imc.close_pg ≠ 0 then
        (4095 + env.num_rows_per_subarray) / env.num_rows_per_subarray else 1, ?_, ?_, ?_⟩
    · intro h
      rw [if_neg (not_not.mpr h)]
    · intro h
      rw [if_pos h]
      exact ceil_div_4096 _ hnz
    · exact early_skx_provisional_group_eq env imc socket row hs hfit hn hwrap hnz

/-- Witness of C13: socket 1, row 600, 17 row bits, 512 rows per group,
open-page mode. -/
theorem C13_provisional_group_formula_witness :
    ∃ t : Nat,
      (imc0.close_pg = 0 → t = 1) ∧
      (imc0.close_pg ≠ 0 → 4096 ≤ t * env0.num_rows_per_subarray ∧
        ∀ u : Nat, 4096 ≤ u * env0.num_rows_per_subarray → t ≤ u) ∧
      early_skx_provisional_group env0 imc0 1 600 =
        ((1 : Int) * (2 ^ imc0.rowbits : Nat) + (600 : Nat)) /
          ((env0.num_rows_per_subarray * t : Nat) : Int) :=
  (C13_provisional_group_formula env0 imc0 1 600 (by decide) (by decide) (by decide)
    (fun h => absurd rfl h)).2 (by decide)

/-- The provisional group id does not decrease with the row. -/
theorem early_skx_provisional_group_mono (env : SkxEnv) (imc : skx_imc) (socket : Int)
    (r1 r2 : Nat) (hs : 0 ≤ socket)
    (hfit : socket * (2 ^ imc.rowbits : Nat) + (r2 : Int) < 2 ^ 31)
    (hn : env.num_rows_per_subarray < 2 ^ 64)
    (hwrap : imc.close_pg ≠ 0 → env.num_rows_per_subarray + 4095 < 2 ^ 64)
    (hnz : env.num_rows_per_subarray ≠ 0) (h12 : r1 ≤ r2) :
    0 ≤ early_skx_provisional_group env imc socket r1 ∧
    early_skx_provisional_group env imc socket r1 ≤
      early_skx_provisional_group env imc socket r2 := by
  have h12' : (r1 : Int) ≤ (r2 : Int) := by exact_mod_cast h12
  rw [early_skx_provisional_group_eq env imc socket r1 hs (by omega) hn hwrap hnz,
    early_skx_provisional_group_eq env imc socket r2 hs hfit hn hwrap hnz]
  have hsp : 0 ≤ socket * ((2 ^ imc.rowbits : Nat) : Int) :=
    Int.mul_nonneg hs (Int.natCast_nonneg _)
  constructor
  · apply Int.ediv_nonneg
    · have : (0 : Int) ≤ (r1 : Int) := Int.natCast_nonneg _
      omega
    · exact Int.natCast_nonneg _
  · apply Int.ediv_le_ediv
    · have hpos : 0 < env.num_rows_per_subarray := Nat.pos_of_ne_zero hnz
      have ht : 0 < (if imc.close_pg ≠ 0 then
          (4095 + env.num_rows_per_subarray) / env.num_rows_per_subarray else 1) := by
        split
        · exact Nat.div_pos (by omega) hpos
        · exact Nat.one_pos
      exact_mod_cast Nat.mul_pos hpos ht
    · omega

/-- Outside the reserved window the subarray group does not decrease with
the row. -/
theorem early_skx_subarray_group_mono (env : SkxEnv) (imc : skx_imc) (socket : Int)
    (r1 r2 : Nat) (hs : 0 ≤ socket)
    (hfit : socket * (2 ^ imc.rowbits : Nat) + (r2 : Int) < 2 ^ 31)
    (hr2 : r2 < 2 ^ 31)
    (hn : env.num_rows_per_subarray < 2 ^ 64)
    (hwrap : imc.close_pg ≠ 0 → env.num_rows_per_subarray + 4095 < 2 ^ 64)
    (hnz : env.num_rows_per_subarray ≠ 0) (hB : env.himem_subarray_boundary_row < 2 ^ 32)
    (h12 : r1 ≤ r2)
    (ho1 : socket = 0 → env.himem_subarray_boundary_row ≠ 0 →
      ¬ (env.himem_subarray_boundary_row ≤ r1 ∧ r1 < env.himem_subarray_boundary_row + 32))
    (ho2 : socket = 0 → env.himem_subarray_boundary_row ≠ 0 →
      ¬ (env.himem_subarray_boundary_row ≤ r2 ∧ r2 < env.himem_subarray_boundary_row + 32))
    (hs1 : socket ≠ 0 → 32 ≤ r1) :
    early_skx_subarray_group env imc socket r1 ≤ early_skx_subarray_group env imc socket r2 := by
  obtain ⟨hp0, hp⟩ := early_skx_provisional_group_mono env imc socket r1 r2 hs hfit hn hwrap
    hnz h12
  unfold early_skx_subarray_group early_skx_reserved_group
  simp only []
  generalize early_skx_provisional_group env imc socket r1 = p1 at hp hp0
  generalize early_skx_provisional_group env imc socket r2 = p2 at hp
  generalize env.himem_subarray_boundary_row = B at hB ho1 ho2
  simp only [SOCKET_1_GUARD_ROWS_NODE, SOCKET_0_EPT_NODE, SOCKET_0_GUARD_ROWS_NODE]
  by_cases h0 : socket = 0
  · rw [if_neg (not_not.mpr h0)]
    by_cases hb : B = 0
    · rw [if_neg (not_not.mpr hb)]
      split_ifs <;> omega
    · rw [if_pos hb]
      have w1 : ¬ (r1 ≥ B ∧ r1 < (B + 32) % 2 ^ 32) := by
        intro hc
        have := ho1 h0 hb
        by_cases hbb : B + 32 < 2 ^ 32
        · rw [Nat.mod_eq_of_lt hbb] at hc; omega
        · omega
      have w2 : ¬ (r2 ≥ B ∧ r2 < (B + 32) % 2 ^ 32) := by
        intro hc
        have := ho2 h0 hb
        by_cases hbb : B + 32 < 2 ^ 32
        · rw [Nat.mod_eq_of_lt hbb] at hc; omega
        · omega
      rw [if_neg w1, if_neg w2]
      split_ifs <;> omega
  · rw [if_pos h0]
    have a1 : ¬ r1 < 32 := by have := hs1 h0; omega
    have a2 : ¬ r2 < 32 := by have := hs1 h0; omega
    rw [if_neg a1, if_neg a2]
    omega

/-- C14: for two records with the same device, controller and socket
(hence the same geometry), a non-zero rows-per-group and a boundary row,
whose rows lie outside the reserved window (socket 0: outside
`[B, B + 32)` when `B ≠ 0`; another socket: from 32 on), the record with
the smaller or equal row gets the smaller or equal subarray group.  The
socket is not negative, `(socket + 1) * 2 ^ rowbits` fits an `int`, and in
close-page mode the sum `4096 + rows_per_group - 1` does not wrap around. -/
theorem C14_group_monotone_in_row (env : SkxEnv) (ra rb : decoded_addr)
    (hdev : ra.dev = rb.dev) (himc : ra.imc = rb.imc) (hsock : ra.socket = rb.socket)
    (hs : 0 ≤ ra.socket)
    (hfit : (ra.socket + 1) * (2 ^ ((env.skx_sock_devs ra.dev).imc ra.imc).rowbits : Nat)
      ≤ 2 ^ 31)
    (hnz : env.num_rows_per_subarray ≠ 0) (hn : env.num_rows_per_subarray < 2 ^ 64)
    (hwrap : ((env.skx_sock_devs ra.dev).imc ra.imc).close_pg ≠ 0 →
      env.num_rows_per_subarray + 4095 < 2 ^ 64)
    (hB : env.himem_subarray_boundary_row < 2 ^ 32)
    (hwa : ra.socket = 0 → env.himem_subarray_boundary_row ≠ 0 →
      ¬ ((env.himem_subarray_boundary_row : Int) ≤ (early_skx_mad_decode env ra).2.row ∧
        (early_skx_mad_decode env ra).2.row < (env.himem_subarray_boundary_row : Int) + 32))
    (hwb : ra.socket = 0 → env.himem_subarray_boundary_row ≠ 0 →
      ¬ ((env.himem_subarray_boundary_row : Int) ≤ (early_skx_mad_decode env rb).2.row ∧
        (early_skx_mad_decode env rb).2.row < (env.himem_subarray_boundary_row : Int) + 32))
    (hsa : ra.socket ≠ 0 → 32 ≤ (early_skx_mad_decode env ra).2.row)
    (hle : (early_skx_mad_decode env ra).2.row ≤ (early_skx_mad_decode env rb).2.row) :
    (early_skx_mad_decode env ra).2.subarray_group ≤
      (early_skx_mad_decode env rb).2.subarray_group := by
  rw [early_skx_mad_decode_row] at hwa hsa hle
  rw [early_skx_mad_decode_row] at hwb hle
  rw [early_skx_mad_decode_group, early_skx_mad_decode_group, ← hdev, ← himc, ← hsock]
  have hrb := early_skx_mad_row_lt env rb
  rw [← hdev, ← himc] at hrb
  generalize early_skx_mad_row env ra = r1 at hwa hsa hle
  generalize early_skx_mad_row env rb = r2 at hwb hle hrb
  generalize (env.skx_sock_devs ra.dev).imc ra.imc = imc at hfit hwrap hrb
  have hpw : (0 : Int) ≤ ((2 ^ imc.rowbits : Nat) : Int) := Int.natCast_nonneg _
  have hrb' : (r2 : Int) < ((2 ^ imc.rowbits : Nat) : Int) := by exact_mod_cast hrb
  have hmul : (ra.socket + 1) * ((2 ^ imc.rowbits : Nat) : Int) =
      ra.socket * ((2 ^ imc.rowbits : Nat) : Int) + ((2 ^ imc.rowbits : Nat) : Int) := by ring
  have hsp : 0 ≤ ra.socket * ((2 ^ imc.rowbits : Nat) : Int) := Int.mul_nonneg hs hpw
  apply early_skx_subarray_group_mono env imc ra.socket r1 r2 hs (by omega) (by omega) hn hwrap
    hnz hB (by exact_mod_cast hle)
  · intro h0 hb hc
    exact hwa h0 hb ⟨by exact_mod_cast hc.1, by exact_mod_cast hc.2⟩
  · intro h0 hb hc
    exact hwb h0 hb ⟨by exact_mod_cast hc.1, by exact_mod_cast hc.2⟩
  · intro h0
    exact_mod_cast hsa h0

/-- Witness of C14: socket 0 with the boundary row 1112, the rows 600
(rank address `0x12500000`) and 2000 (rank address `0x17C00000`). -/
theorem C14_group_monotone_in_row_witness :
    (early_skx_mad_decode env_boundary (rec_rank 0 0x12500000)).2.subarray_group ≤
      (early_skx_mad_decode env_boundary (rec_rank 0 0x17C00000)).2.subarray_group :=
  C14_group_monotone_in_row env_boundary (rec_rank 0 0x12500000) (rec_rank 0 0x17C00000)
    rfl rfl rfl (by decide) (by decide) (by decide) (by decide) (fun h => absurd rfl h)
    (by decide) (fun _ _ => by decide) (fun _ _ => by decide) (fun h => absurd rfl h)
    (by decide)

/-- On socket 0, in open-page mode and before a boundary row is known, a
row of at least `1020 * rows_per_group` gets a subarray group of at least
`MAX_SUBARRAY_GROUPS`. -/
theorem early_skx_subarray_group_large (env : SkxEnv) (imc : skx_imc) (row : Nat)
    (hop : imc.close_pg = 0) (hnz : env.num_rows_per_subarray ≠ 0)
    (hn : env.num_rows_per_subarray < 2 ^ 64) (hB : env.himem_subarray_boundary_row = 0)
    (hrow : row < 2 ^ 31) (hbig : 1020 * env.num_rows_per_subarray ≤ row) :
    (MAX_SUBARRAY_GROUPS : Int) ≤ early_skx_subarray_group env imc 0 row := by
  have hp := early_skx_provisional_group_eq env imc 0 row (le_refl 0)
    (by simp only [zero_mul, zero_add]; exact_mod_cast hrow) hn
    (fun h => absurd hop h) hnz
  rw [if_neg (not_not.mpr hop), Nat.mul_one] at hp
  simp only [zero_mul, zero_add] at hp
  have hq : 1020 ≤ row / env.num_rows_per_subarray :=
    (Nat.le_div_iff_mul_le (Nat.pos_of_ne_zero hnz)).mpr hbig
  have hq' : (1020 : Int) ≤ (row : Int) / (env.num_rows_per_subarray : Int) := by
    rw [← Int.natCast_div]
    exact_mod_cast hq
  unfold early_skx_subarray_group early_skx_reserved_group
  simp only []
  rw [hp, hB]
  simp only [SOCKET_0_EPT_NODE, SOCKET_1_GUARD_ROWS_NODE, MAX_SUBARRAY_GROUPS,
    MAX_SUBARRAY_GROUP_BITS]
  generalize (row : Int) / (env.num_rows_per_subarray : Int) = q at hq'
  have e : ((1 <<< 10 : Nat) : Int) = 1024 := by decide
  rw [e]
  split_ifs <;> omega

/-- C15 (the code, in general and at the failing input): the group id has
no upper bound: on socket 0, in open-page mode and before a boundary row is
known, every row of at least `1020 * rows_per_group` gets a subarray group
of at least `MAX_SUBARRAY_GROUPS = 1024`.  With 16 rows per subarray, on the
one-socket configuration `env_flat 16` (open-page geometry, 17 row bits),
the early decode of the address `0x100000000` succeeds on socket 0 with
row `32768` and subarray group `32768 / 16 + 4 = 2052`; the high-memory
sweep of `early_skx_init`, whose first page this is, then indexes
`lomem_subarray_groups_map` outside its bounds. -/
theorem C15_group_exceeds_max_groups :
    (∀ (env : SkxEnv) (r : decoded_addr),
      ((env.skx_sock_devs r.dev).imc r.imc).close_pg = 0 → r.socket = 0 →
      env.num_rows_per_subarray ≠ 0 → env.num_rows_per_subarray < 2 ^ 64 →
      env.himem_subarray_boundary_row = 0 →
      ((env.skx_sock_devs r.dev).imc r.imc).rowbits ≤ 31 →
      ((1020 * env.num_rows_per_subarray : Nat) : Int) ≤ (early_skx_mad_decode env r).2.row →
      (MAX_SUBARRAY_GROUPS : Int) ≤ (early_skx_mad_decode env r).2.subarray_group) ∧
    (early_skx_decode_local (env_flat 16) (rec0 0x100000000)).1 = true ∧
    (early_skx_decode_local (env_flat 16) (rec0 0x100000000)).2.socket = 0 ∧
    (early_skx_decode_local (env_flat 16) (rec0 0x100000000)).2.row = 32768 ∧
    (early_skx_decode_local (env_flat 16) (rec0 0x100000000)).2.subarray_group = 2052 ∧
    MAX_SUBARRAY_GROUPS = 1024 ∧
    sweep_out_of_bounds (early_skx_init_sweeps (early_skx_decode_at (env_flat 16)) 16 0x2000
      0x880000000 1 4 (rec0 0) 0 0 FIRST_REMOTE_GROUP_UNSET) = true := by
  refine ⟨?_, by decide, by decide, by decide, by decide, by decide, by decide⟩
  intro env r hop hs hnz hn hB hrb hbig
  rw [early_skx_mad_decode_row] at hbig
  rw [early_skx_mad_decode_group, hs]
  have hrow := early_skx_mad_row_lt env r
  have hpow : 2 ^ ((env.skx_sock_devs r.dev).imc r.imc).rowbits ≤ 2 ^ 31 :=
    Nat.pow_le_pow_right (by norm_num) hrb
  exact early_skx_subarray_group_large env _ _ hop hnz hn hB (by omega) (by exact_mod_cast hbig)

/-! ## Guard-row distances -/

/-- Outside the firmware matrix, off the diagonal, a cell in the row or the
column of a guard-row id has the largest distance as its expected distance,
whatever the two recorded distances are. -/
theorem slit_expected_distance_guard (k : SratConst) (T : Int) (frg : Nat)
    (slit : acpi_table_slit) (L R : Int) (i j : Nat) (hij : i ≠ j)
    (hout : ¬ (i < slit.locality_count ∧ j < slit.locality_count))
    (hg : (i : Int) = SOCKET_0_GUARD_ROWS_NODE ∨ (i : Int) = SOCKET_1_GUARD_ROWS_NODE ∨
      (j : Int) = SOCKET_0_GUARD_ROWS_NODE ∨ (j : Int) = SOCKET_1_GUARD_ROWS_NODE) :
    slit_expected_distance k T frg slit L R i j = ((2 ^ k.DISTANCE_BITS : Nat) : Int) - 1 := by
  unfold slit_expected_distance slit_synth_distance
  rw [if_neg hout, if_neg hij, if_pos hg]

/-- The distance table after the `else` branch of `acpi_numa_slit_init`,
when every locality is mapped to the node of the same number: every cell
off the diagonal and outside the firmware matrix, in the row or the column
of a guard-row id, holds the largest distance. -/
theorem slit_init_guard_table (k : SratConst) (m : PxmMaps) (T : Int) (frg : Nat)
    (slit : acpi_table_slit) (st : SlitState)
    (hid : ∀ a : Nat, a < slit.locality_count → pxm_to_node k m (a : Int) = (a : Int))
    (hfrg : frg ≠ FIRST_REMOTE_GROUP_UNSET) :
    ∀ a b : Nat, a < T.toNat → b < T.toNat → a ≠ b →
      ¬ (a < slit.locality_count ∧ b < slit.locality_count) →
      ((a : Int) = SOCKET_0_GUARD_ROWS_NODE ∨ (a : Int) = SOCKET_1_GUARD_ROWS_NODE ∨
        (b : Int) = SOCKET_0_GUARD_ROWS_NODE ∨ (b : Int) = SOCKET_1_GUARD_ROWS_NODE) →
      (acpi_numa_slit_init k m T frg slit st).numa_distance (a : Int) (b : Int) =
        some (((2 ^ k.DISTANCE_BITS : Nat) : Int) - 1) := by
  have hmain := foldl_range_inv (acpi_numa_slit_init_row k m T frg slit)
    (fun i (s : SlitState) =>
      ∀ a b : Nat, a < i → b < T.toNat → a ≠ b →
        ¬ (a < slit.locality_count ∧ b < slit.locality_count) →
        ((a : Int) = SOCKET_0_GUARD_ROWS_NODE ∨ (a : Int) = SOCKET_1_GUARD_ROWS_NODE ∨
          (b : Int) = SOCKET_0_GUARD_ROWS_NODE ∨ (b : Int) = SOCKET_1_GUARD_ROWS_NODE) →
        s.numa_distance (a : Int) (b : Int) =
          some (((2 ^ k.DISTANCE_BITS : Nat) : Int) - 1)) T.toNat st ?h0 ?hstep
  case h0 =>
    · intro a b ha
      exact absurd ha (by omega)
  case hstep =>
    · intro i s hi hQ
      have hfrom : slit_node k m slit i ≠ NUMA_NO_NODE := by
        rw [slit_node_id k m slit hid i]; unfold NUMA_NO_NODE; omega
      rw [slit_init_row_eq k m T frg slit i s hfrom, slit_node_id k m slit hid i]
      have hR := foldl_range_inv (acpi_numa_slit_init_cell k m T frg slit i (i : Int))
        (fun n (s' : SlitState) =>
          (∀ a b : Nat, a < i → b < T.toNat → a ≠ b →
            ¬ (a < slit.locality_count ∧ b < slit.locality_count) →
            ((a : Int) = SOCKET_0_GUARD_ROWS_NODE ∨ (a : Int) = SOCKET_1_GUARD_ROWS_NODE ∨
              (b : Int) = SOCKET_0_GUARD_ROWS_NODE ∨ (b : Int) = SOCKET_1_GUARD_ROWS_NODE) →
            s'.numa_distance (a : Int) (b : Int) =
              some (((2 ^ k.DISTANCE_BITS : Nat) : Int) - 1)) ∧
          (∀ b : Nat, b < n → i ≠ b →
            ¬ (i < slit.locality_count ∧ b < slit.locality_count) →
            ((i : Int) = SOCKET_0_GUARD_ROWS_NODE ∨ (i : Int) = SOCKET_1_GUARD_ROWS_NODE ∨
              (b : Int) = SOCKET_0_GUARD_ROWS_NODE ∨ (b : Int) = SOCKET_1_GUARD_ROWS_NODE) →
            s'.numa_distance (i : Int) (b : Int) =
              some (((2 ^ k.DISTANCE_BITS : Nat) : Int) - 1)))
        T.toNat s
        ⟨hQ, fun b hb => absurd hb (by omega)⟩
        (by
          intro n s' hn hR
          obtain ⟨r3, r4⟩ := hR
          obtain ⟨cd, _, _⟩ := slit_init_cell_id k m T frg slit i n s' hid
          refine ⟨?_, ?_⟩
          · intro a b ha hb hab hout hg
            rw [cd a b, if_neg (by omega)]
            exact r3 a b ha hb hab hout hg
          · intro b hb hib hout hg
            rw [cd i b]
            by_cases hbn : b = n
            · rw [if_pos ⟨rfl, hbn⟩, ← hbn,
                slit_expected_distance_guard k T frg slit _ _ i b hib hout hg]
            · rw [if_neg (by omega)]
              exact r4 b (by omega) hib hout hg)
      obtain ⟨r3, r4⟩ := hR
      intro a b ha hb hab hout hg
      by_cases hai : a = i
      · rw [hai] at hab hout hg ⊢
        exact r4 b hb hab hout hg
      · exact r3 a b (by omega) hb hab hout hg
  unfold acpi_numa_slit_init
  simp only [hfrg, if_false]
  intro a b ha hb
  exact hmain a b ha hb

/-- C20: in the two-socket case (`first_remote_group` set), for every pair
of distinct indices `(i, j)` not both below the firmware locality count
with `i` or `j` a guard-row id (3 or 5): the iteration for `(i, j)` sets the
distance of its pair of nodes to `(1 << DISTANCE_BITS) - 1`, whatever the
domain map is, provided the column has a node; and when every locality is
mapped to the node of the same number, the table
`acpi_numa_slit_init` leaves holds `(1 << DISTANCE_BITS) - 1` for the pair
`(i, j)` below `siloz_total_nodes`. -/
theorem C20_guard_row_distance_is_max (k : SratConst) (m : PxmMaps) (T : Int) (frg : Nat)
    (slit : acpi_table_slit) (st : SlitState) (i j : Nat)
    (hfrg : frg ≠ FIRST_REMOTE_GROUP_UNSET) (hij : i ≠ j)
    (hout : ¬ (i < slit.locality_count ∧ j < slit.locality_count))
    (hg : (i : Int) = SOCKET_0_GUARD_ROWS_NODE ∨ (i : Int) = SOCKET_1_GUARD_ROWS_NODE ∨
      (j : Int) = SOCKET_0_GUARD_ROWS_NODE ∨ (j : Int) = SOCKET_1_GUARD_ROWS_NODE) :
    SOCKET_0_GUARD_ROWS_NODE = 3 ∧ SOCKET_1_GUARD_ROWS_NODE = 5 ∧
    (∀ from_node : Int, slit_node k m slit j ≠ NUMA_NO_NODE →
      (acpi_numa_slit_init_cell k m T frg slit i from_node st j).numa_distance from_node
        (slit_node k m slit j) = some (((1 <<< k.DISTANCE_BITS : Nat) : Int) - 1)) ∧
    ((∀ a : Nat, a < slit.locality_count → pxm_to_node k m (a : Int) = (a : Int)) →
      i < T.toNat → j < T.toNat →
      (acpi_numa_slit_init k m T frg slit st).numa_distance (i : Int) (j : Int) =
        some (((1 <<< k.DISTANCE_BITS : Nat) : Int) - 1)) := by
  have hsh : (1 <<< k.DISTANCE_BITS : Nat) = 2 ^ k.DISTANCE_BITS := by
    rw [Nat.shiftLeft_eq, Nat.one_mul]
  rw [hsh]
  refine ⟨rfl, rfl, ?_, ?_⟩
  · intro from_node hto
    rw [slit_init_cell_eq k m T frg slit i j from_node st hto, if_neg hout]
    have hv := slit_expected_distance_guard k T frg slit st.local_distance st.remote_distance
      i j hij hout hg
    unfold slit_expected_distance at hv
    rw [if_neg hout] at hv
    rw [hv]
    simp only [numa_set_distance, and_self, if_true]
  · intro hid hi hj
    exact slit_init_guard_table k m T frg slit st hid hfrg i j hi hj hij hout hg

/-- Witness of C20: the two-socket table `slit_two`, eight logical nodes,
first remote group 7: the distances of `(3, 0)` and `(0, 5)` are 255. -/
theorem C20_guard_row_distance_is_max_witness :
    (acpi_numa_slit_init k0 pxm_maps_two 8 7 slit_two slit_state_init).numa_distance 3 0 =
      some 255 ∧
    (acpi_numa_slit_init k0 pxm_maps_two 8 7 slit_two slit_state_init).numa_distance 0 5 =
      some 255 :=
  ⟨(C20_guard_row_distance_is_max k0 pxm_maps_two 8 7 slit_two slit_state_init 3 0
      (by decide) (by decide) (by decide) (by decide)).2.2.2
      (fun a ha => by
        have h2 : a < 2 := ha
        interval_cases a <;> decide) (by decide) (by decide),
   (C20_guard_row_distance_is_max k0 pxm_maps_two 8 7 slit_two slit_state_init 0 5
      (by decide) (by decide) (by decide) (by decide)).2.2.2
      (fun a ha => by
        have h2 : a < 2 := ha
        interval_cases a <;> decide) (by decide) (by decide)⟩

/-! ## The jump to the boundary address -/

/-- C19 (counterexample): a record of domain 0 (node 0) whose base is 0,
`[0, 0x3000)`, parsed when the discovered boundary address is
`0x100000000`, with a decode whose group changes at `0x1800`: the call
returns 0 and the blocks passed to `numa_add_memblk` are `[0, 0x2000)` of
node 0 and `[0x2000, 0x3000)` of node 3; the first block ends where the
walk from address 0 met another group, not at the boundary address, and no
block is `[0, 0x100000000)`. -/
theorem C19_counterexample :
    (srat_record0 0 0x3000).base_address = 0 ∧
    (srat_state0 decode_split_page 0x100000000).himem_subarray_boundary_addr = 0x100000000 ∧
    (acpi_map_pxm_to_node srat_env0.k (srat_state0 decode_split_page 0x100000000).maps
      (srat_record_pxm srat_env0 (srat_record0 0 0x3000))).1 = 0 ∧
    outcome_blocks (acpi_numa_memory_affinity_init srat_env0 4
      (srat_state0 decode_split_page 0x100000000) (srat_record0 0 0x3000) (rec0 0)) =
      some (some 0, [(0, 0, 0x2000), (3, 0x2000, 0x3000)]) := by
  decide

/-- A run of `rest_walk` only appends to the list of blocks. -/
theorem rest_walk_appends (env : SratEnv) (decode : skx_decode_f) (end_ : Nat) :
    ∀ (fuel : Nat) (w : Walk) (b : Nat) (x : WalkExit),
      rest_walk env decode end_ fuel w b = some x →
      (∀ w' b', x = WalkExit.finished w' b' → ∃ blks, w'.memblks = w.memblks ++ blks) ∧
      (∀ w', x = WalkExit.bad_srat w' → ∃ blks, w'.memblks = w.memblks ++ blks) := by
  intro fuel
  induction fuel with
  | zero =>
    intro w b x h
    simp only [rest_walk] at h
    exact absurd h (by simp)
  | succ n ih =>
    intro w b x h
    rw [rest_walk] at h
    by_cases hb : b < end_
    · rw [if_pos hb] at h
      simp only [] at h
      generalize decode { w.res with addr := b, subarray_group := -1 } = d at h
      by_cases hd : d.1 = false
      · rw [if_pos hd] at h
        simp only [Option.some.injEq] at h
        subst h
        exact ⟨fun w' b' hc => (by cases hc), fun w' hc => by cases hc⟩
      · rw [if_neg hd] at h
        by_cases hg : d.2.subarray_group ≠ w.last_subarray_group
        · rw [if_pos hg] at h
          by_cases hadd : env.numa_add_memblk w.memblks w.last_subarray_group w.start b < 0
          · rw [if_pos hadd] at h
            simp only [Option.some.injEq] at h
            subst h
            refine ⟨fun w' b' hc => (by cases hc), fun w' hc => ?_⟩
            simp only [WalkExit.bad_srat.injEq] at hc
            subst hc
            exact ⟨_, rfl⟩
          · rw [if_neg hadd] at h
            obtain ⟨i1, i2⟩ := ih _ _ x h
            refine ⟨fun w' b' hc => ?_, fun w' hc => ?_⟩
            · obtain ⟨blks, e⟩ := i1 w' b' hc
              exact ⟨⟨w.last_subarray_group, w.start, b⟩ :: blks, by rw [e]; simp⟩
            · obtain ⟨blks, e⟩ := i2 w' hc
              exact ⟨⟨w.last_subarray_group, w.start, b⟩ :: blks, by rw [e]; simp⟩
        · rw [if_neg hg] at h
          obtain ⟨i1, i2⟩ := ih _ _ x h
          exact ⟨fun w' b' hc => i1 w' b' hc, fun w' hc => i2 w' hc⟩
    · rw [if_neg hb] at h
      simp only [Option.some.injEq] at h
      subst h
      refine ⟨fun w' b' hc => ?_, fun w' hc => by cases hc⟩
      simp only [WalkExit.finished.injEq] at hc
      rw [← hc.1]
      exact ⟨[], by simp⟩

/-- The start of the range for a record of node 0 whose base is neither 0
nor the boundary address: when the statement runs to its end, the decode at
`skx_tolm - 0x1000` succeeded and one block was added, from the base to the
boundary address, with the group decoded there as node id; the walk goes on
from the boundary address. -/
theorem srat_range_start_jump (env : SratEnv) (decode : skx_decode_f) (fuel : Nat)
    (himem tolm : Nat) (node : Int) (end_ : Nat) (w : Walk) (w' : Walk) (b' : Nat)
    (hnode : node = 0) (hstart : w.start ≠ 0) (hne : himem ≠ w.start)
    (h : srat_range_start env decode fuel himem tolm node end_ w =
      some (WalkExit.finished w' b')) :
    himem ≠ 0 ∧
    (decode { w.res with addr := (tolm + 2 ^ 64 - 0x1000) % 2 ^ 64, subarray_group := -1 }).1 =
      true ∧
    w'.memblks = w.memblks ++
      [⟨(decode { w.res with addr := (tolm + 2 ^ 64 - 0x1000) % 2 ^ 64,
                             subarray_group := -1 }).2.subarray_group, w.start, himem⟩] ∧
    w'.start = himem ∧ b' = himem := by
  unfold srat_range_start at h
  have hbr : ¬ (node ≠ 0 ∨ w.start = 0) := by
    intro hc
    rcases hc with hc | hc
    · exact hc hnode
    · exact hstart hc
  rw [if_neg hbr] at h
  by_cases hz : himem = 0
  · rw [if_pos hz] at h
    exact absurd h (by simp)
  · rw [if_neg hz] at h
    simp only [] at h
    rw [if_pos hne] at h
    generalize (tolm + 2 ^ 64 - 0x1000) % 2 ^ 64 = ta at h ⊢
    generalize decode { w.res with addr := ta, subarray_group := -1 } = dj at h ⊢
    by_cases hd : dj.1 = false
    · rw [if_pos hd] at h
      exact absurd h (by simp)
    · rw [if_neg hd] at h
      by_cases hadd : env.numa_add_memblk w.memblks dj.2.subarray_group w.start himem < 0
      · rw [if_pos hadd] at h
        exact absurd h (by simp)
      · rw [if_neg hadd] at h
        simp only [] at h
        split at h
        · exact absurd h (by simp)
        · simp only [Option.some.injEq, WalkExit.finished.injEq] at h
          obtain ⟨e1, e2⟩ := h
          subst e1; subst e2
          refine ⟨hz, ?_, rfl, rfl, rfl⟩
          cases hdj : dj.1 with
          | true => rfl
          | false => exact absurd hdj hd

/-- The walk leaves `skx_tolm` and `skx_decode` as they were. -/
theorem memory_affinity_walk_frame_decode (env : SratEnv) (decode : skx_decode_f) (fuel : Nat)
    (st : SratState) (node : Int) (start end_ : Nat) (res : decoded_addr)
    (o : ParseOutcome) (st' : SratState)
    (h : memory_affinity_walk env decode fuel st node start end_ res = some (o, st')) :
    st'.skx_tolm = st.skx_tolm ∧ st'.skx_decode = st.skx_decode := by
  unfold memory_affinity_walk at h
  simp only [] at h
  split at h
  · exact absurd h (by simp)
  · simp only [Option.some.injEq, Prod.mk.injEq] at h
    rw [← h.2]; exact ⟨rfl, rfl⟩
  · simp only [Option.some.injEq, Prod.mk.injEq] at h
    rw [← h.2]; exact ⟨rfl, rfl⟩
  · split at h
    · exact absurd h (by simp)
    · simp only [Option.some.injEq, Prod.mk.injEq] at h
      rw [← h.2]; exact ⟨rfl, rfl⟩
    · simp only [Option.some.injEq, Prod.mk.injEq] at h
      rw [← h.2]; exact ⟨rfl, rfl⟩
    · split at h
      · simp only [Option.some.injEq, Prod.mk.injEq] at h
        rw [← h.2]; exact ⟨rfl, rfl⟩
      · split at h
        · simp only [Option.some.injEq, Prod.mk.injEq] at h
          rw [← h.2]; exact ⟨rfl, rfl⟩
        · simp only [Option.some.injEq, Prod.mk.injEq] at h
          rw [← h.2]; exact ⟨rfl, rfl⟩

/-- The decode function `srat_early_init` hands on is the one it leaves in
`skx_decode`. -/
theorem srat_early_init_decode (env : SratEnv) (st st1 : SratState) (f : skx_decode_f)
    (h : srat_early_init env st = some (st1, f)) : st1.skx_decode = some f := by
  unfold srat_early_init at h
  cases hd : st.skx_decode with
  | some g =>
    rw [hd] at h
    simp only [Option.some.injEq, Prod.mk.injEq] at h
    rw [← h.1, ← h.2]
    exact hd
  | none =>
    rw [hd] at h
    simp only [] at h
    split at h
    · exact absurd h (by simp)
    · simp only [Option.some.injEq, Prod.mk.injEq] at h
      rw [← h.1, ← h.2]

/-- The walk of a record of node 0 whose base is neither 0 nor the boundary
address, when it returns 0: the first block it adds runs from the base to
the boundary address. -/
theorem memory_affinity_walk_jump (env : SratEnv) (decode : skx_decode_f) (fuel : Nat)
    (st : SratState) (node : Int) (start end_ : Nat) (res : decoded_addr) (st' : SratState)
    (hnode : node = 0) (hstart : start ≠ 0) (hne : st.himem_subarray_boundary_addr ≠ start)
    (h : memory_affinity_walk env decode fuel st node start end_ res =
      some (ParseOutcome.returned 0, st')) :
    st.himem_subarray_boundary_addr ≠ 0 ∧
    (decode { res with addr := (st.skx_tolm + 2 ^ 64 - 0x1000) % 2 ^ 64,
                       subarray_group := -1 }).1 = true ∧
    ∃ rest, st'.memblks = st.memblks ++
      ⟨(decode { res with addr := (st.skx_tolm + 2 ^ 64 - 0x1000) % 2 ^ 64,
                          subarray_group := -1 }).2.subarray_group, start,
        st.himem_subarray_boundary_addr⟩ :: rest ∧ rest ≠ [] := by
  unfold memory_affinity_walk at h
  simp only [] at h
  split at h
  · exact absurd h (by simp)
  · exact (panicked_ne_returned _ _ _ h).elim
  · exact (returned_ne_zero_of_einval _ _ h).elim
  · rename_i w1 b1 hrs
    obtain ⟨j1, j2, j3, _, _⟩ := srat_range_start_jump env decode fuel _ _ node end_ _ w1 b1
      hnode hstart hne hrs
    simp only [] at j2 j3
    refine ⟨j1, j2, ?_⟩
    split at h
    · exact absurd h (by simp)
    · exact (panicked_ne_returned _ _ _ h).elim
    · exact (returned_ne_zero_of_einval _ _ h).elim
    · rename_i w2 b2 hrw
      obtain ⟨blks, e⟩ := (rest_walk_appends env decode end_ fuel _ _ _ hrw).1 w2 b2 rfl
      simp only [] at e
      split at h
      · exact (panicked_ne_returned _ _ _ h).elim
      · split at h
        · exact (returned_ne_zero_of_einval _ _ h).elim
        · simp only [Option.some.injEq, Prod.mk.injEq] at h
          rw [← h.2]
          simp only [srat_commit]
          rw [e, j3]
          exact ⟨blks ++ [⟨w2.res.subarray_group, w2.start, b2⟩], by simp, by simp⟩

/-- C19 (amended): for a record mapped to node 0 whose base address is not
0 and is not the boundary address, on which
`acpi_numa_memory_affinity_init` returns 0: the boundary address
`himem_subarray_boundary_addr` is not 0, the decode at `skx_tolm - 0x1000`
succeeded, and the first block the call passed to `numa_add_memblk` is
`[base, himem_subarray_boundary_addr)`, with the group decoded at
`skx_tolm - 0x1000` as its node id; further blocks follow it. -/
theorem C19_node0_nonzero_base_jumps (env : SratEnv) (fuel : Nat) (st : SratState)
    (ma : acpi_srat_mem_affinity) (res : decoded_addr) (st' : SratState)
    (hret : acpi_numa_memory_affinity_init env fuel st ma res =
      some (ParseOutcome.returned 0, st'))
    (hnode : st'.maps.pxm_to_node_map (srat_record_pxm env ma) = 0)
    (hbase : ma.base_address ≠ 0)
    (hne : st'.himem_subarray_boundary_addr ≠ ma.base_address) :
    st'.himem_subarray_boundary_addr ≠ 0 ∧
    ∃ decode, st'.skx_decode = some decode ∧
      (decode { res with addr := (st'.skx_tolm + 2 ^ 64 - 0x1000) % 2 ^ 64,
                         subarray_group := -1 }).1 = true ∧
      ∃ rest, st'.memblks = st.memblks ++
        ⟨(decode { res with addr := (st'.skx_tolm + 2 ^ 64 - 0x1000) % 2 ^ 64,
                            subarray_group := -1 }).2.subarray_group,
          ma.base_address, st'.himem_subarray_boundary_addr⟩ :: rest ∧ rest ≠ [] := by
  unfold acpi_numa_memory_affinity_init at hret
  cases hei : srat_early_init env st with
  | none =>
    rw [hei] at hret
    exact (panicked_ne_returned _ _ _ hret).elim
  | some p =>
    obtain ⟨st1, decode⟩ := p
    rw [hei] at hret
    simp only [] at hret
    obtain ⟨f1, _⟩ := srat_early_init_frame env st st1 decode hei
    have fd := srat_early_init_decode env st st1 decode hei
    split at hret
    · exact (returned_ne_zero_of_einval _ _ hret).elim
    · split at hret
      · exact (returned_ne_zero_of_einval _ _ hret).elim
      · split at hret
        · exact (returned_ne_zero_of_einval _ _ hret).elim
        · split at hret
          · exact (returned_ne_zero_of_einval _ _ hret).elim
          · split at hret
            · exact (returned_ne_zero_of_einval _ _ hret).elim
            · rename_i hnode'
              have hnn : (acpi_map_pxm_to_node env.k st1.maps (srat_record_pxm env ma)).1 ≠
                  NUMA_NO_NODE := fun hc => hnode' (Or.inl hc)
              have hlook := acpi_map_pxm_to_node_lookup env.k st1.maps
                (srat_record_pxm env ma) hnn
              obtain ⟨g1, g2⟩ := memory_affinity_walk_frame env decode fuel _ _ _ _ _ _ _ hret
              obtain ⟨g3, g4⟩ := memory_affinity_walk_frame_decode env decode fuel _ _ _ _ _ _ _
                hret
              simp only [] at g1 g2 g3 g4
              rw [g1, hlook] at hnode
              rw [g2] at hne ⊢
              rw [g3, g4]
              obtain ⟨j1, j2, rest, j3, j4⟩ := memory_affinity_walk_jump env decode fuel _ _
                ma.base_address _ res st' (by exact hnode) hbase (by exact hne) hret
              simp only [] at j1 j2 j3
              refine ⟨j1, decode, fd, j2, rest, ?_, j4⟩
              rw [j3, f1]

/-- Witness of C19 (amended): the record `[0x300000, 0x800000)` of node 0
parsed when the boundary address is `0x400000` and every address decodes to
group 0: the first block is `[0x300000, 0x400000)`. -/
theorem C19_node0_nonzero_base_jumps_witness :
    srat_state_after_jump.himem_subarray_boundary_addr ≠ 0 ∧
    ∃ decode, srat_state_after_jump.skx_decode = some decode ∧
      (decode { rec0 0 with addr := (srat_state_after_jump.skx_tolm + 2 ^ 64 - 0x1000) % 2 ^ 64,
                            subarray_group := -1 }).1 = true ∧
      ∃ rest, srat_state_after_jump.memblks =
        (srat_state0 decode_group_zero 0x400000).memblks ++
        ⟨(decode { rec0 0 with
            addr := (srat_state_after_jump.skx_tolm + 2 ^ 64 - 0x1000) % 2 ^ 64,
            subarray_group := -1 }).2.subarray_group,
          (srat_record0 0x300000 0x500000).base_address,
          srat_state_after_jump.himem_subarray_boundary_addr⟩ :: rest ∧ rest ≠ [] :=
  C19_node0_nonzero_base_jumps srat_env0 4 (srat_state0 decode_group_zero 0x400000)
    (srat_record0 0x300000 0x500000) (rec0 0) srat_state_after_jump rfl (by decide) (by decide)
    (by decide)

/-! ## The discovery sweeps -/

theorem bool_ne_false {b : Bool} (h : ¬ b = false) : b = true := by
  cases b with
  | true => rfl
  | false => exact absurd rfl h

/-- A run of the low-memory sweep from page `j` on, in a state with `rc = 0`,
that ends with `rc = 0`: every page from `j` up to `skx_tolm` decoded, on
socket 0, to a group inside the map; the map then marks the groups marked
before and the groups of those pages; the boundary and the first remote
group are as before. -/
theorem lomem_sweep_spec (dec : skx_decode_f) (hfun : DecodesByAddr dec) (tolm : Nat)
    (htolm : tolm + 0x1000 ≤ 2 ^ 64) :
    ∀ (fuel j : Nat) (s s' : Sweep),
      lomem_sweep dec tolm fuel (j * 0x1000) s = some (SweepExit.done s') →
      s.rc = 0 → s'.rc = 0 →
      (∀ i, j ≤ i → i * 0x1000 < tolm →
        (dec (rec0 (i * 0x1000))).1 = true ∧ (dec (rec0 (i * 0x1000))).2.socket = 0) ∧
      (∀ g, s'.lomem_subarray_groups_map g = true ↔
        (s.lomem_subarray_groups_map g = true ∨
          ∃ i, j ≤ i ∧ i * 0x1000 < tolm ∧ (dec (rec0 (i * 0x1000))).2.subarray_group = g)) ∧
      s'.himem_subarray_boundary_addr = s.himem_subarray_boundary_addr ∧
      s'.himem_subarray_boundary_row = s.himem_subarray_boundary_row ∧
      s'.first_remote_group = s.first_remote_group := by
  intro fuel
  induction fuel with
  | zero =>
    intro j s s' h
    simp only [lomem_sweep] at h
    exact absurd h (by simp)
  | succ n ih =>
    intro j s s' h hrc hrc'
    rw [lomem_sweep] at h
    by_cases hb : j * 0x1000 < tolm
    · rw [if_pos hb] at h
      simp only [] at h
      obtain ⟨f1, f2⟩ := hfun { s.res with addr := j * 0x1000 } (rec0 (j * 0x1000)) rfl
      generalize dec { s.res with addr := j * 0x1000 } = d at h f1 f2
      by_cases hd : d.1 = false ∨ d.2.socket ≠ 0
      · rw [if_pos hd] at h
        simp only [Option.some.injEq, SweepExit.done.injEq] at h
        rw [← h] at hrc'
        simp only [] at hrc'
        exact absurd hrc' (by decide)
      · rw [if_neg hd] at h
        have hd1 : d.1 = true := bool_ne_false (fun hc => hd (Or.inl hc))
        have hd2 : d.2.socket = 0 := by
          by_contra hc
          exact hd (Or.inr hc)
        obtain ⟨f3, _, f5⟩ := f2 hd1
        by_cases hoob : d.2.subarray_group < 0 ∨ d.2.subarray_group ≥ (MAX_SUBARRAY_GROUPS : Int)
        · rw [if_pos hoob] at h
          exact absurd h (by simp)
        · rw [if_neg hoob] at h
          have hnext : (j * 0x1000 + 0x1000) % 2 ^ 64 = (j + 1) * 0x1000 := by
            rw [Nat.mod_eq_of_lt (by omega)]; ring
          rw [hnext] at h
          obtain ⟨i1, i2, i3, i4, i5⟩ := ih (j + 1) _ s' h hrc hrc'
          simp only [] at i2 i3 i4 i5
          refine ⟨?_, ?_, i3, i4, i5⟩
          · intro i hji hi
            by_cases hij : i = j
            · rw [hij, ← f1, ← f3]
              exact ⟨hd1, hd2⟩
            · exact i1 i (by omega) hi
          · intro g
            rw [i2 g]
            constructor
            · intro hc
              rcases hc with hc | ⟨i, hi1, hi2, hi3⟩
              · by_cases hm : s.lomem_subarray_groups_map d.2.subarray_group = false
                · rw [if_pos hm] at hc
                  by_cases hg : g = d.2.subarray_group
                  · exact Or.inr ⟨j, Nat.le_refl _, hb, by rw [← f5, hg]⟩
                  · rw [if_neg hg] at hc
                    exact Or.inl hc
                · rw [if_neg hm] at hc
                  exact Or.inl hc
              · exact Or.inr ⟨i, by omega, hi2, hi3⟩
            · intro hc
              rcases hc with hc | ⟨i, hi1, hi2, hi3⟩
              · left
                by_cases hm : s.lomem_subarray_groups_map d.2.subarray_group = false
                · rw [if_pos hm]
                  by_cases hg : g = d.2.subarray_group
                  · rw [if_pos hg]
                  · rw [if_neg hg]; exact hc
                · rw [if_neg hm]; exact hc
              · by_cases hij : i = j
                · left
                  rw [hij, ← f5] at hi3
                  by_cases hm : s.lomem_subarray_groups_map d.2.subarray_group = false
                  · rw [if_pos hm, if_pos hi3.symm]
                  · rw [if_neg hm, ← hi3]
                    exact bool_ne_false hm
                · exact Or.inr ⟨i, by omega, hi2, hi3⟩
    · rw [if_neg hb] at h
      simp only [Option.some.injEq, SweepExit.done.injEq] at h
      rw [← h]
      refine ⟨?_, ?_, rfl, rfl, rfl⟩
      · intro i hji hi
        exfalso
        have : j * 0x1000 ≤ i * 0x1000 := Nat.mul_le_mul_right _ hji
        omega
      · intro g
        constructor
        · intro hc; exact Or.inl hc
        · intro hc
          rcases hc with hc | ⟨i, hi1, hi2, _⟩
          · exact hc
          · exfalso
            have : j * 0x1000 ≤ i * 0x1000 := Nat.mul_le_mul_right _ hi1
            omega

/-- The low-memory sweep leaves the boundary and the first remote group as
they were. -/
theorem lomem_sweep_frame (dec : skx_decode_f) (tolm : Nat) :
    ∀ (fuel addr : Nat) (s s' : Sweep),
      lomem_sweep dec tolm fuel addr s = some (SweepExit.done s') →
      s'.himem_subarray_boundary_addr = s.himem_subarray_boundary_addr ∧
      s'.himem_subarray_boundary_row = s.himem_subarray_boundary_row ∧
      s'.first_remote_group = s.first_remote_group := by
  intro fuel
  induction fuel with
  | zero =>
    intro addr s s' h
    simp only [lomem_sweep] at h
    exact absurd h (by simp)
  | succ n ih =>
    intro addr s s' h
    rw [lomem_sweep] at h
    split at h
    · simp only [] at h
      split at h
      · simp only [Option.some.injEq, SweepExit.done.injEq] at h
        rw [← h]
        exact ⟨rfl, rfl, rfl⟩
      · split at h
        · exact absurd h (by simp)
        · have hi := ih _ _ s' h
          simp only [] at hi
          exact hi
    · simp only [Option.some.injEq, SweepExit.done.injEq] at h
      rw [← h]
      exact ⟨rfl, rfl, rfl⟩

/-- A run of the high-memory sweep from page `k` above `base` on: the map
and the first remote group are as before; when it ends with `rc = 0`, either
every page from `k` up to `skx_tohm` decoded to a group the map marks and
the boundary is as before, or the boundary is the first page from `k` on
whose group the map does not mark, every page before it having decoded to a
marked group. -/
theorem himem_sweep_spec (dec : skx_decode_f) (hfun : DecodesByAddr dec) (tohm nrps base : Nat)
    (htohm : tohm + 0x1000 ≤ 2 ^ 64) :
    ∀ (fuel k : Nat) (s s' : Sweep),
      himem_sweep dec tohm nrps fuel (base + k * 0x1000) s = some (SweepExit.done s') →
      s'.lomem_subarray_groups_map = s.lomem_subarray_groups_map ∧
      s'.first_remote_group = s.first_remote_group ∧
      (s'.rc ≠ s.rc → s'.himem_subarray_boundary_addr = s.himem_subarray_boundary_addr ∧
        s'.himem_subarray_boundary_row = s.himem_subarray_boundary_row) ∧
      (s'.rc = 0 →
        (s'.himem_subarray_boundary_addr = s.himem_subarray_boundary_addr ∧
          s'.himem_subarray_boundary_row = s.himem_subarray_boundary_row ∧
          ∀ i, k ≤ i → base + i * 0x1000 < tohm →
            (dec (rec0 (base + i * 0x1000))).1 = true ∧
            s.lomem_subarray_groups_map
              (dec (rec0 (base + i * 0x1000))).2.subarray_group = true) ∨
        (∃ n, k ≤ n ∧ base + n * 0x1000 < tohm ∧
          (dec (rec0 (base + n * 0x1000))).1 = true ∧
          s.lomem_subarray_groups_map
            (dec (rec0 (base + n * 0x1000))).2.subarray_group = false ∧
          s'.himem_subarray_boundary_addr = base + n * 0x1000 ∧
          s'.himem_subarray_boundary_row =
            ((u64_of_int (dec (rec0 (base + n * 0x1000))).2.row + nrps) % 2 ^ 64) % 2 ^ 32 ∧
          ∀ i, k ≤ i → i < n →
            (dec (rec0 (base + i * 0x1000))).1 = true ∧
            s.lomem_subarray_groups_map
              (dec (rec0 (base + i * 0x1000))).2.subarray_group = true)) := by
  intro fuel
  induction fuel with
  | zero =>
    intro k s s' h
    simp only [himem_sweep] at h
    exact absurd h (by simp)
  | succ n ih =>
    intro k s s' h
    rw [himem_sweep] at h
    by_cases hb : base + k * 0x1000 < tohm
    · rw [if_pos hb] at h
      simp only [] at h
      obtain ⟨f1, f2⟩ := hfun { s.res with addr := base + k * 0x1000 }
        (rec0 (base + k * 0x1000)) rfl
      generalize dec { s.res with addr := base + k * 0x1000 } = d at h f1 f2
      by_cases hd : d.1 = false
      · rw [if_pos hd] at h
        simp only [Option.some.injEq, SweepExit.done.injEq] at h
        rw [← h]
        refine ⟨rfl, rfl, fun _ => ⟨rfl, rfl⟩, fun hc => ?_⟩
        simp only [] at hc
        exact absurd hc (by decide)
      · rw [if_neg hd] at h
        have hd1 : d.1 = true := bool_ne_false hd
        obtain ⟨_, f4, f5⟩ := f2 hd1
        by_cases hoob : d.2.subarray_group < 0 ∨ d.2.subarray_group ≥ (MAX_SUBARRAY_GROUPS : Int)
        · rw [if_pos hoob] at h
          exact absurd h (by simp)
        · rw [if_neg hoob] at h
          by_cases hm : s.lomem_subarray_groups_map d.2.subarray_group = false
          · rw [if_pos hm] at h
            simp only [Option.some.injEq, SweepExit.done.injEq] at h
            rw [← h]
            refine ⟨rfl, rfl, fun hc => absurd rfl hc, fun _ => Or.inr ⟨k, Nat.le_refl _, hb, ?_, ?_, rfl, ?_, ?_⟩⟩
            · rw [← f1]; exact hd1
            · rw [← f5]; exact hm
            · simp only []
              rw [f4]
            · intro i h1 h2
              omega
          · rw [if_neg hm] at h
            have hnext : (base + k * 0x1000 + 0x1000) % 2 ^ 64 = base + (k + 1) * 0x1000 := by
              rw [Nat.mod_eq_of_lt (by omega)]; ring
            rw [hnext] at h
            obtain ⟨i1, i2, i3, i4⟩ := ih (k + 1) _ s' h
            simp only [] at i1 i2 i3 i4
            have hk : (dec (rec0 (base + k * 0x1000))).1 = true ∧
                s.lomem_subarray_groups_map
                  (dec (rec0 (base + k * 0x1000))).2.subarray_group = true := by
              rw [← f1, ← f5]
              exact ⟨hd1, bool_ne_false hm⟩
            refine ⟨i1, i2, i3, fun hrc => ?_⟩
            rcases i4 hrc with ⟨a1, a2, a3⟩ | ⟨m, b1, b2, b3, b4, b5, b6, b7⟩
            · left
              refine ⟨a1, a2, ?_⟩
              intro i hki hi
              by_cases hik : i = k
              · rw [hik]; exact hk
              · exact a3 i (by omega) hi
            · right
              refine ⟨m, by omega, b2, b3, b4, b5, b6, ?_⟩
              intro i hki him
              by_cases hik : i = k
              · rw [hik]; exact hk
              · exact b7 i (by omega) him
    · rw [if_neg hb] at h
      simp only [Option.some.injEq, SweepExit.done.injEq] at h
      rw [← h]
      refine ⟨rfl, rfl, fun _ => ⟨rfl, rfl⟩, fun _ => Or.inl ⟨rfl, rfl, ?_⟩⟩
      intro i hki hi
      exfalso
      have : k * 0x1000 ≤ i * 0x1000 := Nat.mul_le_mul_right _ hki
      omega

/-- A run of the sweep for the first remote group from page `k` above
`base` on, in a state with `rc = 0`: the boundary is as before; either a
decode failed (`rc = 1`) and the first remote group is as before, or every
page from `k` up to `skx_tohm` decoded and none was on another socket than 0
with a group other than socket 1's reserved ids, and the first remote group
is as before, or the first remote group is the group of the first such
page. -/
theorem remote_sweep_spec (dec : skx_decode_f) (hfun : DecodesByAddr dec) (tohm base : Nat)
    (htohm : tohm + 0x1000 ≤ 2 ^ 64) :
    ∀ (fuel k : Nat) (s s' : Sweep),
      remote_sweep dec tohm fuel (base + k * 0x1000) s = some (SweepExit.done s') →
      s.rc = 0 →
      s'.himem_subarray_boundary_addr = s.himem_subarray_boundary_addr ∧
      s'.himem_subarray_boundary_row = s.himem_subarray_boundary_row ∧
      ((s'.rc = 1 ∧ s'.first_remote_group = s.first_remote_group) ∨
        (s'.rc = 0 ∧ s'.first_remote_group = s.first_remote_group ∧
          ∀ i, k ≤ i → base + i * 0x1000 < tohm →
            (dec (rec0 (base + i * 0x1000))).1 = true ∧
            ¬ ((dec (rec0 (base + i * 0x1000))).2.socket ≠ 0 ∧
              (dec (rec0 (base + i * 0x1000))).2.subarray_group ≠ SOCKET_1_EPT_NODE ∧
              (dec (rec0 (base + i * 0x1000))).2.subarray_group ≠ SOCKET_1_GUARD_ROWS_NODE)) ∨
        (s'.rc = 0 ∧ ∃ n, k ≤ n ∧ base + n * 0x1000 < tohm ∧
          (dec (rec0 (base + n * 0x1000))).1 = true ∧
          (dec (rec0 (base + n * 0x1000))).2.socket ≠ 0 ∧
          (dec (rec0 (base + n * 0x1000))).2.subarray_group ≠ SOCKET_1_EPT_NODE ∧
          (dec (rec0 (base + n * 0x1000))).2.subarray_group ≠ SOCKET_1_GUARD_ROWS_NODE ∧
          s'.first_remote_group =
            u32_of_int (dec (rec0 (base + n * 0x1000))).2.subarray_group ∧
          ∀ i, k ≤ i → i < n →
            (dec (rec0 (base + i * 0x1000))).1 = true ∧
            ¬ ((dec (rec0 (base + i * 0x1000))).2.socket ≠ 0 ∧
              (dec (rec0 (base + i * 0x1000))).2.subarray_group ≠ SOCKET_1_EPT_NODE ∧
              (dec (rec0 (base + i * 0x1000))).2.subarray_group ≠
                SOCKET_1_GUARD_ROWS_NODE))) := by
  intro fuel
  induction fuel with
  | zero =>
    intro k s s' h
    simp only [remote_sweep] at h
    exact absurd h (by simp)
  | succ n ih =>
    intro k s s' h hrc
    rw [remote_sweep] at h
    by_cases hb : base + k * 0x1000 < tohm
    · rw [if_pos hb] at h
      simp only [] at h
      obtain ⟨f1, f2⟩ := hfun { s.res with addr := base + k * 0x1000 }
        (rec0 (base + k * 0x1000)) rfl
      generalize dec { s.res with addr := base + k * 0x1000 } = d at h f1 f2
      by_cases hd : d.1 = false
      · rw [if_pos hd] at h
        simp only [Option.some.injEq, SweepExit.done.injEq] at h
        rw [← h]
        exact ⟨rfl, rfl, Or.inl ⟨rfl, rfl⟩⟩
      · rw [if_neg hd] at h
        have hd1 : d.1 = true := bool_ne_false hd
        obtain ⟨f3, _, f5⟩ := f2 hd1
        by_cases hc : d.2.socket ≠ 0 ∧ d.2.subarray_group ≠ SOCKET_1_EPT_NODE ∧
            d.2.subarray_group ≠ SOCKET_1_GUARD_ROWS_NODE
        · rw [if_pos hc] at h
          simp only [Option.some.injEq, SweepExit.done.injEq] at h
          rw [← h]
          refine ⟨rfl, rfl, Or.inr (Or.inr ⟨hrc, k, Nat.le_refl _, hb, ?_, ?_, ?_, ?_, ?_, ?_⟩)⟩
          · rw [← f1]; exact hd1
          · rw [← f3]; exact hc.1
          · rw [← f5]; exact hc.2.1
          · rw [← f5]; exact hc.2.2
          · simp only []
            rw [f5]
          · intro i h1 h2
            omega
        · rw [if_neg hc] at h
          have hnext : (base + k * 0x1000 + 0x1000) % 2 ^ 64 = base + (k + 1) * 0x1000 := by
            rw [Nat.mod_eq_of_lt (by omega)]; ring
          rw [hnext] at h
          obtain ⟨i1, i2, i3⟩ := ih (k + 1) _ s' h hrc
          simp only [] at i1 i2 i3
          have hk : (dec (rec0 (base + k * 0x1000))).1 = true ∧
              ¬ ((dec (rec0 (base + k * 0x1000))).2.socket ≠ 0 ∧
                (dec (rec0 (base + k * 0x1000))).2.subarray_group ≠ SOCKET_1_EPT_NODE ∧
                (dec (rec0 (base + k * 0x1000))).2.subarray_group ≠
                  SOCKET_1_GUARD_ROWS_NODE) := by
            rw [← f1, ← f3, ← f5]
            exact ⟨hd1, hc⟩
          refine ⟨i1, i2, ?_⟩
          rcases i3 with a | ⟨a1, a2, a3⟩ | ⟨b0, m, b1, b2, b3, b4, b5, b6, b7, b8⟩
          · exact Or.inl a
          · refine Or.inr (Or.inl ⟨a1, a2, ?_⟩)
            intro i hki hi
            by_cases hik : i = k
            · rw [hik]; exact hk
            · exact a3 i (by omega) hi
          · refine Or.inr (Or.inr ⟨b0, m, by omega, b2, b3, b4, b5, b6, b7, ?_⟩)
            intro i hki him
            by_cases hik : i = k
            · rw [hik]; exact hk
            · exact b8 i (by omega) him
    · rw [if_neg hb] at h
      simp only [Option.some.injEq, SweepExit.done.injEq] at h
      rw [← h]
      refine ⟨rfl, rfl, Or.inr (Or.inl ⟨hrc, rfl, ?_⟩)⟩
      intro i hki hi
      exfalso
      have : k * 0x1000 ≤ i * 0x1000 := Nat.mul_le_mul_right _ hki
      omega

/-- With enough fuel the low-memory sweep ends. -/
theorem lomem_sweep_ends (dec : skx_decode_f) (tolm : Nat) (htolm : tolm + 0x1000 ≤ 2 ^ 64) :
    ∀ (fuel addr : Nat) (s : Sweep), tolm - addr + 0x1000 ≤ fuel * 0x1000 →
      ∃ x, lomem_sweep dec tolm fuel addr s = some x := by
  intro fuel
  induction fuel with
  | zero => intro addr s h; omega
  | succ n ih =>
    intro addr s h
    rw [lomem_sweep]
    by_cases hb : addr < tolm
    · rw [if_pos hb]
      simp only []
      split
      · exact ⟨_, rfl⟩
      · split
        · exact ⟨_, rfl⟩
        · rw [Nat.mod_eq_of_lt (by omega)]
          exact ih _ _ (by omega)
    · rw [if_neg hb]
      exact ⟨_, rfl⟩

/-- With enough fuel the high-memory sweep ends. -/
theorem himem_sweep_ends (dec : skx_decode_f) (tohm nrps : Nat) (htohm : tohm + 0x1000 ≤ 2 ^ 64) :
    ∀ (fuel addr : Nat) (s : Sweep), tohm - addr + 0x1000 ≤ fuel * 0x1000 →
      ∃ x, himem_sweep dec tohm nrps fuel addr s = some x := by
  intro fuel
  induction fuel with
  | zero => intro addr s h; omega
  | succ n ih =>
    intro addr s h
    rw [himem_sweep]
    by_cases hb : addr < tohm
    · rw [if_pos hb]
      simp only []
      split
      · exact ⟨_, rfl⟩
      · split
        · exact ⟨_, rfl⟩
        · split
          · exact ⟨_, rfl⟩
          · rw [Nat.mod_eq_of_lt (by omega)]
            exact ih _ _ (by omega)
    · rw [if_neg hb]
      exact ⟨_, rfl⟩

/-- With enough fuel the sweep for the first remote group ends. -/
theorem remote_sweep_ends (dec : skx_decode_f) (tohm : Nat) (htohm : tohm + 0x1000 ≤ 2 ^ 64) :
    ∀ (fuel addr : Nat) (s : Sweep), tohm - addr + 0x1000 ≤ fuel * 0x1000 →
      ∃ x, remote_sweep dec tohm fuel addr s = some x := by
  intro fuel
  induction fuel with
  | zero => intro addr s h; omega
  | succ n ih =>
    intro addr s h
    rw [remote_sweep]
    by_cases hb : addr < tohm
    · rw [if_pos hb]
      simp only []
      split
      · exact ⟨_, rfl⟩
      · split
        · exact ⟨_, rfl⟩
        · rw [Nat.mod_eq_of_lt (by omega)]
          exact ih _ _ (by omega)
    · rw [if_neg hb]
      exact ⟨_, rfl⟩

/-- With enough fuel the three sweeps end. -/
theorem early_skx_init_sweeps_ends (skx_decode : Nat → skx_decode_f) (nrps tolm tohm : Nat)
    (sse : Int) (fuel : Nat) (res : decoded_addr) (baddr0 brow0 frg0 : Nat)
    (htolm : tolm + 0x1000 ≤ 2 ^ 64) (htohm : tohm + 0x1000 ≤ 2 ^ 64)
    (hfuel : tolm + 0x1000 ≤ fuel * 0x1000 ∧ tohm + 0x1000 ≤ fuel * 0x1000) :
    ∃ x, early_skx_init_sweeps skx_decode nrps tolm tohm sse fuel res baddr0 brow0 frg0 =
      some x := by
  unfold early_skx_init_sweeps
  simp only []
  obtain ⟨x1, h1⟩ := lomem_sweep_ends (skx_decode brow0) tolm htolm fuel 0
    { res := res, lomem_subarray_groups_map := fun _ => false, rc := 0,
      himem_subarray_boundary_addr := baddr0, himem_subarray_boundary_row := brow0,
      first_remote_group := frg0 } (by omega)
  rw [h1]
  cases x1 with
  | out_of_bounds => exact ⟨_, rfl⟩
  | done s1 =>
    simp only []
    split
    · obtain ⟨x2, h2⟩ := himem_sweep_ends (skx_decode s1.himem_subarray_boundary_row) tohm nrps
        htohm fuel 0x100000000 s1 (by omega)
      rw [h2]
      cases x2 with
      | out_of_bounds => exact ⟨_, rfl⟩
      | done s2 =>
        simp only []
        split
        · exact remote_sweep_ends (skx_decode s2.himem_subarray_boundary_row) tohm htohm fuel
            (tohm / 2) s2 (by omega)
        · exact ⟨_, rfl⟩
    · exact ⟨_, rfl⟩

/-- The high-memory sweep leaves the first remote group as it was. -/
theorem himem_sweep_frame (dec : skx_decode_f) (tohm nrps : Nat) :
    ∀ (fuel addr : Nat) (s s' : Sweep),
      himem_sweep dec tohm nrps fuel addr s = some (SweepExit.done s') →
      s'.first_remote_group = s.first_remote_group := by
  intro fuel
  induction fuel with
  | zero =>
    intro addr s s' h
    simp only [himem_sweep] at h
    exact absurd h (by simp)
  | succ n ih =>
    intro addr s s' h
    rw [himem_sweep] at h
    split at h
    · simp only [] at h
      split at h
      · simp only [Option.some.injEq, SweepExit.done.injEq] at h
        rw [← h]
      · split at h
        · exact absurd h (by simp)
        · split at h
          · simp only [Option.some.injEq, SweepExit.done.injEq] at h
            rw [← h]
          · have hi := ih _ _ s' h
            simp only [] at hi
            exact hi
    · simp only [Option.some.injEq, SweepExit.done.injEq] at h
      rw [← h]

/-- The sweep for the first remote group leaves the boundary as it was, and
a decode failure in it leaves the first remote group as it was. -/
theorem remote_sweep_frame (dec : skx_decode_f) (tohm : Nat) :
    ∀ (fuel addr : Nat) (s s' : Sweep),
      remote_sweep dec tohm fuel addr s = some (SweepExit.done s') →
      s'.himem_subarray_boundary_addr = s.himem_subarray_boundary_addr ∧
      s'.himem_subarray_boundary_row = s.himem_subarray_boundary_row ∧
      s'.lomem_subarray_groups_map = s.lomem_subarray_groups_map ∧
      (s'.rc ≠ s.rc → s'.first_remote_group = s.first_remote_group) := by
  intro fuel
  induction fuel with
  | zero =>
    intro addr s s' h
    simp only [remote_sweep] at h
    exact absurd h (by simp)
  | succ n ih =>
    intro addr s s' h
    rw [remote_sweep] at h
    split at h
    · simp only [] at h
      split at h
      · simp only [Option.some.injEq, SweepExit.done.injEq] at h
        rw [← h]
        exact ⟨rfl, rfl, rfl, fun _ => rfl⟩
      · split at h
        · simp only [Option.some.injEq, SweepExit.done.injEq] at h
          rw [← h]
          exact ⟨rfl, rfl, rfl, fun hc => absurd rfl hc⟩
        · have hi := ih _ _ s' h
          simp only [] at hi
          exact hi
    · simp only [Option.some.injEq, SweepExit.done.injEq] at h
      rw [← h]
      exact ⟨rfl, rfl, rfl, fun _ => rfl⟩

/-- The path of a run of the three sweeps that ends. -/
theorem early_skx_init_sweeps_done (skx_decode : Nat → skx_decode_f) (nrps tolm tohm : Nat)
    (sse : Int) (fuel : Nat) (res : decoded_addr) (baddr0 brow0 frg0 : Nat) (s : Sweep)
    (h : early_skx_init_sweeps skx_decode nrps tolm tohm sse fuel res baddr0 brow0 frg0 =
      some (SweepExit.done s)) :
    ∃ s1, lomem_sweep (skx_decode brow0) tolm fuel 0
        { res := res, lomem_subarray_groups_map := fun _ => false, rc := 0,
          himem_subarray_boundary_addr := baddr0, himem_subarray_boundary_row := brow0,
          first_remote_group := frg0 } = some (SweepExit.done s1) ∧
      ((s1.rc ≠ 0 ∧ s = s1) ∨
        (s1.rc = 0 ∧ ∃ s2, himem_sweep (skx_decode s1.himem_subarray_boundary_row) tohm nrps fuel
            0x100000000 s1 = some (SweepExit.done s2) ∧
          ((¬ (s2.rc = 0 ∧ sse = 0) ∧ s = s2) ∨
            (s2.rc = 0 ∧ sse = 0 ∧
              remote_sweep (skx_decode s2.himem_subarray_boundary_row) tohm fuel (tohm / 2) s2 =
                some (SweepExit.done s))))) := by
  unfold early_skx_init_sweeps at h
  simp only [] at h
  split at h
  · exact absurd h (by simp)
  · exact absurd h (by simp)
  · rename_i s1 h1
    refine ⟨s1, h1, ?_⟩
    by_cases hrc : s1.rc = 0
    · rw [if_pos hrc] at h
      right
      refine ⟨hrc, ?_⟩
      split at h
      · exact absurd h (by simp)
      · exact absurd h (by simp)
      · rename_i s2 h2
        refine ⟨s2, h2, ?_⟩
        by_cases hc : s2.rc = 0 ∧ sse = 0
        · rw [if_pos hc] at h
          exact Or.inr ⟨hc.1, hc.2, h⟩
        · rw [if_neg hc] at h
          simp only [Option.some.injEq, SweepExit.done.injEq] at h
          exact Or.inl ⟨hc, h.symm⟩
    · rw [if_neg hrc] at h
      simp only [Option.some.injEq, SweepExit.done.injEq] at h
      exact Or.inl ⟨hrc, h.symm⟩

/-- C17: when the three sweeps of `early_skx_init` end with `rc = 0` (with
enough fuel they end), every page of `[0, skx_tolm)` decoded on socket 0,
and either no boundary was recorded, every page `4 GiB + i * 4 KiB` below
`skx_tohm` having decoded to a group some page of `[0, skx_tolm)` decodes
to, or `*himem_subarray_boundary_addr` is the first address
`a = 4 GiB + n * 4 KiB` below `skx_tohm` whose group no page of
`[0, skx_tolm)` decodes to, every page before it having decoded to such a
group, and `himem_subarray_boundary_row` is `row(a) + num_rows_per_subarray`
reduced to a `u32`, that is `row(a) + num_rows_per_subarray` itself when
this is below `2 ^ 32`.  The decode is a function of the address, and
`skx_tolm`, `skx_tohm` are at most `2 ^ 64 - 0x1000`. -/
theorem C17_himem_boundary (skx_decode : Nat → skx_decode_f) (nrps tolm tohm : Nat)
    (sse : Int) (fuel : Nat) (res : decoded_addr) (baddr0 brow0 frg0 : Nat)
    (hfun : DecodesByAddr (skx_decode brow0))
    (htolm : tolm + 0x1000 ≤ 2 ^ 64) (htohm : tohm + 0x1000 ≤ 2 ^ 64)
    (hfuel : tolm + 0x1000 ≤ fuel * 0x1000 ∧ tohm + 0x1000 ≤ fuel * 0x1000) :
    ∃ x, early_skx_init_sweeps skx_decode nrps tolm tohm sse fuel res baddr0 brow0 frg0 =
        some x ∧
      ∀ s, x = SweepExit.done s → s.rc = 0 →
        (∀ i, i * 0x1000 < tolm →
          (skx_decode brow0 (rec0 (i * 0x1000))).1 = true ∧
          (skx_decode brow0 (rec0 (i * 0x1000))).2.socket = 0) ∧
        ((s.himem_subarray_boundary_addr = baddr0 ∧ s.himem_subarray_boundary_row = brow0 ∧
          ∀ i, 0x100000000 + i * 0x1000 < tohm →
            (skx_decode brow0 (rec0 (0x100000000 + i * 0x1000))).1 = true ∧
            ∃ j, j * 0x1000 < tolm ∧
              (skx_decode brow0 (rec0 (j * 0x1000))).2.subarray_group =
                (skx_decode brow0 (rec0 (0x100000000 + i * 0x1000))).2.subarray_group) ∨
        (∃ n, 0x100000000 + n * 0x1000 < tohm ∧
          s.himem_subarray_boundary_addr = 0x100000000 + n * 0x1000 ∧
          (skx_decode brow0 (rec0 (0x100000000 + n * 0x1000))).1 = true ∧
          (∀ j, j * 0x1000 < tolm →
            (skx_decode brow0 (rec0 (j * 0x1000))).2.subarray_group ≠
              (skx_decode brow0 (rec0 (0x100000000 + n * 0x1000))).2.subarray_group) ∧
          (∀ i, i < n →
            (skx_decode brow0 (rec0 (0x100000000 + i * 0x1000))).1 = true ∧
            ∃ j, j * 0x1000 < tolm ∧
              (skx_decode brow0 (rec0 (j * 0x1000))).2.subarray_group =
                (skx_decode brow0 (rec0 (0x100000000 + i * 0x1000))).2.subarray_group) ∧
          s.himem_subarray_boundary_row =
            ((u64_of_int (skx_decode brow0 (rec0 (0x100000000 + n * 0x1000))).2.row + nrps)
              % 2 ^ 64) % 2 ^ 32 ∧
          (0 ≤ (skx_decode brow0 (rec0 (0x100000000 + n * 0x1000))).2.row →
            (skx_decode brow0 (rec0 (0x100000000 + n * 0x1000))).2.row + (nrps : Int) < 2 ^ 32 →
            (s.himem_subarray_boundary_row : Int) =
              (skx_decode brow0 (rec0 (0x100000000 + n * 0x1000))).2.row + (nrps : Int)))) := by
  obtain ⟨x, hx⟩ := early_skx_init_sweeps_ends skx_decode nrps tolm tohm sse fuel res baddr0 brow0
    frg0 htolm htohm hfuel
  refine ⟨x, hx, ?_⟩
  intro s hxs hrc
  rw [hxs] at hx
  obtain ⟨s1, h1, hpath⟩ := early_skx_init_sweeps_done skx_decode nrps tolm tohm sse fuel res
    baddr0 brow0 frg0 s hx
  have h1' := h1
  rw [show (0 : Nat) = 0 * 0x1000 from rfl] at h1'
  rcases hpath with ⟨hne, hs⟩ | ⟨hrc1, s2, h2, hrest⟩
  · rw [hs] at hrc
    exact absurd hrc hne
  · obtain ⟨l1, l2, l3, l4, _⟩ := lomem_sweep_spec (skx_decode brow0) hfun tolm htolm fuel 0 _ s1
      h1' rfl hrc1
    simp only [] at l2 l3 l4
    rw [l4] at h2
    have h2' := h2
    rw [show (0x100000000 : Nat) = 0x100000000 + 0 * 0x1000 from rfl] at h2'
    obtain ⟨m1, _, _, m4⟩ := himem_sweep_spec (skx_decode brow0) hfun tohm nrps 0x100000000 htohm
      fuel 0 s1 s2 h2'
    have hobs : ∀ g, s1.lomem_subarray_groups_map g = true ↔
        ∃ j, j * 0x1000 < tolm ∧
          (skx_decode brow0 (rec0 (j * 0x1000))).2.subarray_group = g := by
      intro g
      rw [l2 g]
      constructor
      · intro hc
        rcases hc with hc | ⟨j, _, hj1, hj2⟩
        · exact absurd hc (by simp)
        · exact ⟨j, hj1, hj2⟩
      · intro hc
        obtain ⟨j, hj1, hj2⟩ := hc
        exact Or.inr ⟨j, Nat.zero_le _, hj1, hj2⟩
    have hs2 : s2.rc = 0 ∧ s.himem_subarray_boundary_addr = s2.himem_subarray_boundary_addr ∧
        s.himem_subarray_boundary_row = s2.himem_subarray_boundary_row := by
      rcases hrest with ⟨_, hs⟩ | ⟨hrc2, _, h3⟩
      · rw [hs] at hrc ⊢
        exact ⟨hrc, rfl, rfl⟩
      · obtain ⟨r1, r2, _, _⟩ := remote_sweep_frame _ _ _ _ _ _ h3
        exact ⟨hrc2, r1, r2⟩
    obtain ⟨hrc2, e1, e2⟩ := hs2
    rw [e1, e2]
    refine ⟨fun i hi => l1 i (Nat.zero_le _) hi, ?_⟩
    rcases m4 hrc2 with ⟨a1, a2, a3⟩ | ⟨n, _, b2, b3, b4, b5, b6, b7⟩
    · left
      refine ⟨by rw [a1, l3], by rw [a2, l4], ?_⟩
      intro i hi
      obtain ⟨c1, c2⟩ := a3 i (Nat.zero_le _) hi
      exact ⟨c1, (hobs _).mp c2⟩
    · right
      refine ⟨n, b2, b5, b3, ?_, ?_, b6, ?_⟩
      · intro j hj hc
        have : s1.lomem_subarray_groups_map
            (skx_decode brow0 (rec0 (0x100000000 + n * 0x1000))).2.subarray_group = true :=
          (hobs _).mpr ⟨j, hj, hc⟩
        rw [b4] at this
        exact absurd this (by simp)
      · intro i hi
        obtain ⟨c1, c2⟩ := b7 i (Nat.zero_le _) hi
        exact ⟨c1, (hobs _).mp c2⟩
      · intro hr0 hr1
        rw [b6]
        unfold u64_of_int
        omega

theorem decode_sweep_stub_by_addr (B : Nat) : DecodesByAddr (decode_sweep_stub B) := by
  intro r1 r2 h
  simp only [decode_sweep_stub, h, true_and, implies_true, and_self]

/-- The early decoder, as installed by `early_skx_init`, is a function of
the address. -/
theorem early_skx_decode_at_by_addr (env : SkxEnv) (B : Nat) :
    DecodesByAddr (early_skx_decode_at env B) := by
  intro r1 r2 h
  unfold early_skx_decode_at
  generalize ({ env with himem_subarray_boundary_row := B } : SkxEnv) = env
  obtain ⟨e1, k1⟩ := early_skx_sad_decode_congr env r1 r2 h
  cases h1 : (early_skx_sad_decode env r2).1 with
  | false =>
    have h1' : (early_skx_sad_decode env r1).1 = false := by rw [e1]; exact h1
    rw [decode_local_of_sad_fail env r1 h1', decode_local_of_sad_fail env r2 h1]
    exact ⟨rfl, fun hc => Bool.noConfusion hc⟩
  | true =>
    have h1' : (early_skx_sad_decode env r1).1 = true := by rw [e1]; exact h1
    obtain ⟨a1, a2, a3, a4, a5⟩ := k1 h1'
    obtain ⟨e2, k2⟩ := early_skx_tad_decode_congr env _ _ a1 a2 a3 a4 a5
    cases h2 : (early_skx_tad_decode env (early_skx_sad_decode env r2).2).1 with
    | false =>
      have h2' : (early_skx_tad_decode env (early_skx_sad_decode env r1).2).1 = false := by
        rw [e2]; exact h2
      rw [decode_local_of_tad_fail env r1 h1' h2', decode_local_of_tad_fail env r2 h1 h2]
      exact ⟨rfl, fun hc => Bool.noConfusion hc⟩
    | true =>
      have h2' : (early_skx_tad_decode env (early_skx_sad_decode env r1).2).1 = true := by
        rw [e2]; exact h2
      obtain ⟨b1, b2, b3, b4, b5, b6, b7, b8⟩ := k2 h2'
      obtain ⟨e3, k3⟩ := early_skx_rir_decode_congr env _ _ b1 b2 b3 b4 b5 b6 b7 b8
      cases h3 : (early_skx_rir_decode env
          (early_skx_tad_decode env (early_skx_sad_decode env r2).2).2).1 with
      | false =>
        have h3' : (early_skx_rir_decode env
            (early_skx_tad_decode env (early_skx_sad_decode env r1).2).2).1 = false := by
          rw [e3]; exact h3
        rw [decode_local_of_rir_fail env r1 h1' h2' h3',
          decode_local_of_rir_fail env r2 h1 h2 h3]
        exact ⟨rfl, fun hc => Bool.noConfusion hc⟩
      | true =>
        have h3' : (early_skx_rir_decode env
            (early_skx_tad_decode env (early_skx_sad_decode env r1).2).2).1 = true := by
          rw [e3]; exact h3
        obtain ⟨c1, c2, c3, c4, c5, c6, c7, c8, c9, c10, c11⟩ := k3 h3'
        rw [decode_local_of_rir_ok env r1 h1' h2' h3', decode_local_of_rir_ok env r2 h1 h2 h3]
        refine ⟨?_, fun _ => ?_⟩
        · rw [early_skx_mad_decode_ok, early_skx_mad_decode_ok]
        · obtain ⟨m1, _, _, _, _, _, _, _, _, m10, _, _, _, m14⟩ :=
            early_skx_mad_decode_congr env _ _ c2 c3 c4 c5 c6 c7 c8 c9 c10 c11
          exact ⟨m1, m10, m14⟩

/-- Witness of C17.  First the two-socket configuration `env_two` with
`skx_tolm = 0x2000` and `skx_tohm` a little above 200 GiB: low memory
decodes to group 0, the page at 4 GiB (row 32768) to group 68, so the
boundary address is `0x100000000` and the boundary row `32768 + 512`.  Then
a decode that gives the page at 4 GiB the group of low memory and the next
page, of row 600, another group: the boundary address is `0x100001000` and
the boundary row `600 + 512 = 1112`. -/
theorem C17_himem_boundary_witness :
    ((∃ x, early_skx_init_sweeps (early_skx_decode_at env_two) 512 0x2000 0x32003FE000 0
        0x32003FF (rec0 0) 0 0 FIRST_REMOTE_GROUP_UNSET = some x) ∧
      sweep_summary (early_skx_init_sweeps (early_skx_decode_at env_two) 512 0x2000
        0x32003FE000 0 0x32003FF (rec0 0) 0 0 FIRST_REMOTE_GROUP_UNSET) =
        some (0, 0x100000000, 32768 + 512, 260)) ∧
    ((∃ x, early_skx_init_sweeps decode_sweep_stub 512 0x2000 0x3200000000 0 0x3200001
        (rec0 0) 0 0 FIRST_REMOTE_GROUP_UNSET = some x) ∧
      sweep_summary (early_skx_init_sweeps decode_sweep_stub 512 0x2000 0x3200000000 0
        0x3200001 (rec0 0) 0 0 FIRST_REMOTE_GROUP_UNSET) =
        some (0, 0x100001000, 600 + 512, 260)) :=
  ⟨⟨(C17_himem_boundary (early_skx_decode_at env_two) 512 0x2000 0x32003FE000 0 0x32003FF
        (rec0 0) 0 0 FIRST_REMOTE_GROUP_UNSET (early_skx_decode_at_by_addr env_two 0)
        (by decide) (by decide) (by decide)).imp (fun _ h => h.1),
     by decide⟩,
   ⟨(C17_himem_boundary decode_sweep_stub 512 0x2000 0x3200000000 0 0x3200001 (rec0 0) 0 0
        FIRST_REMOTE_GROUP_UNSET (decode_sweep_stub_by_addr 0) (by decide) (by decide)
        (by decide)).imp (fun _ h => h.1),
     by decide⟩⟩

/-- C18 (amended): when the three sweeps of `early_skx_init` end (with
enough fuel they end): if `second_socket_empty` is set or the final `rc` is
not 0, `*first_remote_group` is left unchanged; if `second_socket_empty` is
0 and the final `rc` is 0, either no page `skx_tohm / 2 + i * 4 KiB` below
`skx_tohm` decodes on another socket than 0 to a group other than
`SOCKET_1_EPT_NODE` and `SOCKET_1_GUARD_ROWS_NODE`, and
`*first_remote_group` is left unchanged, or `*first_remote_group` is the
group of the first such page.  The decode is a function of the address, and
`skx_tolm`, `skx_tohm` are at most `2 ^ 64 - 0x1000`. -/
theorem C18_first_remote_group (skx_decode : Nat → skx_decode_f) (nrps tolm tohm : Nat)
    (sse : Int) (fuel : Nat) (res : decoded_addr) (baddr0 brow0 frg0 : Nat)
    (hfun : ∀ B, DecodesByAddr (skx_decode B))
    (htolm : tolm + 0x1000 ≤ 2 ^ 64) (htohm : tohm + 0x1000 ≤ 2 ^ 64)
    (hfuel : tolm + 0x1000 ≤ fuel * 0x1000 ∧ tohm + 0x1000 ≤ fuel * 0x1000) :
    ∃ x, early_skx_init_sweeps skx_decode nrps tolm tohm sse fuel res baddr0 brow0 frg0 =
        some x ∧
      ∀ s, x = SweepExit.done s →
        ((sse ≠ 0 ∨ s.rc ≠ 0) → s.first_remote_group = frg0) ∧
        (sse = 0 → s.rc = 0 →
          (s.first_remote_group = frg0 ∧
            ∀ i, tohm / 2 + i * 0x1000 < tohm →
              (skx_decode s.himem_subarray_boundary_row (rec0 (tohm / 2 + i * 0x1000))).1 = true ∧
              ¬ ((skx_decode s.himem_subarray_boundary_row
                    (rec0 (tohm / 2 + i * 0x1000))).2.socket ≠ 0 ∧
                (skx_decode s.himem_subarray_boundary_row
                    (rec0 (tohm / 2 + i * 0x1000))).2.subarray_group ≠ SOCKET_1_EPT_NODE ∧
                (skx_decode s.himem_subarray_boundary_row
                    (rec0 (tohm / 2 + i * 0x1000))).2.subarray_group ≠
                  SOCKET_1_GUARD_ROWS_NODE)) ∨
          (∃ n, tohm / 2 + n * 0x1000 < tohm ∧
            (skx_decode s.himem_subarray_boundary_row (rec0 (tohm / 2 + n * 0x1000))).1 = true ∧
            (skx_decode s.himem_subarray_boundary_row
                (rec0 (tohm / 2 + n * 0x1000))).2.socket ≠ 0 ∧
            (skx_decode s.himem_subarray_boundary_row
                (rec0 (tohm / 2 + n * 0x1000))).2.subarray_group ≠ SOCKET_1_EPT_NODE ∧
            (skx_decode s.himem_subarray_boundary_row
                (rec0 (tohm / 2 + n * 0x1000))).2.subarray_group ≠ SOCKET_1_GUARD_ROWS_NODE ∧
            s.first_remote_group =
              u32_of_int (skx_decode s.himem_subarray_boundary_row
                (rec0 (tohm / 2 + n * 0x1000))).2.subarray_group ∧
            ∀ i, i < n →
              (skx_decode s.himem_subarray_boundary_row (rec0 (tohm / 2 + i * 0x1000))).1 = true ∧
              ¬ ((skx_decode s.himem_subarray_boundary_row
                    (rec0 (tohm / 2 + i * 0x1000))).2.socket ≠ 0 ∧
                (skx_decode s.himem_subarray_boundary_row
                    (rec0 (tohm / 2 + i * 0x1000))).2.subarray_group ≠ SOCKET_1_EPT_NODE ∧
                (skx_decode s.himem_subarray_boundary_row
                    (rec0 (tohm / 2 + i * 0x1000))).2.subarray_group ≠
                  SOCKET_1_GUARD_ROWS_NODE))) := by
  obtain ⟨x, hx⟩ := early_skx_init_sweeps_ends skx_decode nrps tolm tohm sse fuel res baddr0 brow0
    frg0 htolm htohm hfuel
  refine ⟨x, hx, ?_⟩
  intro s hxs
  rw [hxs] at hx
  obtain ⟨s1, h1, hpath⟩ := early_skx_init_sweeps_done skx_decode nrps tolm tohm sse fuel res
    baddr0 brow0 frg0 s hx
  obtain ⟨_, _, l5⟩ := lomem_sweep_frame _ _ _ _ _ _ h1
  simp only [] at l5
  rcases hpath with ⟨hne, hs⟩ | ⟨hrc1, s2, h2, hrest⟩
  · rw [hs]
    exact ⟨fun _ => l5, fun _ hc => absurd hc hne⟩
  · have m2 := himem_sweep_frame _ _ _ _ _ _ _ h2
    rcases hrest with ⟨hn, hs⟩ | ⟨hrc2, hsse, h3⟩
    · rw [hs]
      refine ⟨fun _ => by rw [m2, l5], fun h0 hc => absurd ⟨hc, h0⟩ hn⟩
    · have h3' := h3
      rw [show tohm / 2 = tohm / 2 + 0 * 0x1000 by omega] at h3'
      obtain ⟨r1, r2, r3⟩ := remote_sweep_spec (skx_decode s2.himem_subarray_boundary_row)
        (hfun _) tohm (tohm / 2) htohm fuel 0 s2 s h3' hrc2
      rw [r2]
      constructor
      · intro hc
        rcases hc with hc | hc
        · exact absurd hsse hc
        · rcases r3 with ⟨_, a2⟩ | ⟨a1, _⟩ | ⟨b1, _⟩
          · rw [a2, m2, l5]
          · exact absurd a1 hc
          · exact absurd b1 hc
      · intro _ hc
        rcases r3 with ⟨a1, _⟩ | ⟨_, a2, a3⟩ | ⟨_, n, _, b2, b3, b4, b5, b6, b7, b8⟩
        · rw [a1] at hc
          exact absurd hc (by decide)
        · left
          exact ⟨by rw [a2, m2, l5], fun i hi => a3 i (Nat.zero_le _) hi⟩
        · right
          exact ⟨n, b2, b3, b4, b5, b6, b7, fun i hi => b8 i (Nat.zero_le _) hi⟩

/-- Witness of C18 (amended): the two-socket configuration `env_two`,
`second_socket_empty = 0`, `skx_tohm = 0x32003FE000`; the first page of the
top half, `0x19001FF000`, is on socket 1 in row 15, of group
`SOCKET_1_GUARD_ROWS_NODE`; the next page is on socket 1 in row 32, of group
`(2 ^ 17 + 32) / 512 + 4 = 260`: the first remote group is 260. -/
theorem C18_first_remote_group_witness :
    (∃ x, early_skx_init_sweeps (early_skx_decode_at env_two) 512 0x2000 0x32003FE000 0
      0x32003FF (rec0 0) 0 0 FIRST_REMOTE_GROUP_UNSET = some x) ∧
    (sweep_summary (early_skx_init_sweeps (early_skx_decode_at env_two) 512 0x2000
      0x32003FE000 0 0x32003FF (rec0 0) 0 0 FIRST_REMOTE_GROUP_UNSET)).map
        (fun t => t.2.2.2) = some 260 :=
  ⟨(C18_first_remote_group (early_skx_decode_at env_two) 512 0x2000 0x32003FE000 0 0x32003FF
      (rec0 0) 0 0 FIRST_REMOTE_GROUP_UNSET (early_skx_decode_at_by_addr env_two) (by decide)
      (by decide) (by decide)).imp (fun _ h => h.1),
   by decide⟩

/-- C18 (counterexample): the two-socket configuration `env_two` with
`second_socket_empty = 0` and `skx_tohm = 0x32003FE000`.  The first page of
the top half, `skx_tohm / 2 = 0x19001FF000`, decodes on socket 1 to the
group `SOCKET_1_GUARD_ROWS_NODE = 5` (row 15), which is neither
`SOCKET_0_EPT_NODE` nor `SOCKET_0_GUARD_ROWS_NODE`; the sweeps end with
`rc = 0` and the first remote group is 260, the group of the next page
(row 32), not 5.  This `skx_tohm` is what the cushion makes of
`0x31FC3FE000`, and it leaves `second_socket_empty` at 0. -/
theorem C18_counterexample :
    (0x32003FE000 : Nat) / 2 = 0x19001FF000 ∧
    (early_skx_decode_at env_two 33280 (rec0 0x19001FF000)).1 = true ∧
    (early_skx_decode_at env_two 33280 (rec0 0x19001FF000)).2.socket = 1 ∧
    (early_skx_decode_at env_two 33280 (rec0 0x19001FF000)).2.row = 15 ∧
    (early_skx_decode_at env_two 33280 (rec0 0x19001FF000)).2.subarray_group = 5 ∧
    (5 : Int) ≠ SOCKET_0_EPT_NODE ∧ (5 : Int) ≠ SOCKET_0_GUARD_ROWS_NODE ∧
    (early_skx_decode_at env_two 33280 (rec0 0x1900200000)).2.socket = 1 ∧
    (early_skx_decode_at env_two 33280 (rec0 0x1900200000)).2.subarray_group = 260 ∧
    (early_skx_cushion 0 0x31FC3FE000 0).2 = (0x32003FE000, 0) ∧
    sweep_summary (early_skx_init_sweeps (early_skx_decode_at env_two) 512 0x2000
      0x32003FE000 0 4 (rec0 0) 0 0 FIRST_REMOTE_GROUP_UNSET) =
      some (0, 0x100000000, 33280, 260) := by
  decide

/-! ## The early and the attached decoder -/

theorem sad_scan_agree (env : SkxEnv) (d : skx_dev) (addr : Nat)
    (hsad : ∀ i, i < SKX_MAX_SAD → EARLY_SKX_GET_SAD env d i = some (SKX_GET_SAD env d i)) :
    ∀ n i prev, i + n ≤ SKX_MAX_SAD →
      early_skx_sad_scan env d addr n i prev = skx_sad_scan env d addr n i prev := by
  intro n
  induction n with
  | zero => intro i prev _; rfl
  | succ n ih =>
    intro i prev h
    rw [early_skx_sad_scan, skx_sad_scan, hsad i (by omega)]
    simp only []
    split
    · rfl
    · exact ih _ _ (by omega)

theorem skx_sad_scan_found_lt (env : SkxEnv) (d : skx_dev) (addr : Nat) :
    ∀ n i prev j sad, skx_sad_scan env d addr n i prev = SadScan.sad_found j sad → j < i + n := by
  intro n
  induction n with
  | zero =>
    intro i prev j sad h
    simp only [skx_sad_scan] at h
    cases h
  | succ n ih =>
    intro i prev j sad h
    rw [skx_sad_scan] at h
    split at h
    · simp only [SadScan.sad_found.injEq] at h
      omega
    · have := ih _ _ _ _ h
      omega

theorem sad_pass_agree (env : SkxEnv) (d : skx_dev) (addr : Nat)
    (hsad : ∀ i, i < SKX_MAX_SAD → EARLY_SKX_GET_SAD env d i = some (SKX_GET_SAD env d i))
    (hilv : ∀ i, i < SKX_MAX_SAD → EARLY_SKX_GET_ILV env d i = some (SKX_GET_ILV env d i)) :
    early_skx_sad_pass env d addr = skx_sad_pass env d addr := by
  unfold early_skx_sad_pass skx_sad_pass
  rw [sad_scan_agree env d addr hsad SKX_MAX_SAD 0 0 (by omega)]
  cases hs : skx_sad_scan env d addr SKX_MAX_SAD 0 0 with
  | read_failed => rfl
  | not_found => rfl
  | sad_found j sad =>
    have hj := skx_sad_scan_found_lt env d addr _ _ _ _ _ hs
    simp only []
    rw [hilv j (by omega)]

theorem skx_sad_finish_eq (env : SkxEnv) (di sad tgt : Nat) (res : decoded_addr) :
    skx_sad_finish env di sad tgt res = early_skx_sad_finish env di sad tgt res := rfl

/-- A successful tail of the SAD stage leaves the device `di` and its
socket id in the record. -/
theorem early_skx_sad_finish_inv (env : SkxEnv) (di sad tgt : Nat) (res : decoded_addr)
    (h : (early_skx_sad_finish env di sad tgt res).1 = true) :
    (early_skx_sad_finish env di sad tgt res).2.dev = di ∧
    (early_skx_sad_finish env di sad tgt res).2.socket =
      (((env.skx_sock_devs di).imc 0).src_id : Int) ∧
    (early_skx_sad_finish env di sad tgt res).2.addr = res.addr := by
  unfold early_skx_sad_finish at h ⊢
  simp only [] at h ⊢
  cases hl : skx_sad_lchan res.addr sad tgt with
  | none =>
    rw [hl] at h
    exact absurd h (by simp)
  | some lchan =>
    exact ⟨rfl, rfl, rfl⟩

theorem range_headD_zero (n : Nat) : (List.range n).headD 0 = 0 := by
  cases n with
  | zero => rfl
  | succ m =>
    rw [List.range_succ_eq_map]
    rfl

/-- Inside the decodable range, with the attached list holding the devices
below `skx_num_sockets` in order and the early reads returning what the
attached reads return, the two SAD stages are the same function; on success
the record holds a device below `skx_num_sockets` and its socket id. -/
theorem sad_decode_agree (env : SkxEnv) (l : List Nat) (res : decoded_addr)
    (hrange : ¬ (res.addr ≥ env.skx_tohm ∨ (res.addr ≥ env.skx_tolm ∧ res.addr < 2 ^ 32)))
    (hlist : l = List.range env.skx_num_sockets.toNat) (hn : 1 ≤ env.skx_num_sockets)
    (hreads : EarlyReadsAgree env) :
    skx_sad_decode env l res = early_skx_sad_decode env res ∧
    ((early_skx_sad_decode env res).1 = true →
      (early_skx_sad_decode env res).2.dev < env.skx_num_sockets.toNat ∧
      (early_skx_sad_decode env res).2.socket =
        (((env.skx_sock_devs (early_skx_sad_decode env res).2.dev).imc 0).src_id : Int) ∧
      (early_skx_sad_decode env res).2.addr = res.addr) := by
  have h0 : 0 < env.skx_num_sockets.toNat := by omega
  have hpass : ∀ di, di < env.skx_num_sockets.toNat →
      early_skx_sad_pass env (env.skx_sock_devs di) res.addr =
        skx_sad_pass env (env.skx_sock_devs di) res.addr := fun di hdi =>
    sad_pass_agree env _ _ (fun i hi => (hreads di i hdi hi).1) (fun i hi => (hreads di i hdi hi).2)
  unfold skx_sad_decode early_skx_sad_decode
  rw [if_neg hrange]
  simp only []
  rw [hlist, range_headD_zero, hpass 0 h0]
  cases hp : skx_sad_pass env (env.skx_sock_devs 0) res.addr with
  | failed =>
    simp only []
    exact ⟨trivial, fun hc => absurd hc (by simp)⟩
  | hit sad tgt =>
    simp only []
    refine ⟨rfl, fun hc => ?_⟩
    obtain ⟨a, b, c⟩ := early_skx_sad_finish_inv env 0 sad tgt res hc
    rw [a]
    exact ⟨h0, by rw [b], c⟩
  | remote tgt =>
    simp only []
    have hfind : skx_find_node env (List.range env.skx_num_sockets.toNat) tgt =
        early_skx_find_node env tgt := rfl
    rw [hfind]
    cases hf : early_skx_find_node env tgt with
    | none =>
      simp only []
      exact ⟨trivial, fun hc => absurd hc (by simp)⟩
    | some i =>
      simp only []
      have hi : i < env.skx_num_sockets.toNat := by
        unfold early_skx_find_node at hf
        exact List.mem_range.mp (List.mem_of_find?_eq_some hf)
      rw [hpass i hi]
      cases hp2 : skx_sad_pass env (env.skx_sock_devs i) res.addr with
      | failed =>
        simp only []
        exact ⟨trivial, fun hc => absurd hc (by simp)⟩
      | remote _ =>
        simp only []
        exact ⟨trivial, fun hc => absurd hc (by simp)⟩
      | hit sad2 tgt2 =>
        simp only []
        refine ⟨rfl, fun hc => ?_⟩
        obtain ⟨a, b, c⟩ := early_skx_sad_finish_inv env i sad2 tgt2 res hc
        rw [a]
        exact ⟨hi, by rw [b], c⟩

theorem tad_scan_agree (env : SkxEnv) (r : decoded_addr)
    (hdev : r.dev < env.skx_num_sockets.toNat)
    (hsock : r.socket = (((env.skx_sock_devs r.dev).imc 0).src_id : Int))
    (hsnap : SnapshotHolds env) :
    ∀ m i, i + m ≤ SKX_MAX_TAD → skx_tad_scan env r m i = early_skx_tad_scan env r m i := by
  intro m
  induction m with
  | zero => intro i _; rfl
  | succ m ih =>
    intro i h
    obtain ⟨t1, t2, _⟩ := (hsnap r.dev hdev r.imc 0).1 i (by omega)
    rw [skx_tad_scan, early_skx_tad_scan, hsock, t1, t2]
    split
    · rfl
    · have := ih (i + 1) (by omega)
      exact this

theorem early_skx_tad_scan_found_lt (env : SkxEnv) (r : decoded_addr) :
    ∀ m i j b w, early_skx_tad_scan env r m i = some (j, b, w) → j < i + m := by
  intro m
  induction m with
  | zero =>
    intro i j b w h
    simp only [early_skx_tad_scan] at h
    cases h
  | succ m ih =>
    intro i j b w h
    rw [early_skx_tad_scan] at h
    split at h
    · simp only [Option.some.injEq, Prod.mk.injEq] at h
      omega
    · have := ih _ _ _ _ h
      omega

/-- With the snapshot tables holding the register values, the two TAD
stages are the same function on a record that holds a device below
`skx_num_sockets` and its socket id. -/
theorem tad_decode_agree (env : SkxEnv) (r : decoded_addr)
    (hdev : r.dev < env.skx_num_sockets.toNat)
    (hsock : r.socket = (((env.skx_sock_devs r.dev).imc 0).src_id : Int))
    (hsnap : SnapshotHolds env) :
    skx_tad_decode env r = early_skx_tad_decode env r := by
  unfold skx_tad_decode early_skx_tad_decode
  rw [tad_scan_agree env r hdev hsock hsnap SKX_MAX_TAD 0 (by omega)]
  cases hs : early_skx_tad_scan env r SKX_MAX_TAD 0 with
  | none => rfl
  | some t =>
    obtain ⟨j, b, w⟩ := t
    have hj := early_skx_tad_scan_found_lt env r _ _ _ _ _ hs
    obtain ⟨_, _, t3⟩ := (hsnap r.dev hdev r.imc r.channel).1 j (by omega)
    simp only []
    rw [hsock, t3]

/-- The TAD stage leaves the device, socket, controller, channel and
address of the record as they were. -/
theorem early_skx_tad_decode_inv (env : SkxEnv) (r : decoded_addr) :
    (early_skx_tad_decode env r).2.dev = r.dev ∧
    (early_skx_tad_decode env r).2.socket = r.socket ∧
    (early_skx_tad_decode env r).2.imc = r.imc ∧
    (early_skx_tad_decode env r).2.channel = r.channel := by
  unfold early_skx_tad_decode
  cases hs : early_skx_tad_scan env r SKX_MAX_TAD 0 with
  | none => exact ⟨rfl, rfl, rfl, rfl⟩
  | some t =>
    obtain ⟨j, b, w⟩ := t
    exact ⟨rfl, rfl, rfl, rfl⟩

theorem rir_scan_agree (env : SkxEnv) (r : decoded_addr)
    (hdev : r.dev < env.skx_num_sockets.toNat)
    (hsock : r.socket = (((env.skx_sock_devs r.dev).imc 0).src_id : Int))
    (hsnap : SnapshotHolds env) :
    ∀ m i prev, i + m ≤ SKX_MAX_RIR →
      skx_rir_scan env r m i prev = early_skx_rir_scan env r m i prev := by
  intro m
  induction m with
  | zero => intro i prev _; rfl
  | succ m ih =>
    intro i prev h
    obtain ⟨t1, _⟩ := (hsnap r.dev hdev r.imc r.channel).2 i (by omega)
    rw [skx_rir_scan, early_skx_rir_scan, hsock, t1]
    split
    · rfl
    · have := ih (i + 1) (SKX_RIR_LIMIT (env.pci_read_config_dword
        (((env.skx_sock_devs r.dev).imc r.imc).chan r.channel).cdev (0x108 + 4 * i))) (by omega)
      exact this

theorem early_skx_rir_scan_found_lt (env : SkxEnv) (r : decoded_addr) :
    ∀ m i prev j w, early_skx_rir_scan env r m i prev = some (j, w) → j < i + m := by
  intro m
  induction m with
  | zero =>
    intro i prev j w h
    simp only [early_skx_rir_scan] at h
    cases h
  | succ m ih =>
    intro i prev j w h
    rw [early_skx_rir_scan] at h
    split at h
    · simp only [Option.some.injEq, Prod.mk.injEq] at h
      omega
    · have := ih _ _ _ _ h
      omega

theorem SKX_RIR_WAYS_bounds (b : Nat) : 0 < SKX_RIR_WAYS b ∧ SKX_RIR_WAYS b ≤ 8 := by
  unfold SKX_RIR_WAYS GET_BITFIELD
  have h : (b >>> 28) % 2 ^ (29 + 1 - 28) < 4 := Nat.mod_lt _ (by norm_num)
  generalize (b >>> 28) % 2 ^ (29 + 1 - 28) = k at h
  interval_cases k <;> decide

/-- With the snapshot tables holding the register values and DIMM 0 of the
channel in the page mode of its controller, the two RIR stages are the same
function on a record that holds a device below `skx_num_sockets` and its
socket id. -/
theorem rir_decode_agree (env : SkxEnv) (r : decoded_addr)
    (hdev : r.dev < env.skx_num_sockets.toNat)
    (hsock : r.socket = (((env.skx_sock_devs r.dev).imc 0).src_id : Int))
    (hsnap : SnapshotHolds env) (hgeom : DimmsHaveControllerGeometry env) :
    skx_rir_decode env r = early_skx_rir_decode env r := by
  unfold skx_rir_decode early_skx_rir_decode
  simp only []
  rw [rir_scan_agree env r hdev hsock hsnap SKX_MAX_RIR 0 0 (by omega),
    (hgeom r.dev hdev r.imc r.channel 0).1]
  cases hs : early_skx_rir_scan env r SKX_MAX_RIR 0 0 with
  | none => rfl
  | some t =>
    obtain ⟨j, w⟩ := t
    have hj := early_skx_rir_scan_found_lt env r _ _ _ _ _ hs
    obtain ⟨hw0, hw8⟩ := SKX_RIR_WAYS_bounds w
    simp only []
    generalize (if ((env.skx_sock_devs r.dev).imc r.imc).close_pg ≠ 0 then 6 else 13) = shift
    have hidx : (r.chan_addr >>> shift) % SKX_RIR_WAYS w < 8 :=
      lt_of_lt_of_le (Nat.mod_lt _ hw0) hw8
    obtain ⟨_, t2⟩ := (hsnap r.dev hdev r.imc r.channel).2 j (by omega)
    rw [hsock, t2 _ hidx]

/-- The RIR stage leaves the device, socket, controller and channel of the
record as they were. -/
theorem early_skx_rir_decode_inv (env : SkxEnv) (r : decoded_addr) :
    (early_skx_rir_decode env r).2.dev = r.dev ∧
    (early_skx_rir_decode env r).2.socket = r.socket ∧
    (early_skx_rir_decode env r).2.imc = r.imc ∧
    (early_skx_rir_decode env r).2.channel = r.channel ∧
    (early_skx_rir_decode env r).2.chan_addr = r.chan_addr ∧
    (early_skx_rir_decode env r).2.sktways = r.sktways ∧
    (early_skx_rir_decode env r).2.chanways = r.chanways := by
  unfold early_skx_rir_decode
  simp only []
  cases hs : early_skx_rir_scan env r SKX_MAX_RIR 0 0 with
  | none => exact ⟨rfl, rfl, rfl, rfl, rfl, rfl, rfl⟩
  | some t =>
    obtain ⟨j, w⟩ := t
    exact ⟨rfl, rfl, rfl, rfl, rfl, rfl, rfl⟩

/-- With the DIMM of the record in the geometry of its controller, the two
MAD stages write the same row, column, bank address and bank group, and
leave the fields of the earlier stages as they were. -/
theorem mad_decode_agree (env : SkxEnv) (r : decoded_addr)
    (hdev : r.dev < env.skx_num_sockets.toNat) (hgeom : DimmsHaveControllerGeometry env) :
    (skx_mad_decode env r).1 = (early_skx_mad_decode env r).1 ∧
    (skx_mad_decode env r).2.socket = (early_skx_mad_decode env r).2.socket ∧
    (skx_mad_decode env r).2.imc = (early_skx_mad_decode env r).2.imc ∧
    (skx_mad_decode env r).2.channel = (early_skx_mad_decode env r).2.channel ∧
    (skx_mad_decode env r).2.chan_addr = (early_skx_mad_decode env r).2.chan_addr ∧
    (skx_mad_decode env r).2.sktways = (early_skx_mad_decode env r).2.sktways ∧
    (skx_mad_decode env r).2.chanways = (early_skx_mad_decode env r).2.chanways ∧
    (skx_mad_decode env r).2.dimm = (early_skx_mad_decode env r).2.dimm ∧
    (skx_mad_decode env r).2.rank = (early_skx_mad_decode env r).2.rank ∧
    (skx_mad_decode env r).2.rank_address = (early_skx_mad_decode env r).2.rank_address ∧
    (skx_mad_decode env r).2.row = (early_skx_mad_decode env r).2.row ∧
    (skx_mad_decode env r).2.column = (early_skx_mad_decode env r).2.column ∧
    (skx_mad_decode env r).2.bank_address = (early_skx_mad_decode env r).2.bank_address ∧
    (skx_mad_decode env r).2.bank_group = (early_skx_mad_decode env r).2.bank_group := by
  obtain ⟨g1, g2, g3, g4, g5⟩ := hgeom r.dev hdev r.imc r.channel r.dimm
  unfold skx_mad_decode early_skx_mad_decode
  simp only []
  rw [g1, g2, g3, g4, g5]
  simp only [and_self]

/-- The early read of SAD entry 20 passes the offset `0x60 + 8 * 20 = 0x100`
through a `u8` and so reads offset 0; the attached read uses offset
`0x100`. -/
theorem EARLY_SKX_GET_SAD_offset_wraps (env : SkxEnv) (d : skx_dev) :
    EARLY_SKX_GET_SAD env d 20 =
      env.early_read_pci_config d.sad_all_bus d.sad_all_dev d.sad_all_func 0 ∧
    SKX_GET_SAD env d 20 = env.pci_read_config_dword d.sad_all 0x100 :=
  ⟨rfl, rfl⟩

/-- C16 (amended): for every address inside the decodable range (below
`skx_tohm` and not in `[skx_tolm, 4 GiB)`) and every register content, when
the attached list holds the devices below `skx_num_sockets` in order, the
early SAD and interleave reads and the early snapshot tables hold the
values the attached register reads return, and every DIMM has its
controller's geometry, `skx_decode_local` and `early_skx_decode_local`
return the same flag and, when it is true, the same socket, imc, channel,
chan_addr, sktways, chanways, dimm, rank, rank_address, row, column,
bank_address and bank_group. -/
theorem C16_decoders_agree_in_range (env : SkxEnv) (l : List Nat) (res : decoded_addr)
    (hrange : res.addr < env.skx_tohm ∧ ¬ (env.skx_tolm ≤ res.addr ∧ res.addr < 2 ^ 32))
    (hlist : l = List.range env.skx_num_sockets.toNat) (hn : 1 ≤ env.skx_num_sockets)
    (hreads : EarlyReadsAgree env) (hsnap : SnapshotHolds env)
    (hgeom : DimmsHaveControllerGeometry env) :
    (skx_decode_local env l res).1 = (early_skx_decode_local env res).1 ∧
    ((early_skx_decode_local env res).1 = true →
      (skx_decode_local env l res).2.socket = (early_skx_decode_local env res).2.socket ∧
      (skx_decode_local env l res).2.imc = (early_skx_decode_local env res).2.imc ∧
      (skx_decode_local env l res).2.channel = (early_skx_decode_local env res).2.channel ∧
      (skx_decode_local env l res).2.chan_addr = (early_skx_decode_local env res).2.chan_addr ∧
      (skx_decode_local env l res).2.sktways = (early_skx_decode_local env res).2.sktways ∧
      (skx_decode_local env l res).2.chanways = (early_skx_decode_local env res).2.chanways ∧
      (skx_decode_local env l res).2.dimm = (early_skx_decode_local env res).2.dimm ∧
      (skx_decode_local env l res).2.rank = (early_skx_decode_local env res).2.rank ∧
      (skx_decode_local env l res).2.rank_address =
        (early_skx_decode_local env res).2.rank_address ∧
      (skx_decode_local env l res).2.row = (early_skx_decode_local env res).2.row ∧
      (skx_decode_local env l res).2.column = (early_skx_decode_local env res).2.column ∧
      (skx_decode_local env l res).2.bank_address =
        (early_skx_decode_local env res).2.bank_address ∧
      (skx_decode_local env l res).2.bank_group =
        (early_skx_decode_local env res).2.bank_group) := by
  have hr : ¬ (res.addr ≥ env.skx_tohm ∨ (res.addr ≥ env.skx_tolm ∧ res.addr < 2 ^ 32)) := by
    intro hc
    rcases hc with hc | hc
    · exact absurd hrange.1 (by omega)
    · exact hrange.2 hc
  obtain ⟨e1, inv1⟩ := sad_decode_agree env l res hr hlist hn hreads
  unfold skx_decode_local early_skx_decode_local
  simp only []
  rw [e1]
  generalize early_skx_sad_decode env res = r1 at inv1 ⊢
  by_cases h1 : r1.1 = true
  · rw [if_pos h1, if_pos h1]
    obtain ⟨d1, s1, _⟩ := inv1 h1
    rw [tad_decode_agree env r1.2 d1 s1 hsnap]
    obtain ⟨a1, a2, _, _⟩ := early_skx_tad_decode_inv env r1.2
    generalize early_skx_tad_decode env r1.2 = r2 at a1 a2 ⊢
    by_cases h2 : r2.1 = true
    · rw [if_pos h2, if_pos h2]
      have d2 : r2.2.dev < env.skx_num_sockets.toNat := by rw [a1]; exact d1
      have s2 : r2.2.socket = (((env.skx_sock_devs r2.2.dev).imc 0).src_id : Int) := by
        rw [a2, a1]; exact s1
      rw [rir_decode_agree env r2.2 d2 s2 hsnap hgeom]
      obtain ⟨b1, _⟩ := early_skx_rir_decode_inv env r2.2
      generalize early_skx_rir_decode env r2.2 = r3 at b1 ⊢
      by_cases h3 : r3.1 = true
      · rw [if_pos h3, if_pos h3]
        have d3 : r3.2.dev < env.skx_num_sockets.toNat := by rw [b1]; exact d2
        obtain ⟨m0, m⟩ := mad_decode_agree env r3.2 d3 hgeom
        exact ⟨m0, fun _ => m⟩
      · rw [if_neg h3, if_neg h3]
        exact ⟨rfl, fun hc => absurd hc (by simp)⟩
    · rw [if_neg h2, if_neg h2]
      exact ⟨rfl, fun hc => absurd hc (by simp)⟩
  · rw [if_neg h1, if_neg h1]
    exact ⟨rfl, fun hc => absurd hc (by simp)⟩

theorem env_flat_reads_agree (rows : Nat) : EarlyReadsAgree (env_flat rows) := by
  intro di i _ hi
  have hi' : i < 24 := hi
  interval_cases i <;> exact ⟨rfl, rfl⟩

theorem env_flat_snapshot (rows : Nat) : SnapshotHolds (env_flat rows) := by
  intro di _ imc ch
  constructor
  · intro i hi
    have hi' : i < 8 := hi
    interval_cases i <;> exact ⟨rfl, rfl, rfl⟩
  · intro i hi
    have hi' : i < 4 := hi
    interval_cases i
    all_goals
      refine ⟨rfl, ?_⟩
      intro idx hidx
      interval_cases idx <;> rfl

theorem env_flat_geometry (rows : Nat) : DimmsHaveControllerGeometry (env_flat rows) := by
  intro di _ imc ch dm
  exact ⟨rfl, rfl, rfl, rfl, rfl⟩

/-- Witness of C16 (amended): the one-socket configuration `env_flat 512`
and the address `0x1000`, on which both decoders succeed. -/
theorem C16_decoders_agree_in_range_witness :
    (early_skx_decode_local (env_flat 512) (rec0 0x1000)).1 = true ∧
    (skx_decode_local (env_flat 512) [0] (rec0 0x1000)).1 =
      (early_skx_decode_local (env_flat 512) (rec0 0x1000)).1 ∧
    (skx_decode_local (env_flat 512) [0] (rec0 0x1000)).2.socket =
      (early_skx_decode_local (env_flat 512) (rec0 0x1000)).2.socket :=
  have h := C16_decoders_agree_in_range (env_flat 512) [0] (rec0 0x1000)
    (by decide) rfl (by decide) (env_flat_reads_agree 512) (env_flat_snapshot 512)
    (env_flat_geometry 512)
  ⟨by decide, h.1, (h.2 (by decide)).1⟩

/-- C16 (counterexample): on the one-socket configuration `env_flat 512`,
where the early reads and the snapshot tables hold the values the attached
reads return and every DIMM has its controller's geometry, the address
`0x900000000` is not below `skx_tohm = 0x880000000`: `skx_decode_local`
returns false and `early_skx_decode_local` returns true (socket 0, row
`0x8000`). -/
theorem C16_counterexample :
    EarlyReadsAgree (env_flat 512) ∧ SnapshotHolds (env_flat 512) ∧
    DimmsHaveControllerGeometry (env_flat 512) ∧
    (env_flat 512).skx_tohm = 0x880000000 ∧
    (skx_decode_local (env_flat 512) [0] (rec0 0x900000000)).1 = false ∧
    (early_skx_decode_local (env_flat 512) (rec0 0x900000000)).1 = true ∧
    (early_skx_decode_local (env_flat 512) (rec0 0x900000000)).2.socket = 0 ∧
    (early_skx_decode_local (env_flat 512) (rec0 0x900000000)).2.row = 0x8000 :=
  ⟨env_flat_reads_agree 512, env_flat_snapshot 512, env_flat_geometry 512, rfl,
    by decide, by decide, by decide, by decide⟩

/-! ## Stage 1: the logical channel -/

theorem shiftLeft_one_or_bit (x b : Nat) (hb : b < 2) : (x <<< 1) ||| b = 2 * x + b := by
  rw [Nat.shiftLeft_eq, pow_one, Nat.mul_comm]
  have h := Nat.mul_add_lt_is_or (i := 1) (b := b) (by simpa using hb) x
  simpa using h.symm

theorem ilv_target_and_one (tgt : Nat) : SKX_ILV_TARGET tgt &&& 1 = tgt % 2 := by
  unfold SKX_ILV_TARGET
  rw [Nat.and_assoc]
  have h : (7 : Nat) &&& 1 = 1 := by decide
  rw [h, Nat.and_one_is_mod]

theorem ilv_target_eq_mod (tgt : Nat) : SKX_ILV_TARGET tgt = tgt % 8 := by
  unfold SKX_ILV_TARGET
  exact Nat.and_pow_two_sub_one_eq_mod tgt 3

/-- The logical channel in 3-way mode: with `m` the address shifted down by
the shift of the selector, twice the base value of the mode plus the low
bit of the target. -/
theorem skx_sad_lchan_mod3 (addr sad tgt shift : Nat) (h3 : SKX_SAD_MOD3 sad ≠ 0)
    (hs : (SKX_SAD_MOD3MODE sad = 0 ∧ shift = 6) ∨ (SKX_SAD_MOD3MODE sad = 1 ∧ shift = 8) ∨
      (SKX_SAD_MOD3MODE sad = 2 ∧ shift = 12)) :
    skx_sad_lchan addr sad tgt =
      some (2 * (if SKX_SAD_MOD3ASMOD2 sad = 0 then (addr >>> shift) % 3
        else if SKX_SAD_MOD3ASMOD2 sad = 1 then (addr >>> shift) % 2
        else if SKX_SAD_MOD3ASMOD2 sad = 2 then (if (addr >>> shift) % 2 = 0 then 1 else 2)
        else 2 * ((addr >>> shift) % 2)) + tgt % 2) := by
  have ht : SKX_ILV_TARGET tgt &&& 1 < 2 := by rw [ilv_target_and_one]; omega
  have key : ∀ x : Nat, (x <<< 1) ||| (SKX_ILV_TARGET tgt &&& 1) = 2 * x + tgt % 2 := by
    intro x
    rw [shiftLeft_one_or_bit x _ ht, ilv_target_and_one]
  have hm2 : (addr >>> shift) % 2 < 2 := Nat.mod_lt _ (by norm_num)
  unfold skx_sad_lchan
  rw [if_neg h3]
  rcases hs with ⟨h, e⟩ | ⟨h, e⟩ | ⟨h, e⟩ <;>
    · subst e
      rw [h]
      simp only []
      rw [key]
      generalize SKX_SAD_MOD3ASMOD2 sad = md
      match md with
      | 0 => simp
      | 1 => simp
      | 2 =>
        simp only [OfNat.ofNat_ne_zero, OfNat.ofNat_ne_one, if_false, if_true]
        rcases Nat.mod_two_eq_zero_or_one (addr >>> _) with h0 | h1
        · rw [h0]; simp
        · rw [h1]; simp
      | n + 3 =>
        have e1 : ¬ (n + 3 = 0) := by omega
        have e2 : ¬ (n + 3 = 1) := by omega
        have e3 : ¬ (n + 3 = 2) := by omega
        simp only [e1, e2, e3, if_false]
        rw [Nat.shiftLeft_eq, pow_one]
        generalize (addr >>> _) % 2 = x
        congr 1
        omega

/-- C29: the logical channel of stage 1 and the fields taken from the
routing word `mcroute`, in both pipelines.  With the 3-way bit
(`SKX_SAD_MOD3`) clear the logical channel is `tgt & 7`.  With it set,
shift selector (`SKX_SAD_MOD3MODE`) 3 makes `skx_sad_lchan` fail and the
stage return false; for selector 0, 1, 2 with shift 6, 8, 12 and
`m = addr >> shift`, the logical channel is `(base << 1) | (tgt & 1)`, that
is `2 * base + tgt % 2`, where `base` is `m % 3`, `m % 2`,
`((m % 2) << 1) | !(m % 2)` (1 when `m` is even, 2 when odd) or
`(m % 2) << 1` for mode selector (`SKX_SAD_MOD3ASMOD2`) 0, 1, 2, 3.  The
memory controller is the 3-bit field of `mcroute` at bit `3 * lchan`, the
channel the 2-bit field at bit `18 + 2 * lchan`. -/
theorem C29_logical_channel (env : SkxEnv) (di sad tgt : Nat) (res : decoded_addr) :
    (SKX_SAD_MOD3 sad = 0 → skx_sad_lchan res.addr sad tgt = some (tgt &&& 7)) ∧
    (SKX_SAD_MOD3 sad ≠ 0 → SKX_SAD_MOD3MODE sad = 3 →
      skx_sad_lchan res.addr sad tgt = none ∧
      (early_skx_sad_finish env di sad tgt res).1 = false ∧
      (skx_sad_finish env di sad tgt res).1 = false) ∧
    (∀ shift : Nat, SKX_SAD_MOD3 sad ≠ 0 →
      (SKX_SAD_MOD3MODE sad = 0 ∧ shift = 6) ∨ (SKX_SAD_MOD3MODE sad = 1 ∧ shift = 8) ∨
        (SKX_SAD_MOD3MODE sad = 2 ∧ shift = 12) →
      (SKX_SAD_MOD3ASMOD2 sad = 0 →
        skx_sad_lchan res.addr sad tgt =
          some ((((res.addr >>> shift) % 3) <<< 1) ||| (tgt &&& 1)) ∧
        skx_sad_lchan res.addr sad tgt = some (2 * ((res.addr >>> shift) % 3) + tgt % 2)) ∧
      (SKX_SAD_MOD3ASMOD2 sad = 1 →
        skx_sad_lchan res.addr sad tgt =
          some ((((res.addr >>> shift) % 2) <<< 1) ||| (tgt &&& 1)) ∧
        skx_sad_lchan res.addr sad tgt = some (2 * ((res.addr >>> shift) % 2) + tgt % 2)) ∧
      (SKX_SAD_MOD3ASMOD2 sad = 2 →
        skx_sad_lchan res.addr sad tgt =
          some ((((((res.addr >>> shift) % 2) <<< 1) |||
            (if (res.addr >>> shift) % 2 = 0 then 1 else 0)) <<< 1) ||| (tgt &&& 1)) ∧
        skx_sad_lchan res.addr sad tgt =
          some (2 * (if (res.addr >>> shift) % 2 = 0 then 1 else 2) + tgt % 2)) ∧
      (SKX_SAD_MOD3ASMOD2 sad = 3 →
        skx_sad_lchan res.addr sad tgt =
          some (((((res.addr >>> shift) % 2) <<< 1) <<< 1) ||| (tgt &&& 1)) ∧
        skx_sad_lchan res.addr sad tgt =
          some (2 * (2 * ((res.addr >>> shift) % 2)) + tgt % 2))) ∧
    (∀ lchan : Nat, skx_sad_lchan res.addr sad tgt = some lchan →
      (early_skx_sad_finish env di sad tgt res).1 = true ∧
      (early_skx_sad_finish env di sad tgt res).2.imc =
        ((((env.skx_sock_devs di).mcroute >>> (3 * lchan)) % 2 ^ 3 : Nat) : Int) ∧
      (early_skx_sad_finish env di sad tgt res).2.channel =
        ((((env.skx_sock_devs di).mcroute >>> (18 + 2 * lchan)) % 2 ^ 2 : Nat) : Int) ∧
      skx_sad_finish env di sad tgt res = early_skx_sad_finish env di sad tgt res) := by
  have hand1 : tgt &&& 1 = tgt % 2 := Nat.and_one_is_mod tgt
  have hb : tgt % 2 < 2 := Nat.mod_lt _ (by norm_num)
  refine ⟨?_, ?_, ?_, ?_⟩
  · intro h
    unfold skx_sad_lchan
    rw [if_pos h]
    rfl
  · intro h3 hm
    have hl : skx_sad_lchan res.addr sad tgt = none := by
      unfold skx_sad_lchan
      rw [if_neg h3, hm]
    refine ⟨hl, ?_, ?_⟩
    · unfold early_skx_sad_finish
      simp only [hl]
    · unfold skx_sad_finish
      simp only [hl]
  · intro shift h3 hs
    have hmain := skx_sad_lchan_mod3 res.addr sad tgt shift h3 hs
    refine ⟨?_, ?_, ?_, ?_⟩
    · intro hmd
      rw [hmain, hmd, hand1, shiftLeft_one_or_bit _ _ hb]
      simp
    · intro hmd
      rw [hmain, hmd, hand1, shiftLeft_one_or_bit _ _ hb]
      simp
    · intro hmd
      rw [hmain, hmd, hand1, shiftLeft_one_or_bit _ _ hb]
      simp only [OfNat.ofNat_ne_zero, OfNat.ofNat_ne_one, if_false, if_true, and_true]
      by_cases h0 : (res.addr >>> shift) % 2 = 0
      · rw [h0]; simp
      · have h1 : (res.addr >>> shift) % 2 = 1 := by omega
        rw [h1]; simp
    · intro hmd
      rw [hmain, hmd, hand1, shiftLeft_one_or_bit _ _ hb]
      have e : ((res.addr >>> shift) % 2) <<< 1 = 2 * ((res.addr >>> shift) % 2) := by
        rw [Nat.shiftLeft_eq, pow_one, Nat.mul_comm]
      rw [e]
      simp
  · intro lchan hl
    have e1 : GET_BITFIELD (env.skx_sock_devs di).mcroute (lchan * 3) (lchan * 3 + 2) =
        ((env.skx_sock_devs di).mcroute >>> (3 * lchan)) % 2 ^ 3 := by
      unfold GET_BITFIELD
      have h : lchan * 3 + 2 + 1 - lchan * 3 = 3 := by omega
      rw [h, Nat.mul_comm]
    have e2 : GET_BITFIELD (env.skx_sock_devs di).mcroute (lchan * 2 + 18) (lchan * 2 + 19) =
        ((env.skx_sock_devs di).mcroute >>> (18 + 2 * lchan)) % 2 ^ 2 := by
      unfold GET_BITFIELD
      have h : lchan * 2 + 19 + 1 - (lchan * 2 + 18) = 2 := by omega
      have h' : lchan * 2 + 18 = 18 + 2 * lchan := by omega
      rw [h, h']
    unfold skx_sad_finish early_skx_sad_finish
    simp only [hl, e1, e2, and_self]

/-! ## Stage 2: the order of de-interleave -/

/-- Below bit `shift` the result of `skx_do_interleave` is `lowbits`. -/
theorem skx_do_interleave_low (addr shift ways lowbits : Nat) (hs : shift ≤ 64) :
    skx_do_interleave addr shift ways lowbits % 2 ^ shift = lowbits % 2 ^ shift := by
  unfold skx_do_interleave
  have h1 : ((((addr >>> shift) / ways) <<< shift) % 2 ^ 64) % 2 ^ shift = 0 := by
    rw [Nat.mod_mod_of_dvd _ (pow_dvd_pow 2 hs), Nat.shiftLeft_eq]
    exact Nat.mul_mod_left _ _
  have h2 : (1 <<< shift : Nat) = 2 ^ shift := by rw [Nat.shiftLeft_eq, Nat.one_mul]
  rw [h2, Nat.and_pow_two_sub_one_eq_mod]
  generalize (((addr >>> shift) / ways) <<< shift) % 2 ^ 64 = x at h1 ⊢
  have hx : x = 2 ^ shift * (x / 2 ^ shift) := by
    have := Nat.div_add_mod x (2 ^ shift)
    omega
  have hlt : lowbits % 2 ^ shift < 2 ^ shift := Nat.mod_lt _ (by positivity)
  rw [hx, ← Nat.mul_add_lt_is_or hlt, Nat.mul_add_mod, Nat.mod_mod]

theorem skx_granularity_le (g : Nat) : skx_granularity.getD g 0 ≤ 64 := by
  unfold skx_granularity
  match g with
  | 0 => decide
  | 1 => decide
  | 2 => decide
  | 3 => decide
  | n + 4 => simp

/-- C30: stage 2 in both pipelines, once the scan has found the entry
`(i, base, wayness)`.  With `a0` the address less the channel offset of the
entry: exactly when channel-ways is 3 and the socket interleave bit is
greater than the channel interleave bit, `chan_addr` is `a0` with channel
interleave undone first and socket interleave second (low bits from the
value being de-interleaved); in every other case socket interleave is
undone first and channel interleave second, each taking the low bits from
the original address, and `chan_addr` agrees with the original address on
all bits below the channel interleave bit. -/
theorem C30_tad_interleave_order (env : SkxEnv) (res : decoded_addr) :
    (∀ i base wayness : Nat, early_skx_tad_scan env res SKX_MAX_TAD 0 = some (i, base, wayness) →
      (early_skx_tad_decode env res).1 = true ∧
      (SKX_TAD_CHNWAYS wayness = 3 ∧
          skx_granularity.getD (SKX_TAD_SKT_GRAN base) 0 >
            skx_granularity.getD (SKX_TAD_CHN_GRAN base) 0 →
        (early_skx_tad_decode env res).2.chan_addr =
          skx_do_interleave
            (skx_do_interleave
              ((res.addr + 2 ^ 64 -
                SKX_TAD_OFFSET (env.early_skx_tadchnilvoffset res.socket res.imc res.channel i))
                % 2 ^ 64)
              (skx_granularity.getD (SKX_TAD_CHN_GRAN base) 0) (SKX_TAD_CHNWAYS wayness)
              ((res.addr + 2 ^ 64 -
                SKX_TAD_OFFSET (env.early_skx_tadchnilvoffset res.socket res.imc res.channel i))
                % 2 ^ 64))
            (skx_granularity.getD (SKX_TAD_SKT_GRAN base) 0) (SKX_TAD_SKTWAYS wayness)
            (skx_do_interleave
              ((res.addr + 2 ^ 64 -
                SKX_TAD_OFFSET (env.early_skx_tadchnilvoffset res.socket res.imc res.channel i))
                % 2 ^ 64)
              (skx_granularity.getD (SKX_TAD_CHN_GRAN base) 0) (SKX_TAD_CHNWAYS wayness)
              ((res.addr + 2 ^ 64 -
                SKX_TAD_OFFSET (env.early_skx_tadchnilvoffset res.socket res.imc res.channel i))
                % 2 ^ 64))) ∧
      (¬ (SKX_TAD_CHNWAYS wayness = 3 ∧
          skx_granularity.getD (SKX_TAD_SKT_GRAN base) 0 >
            skx_granularity.getD (SKX_TAD_CHN_GRAN base) 0) →
        (early_skx_tad_decode env res).2.chan_addr =
          skx_do_interleave
            (skx_do_interleave
              ((res.addr + 2 ^ 64 -
                SKX_TAD_OFFSET (env.early_skx_tadchnilvoffset res.socket res.imc res.channel i))
                % 2 ^ 64)
              (skx_granularity.getD (SKX_TAD_SKT_GRAN base) 0) (SKX_TAD_SKTWAYS wayness) res.addr)
            (skx_granularity.getD (SKX_TAD_CHN_GRAN base) 0) (SKX_TAD_CHNWAYS wayness) res.addr ∧
        (early_skx_tad_decode env res).2.chan_addr %
            2 ^ skx_granularity.getD (SKX_TAD_CHN_GRAN base) 0 =
          res.addr % 2 ^ skx_granularity.getD (SKX_TAD_CHN_GRAN base) 0)) ∧
    (∀ i base wayness : Nat, skx_tad_scan env res SKX_MAX_TAD 0 = some (i, base, wayness) →
      (skx_tad_decode env res).1 = true ∧
      (SKX_TAD_CHNWAYS wayness = 3 ∧
          skx_granularity.getD (SKX_TAD_SKT_GRAN base) 0 >
            skx_granularity.getD (SKX_TAD_CHN_GRAN base) 0 →
        (skx_tad_decode env res).2.chan_addr =
          skx_do_interleave
            (skx_do_interleave
              ((res.addr + 2 ^ 64 -
                SKX_TAD_OFFSET (env.pci_read_config_dword
                  (((env.skx_sock_devs res.dev).imc res.imc).chan res.channel).cdev (0x90 + 4 * i)))
                % 2 ^ 64)
              (skx_granularity.getD (SKX_TAD_CHN_GRAN base) 0) (SKX_TAD_CHNWAYS wayness)
              ((res.addr + 2 ^ 64 -
                SKX_TAD_OFFSET (env.pci_read_config_dword
                  (((env.skx_sock_devs res.dev).imc res.imc).chan res.channel).cdev (0x90 + 4 * i)))
                % 2 ^ 64))
            (skx_granularity.getD (SKX_TAD_SKT_GRAN base) 0) (SKX_TAD_SKTWAYS wayness)
            (skx_do_interleave
              ((res.addr + 2 ^ 64 -
                SKX_TAD_OFFSET (env.pci_read_config_dword
                  (((env.skx_sock_devs res.dev).imc res.imc).chan res.channel).cdev (0x90 + 4 * i)))
                % 2 ^ 64)
              (skx_granularity.getD (SKX_TAD_CHN_GRAN base) 0) (SKX_TAD_CHNWAYS wayness)
              ((res.addr + 2 ^ 64 -
                SKX_TAD_OFFSET (env.pci_read_config_dword
                  (((env.skx_sock_devs res.dev).imc res.imc).chan res.channel).cdev (0x90 + 4 * i)))
                % 2 ^ 64))) ∧
      (¬ (SKX_TAD_CHNWAYS wayness = 3 ∧
          skx_granularity.getD (SKX_TAD_SKT_GRAN base) 0 >
            skx_granularity.getD (SKX_TAD_CHN_GRAN base) 0) →
        (skx_tad_decode env res).2.chan_addr =
          skx_do_interleave
            (skx_do_interleave
              ((res.addr + 2 ^ 64 -
                SKX_TAD_OFFSET (env.pci_read_config_dword
                  (((env.skx_sock_devs res.dev).imc res.imc).chan res.channel).cdev (0x90 + 4 * i)))
                % 2 ^ 64)
              (skx_granularity.getD (SKX_TAD_SKT_GRAN base) 0) (SKX_TAD_SKTWAYS wayness) res.addr)
            (skx_granularity.getD (SKX_TAD_CHN_GRAN base) 0) (SKX_TAD_CHNWAYS wayness) res.addr ∧
        (skx_tad_decode env res).2.chan_addr %
            2 ^ skx_granularity.getD (SKX_TAD_CHN_GRAN base) 0 =
          res.addr % 2 ^ skx_granularity.getD (SKX_TAD_CHN_GRAN base) 0)) := by
  refine ⟨?_, ?_⟩
  · intro i base wayness hscan
    unfold early_skx_tad_decode
    simp only [hscan]
    refine ⟨trivial, ?_, ?_⟩
    · intro hc
      rw [if_pos hc]
    · intro hc
      rw [if_neg hc]
      exact ⟨rfl, skx_do_interleave_low _ _ _ _ (skx_granularity_le _)⟩
  · intro i base wayness hscan
    unfold skx_tad_decode
    simp only [hscan]
    refine ⟨trivial, ?_, ?_⟩
    · intro hc
      rw [if_pos hc]
    · intro hc
      rw [if_neg hc]
      exact ⟨rfl, skx_do_interleave_low _ _ _ _ (skx_granularity_le _)⟩

/-! ## Stage 1: first fit -/

/-- What the attached scan returns, started at entry `i` with the bound of
entry `i` in force. -/
theorem skx_sad_scan_spec (env : SkxEnv) (d : skx_dev) (addr : Nat) :
    ∀ n i prev : Nat, prev = sad_prev_limit (skx_sad_table env d) i →
      match skx_sad_scan env d addr n i prev with
      | SadScan.sad_found j sad =>
        i ≤ j ∧ j < i + n ∧ sad = skx_sad_table env d j ∧
          SadEntryFits (skx_sad_table env d) addr j ∧
          ∀ l, i ≤ l → l < j → ¬ SadEntryFits (skx_sad_table env d) addr l
      | SadScan.not_found =>
        ∀ l, i ≤ l → l < i + n → ¬ SadEntryFits (skx_sad_table env d) addr l
      | SadScan.read_failed => False := by
  intro n
  induction n with
  | zero =>
    intro i prev _
    simp only [skx_sad_scan]
    intro l h1 h2
    omega
  | succ n ih =>
    intro i prev hprev
    simp only [skx_sad_scan]
    by_cases hc : SKX_SAD_ENABLE (SKX_GET_SAD env d i) ≠ 0 ∧ addr ≥ prev ∧
        addr ≤ SKX_SAD_LIMIT (SKX_GET_SAD env d i)
    · rw [if_pos hc]
      refine ⟨le_refl _, by omega, rfl, ?_, ?_⟩
      · unfold SadEntryFits
        rw [← hprev]
        exact hc
      · intro l h1 h2
        omega
    · rw [if_neg hc]
      have hi := ih (i + 1) (SKX_SAD_LIMIT (SKX_GET_SAD env d i) + 1) rfl
      have hnot : ¬ SadEntryFits (skx_sad_table env d) addr i := by
        unfold SadEntryFits
        rw [← hprev]
        exact hc
      revert hi
      cases skx_sad_scan env d addr n (i + 1) (SKX_SAD_LIMIT (SKX_GET_SAD env d i) + 1) with
      | read_failed => exact fun h => h
      | not_found =>
        intro hi l h1 h2
        by_cases hl : l = i
        · rw [hl]; exact hnot
        · exact hi l (by omega) (by omega)
      | sad_found j sad =>
        intro hi
        obtain ⟨a, b, c, e, f⟩ := hi
        refine ⟨by omega, by omega, c, e, ?_⟩
        intro l h1 h2
        by_cases hl : l = i
        · rw [hl]; exact hnot
        · exact f l (by omega) h2

/-- What the early scan returns, started at entry `i` with the bound of
entry `i` in force. -/
theorem early_skx_sad_scan_spec (env : SkxEnv) (d : skx_dev) (addr : Nat) :
    ∀ n i prev : Nat, prev = sad_prev_limit (early_skx_sad_table env d) i →
      match early_skx_sad_scan env d addr n i prev with
      | SadScan.sad_found j sad =>
        i ≤ j ∧ j < i + n ∧ (∀ l, i ≤ l → l ≤ j → EARLY_SKX_GET_SAD env d l ≠ none) ∧
          sad = early_skx_sad_table env d j ∧
          SadEntryFits (early_skx_sad_table env d) addr j ∧
          ∀ l, i ≤ l → l < j → ¬ SadEntryFits (early_skx_sad_table env d) addr l
      | SadScan.not_found =>
        ∀ l, i ≤ l → l < i + n →
          EARLY_SKX_GET_SAD env d l ≠ none ∧ ¬ SadEntryFits (early_skx_sad_table env d) addr l
      | SadScan.read_failed =>
        ∃ j, i ≤ j ∧ j < i + n ∧ EARLY_SKX_GET_SAD env d j = none ∧
          ∀ l, i ≤ l → l < j →
            EARLY_SKX_GET_SAD env d l ≠ none ∧
              ¬ SadEntryFits (early_skx_sad_table env d) addr l := by
  intro n
  induction n with
  | zero =>
    intro i prev _
    simp only [early_skx_sad_scan]
    intro l h1 h2
    omega
  | succ n ih =>
    intro i prev hprev
    simp only [early_skx_sad_scan]
    cases hr : EARLY_SKX_GET_SAD env d i with
    | none =>
      simp only []
      exact ⟨i, le_refl _, by omega, hr, fun l h1 h2 => absurd h2 (by omega)⟩
    | some sad =>
      simp only []
      have htbl : early_skx_sad_table env d i = sad := by
        unfold early_skx_sad_table
        rw [hr]
        rfl
      have hsome : EARLY_SKX_GET_SAD env d i ≠ none := by rw [hr]; exact fun h => nomatch h
      by_cases hc : SKX_SAD_ENABLE sad ≠ 0 ∧ addr ≥ prev ∧ addr ≤ SKX_SAD_LIMIT sad
      · rw [if_pos hc]
        refine ⟨le_refl _, by omega, ?_, htbl.symm, ?_, ?_⟩
        · intro l h1 h2
          have : l = i := by omega
          rw [this]; exact hsome
        · unfold SadEntryFits
          rw [← hprev, htbl]
          exact hc
        · intro l h1 h2
          omega
      · rw [if_neg hc]
        have hnext : SKX_SAD_LIMIT sad + 1 = sad_prev_limit (early_skx_sad_table env d) (i + 1) := by
          simp only [sad_prev_limit, htbl]
        have hi := ih (i + 1) (SKX_SAD_LIMIT sad + 1) hnext
        have hnot : ¬ SadEntryFits (early_skx_sad_table env d) addr i := by
          unfold SadEntryFits
          rw [← hprev, htbl]
          exact hc
        revert hi
        cases early_skx_sad_scan env d addr n (i + 1) (SKX_SAD_LIMIT sad + 1) with
        | read_failed =>
          intro hi
          obtain ⟨j, a, b, c, e⟩ := hi
          refine ⟨j, by omega, by omega, c, ?_⟩
          intro l h1 h2
          by_cases hl : l = i
          · rw [hl]; exact ⟨hsome, hnot⟩
          · exact e l (by omega) h2
        | not_found =>
          intro hi l h1 h2
          by_cases hl : l = i
          · rw [hl]; exact ⟨hsome, hnot⟩
          · exact hi l (by omega) (by omega)
        | sad_found j sad2 =>
          intro hi
          obtain ⟨a, b, c, e, f, g⟩ := hi
          refine ⟨by omega, by omega, ?_, e, f, ?_⟩
          · intro l h1 h2
            by_cases hl : l = i
            · rw [hl]; exact hsome
            · exact c l (by omega) h2
          · intro l h1 h2
            by_cases hl : l = i
            · rw [hl]; exact hnot
            · exact g l (by omega) h2

theorem skx_sad_pass_of_no_fit (env : SkxEnv) (d : skx_dev) (addr : Nat)
    (h : ∀ i, i < SKX_MAX_SAD → ¬ SadEntryFits (skx_sad_table env d) addr i) :
    skx_sad_pass env d addr = SadPass.failed := by
  have hs := skx_sad_scan_spec env d addr SKX_MAX_SAD 0 0 rfl
  unfold skx_sad_pass
  revert hs
  cases skx_sad_scan env d addr SKX_MAX_SAD 0 0 with
  | read_failed => intro _; rfl
  | not_found => intro _; rfl
  | sad_found j sad =>
    intro hs
    exact absurd hs.2.2.2.1 (h j (by omega))

theorem early_skx_sad_pass_of_no_fit (env : SkxEnv) (d : skx_dev) (addr : Nat)
    (h : ∀ i, i < SKX_MAX_SAD → ¬ SadEntryFits (early_skx_sad_table env d) addr i) :
    early_skx_sad_pass env d addr = SadPass.failed := by
  have hs := early_skx_sad_scan_spec env d addr SKX_MAX_SAD 0 0 rfl
  unfold early_skx_sad_pass
  revert hs
  cases early_skx_sad_scan env d addr SKX_MAX_SAD 0 0 with
  | read_failed => intro _; rfl
  | not_found => intro _; rfl
  | sad_found j sad =>
    intro hs
    exact absurd hs.2.2.2.2.1 (h j (by omega))

/-- C27: stage 1 of both pipelines is first fit.  With `prev_0 = 0` and
`prev_i` one more than the limit of entry `i - 1` (enabled or not), the
scan of the 24 entries returns entry `i` exactly when `i` is the lowest
index whose entry is enabled and has `prev_i <= addr <= limit_i`; it ends
without an entry exactly when no entry is so, and the stage then returns
false.  In the attached pipeline reads cannot fail; in the early pipeline
the scan also returns false at the first read that fails, so entry `i` is
returned exactly when moreover the reads of entries `0..i` succeed. -/
theorem C27_sad_first_fit (env : SkxEnv) (skx_edac_list : List Nat) (d : skx_dev)
    (res : decoded_addr) :
    (∀ tbl : Nat → Nat, sad_prev_limit tbl 0 = 0 ∧
      ∀ i, sad_prev_limit tbl (i + 1) = SKX_SAD_LIMIT (tbl i) + 1) ∧
    (∀ i sad : Nat, skx_sad_scan env d res.addr SKX_MAX_SAD 0 0 = SadScan.sad_found i sad ↔
      (i < 24 ∧ sad = skx_sad_table env d i ∧ SadEntryFits (skx_sad_table env d) res.addr i ∧
        ∀ j, j < i → ¬ SadEntryFits (skx_sad_table env d) res.addr j)) ∧
    (skx_sad_scan env d res.addr SKX_MAX_SAD 0 0 = SadScan.not_found ↔
      ∀ i, i < 24 → ¬ SadEntryFits (skx_sad_table env d) res.addr i) ∧
    ((∀ i, i < 24 → ¬ SadEntryFits
        (skx_sad_table env (env.skx_sock_devs (skx_edac_list.headD 0))) res.addr i) →
      (skx_sad_decode env skx_edac_list res).1 = false) ∧
    (∀ i sad : Nat, early_skx_sad_scan env d res.addr SKX_MAX_SAD 0 0 = SadScan.sad_found i sad ↔
      (i < 24 ∧ (∀ j, j ≤ i → EARLY_SKX_GET_SAD env d j ≠ none) ∧
        sad = early_skx_sad_table env d i ∧
        SadEntryFits (early_skx_sad_table env d) res.addr i ∧
        ∀ j, j < i → ¬ SadEntryFits (early_skx_sad_table env d) res.addr j)) ∧
    (early_skx_sad_scan env d res.addr SKX_MAX_SAD 0 0 = SadScan.not_found ↔
      ∀ i, i < 24 → EARLY_SKX_GET_SAD env d i ≠ none ∧
        ¬ SadEntryFits (early_skx_sad_table env d) res.addr i) ∧
    ((∀ i, i < 24 → ¬ SadEntryFits
        (early_skx_sad_table env (env.skx_sock_devs 0)) res.addr i) →
      (early_skx_sad_decode env res).1 = false) := by
  have hmax : SKX_MAX_SAD = 24 := rfl
  refine ⟨fun tbl => ⟨rfl, fun i => rfl⟩, ?_, ?_, ?_, ?_, ?_, ?_⟩
  · intro i sad
    have hs := skx_sad_scan_spec env d res.addr SKX_MAX_SAD 0 0 rfl
    revert hs
    cases skx_sad_scan env d res.addr SKX_MAX_SAD 0 0 with
    | read_failed => intro hs; exact absurd hs id
    | not_found =>
      intro hs
      constructor
      · intro h; exact SadScan.noConfusion h
      · intro h; exact absurd h.2.2.1 (hs i (by omega) (by omega))
    | sad_found j sad2 =>
      intro hs
      obtain ⟨_, b, c, e, f⟩ := hs
      constructor
      · intro h
        injection h with h1 h2
        subst h1; subst h2
        exact ⟨by omega, c, e, fun l hl => f l (by omega) hl⟩
      · intro h
        obtain ⟨h1, h2, h3, h4⟩ := h
        have hij : j = i := by
          rcases Nat.lt_trichotomy j i with hlt | heq | hgt
          · exact absurd e (h4 j hlt)
          · exact heq
          · exact absurd h3 (f i (by omega) hgt)
        subst hij
        rw [c, h2]
  · have hs := skx_sad_scan_spec env d res.addr SKX_MAX_SAD 0 0 rfl
    revert hs
    cases skx_sad_scan env d res.addr SKX_MAX_SAD 0 0 with
    | read_failed => intro hs; exact absurd hs id
    | not_found =>
      intro hs
      exact ⟨fun _ i hi => hs i (by omega) (by omega), fun _ => rfl⟩
    | sad_found j sad2 =>
      intro hs
      constructor
      · intro h; exact SadScan.noConfusion h
      · intro h; exact absurd hs.2.2.2.1 (h j (by omega))
  · intro h
    unfold skx_sad_decode
    split
    · rfl
    · simp only []
      rw [skx_sad_pass_of_no_fit env _ res.addr h]
  · intro i sad
    have hs := early_skx_sad_scan_spec env d res.addr SKX_MAX_SAD 0 0 rfl
    revert hs
    cases early_skx_sad_scan env d res.addr SKX_MAX_SAD 0 0 with
    | read_failed =>
      intro hs
      obtain ⟨j, _, b, c, e⟩ := hs
      constructor
      · intro h; exact SadScan.noConfusion h
      · intro h
        obtain ⟨h1, h2, h3, h4, h5⟩ := h
        by_cases hji : j ≤ i
        · exact absurd c (h2 j hji)
        · exact absurd h4 (e i (by omega) (by omega)).2
    | not_found =>
      intro hs
      constructor
      · intro h; exact SadScan.noConfusion h
      · intro h; exact absurd h.2.2.2.1 (hs i (by omega) (by omega)).2
    | sad_found j sad2 =>
      intro hs
      obtain ⟨_, b, c, e, f, g⟩ := hs
      constructor
      · intro h
        injection h with h1 h2
        subst h1; subst h2
        exact ⟨by omega, fun l hl => c l (by omega) hl, e, f, fun l hl => g l (by omega) hl⟩
      · intro h
        obtain ⟨h1, h2, h3, h4, h5⟩ := h
        have hij : j = i := by
          rcases Nat.lt_trichotomy j i with hlt | heq | hgt
          · exact absurd f (h5 j hlt)
          · exact heq
          · exact absurd h4 (g i (by omega) hgt)
        subst hij
        rw [e, h3]
  · have hs := early_skx_sad_scan_spec env d res.addr SKX_MAX_SAD 0 0 rfl
    revert hs
    cases early_skx_sad_scan env d res.addr SKX_MAX_SAD 0 0 with
    | read_failed =>
      intro hs
      obtain ⟨j, _, b, c, e⟩ := hs
      constructor
      · intro h; exact SadScan.noConfusion h
      · intro h; exact absurd c (h j (by omega)).1
    | not_found =>
      intro hs
      exact ⟨fun _ i hi => hs i (by omega) (by omega), fun _ => rfl⟩
    | sad_found j sad2 =>
      intro hs
      constructor
      · intro h; exact SadScan.noConfusion h
      · intro h; exact absurd hs.2.2.2.2.1 (h j (by omega)).2
  · intro h
    unfold early_skx_sad_decode
    rw [early_skx_sad_pass_of_no_fit env _ res.addr h]

/-! ## Stage 1: the remote redirection -/

theorem early_skx_sad_restart_two (env : SkxEnv) (res : decoded_addr) (n : Nat) :
    early_skx_sad_restart env res (n + 2) 0 0 = some (early_skx_sad_decode env res) := by
  unfold early_skx_sad_decode
  simp only [early_skx_sad_restart]
  cases early_skx_sad_pass env (env.skx_sock_devs 0) res.addr with
  | failed => rfl
  | hit sad tgt => rfl
  | remote tgt =>
    simp only [ne_eq, not_true_eq_false, if_false]
    cases early_skx_find_node env tgt with
    | none => rfl
    | some i =>
      simp only []
      cases n with
      | zero =>
        simp only [early_skx_sad_restart]
        cases early_skx_sad_pass env (env.skx_sock_devs i) res.addr <;> simp
      | succ n =>
        simp only [early_skx_sad_restart]
        cases early_skx_sad_pass env (env.skx_sock_devs i) res.addr <;> simp

theorem skx_sad_restart_two (env : SkxEnv) (l : List Nat) (res : decoded_addr) (n : Nat) :
    skx_sad_restart env l res (n + 2) (l.headD 0) 0 =
      some (match skx_sad_pass env (env.skx_sock_devs (l.headD 0)) res.addr with
        | SadPass.failed => (false, res)
        | SadPass.hit sad tgt => skx_sad_finish env (l.headD 0) sad tgt res
        | SadPass.remote tgt =>
          match skx_find_node env l tgt with
          | none => (false, res)
          | some i =>
            match skx_sad_pass env (env.skx_sock_devs i) res.addr with
            | SadPass.failed => (false, res)
            | SadPass.remote _ => (false, res)
            | SadPass.hit sad2 tgt2 => skx_sad_finish env i sad2 tgt2 res) := by
  simp only [skx_sad_restart]
  cases skx_sad_pass env (env.skx_sock_devs (l.headD 0)) res.addr with
  | failed => rfl
  | hit sad tgt => rfl
  | remote tgt =>
    simp only [ne_eq, not_true_eq_false, if_false]
    cases skx_find_node env l tgt with
    | none => rfl
    | some i =>
      simp only []
      cases n with
      | zero =>
        simp only [skx_sad_restart]
        cases skx_sad_pass env (env.skx_sock_devs i) res.addr <;> simp
      | succ n =>
        simp only [skx_sad_restart]
        cases skx_sad_pass env (env.skx_sock_devs i) res.addr <;> simp

/-- C28: stage 1 restarts at most once per decode, in both pipelines.  The
`restart:` loop run with fuel for two passes (or more) ends, for every
table content, with the result of the decode: no decode makes more than two
scans of the 24-entry table.  When the target selected after a remote
redirection is again remote the decode returns false, and so it does when
no device owns the remote target. -/
theorem C28_sad_restarts_at_most_once (env : SkxEnv) (skx_edac_list : List Nat)
    (res : decoded_addr) :
    (∀ n : Nat,
      early_skx_sad_restart env res (n + 2) 0 0 = some (early_skx_sad_decode env res)) ∧
    (∀ tgt i tgt2 : Nat,
      early_skx_sad_pass env (env.skx_sock_devs 0) res.addr = SadPass.remote tgt →
      early_skx_find_node env tgt = some i →
      early_skx_sad_pass env (env.skx_sock_devs i) res.addr = SadPass.remote tgt2 →
      early_skx_sad_decode env res = (false, res)) ∧
    (∀ tgt : Nat,
      early_skx_sad_pass env (env.skx_sock_devs 0) res.addr = SadPass.remote tgt →
      early_skx_find_node env tgt = none →
      early_skx_sad_decode env res = (false, res)) ∧
    (¬ (res.addr ≥ env.skx_tohm ∨ (res.addr ≥ env.skx_tolm ∧ res.addr < 2 ^ 32)) →
      ∀ n : Nat,
        skx_sad_restart env skx_edac_list res (n + 2) (skx_edac_list.headD 0) 0 =
          some (skx_sad_decode env skx_edac_list res)) ∧
    (∀ tgt i tgt2 : Nat,
      skx_sad_pass env (env.skx_sock_devs (skx_edac_list.headD 0)) res.addr =
        SadPass.remote tgt →
      skx_find_node env skx_edac_list tgt = some i →
      skx_sad_pass env (env.skx_sock_devs i) res.addr = SadPass.remote tgt2 →
      skx_sad_decode env skx_edac_list res = (false, res)) ∧
    (∀ tgt : Nat,
      skx_sad_pass env (env.skx_sock_devs (skx_edac_list.headD 0)) res.addr =
        SadPass.remote tgt →
      skx_find_node env skx_edac_list tgt = none →
      skx_sad_decode env skx_edac_list res = (false, res)) := by
  refine ⟨fun n => early_skx_sad_restart_two env res n, ?_, ?_, ?_, ?_, ?_⟩
  · intro tgt i tgt2 h1 h2 h3
    unfold early_skx_sad_decode
    simp only [h1, h2, h3]
  · intro tgt h1 h2
    unfold early_skx_sad_decode
    simp only [h1, h2]
  · intro hr n
    rw [skx_sad_restart_two env skx_edac_list res n]
    congr 1
    unfold skx_sad_decode
    exact (if_neg hr).symm
  · intro tgt i tgt2 h1 h2 h3
    unfold skx_sad_decode
    split
    · rfl
    · simp only [h1, h2, h3]
  · intro tgt h1 h2
    unfold skx_sad_decode
    split
    · rfl
    · simp only [h1, h2]

/-- In the two-socket configuration the address `0x1900000000` is remote
for socket 0 and is found on socket 1: the loop ends after two passes and
not after one. -/
theorem early_skx_sad_restart_env_two :
    (early_skx_sad_restart env_two (rec0 0x1900000000) 1 0 0).isSome = false ∧
    (early_skx_sad_restart env_two (rec0 0x1900000000) 2 0 0).map (fun r => (r.1, r.2.socket)) =
      some (true, 1) := by
  decide

/-! ## The node-to-domain adjustment -/

/-- After the loop of the two-socket branch, `node_to_pxm_map[a]` holds 1
or 0 by the test of the loop, for every `a` below `siloz_total_nodes`. -/
theorem acpi_numa_init_adjust_map (m : PxmMaps) (T : Int) (frg : Nat)
    (hfrg : frg ≠ FIRST_REMOTE_GROUP_UNSET) (a : Nat) (ha : a < T.toNat) :
    (acpi_numa_init_adjust m T frg).node_to_pxm_map (a : Int) =
      if a = 1 ∨ (a : Int) = SOCKET_1_EPT_NODE ∨ (a : Int) = SOCKET_1_GUARD_ROWS_NODE ∨
          (a ≥ frg ∧ (a : Int) ≠ T - 1) then 1 else 0 := by
  unfold acpi_numa_init_adjust
  rw [if_neg hfrg]
  have hmain := foldl_range_inv
    (fun (m : PxmMaps) (i : Nat) =>
      if i = 1 ∨ (i : Int) = SOCKET_1_EPT_NODE ∨ (i : Int) = SOCKET_1_GUARD_ROWS_NODE ∨
          (i ≥ frg ∧ (i : Int) ≠ T - 1) then
        { m with node_to_pxm_map := fun x => if x = (i : Int) then 1 else m.node_to_pxm_map x }
      else
        { m with node_to_pxm_map := fun x => if x = (i : Int) then 0 else m.node_to_pxm_map x })
    (fun n (s : PxmMaps) => ∀ b : Nat, b < n →
      s.node_to_pxm_map (b : Int) =
        if b = 1 ∨ (b : Int) = SOCKET_1_EPT_NODE ∨ (b : Int) = SOCKET_1_GUARD_ROWS_NODE ∨
            (b ≥ frg ∧ (b : Int) ≠ T - 1) then 1 else 0)
    T.toNat m (fun b hb => absurd hb (by omega))
    (by
      intro i s hi hQ b hb
      by_cases hc : i = 1 ∨ (i : Int) = SOCKET_1_EPT_NODE ∨ (i : Int) = SOCKET_1_GUARD_ROWS_NODE ∨
          (i ≥ frg ∧ (i : Int) ≠ T - 1)
      · simp only [hc, if_true]
        by_cases hbi : b = i
        · subst hbi
          simp only [hc, if_true]
        · have hne : ¬ ((b : Int) = (i : Int)) := by omega
          simp only [hne, if_false]
          exact hQ b (by omega)
      · simp only [hc, if_false]
        by_cases hbi : b = i
        · subst hbi
          simp only [hc, if_true, if_false]
        · have hne : ¬ ((b : Int) = (i : Int)) := by omega
          simp only [hne, if_false]
          exact hQ b (by omega))
  exact hmain a ha

/-- C23 (amended): after the node-to-domain adjustment of `acpi_numa_init`
with a remote group discovered, for every `i` below `siloz_total_nodes`:
`node_to_pxm(i) = 1` exactly when `i` is 1, 4 or 5 or
`first_remote_group <= i < siloz_total_nodes - 1`, and `node_to_pxm(i) = 0`
for every other `i`; the last index `siloz_total_nodes - 1` is given
domain 0 (unless it is 1, 4 or 5). -/
theorem C23_node_to_pxm_after_adjust (m : PxmMaps) (T : Int) (frg : Nat)
    (hfrg : frg ≠ FIRST_REMOTE_GROUP_UNSET) (i : Nat) (hi : (i : Int) < T) :
    (node_to_pxm (acpi_numa_init_adjust m T frg) (i : Int) = 1 ↔
      (i = 1 ∨ i = 4 ∨ i = 5 ∨ (frg ≤ i ∧ (i : Int) < T - 1))) ∧
    (node_to_pxm (acpi_numa_init_adjust m T frg) (i : Int) = 0 ↔
      ¬ (i = 1 ∨ i = 4 ∨ i = 5 ∨ (frg ≤ i ∧ (i : Int) < T - 1))) ∧
    ((i : Int) = T - 1 → i ≠ 1 → i ≠ 4 → i ≠ 5 →
      node_to_pxm (acpi_numa_init_adjust m T frg) (i : Int) = 0) := by
  have hmap := acpi_numa_init_adjust_map m T frg hfrg i (by omega)
  have hnn : ¬ ((i : Int) < 0) := by omega
  unfold node_to_pxm
  rw [if_neg hnn, hmap]
  simp only [SOCKET_1_EPT_NODE, SOCKET_1_GUARD_ROWS_NODE]
  by_cases hc : i = 1 ∨ (i : Int) = 4 ∨ (i : Int) = 5 ∨ (i ≥ frg ∧ (i : Int) ≠ T - 1)
  · have hc' : i = 1 ∨ i = 4 ∨ i = 5 ∨ (frg ≤ i ∧ (i : Int) < T - 1) := by omega
    rw [if_pos hc]
    refine ⟨⟨fun _ => hc', fun _ => rfl⟩, ⟨fun h => absurd h (by decide), fun h => absurd hc' h⟩, ?_⟩
    intro h1 h2 h3 h4
    omega
  · have hc' : ¬ (i = 1 ∨ i = 4 ∨ i = 5 ∨ (frg ≤ i ∧ (i : Int) < T - 1)) := by omega
    rw [if_neg hc]
    exact ⟨⟨fun h => absurd h (by decide), fun h => absurd h hc'⟩, ⟨fun _ => hc', fun _ => rfl⟩,
      fun _ _ _ _ => rfl⟩

/-- Witness of C23 (amended): ten logical nodes, first remote group 7: node
8 is given domain 1. -/
theorem C23_node_to_pxm_after_adjust_witness :
    node_to_pxm (acpi_numa_init_adjust pxm_maps_two 10 7) 8 = 1 :=
  ((C23_node_to_pxm_after_adjust pxm_maps_two 10 7 (by decide) 8 (by decide)).1).mpr
    (Or.inr (Or.inr (Or.inr ⟨by decide, by decide⟩)))

/-- C23 (counterexample): with ten logical nodes and first remote group 7,
node 9 lies in `[first_remote_group, siloz_total_nodes)` and is given
domain 0 by the adjustment. -/
theorem C23_counterexample :
    (7 : Nat) ≤ 9 ∧ ((9 : Nat) : Int) < 10 ∧
    node_to_pxm (acpi_numa_init_adjust pxm_maps_two 10 7) 9 = 0 ∧
    node_to_pxm (acpi_numa_init_adjust pxm_maps_two 10 7) 8 = 1 := by
  decide

/-! ## Distances of node 1 and of the EPT node of socket 1 -/

/-- The two recorded distances after the `else` branch of
`acpi_numa_slit_init`, under the hypotheses of `slit_init_table`. -/
theorem slit_init_recorded (k : SratConst) (m : PxmMaps) (T : Int) (frg : Nat)
    (slit : acpi_table_slit) (st : SlitState) (r : Nat) (L R : Int)
    (hfit : slit.locality_count < 2 ^ 31) (hvalid : slit_valid k slit = 1)
    (hoff : ∀ a b, a < slit.locality_count → b < slit.locality_count → a ≠ b →
      slit.entry (slit.locality_count * a + b) = r)
    (hid : ∀ a : Nat, a < slit.locality_count → pxm_to_node k m (a : Int) = (a : Int))
    (hfrg : frg ≠ FIRST_REMOTE_GROUP_UNSET)
    (hL1 : 1 ≤ slit.locality_count → L = (k.LOCAL_DISTANCE : Int))
    (hL0 : slit.locality_count = 0 → L = st.local_distance)
    (hR2 : 2 ≤ slit.locality_count → R = (r : Int))
    (hR1 : slit.locality_count ≤ 1 → R = st.remote_distance) :
    ((1 ≤ T.toNat ∨ slit.locality_count = 0) →
      (acpi_numa_slit_init k m T frg slit st).local_distance = L) ∧
    ((slit.locality_count ≤ 1 ∨ 2 ≤ T.toNat) →
      (acpi_numa_slit_init k m T frg slit st).remote_distance = R) := by
  have hmain := foldl_range_inv (acpi_numa_slit_init_row k m T frg slit)
    (fun i (s : SlitState) =>
      ((1 ≤ i ∨ slit.locality_count = 0) → s.local_distance = L) ∧
      ((slit.locality_count ≤ 1 ∨ (2 ≤ T.toNat ∧ 1 ≤ i)) → s.remote_distance = R))
    T.toNat st ?h0 ?hstep
  case h0 =>
    · refine ⟨fun h => ?_, fun h => ?_⟩
      · rcases h with h | h
        · omega
        · exact (hL0 h).symm
      · rcases h with h | h
        · exact (hR1 h).symm
        · omega
  case hstep =>
    · intro i s hi hQ
      obtain ⟨q1, q2⟩ := hQ
      have hfrom : slit_node k m slit i ≠ NUMA_NO_NODE := by
        rw [slit_node_id k m slit hid i]; unfold NUMA_NO_NODE; omega
      rw [slit_init_row_eq k m T frg slit i s hfrom, slit_node_id k m slit hid i]
      have hR := foldl_range_inv (acpi_numa_slit_init_cell k m T frg slit i (i : Int))
        (fun n (s' : SlitState) =>
          ((1 ≤ i ∨ 1 ≤ n ∨ slit.locality_count = 0) → s'.local_distance = L) ∧
          ((slit.locality_count ≤ 1 ∨ (2 ≤ T.toNat ∧ (1 ≤ i ∨ 2 ≤ n))) →
            s'.remote_distance = R))
        T.toNat s
        ⟨fun h => q1 (by omega), fun h => q2 (by omega)⟩
        (by
          intro n s' hn hR
          obtain ⟨r1, r2⟩ := hR
          obtain ⟨_, cl, cr⟩ := slit_init_cell_id k m T frg slit i n s' hid
          rw [cl, cr]
          refine ⟨fun _ => ?_, fun hprem => ?_⟩
          · split
            · rename_i hc
              have hin : i = n := hc.2.2
              rw [hin, slit_valid_diag k slit hfit hvalid n hc.2.1]
              exact (hL1 (by omega)).symm
            · rename_i hc
              exact r1 (by omega)
          · split
            · rename_i hc
              rw [slit_valid_offdiag_idx slit hfit i n hc.1 hc.2.1,
                hoff i n hc.1 hc.2.1 hc.2.2]
              exact (hR2 (by omega)).symm
            · rename_i hc
              exact r2 (by omega))
      obtain ⟨r1, r2⟩ := hR
      exact ⟨fun _ => r1 (by omega), fun h => r2 (by omega)⟩
  unfold acpi_numa_slit_init
  simp only [hfrg, if_false]
  exact ⟨fun h => hmain.1 (by omega), fun h => hmain.2 (by omega)⟩

/-- Outside the firmware matrix, off the diagonal and away from the
guard-row ids, a cell one index of which is node 1 or the EPT node of socket
1 has as expected distance the remote distance when the other index is
below `first_remote_group`, is the last node index or is the EPT node of
socket 0, and the local distance otherwise. -/
theorem slit_synth_distance_socket1 (k : SratConst) (T : Int) (frg : Nat) (L R : Int)
    (i j : Nat) (hij : i ≠ j)
    (hng : ¬ ((i : Int) = SOCKET_0_GUARD_ROWS_NODE ∨ (i : Int) = SOCKET_1_GUARD_ROWS_NODE ∨
      (j : Int) = SOCKET_0_GUARD_ROWS_NODE ∨ (j : Int) = SOCKET_1_GUARD_ROWS_NODE)) :
    ((i = 1 ∨ (i : Int) = SOCKET_1_EPT_NODE) →
      slit_synth_distance k T frg L R i j =
        if j < frg ∨ (j : Int) = T - 1 ∨ (j : Int) = SOCKET_0_EPT_NODE then R else L) ∧
    (¬ (i = 1 ∨ (i : Int) = SOCKET_1_EPT_NODE) → (j = 1 ∨ (j : Int) = SOCKET_1_EPT_NODE) →
      slit_synth_distance k T frg L R i j =
        if i < frg ∨ (i : Int) = T - 1 ∨ (i : Int) = SOCKET_0_EPT_NODE then R else L) := by
  refine ⟨?_, ?_⟩
  · intro h1
    unfold slit_synth_distance
    rw [if_neg hij, if_neg hng, if_pos h1]
  · intro h1 h2
    unfold slit_synth_distance
    rw [if_neg hij, if_neg hng, if_neg h1, if_pos h2]

/-- C21 (amended): in the two-socket case (`first_remote_group` set), for
every pair of distinct non-guard indices `(i, j)` not both below the
firmware locality count, one of which is node 1 or `SOCKET_1_EPT_NODE` (4)
and the other of which, `o`, is not: the iteration for `(i, j)` sets the
distance of its pair of nodes to `remote_distance` when `o` is below
`first_remote_group`, equals the last node index `siloz_total_nodes - 1` or
equals `SOCKET_0_EPT_NODE` (2), and to `local_distance` otherwise, whatever
the domain map is, provided the column has a node.  On a valid firmware
table of at least two localities whose off-diagonal entries all equal `r`,
with every locality mapped to the node of the same number, the table
`acpi_numa_slit_init` leaves holds for `(i, j)` the final `remote_distance`
(which is `r`) in the first case and the final `local_distance` (which is
`LOCAL_DISTANCE`) in the second. -/
theorem C21_node1_and_socket1_ept_distance (k : SratConst) (m : PxmMaps) (T : Int) (frg : Nat)
    (slit : acpi_table_slit) (st : SlitState) (i j o : Nat)
    (hfrg : frg ≠ FIRST_REMOTE_GROUP_UNSET) (hij : i ≠ j)
    (hout : ¬ (i < slit.locality_count ∧ j < slit.locality_count))
    (hng : ¬ ((i : Int) = SOCKET_0_GUARD_ROWS_NODE ∨ (i : Int) = SOCKET_1_GUARD_ROWS_NODE ∨
      (j : Int) = SOCKET_0_GUARD_ROWS_NODE ∨ (j : Int) = SOCKET_1_GUARD_ROWS_NODE))
    (hone : ((i = 1 ∨ (i : Int) = SOCKET_1_EPT_NODE) ∧ o = j) ∨
      ((j = 1 ∨ (j : Int) = SOCKET_1_EPT_NODE) ∧ o = i))
    (ho : ¬ (o = 1 ∨ (o : Int) = SOCKET_1_EPT_NODE)) :
    (∀ from_node : Int, slit_node k m slit j ≠ NUMA_NO_NODE →
      (acpi_numa_slit_init_cell k m T frg slit i from_node st j).numa_distance from_node
          (slit_node k m slit j) =
        some (if o < frg ∨ (o : Int) = T - 1 ∨ (o : Int) = SOCKET_0_EPT_NODE
          then st.remote_distance else st.local_distance)) ∧
    (∀ r : Nat, slit.locality_count < 2 ^ 31 → slit_valid k slit = 1 →
      (∀ a b, a < slit.locality_count → b < slit.locality_count → a ≠ b →
        slit.entry (slit.locality_count * a + b) = r) →
      (∀ a : Nat, a < slit.locality_count → pxm_to_node k m (a : Int) = (a : Int)) →
      2 ≤ slit.locality_count → i < T.toNat → j < T.toNat →
      (acpi_numa_slit_init k m T frg slit st).numa_distance (i : Int) (j : Int) =
        some (if o < frg ∨ (o : Int) = T - 1 ∨ (o : Int) = SOCKET_0_EPT_NODE
          then (acpi_numa_slit_init k m T frg slit st).remote_distance
          else (acpi_numa_slit_init k m T frg slit st).local_distance) ∧
      (acpi_numa_slit_init k m T frg slit st).remote_distance = (r : Int) ∧
      (acpi_numa_slit_init k m T frg slit st).local_distance = (k.LOCAL_DISTANCE : Int)) := by
  have hsyn : ∀ L R : Int, slit_synth_distance k T frg L R i j =
      if o < frg ∨ (o : Int) = T - 1 ∨ (o : Int) = SOCKET_0_EPT_NODE then R else L := by
    intro L R
    obtain ⟨s1, s2⟩ := slit_synth_distance_socket1 k T frg L R i j hij hng
    rcases hone with ⟨h1, h2⟩ | ⟨h1, h2⟩
    · rw [h2]; exact s1 h1
    · rw [h2] at ho ⊢
      exact s2 ho h1
  refine ⟨?_, ?_⟩
  · intro from_node hto
    rw [slit_init_cell_eq k m T frg slit i j from_node st hto, if_neg hout, hsyn]
    simp only [numa_set_distance, and_self, if_true]
  · intro r hfit hvalid hoff hid hlc hi hj
    have ht := slit_init_table k m T frg slit st r (k.LOCAL_DISTANCE : Int) (r : Int)
      hfit hvalid hoff hid hfrg (fun _ => rfl) (fun h => absurd h (by omega)) (fun _ => rfl)
      (fun h => absurd h (by omega)) i j hi hj
    obtain ⟨hl, hr⟩ := slit_init_recorded k m T frg slit st r (k.LOCAL_DISTANCE : Int) (r : Int)
      hfit hvalid hoff hid hfrg (fun _ => rfl) (fun h => absurd h (by omega)) (fun _ => rfl)
      (fun h => absurd h (by omega))
    have hT : 2 ≤ T.toNat := by omega
    rw [hl (by omega), hr (by omega), ht]
    unfold slit_expected_distance
    rw [if_neg hout, hsyn]
    exact ⟨rfl, rfl, rfl⟩

/-- Witness of C21 (amended): the two-socket table `slit_two`, eight logical
nodes, first remote group 7: the distance of `(1, 6)` is the remote
distance. -/
theorem C21_node1_and_socket1_ept_distance_witness :
    (acpi_numa_slit_init k0 pxm_maps_two 8 7 slit_two slit_state_init).numa_distance 1 6 =
      some (acpi_numa_slit_init k0 pxm_maps_two 8 7 slit_two slit_state_init).remote_distance :=
  (((C21_node1_and_socket1_ept_distance k0 pxm_maps_two 8 7 slit_two slit_state_init 1 6 6
      (by decide) (by decide) (by decide) (by decide) (Or.inl ⟨Or.inl rfl, rfl⟩)
      (by decide)).2 21 (by decide) (by decide)
      (by intro a b ha hb hab
          have ha2 : a < 2 := ha
          have hb2 : b < 2 := hb
          interval_cases a <;> interval_cases b <;> first | rfl | exact absurd rfl hab)
      (by intro a ha
          have h2 : a < 2 := ha
          interval_cases a <;> decide)
      (by decide) (by decide) (by decide)).1).trans
    (congrArg some (if_pos (Or.inl (by decide))))

/-- C21 (counterexample): the two-socket table `slit_two` (local distance
10, remote distance 21), ten logical nodes, first remote group 7.  For the
pair `(1, 6)` the other index 6 is below `first_remote_group`, for `(1, 2)`
it is `SOCKET_0_EPT_NODE` and for `(4, 9)` it is the last node index: the
three distances are set to 21, the remote distance.  For `(1, 8)` and
`(8, 4)` the other index 8 is none of these: the distance is set to 10, the
local distance. -/
theorem C21_counterexample :
    (acpi_numa_slit_init k1 pxm_maps_two 10 7 slit_two slit_state_init).local_distance = 10 ∧
    (acpi_numa_slit_init k1 pxm_maps_two 10 7 slit_two slit_state_init).remote_distance = 21 ∧
    (6 : Nat) < 7 ∧
    (acpi_numa_slit_init k1 pxm_maps_two 10 7 slit_two slit_state_init).numa_distance 1 6 =
      some 21 ∧
    (acpi_numa_slit_init k1 pxm_maps_two 10 7 slit_two slit_state_init).numa_distance 1 2 =
      some 21 ∧
    (acpi_numa_slit_init k1 pxm_maps_two 10 7 slit_two slit_state_init).numa_distance 4 9 =
      some 21 ∧
    (acpi_numa_slit_init k1 pxm_maps_two 10 7 slit_two slit_state_init).numa_distance 1 8 =
      some 10 ∧
    (acpi_numa_slit_init k1 pxm_maps_two 10 7 slit_two slit_state_init).numa_distance 8 4 =
      some 10 := by
  decide

/-! ## The generic distance rule -/

/-- Outside the firmware matrix and off the diagonal, for two indices to
which no special case applies, the expected distance is the local distance
when `i < first_remote_group && j <= first_remote_group` or both are above
`first_remote_group`, and the remote distance otherwise. -/
theorem slit_synth_distance_generic (k : SratConst) (T : Int) (frg : Nat) (L R : Int)
    (i j : Nat) (hij : i ≠ j)
    (hi : i ≠ 1 ∧ i ≠ 2 ∧ i ≠ 3 ∧ i ≠ 4 ∧ i ≠ 5 ∧ (i : Int) ≠ T - 1)
    (hj : j ≠ 1 ∧ j ≠ 2 ∧ j ≠ 3 ∧ j ≠ 4 ∧ j ≠ 5 ∧ (j : Int) ≠ T - 1) :
    slit_synth_distance k T frg L R i j =
      if (i < frg ∧ j ≤ frg) ∨ (i > frg ∧ j > frg) then L else R := by
  unfold slit_synth_distance
  simp only [SOCKET_0_EPT_NODE, SOCKET_0_GUARD_ROWS_NODE, SOCKET_1_EPT_NODE,
    SOCKET_1_GUARD_ROWS_NODE]
  have g1 : ¬ ((i : Int) = 3 ∨ (i : Int) = 5 ∨ (j : Int) = 3 ∨ (j : Int) = 5) := by omega
  have g2 : ¬ (i = 1 ∨ (i : Int) = 4) := by omega
  have g3 : ¬ (j = 1 ∨ (j : Int) = 4) := by omega
  have g4 : ¬ ((i : Int) = T - 1 ∨ (i : Int) = 2) := by omega
  have g5 : ¬ ((j : Int) = T - 1 ∨ (j : Int) = 2 ∨ (j : Int) = 3) := by omega
  rw [if_neg hij, if_neg g1, if_neg g2, if_neg g3, if_neg g4, if_neg g5]

/-- C22 (the code, in general and at the failing input).  In the two-socket
case, for a pair of distinct indices `(i, j)` to which no special case
applies (neither is 1, 2, 3, 4, 5 or the last node index, not both are below
the firmware locality count), the iteration for `(i, j)` sets the distance
to `local_distance` when `i < first_remote_group && j <= first_remote_group`
or `i > first_remote_group && j > first_remote_group`, and to
`remote_distance` otherwise; this is the rule "same side local, opposite
sides remote" whenever neither index is `first_remote_group` itself.  With
the two-socket table `slit_two` (local 10, remote 21), ten logical nodes and
first remote group 7: the pair `(6, 7)`, on opposite sides, is given the
local distance 10, and the pairs `(7, 8)` and `(8, 7)`, both at or above
`first_remote_group`, are given the remote distance 21. -/
theorem C22_generic_rule_at_first_remote_group :
    (∀ (k : SratConst) (m : PxmMaps) (T : Int) (frg : Nat) (slit : acpi_table_slit)
        (st : SlitState) (i j : Nat) (from_node : Int),
      i ≠ j → ¬ (i < slit.locality_count ∧ j < slit.locality_count) →
      (i ≠ 1 ∧ i ≠ 2 ∧ i ≠ 3 ∧ i ≠ 4 ∧ i ≠ 5 ∧ (i : Int) ≠ T - 1) →
      (j ≠ 1 ∧ j ≠ 2 ∧ j ≠ 3 ∧ j ≠ 4 ∧ j ≠ 5 ∧ (j : Int) ≠ T - 1) →
      slit_node k m slit j ≠ NUMA_NO_NODE →
      (acpi_numa_slit_init_cell k m T frg slit i from_node st j).numa_distance from_node
          (slit_node k m slit j) =
        some (if (i < frg ∧ j ≤ frg) ∨ (i > frg ∧ j > frg) then st.local_distance
          else st.remote_distance) ∧
      (i ≠ frg → j ≠ frg →
        (((i < frg ∧ j ≤ frg) ∨ (i > frg ∧ j > frg)) ↔
          ((i < frg ∧ j < frg) ∨ (frg ≤ i ∧ frg ≤ j))))) ∧
    (acpi_numa_slit_init k1 pxm_maps_two 10 7 slit_two slit_state_init).local_distance = 10 ∧
    (acpi_numa_slit_init k1 pxm_maps_two 10 7 slit_two slit_state_init).remote_distance = 21 ∧
    (acpi_numa_slit_init k1 pxm_maps_two 10 7 slit_two slit_state_init).numa_distance 6 7 =
      some 10 ∧
    (acpi_numa_slit_init k1 pxm_maps_two 10 7 slit_two slit_state_init).numa_distance 7 6 =
      some 21 ∧
    (acpi_numa_slit_init k1 pxm_maps_two 10 7 slit_two slit_state_init).numa_distance 7 8 =
      some 21 ∧
    (acpi_numa_slit_init k1 pxm_maps_two 10 7 slit_two slit_state_init).numa_distance 8 7 =
      some 21 := by
  refine ⟨?_, by decide, by decide, by decide, by decide, by decide, by decide⟩
  intro k m T frg slit st i j from_node hij hout hi hj hto
  refine ⟨?_, ?_⟩
  · rw [slit_init_cell_eq k m T frg slit i j from_node st hto, if_neg hout,
      slit_synth_distance_generic k T frg _ _ i j hij hi hj]
    simp only [numa_set_distance, and_self, if_true]
  · intro h1 h2
    omega

/-! ## A proximity domain that cannot be given a node -/

/-- A domain out of range is given no node, and neither is a domain without
a node once the maximum number of nodes is reached. -/
theorem acpi_map_pxm_to_node_none (k : SratConst) (m : PxmMaps) (pxm : Int) :
    ((pxm < 0 ∨ pxm ≥ (k.MAX_PXM_DOMAINS : Int)) →
      (acpi_map_pxm_to_node k m pxm).1 = NUMA_NO_NODE) ∧
    (m.pxm_to_node_map pxm = NUMA_NO_NODE → nodes_weight k m.nodes_found_map ≥ k.MAX_NUMNODES →
      (acpi_map_pxm_to_node k m pxm).1 = NUMA_NO_NODE) := by
  refine ⟨?_, ?_⟩
  · intro h
    unfold acpi_map_pxm_to_node
    have hc : pxm < 0 ∨ pxm ≥ (k.MAX_PXM_DOMAINS : Int) ∨ k.numa_off = true := by
      rcases h with h | h
      · exact Or.inl h
      · exact Or.inr (Or.inl h)
    rw [if_pos hc]
  · intro h1 h2
    unfold acpi_map_pxm_to_node
    split
    · rfl
    · simp only [h1, if_true, h2]

/-- With the SRAT disabled and the decode function installed, every call
returns `-EINVAL` and leaves the state as it is. -/
theorem acpi_numa_memory_affinity_init_disabled (env : SratEnv) (fuel : Nat) (s : SratState)
    (ma : acpi_srat_mem_affinity) (res : decoded_addr)
    (hdis : s.acpi_numa < 0) (hdec : s.skx_decode ≠ none) :
    acpi_numa_memory_affinity_init env fuel s ma res =
      some (ParseOutcome.returned (-EINVAL), s) := by
  unfold acpi_numa_memory_affinity_init srat_early_init
  cases hd : s.skx_decode with
  | none => exact absurd hd hdec
  | some f =>
    simp only [hdis, if_true]

/-- C26: for a record that is not skipped (enabled, and not a hot-pluggable
record on a kernel without memory hotplug), once topology discovery has
not failed: when the proximity domain of the record cannot be given a node
(`acpi_map_pxm_to_node` returns `NUMA_NO_NODE`, as it does for a domain out
of range or when the maximum node count is reached, or a node not below
`MAX_NUMNODES`), `acpi_numa_memory_affinity_init` returns `-EINVAL`, passes
no block to `numa_add_memblk` and leaves the SRAT disabled
(`acpi_numa < 0`); from the state it leaves, every call, for every record,
returns `-EINVAL` and changes nothing: no block is emitted and the SRAT
stays disabled. -/
theorem C26_unmappable_domain_disables_srat (env : SratEnv) (fuel : Nat) (st st1 : SratState)
    (decode : skx_decode_f) (ma : acpi_srat_mem_affinity) (res : decoded_addr)
    (hinit : srat_early_init env st = some (st1, decode))
    (hen : ma.enabled = true)
    (hhot : ¬ (ma.hot_pluggable = true ∧ env.k.CONFIG_MEMORY_HOTPLUG = false))
    (hnode : (acpi_map_pxm_to_node env.k st1.maps (srat_record_pxm env ma)).1 = NUMA_NO_NODE ∨
      (acpi_map_pxm_to_node env.k st1.maps (srat_record_pxm env ma)).1 ≥
        (env.k.MAX_NUMNODES : Int)) :
    ((srat_record_pxm env ma < 0 ∨ srat_record_pxm env ma ≥ (env.k.MAX_PXM_DOMAINS : Int)) →
      (acpi_map_pxm_to_node env.k st1.maps (srat_record_pxm env ma)).1 = NUMA_NO_NODE) ∧
    (st1.maps.pxm_to_node_map (srat_record_pxm env ma) = NUMA_NO_NODE →
      nodes_weight env.k st1.maps.nodes_found_map ≥ env.k.MAX_NUMNODES →
      (acpi_map_pxm_to_node env.k st1.maps (srat_record_pxm env ma)).1 = NUMA_NO_NODE) ∧
    ∃ st' : SratState,
      acpi_numa_memory_affinity_init env fuel st ma res =
        some (ParseOutcome.returned (-EINVAL), st') ∧
      st'.memblks = st.memblks ∧ st'.acpi_numa < 0 ∧
      ∀ (fuel2 : Nat) (ma2 : acpi_srat_mem_affinity) (res2 : decoded_addr),
        acpi_numa_memory_affinity_init env fuel2 st' ma2 res2 =
          some (ParseOutcome.returned (-EINVAL), st') := by
  obtain ⟨n1, n2⟩ := acpi_map_pxm_to_node_none env.k st1.maps (srat_record_pxm env ma)
  refine ⟨n1, n2, ?_⟩
  have hdec1 : st1.skx_decode ≠ none ∧ st1.memblks = st.memblks := by
    unfold srat_early_init at hinit
    cases hd : st.skx_decode with
    | some f =>
      rw [hd] at hinit
      simp only [Option.some.injEq, Prod.mk.injEq] at hinit
      rw [← hinit.1, hd]
      exact ⟨(fun h => nomatch h), rfl⟩
    | none =>
      rw [hd] at hinit
      simp only [] at hinit
      split at hinit
      · exact absurd hinit (by simp)
      · simp only [Option.some.injEq, Prod.mk.injEq] at hinit
        rw [← hinit.1]
        exact ⟨(fun h => nomatch h), rfl⟩
  obtain ⟨hdec, hblk⟩ := hdec1
  unfold acpi_numa_memory_affinity_init
  rw [hinit]
  simp only []
  by_cases h1 : st1.acpi_numa < 0
  · rw [if_pos h1]
    exact ⟨st1, rfl, hblk, h1, fun fuel2 ma2 res2 =>
      acpi_numa_memory_affinity_init_disabled env fuel2 st1 ma2 res2 h1 hdec⟩
  · rw [if_neg h1]
    by_cases h2 : ma.header_length < env.k.sizeof_mem_affinity
    · rw [if_pos h2]
      refine ⟨bad_srat st1, rfl, hblk, by simp [bad_srat], fun fuel2 ma2 res2 =>
        acpi_numa_memory_affinity_init_disabled env fuel2 _ ma2 res2 (by simp [bad_srat]) hdec⟩
    · rw [if_neg h2]
      have h3 : ¬ (ma.enabled = false) := by rw [hen]; exact fun h => nomatch h
      rw [if_neg h3, if_neg hhot, if_pos hnode]
      refine ⟨bad_srat { st1 with maps :=
          (acpi_map_pxm_to_node env.k st1.maps (srat_record_pxm env ma)).2 }, rfl, hblk,
        by simp [bad_srat], fun fuel2 ma2 res2 =>
        acpi_numa_memory_affinity_init_disabled env fuel2 _ ma2 res2 (by simp [bad_srat]) hdec⟩

/-- Witness of C26: with 8 proximity domains, a record of domain 9. -/
theorem C26_unmappable_domain_disables_srat_witness :
    ∃ st' : SratState,
      acpi_numa_memory_affinity_init srat_env0 4 (srat_state0 decode_group_zero 0x400000)
          srat_record_far (rec0 0) = some (ParseOutcome.returned (-EINVAL), st') ∧
      st'.memblks = (srat_state0 decode_group_zero 0x400000).memblks ∧ st'.acpi_numa < 0 ∧
      ∀ (fuel2 : Nat) (ma2 : acpi_srat_mem_affinity) (res2 : decoded_addr),
        acpi_numa_memory_affinity_init srat_env0 fuel2 st' ma2 res2 =
          some (ParseOutcome.returned (-EINVAL), st') :=
  (C26_unmappable_domain_disables_srat srat_env0 4 (srat_state0 decode_group_zero 0x400000)
    (srat_state0 decode_group_zero 0x400000) decode_group_zero srat_record_far (rec0 0)
    rfl rfl (by decide) (Or.inl (by decide))).2.2

/-! ## A decode failure during the walk -/

/-- A first-group walk that does not end in `panic()` is the same under
every decode function that agrees with `dec` wherever `dec` succeeds. -/
theorem first_group_walk_agree (env : SratEnv) (dec dec' : skx_decode_f) (end_ : Nat)
    (hagree : ∀ r, (dec r).1 = true → dec' r = dec r) :
    ∀ (fuel : Nat) (w : Walk) (b : Nat),
      first_group_walk env dec end_ fuel w b ≠ some WalkExit.panicked →
      first_group_walk env dec' end_ fuel w b = first_group_walk env dec end_ fuel w b := by
  intro fuel
  induction fuel with
  | zero => intro w b _; rfl
  | succ n ih =>
    intro w b hnp
    simp only [first_group_walk] at hnp ⊢
    by_cases hb : b < end_
    · simp only [if_pos hb] at hnp ⊢
      have e := hagree { w.res with addr := b, subarray_group := -1 }
      generalize dec' { w.res with addr := b, subarray_group := -1 } = d' at e ⊢
      generalize dec { w.res with addr := b, subarray_group := -1 } = d at e hnp ⊢
      by_cases hd : d.1 = false
      · simp only [if_pos hd] at hnp
        exact absurd rfl hnp
      · have e' := e (bool_ne_false hd)
        subst e'
        simp only [if_neg hd] at hnp ⊢
        by_cases hg : d'.2.subarray_group ≠ w.last_subarray_group
        · simp only [if_pos hg]
        · simp only [if_neg hg] at hnp ⊢
          exact ih _ _ hnp
    · simp only [if_neg hb]

/-- The same for the walk over the rest of the record. -/
theorem rest_walk_agree (env : SratEnv) (dec dec' : skx_decode_f) (end_ : Nat)
    (hagree : ∀ r, (dec r).1 = true → dec' r = dec r) :
    ∀ (fuel : Nat) (w : Walk) (b : Nat),
      rest_walk env dec end_ fuel w b ≠ some WalkExit.panicked →
      rest_walk env dec' end_ fuel w b = rest_walk env dec end_ fuel w b := by
  intro fuel
  induction fuel with
  | zero => intro w b _; rfl
  | succ n ih =>
    intro w b hnp
    simp only [rest_walk] at hnp ⊢
    by_cases hb : b < end_
    · simp only [if_pos hb] at hnp ⊢
      have e := hagree { w.res with addr := b, subarray_group := -1 }
      generalize dec' { w.res with addr := b, subarray_group := -1 } = d' at e ⊢
      generalize dec { w.res with addr := b, subarray_group := -1 } = d at e hnp ⊢
      by_cases hd : d.1 = false
      · simp only [if_pos hd] at hnp
        exact absurd rfl hnp
      · have e' := e (bool_ne_false hd)
        subst e'
        simp only [if_neg hd] at hnp ⊢
        by_cases hg : d'.2.subarray_group ≠ w.last_subarray_group
        · simp only [if_pos hg] at hnp ⊢
          by_cases ha : env.numa_add_memblk w.memblks w.last_subarray_group w.start b < 0
          · simp only [if_pos ha]
          · simp only [if_neg ha] at hnp ⊢
            exact ih _ _ hnp
        · simp only [if_neg hg] at hnp ⊢
          exact ih _ _ hnp
    · simp only [if_neg hb]

/-- The same for the start of the record's range. -/
theorem srat_range_start_agree (env : SratEnv) (dec dec' : skx_decode_f) (fuel : Nat)
    (himem tolm : Nat) (node : Int) (end_ : Nat) (w : Walk)
    (hagree : ∀ r, (dec r).1 = true → dec' r = dec r)
    (hnp : srat_range_start env dec fuel himem tolm node end_ w ≠ some WalkExit.panicked) :
    srat_range_start env dec' fuel himem tolm node end_ w =
      srat_range_start env dec fuel himem tolm node end_ w := by
  simp only [srat_range_start] at hnp ⊢
  by_cases hc : node ≠ 0 ∨ w.start = 0
  · simp only [if_pos hc] at hnp ⊢
    have e := hagree { w.res with addr := w.start, subarray_group := -1 }
    generalize dec' { w.res with addr := w.start, subarray_group := -1 } = d' at e ⊢
    generalize dec { w.res with addr := w.start, subarray_group := -1 } = d at e hnp ⊢
    by_cases hd : d.1 = false
    · simp only [if_pos hd] at hnp
      exact absurd rfl hnp
    · have e' := e (bool_ne_false hd)
      subst e'
      simp only [if_neg hd] at hnp ⊢
      by_cases h1 : node = 0 ∧ node ≠ d'.2.subarray_group
      · simp only [if_pos h1]
      · simp only [if_neg h1] at hnp ⊢
        by_cases h2 : node ≠ 0 ∧ SOCKET_1_GUARD_ROWS_NODE ≠ d'.2.subarray_group
        · simp only [if_pos h2]
        · simp only [if_neg h2] at hnp ⊢
          exact first_group_walk_agree env dec dec' end_ hagree fuel _ _ hnp
  · simp only [if_neg hc] at hnp ⊢
    by_cases hz : himem = 0
    · simp only [if_pos hz]
    · simp only [if_neg hz] at hnp ⊢
      by_cases hs : himem ≠ w.start
      · simp only [if_pos hs] at hnp ⊢
        have e := hagree { w.res with addr := (tolm + 2 ^ 64 - 0x1000) % 2 ^ 64,
                                      subarray_group := -1 }
        generalize dec' { w.res with addr := (tolm + 2 ^ 64 - 0x1000) % 2 ^ 64,
                                     subarray_group := -1 } = d' at e ⊢
        generalize dec { w.res with addr := (tolm + 2 ^ 64 - 0x1000) % 2 ^ 64,
                                    subarray_group := -1 } = d at e hnp ⊢
        by_cases hd : d.1 = false
        · simp only [if_pos hd] at hnp
          exact absurd rfl hnp
        · have e' := e (bool_ne_false hd)
          subst e'
          simp only [if_neg hd] at hnp ⊢
          by_cases ha : env.numa_add_memblk w.memblks d'.2.subarray_group w.start himem < 0
          · simp only [if_pos ha]
          · simp only [if_neg ha] at hnp ⊢
            have e2 := hagree { d'.2 with addr := himem, subarray_group := -1 }
            generalize dec' { d'.2 with addr := himem, subarray_group := -1 } = c' at e2 ⊢
            generalize dec { d'.2 with addr := himem, subarray_group := -1 } = c at e2 hnp ⊢
            by_cases hcf : c.1 = false
            · simp only [if_pos hcf] at hnp
              exact absurd rfl hnp
            · have e3 := e2 (bool_ne_false hcf)
              subst e3
              rfl
      · simp only [if_neg hs] at hnp ⊢
        have e2 := hagree { w.res with addr := himem, subarray_group := -1 }
        generalize dec' { w.res with addr := himem, subarray_group := -1 } = c' at e2 ⊢
        generalize dec { w.res with addr := himem, subarray_group := -1 } = c at e2 hnp ⊢
        by_cases hcf : c.1 = false
        · simp only [if_pos hcf] at hnp
          exact absurd rfl hnp
        · have e3 := e2 (bool_ne_false hcf)
          subst e3
          rfl

/-- A walk of a record that returns to the caller is the same under every
decode function that agrees with `dec` wherever `dec` succeeds. -/
theorem memory_affinity_walk_agree (env : SratEnv) (dec dec' : skx_decode_f) (fuel : Nat)
    (st : SratState) (node : Int) (start end_ : Nat) (res : decoded_addr)
    (hagree : ∀ r, (dec r).1 = true → dec' r = dec r) (rc : Int) (st' : SratState)
    (hret : memory_affinity_walk env dec fuel st node start end_ res =
      some (ParseOutcome.returned rc, st')) :
    memory_affinity_walk env dec' fuel st node start end_ res =
      some (ParseOutcome.returned rc, st') := by
  unfold memory_affinity_walk at hret ⊢
  simp only [] at hret ⊢
  have h1 : srat_range_start env dec fuel st.himem_subarray_boundary_addr st.skx_tolm node end_
      { res := res, start := start, last_subarray_group := 0, himem_increment := 0x1000,
        siloz_total_nodes := st.siloz_total_nodes,
        parsed_numa_memblks := st.parsed_numa_memblks, memblks := st.memblks } ≠
      some WalkExit.panicked := by
    intro hc
    rw [hc] at hret
    exact panicked_ne_returned _ _ _ hret
  rw [srat_range_start_agree env dec dec' fuel _ _ node end_ _ hagree h1]
  cases hrs : srat_range_start env dec fuel st.himem_subarray_boundary_addr st.skx_tolm node end_
      { res := res, start := start, last_subarray_group := 0, himem_increment := 0x1000,
        siloz_total_nodes := st.siloz_total_nodes,
        parsed_numa_memblks := st.parsed_numa_memblks, memblks := st.memblks } with
  | none => rw [hrs] at hret; exact absurd hret (by simp)
  | some x =>
    rw [hrs] at hret
    cases x with
    | panicked => exact (panicked_ne_returned _ _ _ hret).elim
    | bad_srat w => exact hret
    | finished w1 b1 =>
      simp only [] at hret ⊢
      have h2 : rest_walk env dec end_ fuel
          { w1 with himem_increment :=
              if env.num_rows_per_subarray % 512 = 0 then
                himem_stride w1.last_subarray_group w1.himem_increment
              else w1.himem_increment }
          ((w1.start + (if env.num_rows_per_subarray % 512 = 0 then
                himem_stride w1.last_subarray_group w1.himem_increment
              else w1.himem_increment)) % 2 ^ 64) ≠ some WalkExit.panicked := by
        intro hc
        rw [hc] at hret
        exact panicked_ne_returned _ _ _ hret
      rw [rest_walk_agree env dec dec' end_ hagree fuel _ _ h2]
      exact hret

/-- The walk does not read the decode function recorded in the state: with
another one recorded, it leaves the same state but for that field. -/
theorem memory_affinity_walk_set_decode (env : SratEnv) (dec : skx_decode_f) (fuel : Nat)
    (st : SratState) (x : Option skx_decode_f) (node : Int) (start end_ : Nat)
    (res : decoded_addr) (o : ParseOutcome) (st' : SratState)
    (h : memory_affinity_walk env dec fuel st node start end_ res = some (o, st')) :
    memory_affinity_walk env dec fuel { st with skx_decode := x } node start end_ res =
      some (o, { st' with skx_decode := x }) := by
  unfold memory_affinity_walk at h ⊢
  simp only [] at h ⊢
  cases hrs : srat_range_start env dec fuel st.himem_subarray_boundary_addr st.skx_tolm node end_
      { res := res, start := start, last_subarray_group := 0, himem_increment := 0x1000,
        siloz_total_nodes := st.siloz_total_nodes,
        parsed_numa_memblks := st.parsed_numa_memblks, memblks := st.memblks } with
  | none => rw [hrs] at h; exact absurd h (by simp)
  | some y =>
    rw [hrs] at h
    cases y with
    | panicked =>
      simp only [Option.some.injEq, Prod.mk.injEq] at h ⊢
      exact ⟨h.1, by rw [← h.2]⟩
    | bad_srat w =>
      simp only [Option.some.injEq, Prod.mk.injEq] at h ⊢
      exact ⟨h.1, by rw [← h.2]; rfl⟩
    | finished w1 b1 =>
      simp only [] at h ⊢
      cases hrw : rest_walk env dec end_ fuel
          { w1 with himem_increment :=
              if env.num_rows_per_subarray % 512 = 0 then
                himem_stride w1.last_subarray_group w1.himem_increment
              else w1.himem_increment }
          ((w1.start + (if env.num_rows_per_subarray % 512 = 0 then
                himem_stride w1.last_subarray_group w1.himem_increment
              else w1.himem_increment)) % 2 ^ 64) with
      | none => rw [hrw] at h; exact absurd h (by simp)
      | some z =>
        rw [hrw] at h
        cases z with
        | panicked =>
          simp only [Option.some.injEq, Prod.mk.injEq] at h ⊢
          exact ⟨h.1, by rw [← h.2]⟩
        | bad_srat w =>
          simp only [Option.some.injEq, Prod.mk.injEq] at h ⊢
          exact ⟨h.1, by rw [← h.2]; rfl⟩
        | finished w2 b2 =>
          simp only [] at h ⊢
          by_cases hbe : b2 ≠ end_
          · rw [if_pos hbe] at h ⊢
            simp only [Option.some.injEq, Prod.mk.injEq] at h ⊢
            exact ⟨h.1, by rw [← h.2]⟩
          · rw [if_neg hbe] at h ⊢
            by_cases ha : env.numa_add_memblk w2.memblks w2.res.subarray_group w2.start b2 < 0
            · rw [if_pos ha] at h ⊢
              simp only [Option.some.injEq, Prod.mk.injEq] at h ⊢
              exact ⟨h.1, by rw [← h.2]; rfl⟩
            · rw [if_neg ha] at h ⊢
              simp only [Option.some.injEq, Prod.mk.injEq] at h ⊢
              exact ⟨h.1, by rw [← h.2]; rfl⟩

/-- When the decode fails everywhere, the walk of a record stops in
`panic()` at its first decode, whatever the fuel. -/
theorem memory_affinity_walk_panics (env : SratEnv) (dec : skx_decode_f) (fuel : Nat)
    (st : SratState) (node : Int) (start end_ : Nat) (res : decoded_addr)
    (hfail : ∀ r, (dec r).1 = false) :
    memory_affinity_walk env dec fuel st node start end_ res =
      some (ParseOutcome.panicked, st) := by
  have hrs : srat_range_start env dec fuel st.himem_subarray_boundary_addr st.skx_tolm node end_
      { res := res, start := start, last_subarray_group := 0, himem_increment := 0x1000,
        siloz_total_nodes := st.siloz_total_nodes,
        parsed_numa_memblks := st.parsed_numa_memblks, memblks := st.memblks } =
      some WalkExit.panicked := by
    simp only [srat_range_start]
    by_cases hc : node ≠ 0 ∨ start = 0
    · simp only [if_pos hc, hfail, if_true]
    · simp only [if_neg hc, hfail, if_true]
      by_cases hz : st.himem_subarray_boundary_addr = 0
      · simp only [if_pos hz]
      · simp only [if_neg hz]
        by_cases hs : st.himem_subarray_boundary_addr ≠ start
        · simp only [if_pos hs]
        · simp only [if_neg hs, hfail, if_true]
  unfold memory_affinity_walk
  simp only []
  rw [hrs]

/-- C25 (amended): a decode failure during the walk of a record makes
`acpi_numa_memory_affinity_init` stop in `panic()`; it is never turned into
an error return.  With the decode function `dec` installed: a call that
returns to its caller (with 0 or with `-EINVAL`) has consulted no decode
that failed, as it returns the same value and leaves the same state (but
for the decode function recorded) under every decode function `dec'` that
agrees with `dec` wherever `dec` succeeds; and when `dec` fails everywhere,
the walk of any range stops in `panic()` at its first decode. -/
theorem C25_decode_failure_panics (env : SratEnv) (fuel : Nat) (st : SratState)
    (ma : acpi_srat_mem_affinity) (res : decoded_addr) (dec dec' : skx_decode_f)
    (hdec : st.skx_decode = some dec)
    (hagree : ∀ r, (dec r).1 = true → dec' r = dec r) :
    (∀ (rc : Int) (st' : SratState),
      acpi_numa_memory_affinity_init env fuel st ma res =
        some (ParseOutcome.returned rc, st') →
      acpi_numa_memory_affinity_init env fuel { st with skx_decode := some dec' } ma res =
        some (ParseOutcome.returned rc, { st' with skx_decode := some dec' })) ∧
    ((∀ r, (dec r).1 = false) → ∀ (node : Int) (start end_ : Nat),
      memory_affinity_walk env dec fuel st node start end_ res =
        some (ParseOutcome.panicked, st)) := by
  refine ⟨?_, fun hfail node start end_ =>
    memory_affinity_walk_panics env dec fuel st node start end_ res hfail⟩
  intro rc st' hret
  have hi : srat_early_init env st = some (st, dec) := by
    unfold srat_early_init
    rw [hdec]
  have hi' : srat_early_init env { st with skx_decode := some dec' } =
      some ({ st with skx_decode := some dec' }, dec') := rfl
  unfold acpi_numa_memory_affinity_init at hret ⊢
  rw [hi] at hret
  rw [hi']
  simp only [] at hret ⊢
  by_cases h1 : st.acpi_numa < 0
  · rw [if_pos h1] at hret ⊢
    simp only [Option.some.injEq, Prod.mk.injEq] at hret ⊢
    exact ⟨hret.1, by rw [← hret.2]⟩
  · rw [if_neg h1] at hret ⊢
    by_cases h2 : ma.header_length < env.k.sizeof_mem_affinity
    · rw [if_pos h2] at hret ⊢
      simp only [Option.some.injEq, Prod.mk.injEq] at hret ⊢
      exact ⟨hret.1, by rw [← hret.2]; rfl⟩
    · rw [if_neg h2] at hret ⊢
      by_cases h3 : ma.enabled = false
      · rw [if_pos h3] at hret ⊢
        simp only [Option.some.injEq, Prod.mk.injEq] at hret ⊢
        exact ⟨hret.1, by rw [← hret.2]⟩
      · rw [if_neg h3] at hret ⊢
        by_cases h4 : ma.hot_pluggable = true ∧ env.k.CONFIG_MEMORY_HOTPLUG = false
        · rw [if_pos h4] at hret ⊢
          simp only [Option.some.injEq, Prod.mk.injEq] at hret ⊢
          exact ⟨hret.1, by rw [← hret.2]⟩
        · rw [if_neg h4] at hret ⊢
          by_cases h5 : (acpi_map_pxm_to_node env.k st.maps (srat_record_pxm env ma)).1 =
                NUMA_NO_NODE ∨
              (acpi_map_pxm_to_node env.k st.maps (srat_record_pxm env ma)).1 ≥
                (env.k.MAX_NUMNODES : Int)
          · rw [if_pos h5] at hret ⊢
            simp only [Option.some.injEq, Prod.mk.injEq] at hret ⊢
            exact ⟨hret.1, by rw [← hret.2]; rfl⟩
          · rw [if_neg h5] at hret ⊢
            have hw := memory_affinity_walk_agree env dec dec' fuel _ _ _ _ res hagree rc st' hret
            exact memory_affinity_walk_set_decode env dec' fuel _ (some dec') _ _ _ res _ st' hw

theorem decode_split_page_short_agree (r : decoded_addr)
    (h : (decode_split_page_short r).1 = true) :
    decode_split_page r = decode_split_page_short r := by
  unfold decode_split_page_short at h ⊢
  unfold decode_split_page
  simp only [] at h
  rw [h]

/-- Witness of C25 (amended): the record `[0, 0x3000)` parsed with a decode
function that fails from `0x3000` on: the call returns 0, and so it does
with the decode function that succeeds everywhere. -/
theorem C25_decode_failure_panics_witness :
    acpi_numa_memory_affinity_init srat_env0 4
        { srat_state0 decode_split_page_short 0x200000 with
          skx_decode := some decode_split_page } (srat_record0 0 0x3000) (rec0 0) =
      some (ParseOutcome.returned 0,
        { srat_state_after_short with skx_decode := some decode_split_page }) :=
  (C25_decode_failure_panics srat_env0 4 (srat_state0 decode_split_page_short 0x200000)
    (srat_record0 0 0x3000) (rec0 0) decode_split_page_short decode_split_page rfl
    decode_split_page_short_agree).1 0 srat_state_after_short rfl

/-- C25 (counterexample): the record `[0, 0x5000)` of node 0 parsed with a
decode function that fails from `0x3000` on.  The walk finds the group
change at `0x2000` and then decodes `0x3000`: the call stops in `panic()`
and returns no value (`outcome_blocks` gives `none` as return value, and
the blocks of the state the call started from). -/
theorem C25_counterexample :
    (∀ r : decoded_addr, r.addr = 0x3000 → (decode_split_page_short r).1 = false) ∧
    outcome_blocks (acpi_numa_memory_affinity_init srat_env0 8
      (srat_state0 decode_split_page_short 0x200000) (srat_record0 0 0x5000) (rec0 0)) =
      some (none, []) := by
  refine ⟨?_, by decide⟩
  intro r hr
  unfold decode_split_page_short
  simp only [hr]
  decide

/-! ## A failed read in `early_skx_get_dimm_config` -/

theorem ilv_all_local (idx : Nat) (h : idx < 8) :
    GET_BITFIELD 0x88888888 (4 * idx) (4 * idx + 3) = 8 := by
  interval_cases idx <;> decide

theorem skx_do_interleave_one (a s : Nat) (ha : a < 2 ^ 64) :
    skx_do_interleave a s 1 a = a := by
  unfold skx_do_interleave
  have h2 : (1 <<< s : Nat) = 2 ^ s := by rw [Nat.shiftLeft_eq, Nat.one_mul]
  rw [h2, Nat.and_pow_two_sub_one_eq_mod, Nat.div_one, Nat.shiftRight_eq_div_pow,
    Nat.shiftLeft_eq]
  have hle : a / 2 ^ s * 2 ^ s ≤ a := Nat.div_mul_le_self a (2 ^ s)
  rw [Nat.mod_eq_of_lt (by omega)]
  have hlt : a % 2 ^ s < 2 ^ s := Nat.mod_lt _ (by positivity)
  rw [Nat.mul_comm, ← Nat.mul_add_lt_is_or hlt]
  exact Nat.div_add_mod a (2 ^ s)

/-- The SAD stage in a `BlankGeometry` configuration. -/
theorem blank_sad_decode (env : SkxEnv) (hB : BlankGeometry env) (r : decoded_addr)
    (ha : r.addr < 2 ^ 40) :
    early_skx_sad_decode env r =
      (true, { r with dev := 0, socket := 0, imc := 1, channel := 0 }) := by
  obtain ⟨h1, h2, h3, h4, _⟩ := hB
  have e1 : SKX_SAD_ENABLE 0x07FFFF81 ≠ 0 := by decide
  have e2 : SKX_SAD_LIMIT 0x07FFFF81 = 2 ^ 46 - 1 := by decide
  have e3 : SKX_SAD_INTERLEAVE 0x07FFFF81 = 0 := by decide
  have e4 : SKX_SAD_MOD3 0x07FFFF81 = 0 := by decide
  have hscan : early_skx_sad_scan env (env.skx_sock_devs 0) r.addr SKX_MAX_SAD 0 0 =
      SadScan.sad_found 0 0x07FFFF81 := by
    simp only [SKX_MAX_SAD, early_skx_sad_scan, h1]
    rw [if_pos ⟨e1, by omega, by rw [e2]; omega⟩]
  have hidx : GET_BITFIELD r.addr 6 8 < 8 := by
    unfold GET_BITFIELD
    exact Nat.mod_lt _ (by norm_num)
  have hpass : early_skx_sad_pass env (env.skx_sock_devs 0) r.addr =
      SadPass.hit 0x07FFFF81 8 := by
    unfold early_skx_sad_pass
    rw [hscan]
    simp only [h2, e3]
    rw [ilv_all_local _ hidx]
    rfl
  unfold early_skx_sad_decode
  rw [hpass]
  simp only []
  unfold early_skx_sad_finish skx_sad_lchan
  simp only [e4, if_true, h3, h4]
  rfl

/-- The TAD stage in a `BlankGeometry` configuration, on a record of
controller 1, channel 0 of socket 0. -/
theorem blank_tad_decode (env : SkxEnv) (hB : BlankGeometry env) (r : decoded_addr)
    (ha : r.addr < 2 ^ 40) (hs : r.socket = 0) (hi : r.imc = 1) (hc : r.channel = 0) :
    (early_skx_tad_decode env r).1 = true ∧ (early_skx_tad_decode env r).2.chan_addr = r.addr := by
  obtain ⟨_, _, _, _, h5, h6, h7, _⟩ := hB
  have e1 : SKX_TAD_BASE 0 = 0 := by decide
  have e2 : SKX_TAD_LIMIT 0xFFFFF000 = 2 ^ 46 - 1 := by decide
  have e3 : SKX_TAD_SKTWAYS 0xFFFFF000 = 1 := by decide
  have e4 : SKX_TAD_CHNWAYS 0xFFFFF000 = 1 := by decide
  have e5 : SKX_TAD_OFFSET 0 = 0 := by decide
  have hscan : early_skx_tad_scan env r SKX_MAX_TAD 0 = some (0, 0, 0xFFFFF000) := by
    simp only [SKX_MAX_TAD, early_skx_tad_scan, hs, hi, h5, h6]
    rw [if_pos ⟨by rw [e1]; omega, by rw [e2]; omega⟩]
  unfold early_skx_tad_decode
  rw [hscan]
  simp only [hs, hi, hc, h7, e3, e4, e5]
  have hn : ¬ ((1 : Nat) = 3 ∧
      skx_granularity.getD (SKX_TAD_SKT_GRAN 0) 0 > skx_granularity.getD (SKX_TAD_CHN_GRAN 0) 0) :=
    fun h => absurd h.1 (by decide)
  rw [if_neg hn]
  have h0 : (r.addr + 2 ^ 64 - 0) % 2 ^ 64 = r.addr := by omega
  rw [h0, skx_do_interleave_one _ _ (by omega), skx_do_interleave_one _ _ (by omega)]
  exact ⟨trivial, rfl⟩

/-- The RIR stage in a `BlankGeometry` configuration, on a record of
controller 1, channel 0 of socket 0. -/
theorem blank_rir_decode (env : SkxEnv) (hB : BlankGeometry env) (r : decoded_addr)
    (ha : r.chan_addr < 2 ^ 40) (hs : r.socket = 0) (hi : r.imc = 1) (hc : r.channel = 0) :
    (early_skx_rir_decode env r).1 = true := by
  obtain ⟨_, _, _, _, _, _, _, h8, _⟩ := hB
  have e1 : SKX_RIR_VALID 0x80000FFE ≠ 0 := by decide
  have e2 : SKX_RIR_LIMIT 0x80000FFE = 2 ^ 40 - 1 := by decide
  have hscan : early_skx_rir_scan env r SKX_MAX_RIR 0 0 = some (0, 0x80000FFE) := by
    simp only [SKX_MAX_RIR, early_skx_rir_scan, hs, hi, hc, h8]
    rw [if_pos ⟨e1, by omega, by rw [e2]; omega⟩]
  unfold early_skx_rir_decode
  simp only [hscan]

/-- The group of row 0 of socket 0 when no boundary row is known. -/
theorem early_skx_subarray_group_zero (env : SkxEnv) (imc : skx_imc)
    (hB : env.himem_subarray_boundary_row = 0) :
    early_skx_subarray_group env imc 0 0 = 0 := by
  have hp : early_skx_provisional_group env imc 0 0 = 0 := by
    unfold early_skx_provisional_group
    split
    · have hz : u64_of_int (0 * ((2 ^ imc.rowbits : Nat) : Int) + ((0 : Nat) : Int)) = 0 := by
        simp [u64_of_int]
      rw [hz, Nat.zero_div]
      rfl
    · rfl
  unfold early_skx_subarray_group early_skx_reserved_group
  rw [hp, hB]
  simp [SOCKET_0_EPT_NODE]

/-- In a `BlankGeometry` configuration every address below `2 ^ 40`
decodes, on socket 0, to subarray group 0. -/
theorem blank_decode_local (env : SkxEnv) (hB : BlankGeometry env) (r : decoded_addr)
    (ha : r.addr < 2 ^ 40) :
    (early_skx_decode_local env r).1 = true ∧ (early_skx_decode_local env r).2.socket = 0 ∧
    (early_skx_decode_local env r).2.subarray_group = 0 := by
  have hsad := blank_sad_decode env hB r ha
  have h1 : (early_skx_sad_decode env r).1 = true := by rw [hsad]
  have hs1 : (early_skx_sad_decode env r).2.socket = 0 := by rw [hsad]
  have hi1 : (early_skx_sad_decode env r).2.imc = 1 := by rw [hsad]
  have hc1 : (early_skx_sad_decode env r).2.channel = 0 := by rw [hsad]
  have hd1 : (early_skx_sad_decode env r).2.dev = 0 := by rw [hsad]
  have ha1 : (early_skx_sad_decode env r).2.addr = r.addr := by rw [hsad]
  obtain ⟨h2, hca⟩ := blank_tad_decode env hB (early_skx_sad_decode env r).2 (by omega)
    hs1 hi1 hc1
  obtain ⟨t1, t2, t3, t4⟩ := early_skx_tad_decode_inv env (early_skx_sad_decode env r).2
  have h3 := blank_rir_decode env hB
    (early_skx_tad_decode env (early_skx_sad_decode env r).2).2 (by rw [hca]; omega)
    (by rw [t2, hs1]) (by rw [t3, hi1]) (by rw [t4, hc1])
  obtain ⟨u1, u2, u3, _⟩ := early_skx_rir_decode_inv env
    (early_skx_tad_decode env (early_skx_sad_decode env r).2).2
  rw [decode_local_of_rir_ok env r h1 h2 h3]
  generalize (early_skx_rir_decode env
    (early_skx_tad_decode env (early_skx_sad_decode env r).2).2).2 = r3 at u1 u2 u3 ⊢
  have hdev : r3.dev = 0 := by rw [u1, t1, hd1]
  have hsock : r3.socket = 0 := by rw [u2, t2, hs1]
  have himc : r3.imc = 1 := by rw [u3, t3, hi1]
  refine ⟨rfl, hsock, ?_⟩
  rw [early_skx_mad_decode_group, hdev, himc, hsock]
  have hrow : early_skx_mad_row env r3 = 0 := by
    have := early_skx_mad_row_lt env r3
    rw [hdev, himc, hB.2.2.2.2.2.2.2.2.1] at this
    omega
  rw [hrow]
  exact early_skx_subarray_group_zero env _ hB.2.2.2.2.2.2.2.2.2.2

/-! ## Sweeps over a memory that decodes to one group -/

/-- When every address below `skx_tolm` decodes, on socket 0, to group 0,
the low-memory sweep run with enough fuel ends with `rc` still 0; it marks
group 0 if it visits an address, and leaves the boundary and the first
remote group as they were. -/
theorem lomem_sweep_all_zero (dec : skx_decode_f) (tolm : Nat) (htolm : tolm + 0x1000 ≤ 2 ^ 64)
    (hdec : ∀ r : decoded_addr, r.addr < tolm →
      (dec r).1 = true ∧ (dec r).2.socket = 0 ∧ (dec r).2.subarray_group = 0) :
    ∀ (n addr : Nat) (s : Sweep), tolm ≤ addr + n * 0x1000 → s.rc = 0 →
      ∃ s', lomem_sweep dec tolm (n + 1) addr s = some (SweepExit.done s') ∧ s'.rc = 0 ∧
        ((addr < tolm ∨ s.lomem_subarray_groups_map 0 = true) →
          s'.lomem_subarray_groups_map 0 = true) ∧
        s'.himem_subarray_boundary_addr = s.himem_subarray_boundary_addr ∧
        s'.himem_subarray_boundary_row = s.himem_subarray_boundary_row ∧
        s'.first_remote_group = s.first_remote_group := by
  intro n
  induction n with
  | zero =>
    intro addr s hf hrc
    have hb : ¬ addr < tolm := by omega
    refine ⟨s, ?_, hrc, ?_, rfl, rfl, rfl⟩
    · simp only [lomem_sweep, if_neg hb]
    · intro h
      rcases h with h | h
      · exact absurd h hb
      · exact h
  | succ n ih =>
    intro addr s hf hrc
    by_cases hb : addr < tolm
    · obtain ⟨d1, d2, d3⟩ := hdec { s.res with addr := addr } hb
      rw [lomem_sweep]
      simp only [if_pos hb]
      generalize dec { s.res with addr := addr } = d at d1 d2 d3
      have c1 : ¬ (d.1 = false ∨ d.2.socket ≠ 0) := by
        rw [d1, d2]
        simp
      have c2 : ¬ (d.2.subarray_group < 0 ∨ d.2.subarray_group ≥ (MAX_SUBARRAY_GROUPS : Int)) := by
        rw [d3]
        decide
      rw [if_neg c1, if_neg c2]
      have hmod : (addr + 0x1000) % 2 ^ 64 = addr + 0x1000 := Nat.mod_eq_of_lt (by omega)
      rw [hmod]
      obtain ⟨s', e1, e2, e3, e4, e5, e6⟩ := ih (addr + 0x1000)
        { s with res := d.2, lomem_subarray_groups_map :=
            if s.lomem_subarray_groups_map d.2.subarray_group = false then
              fun g => if g = d.2.subarray_group then true else s.lomem_subarray_groups_map g
            else s.lomem_subarray_groups_map }
        (by omega) hrc
      refine ⟨s', e1, e2, ?_, e4, e5, e6⟩
      intro _
      apply e3
      right
      simp only [d3]
      by_cases hm : s.lomem_subarray_groups_map 0 = false
      · rw [if_pos hm]
        simp
      · rw [if_neg hm]
        exact bool_ne_false hm
    · refine ⟨s, ?_, hrc, ?_, rfl, rfl, rfl⟩
      · simp only [lomem_sweep, if_neg hb]
      · intro h
        rcases h with h | h
        · exact absurd h hb
        · exact h

/-- The same for the high-memory sweep, once group 0 is marked: it finds no
boundary. -/
theorem himem_sweep_all_zero (dec : skx_decode_f) (tohm nrps : Nat)
    (htohm : tohm + 0x1000 ≤ 2 ^ 64)
    (hdec : ∀ r : decoded_addr, r.addr < tohm →
      (dec r).1 = true ∧ (dec r).2.socket = 0 ∧ (dec r).2.subarray_group = 0) :
    ∀ (n addr : Nat) (s : Sweep), tohm ≤ addr + n * 0x1000 → s.rc = 0 →
      s.lomem_subarray_groups_map 0 = true →
      ∃ s', himem_sweep dec tohm nrps (n + 1) addr s = some (SweepExit.done s') ∧ s'.rc = 0 ∧
        s'.himem_subarray_boundary_addr = s.himem_subarray_boundary_addr ∧
        s'.himem_subarray_boundary_row = s.himem_subarray_boundary_row ∧
        s'.first_remote_group = s.first_remote_group := by
  intro n
  induction n with
  | zero =>
    intro addr s hf hrc _
    have hb : ¬ addr < tohm := by omega
    refine ⟨s, ?_, hrc, rfl, rfl, rfl⟩
    simp only [himem_sweep, if_neg hb]
  | succ n ih =>
    intro addr s hf hrc hmap
    by_cases hb : addr < tohm
    · obtain ⟨d1, d2, d3⟩ := hdec { s.res with addr := addr } hb
      rw [himem_sweep]
      simp only [if_pos hb]
      generalize dec { s.res with addr := addr } = d at d1 d2 d3
      have c1 : ¬ (d.1 = false) := by rw [d1]; simp
      have c2 : ¬ (d.2.subarray_group < 0 ∨ d.2.subarray_group ≥ (MAX_SUBARRAY_GROUPS : Int)) := by
        rw [d3]
        decide
      have c3 : ¬ (s.lomem_subarray_groups_map d.2.subarray_group = false) := by
        rw [d3, hmap]; simp
      rw [if_neg c1, if_neg c2, if_neg c3]
      have hmod : (addr + 0x1000) % 2 ^ 64 = addr + 0x1000 := Nat.mod_eq_of_lt (by omega)
      rw [hmod]
      exact ih (addr + 0x1000) { s with res := d.2 } (by omega) hrc hmap
    · refine ⟨s, ?_, hrc, rfl, rfl, rfl⟩
      simp only [himem_sweep, if_neg hb]

/-- The same for the sweep for the first remote group: it finds none. -/
theorem remote_sweep_all_zero (dec : skx_decode_f) (tohm : Nat)
    (htohm : tohm + 0x1000 ≤ 2 ^ 64)
    (hdec : ∀ r : decoded_addr, r.addr < tohm →
      (dec r).1 = true ∧ (dec r).2.socket = 0 ∧ (dec r).2.subarray_group = 0) :
    ∀ (n addr : Nat) (s : Sweep), tohm ≤ addr + n * 0x1000 → s.rc = 0 →
      ∃ s', remote_sweep dec tohm (n + 1) addr s = some (SweepExit.done s') ∧ s'.rc = 0 ∧
        s'.himem_subarray_boundary_addr = s.himem_subarray_boundary_addr ∧
        s'.himem_subarray_boundary_row = s.himem_subarray_boundary_row ∧
        s'.first_remote_group = s.first_remote_group := by
  intro n
  induction n with
  | zero =>
    intro addr s hf hrc
    have hb : ¬ addr < tohm := by omega
    refine ⟨s, ?_, hrc, rfl, rfl, rfl⟩
    simp only [remote_sweep, if_neg hb]
  | succ n ih =>
    intro addr s hf hrc
    by_cases hb : addr < tohm
    · obtain ⟨d1, d2, d3⟩ := hdec { s.res with addr := addr } hb
      rw [remote_sweep]
      simp only [if_pos hb]
      generalize dec { s.res with addr := addr } = d at d1 d2 d3
      have c1 : ¬ (d.1 = false) := by rw [d1]; simp
      have c2 : ¬ (d.2.socket ≠ 0 ∧ d.2.subarray_group ≠ SOCKET_1_EPT_NODE ∧
          d.2.subarray_group ≠ SOCKET_1_GUARD_ROWS_NODE) := fun h => h.1 d2
      rw [if_neg c1, if_neg c2]
      have hmod : (addr + 0x1000) % 2 ^ 64 = addr + 0x1000 := Nat.mod_eq_of_lt (by omega)
      rw [hmod]
      exact ih (addr + 0x1000) { s with res := d.2 } (by omega) hrc
    · refine ⟨s, ?_, hrc, rfl, rfl, rfl⟩
      simp only [remote_sweep, if_neg hb]

/-- When every address below `skx_tohm` decodes, on socket 0, to group 0
(`skx_tolm` is not 0 and not above `skx_tohm`), the three sweeps run with
enough fuel end with `rc = 0` and leave the boundary address, the boundary
row and the first remote group as they were. -/
theorem early_skx_init_sweeps_all_zero (skx_decode : Nat → skx_decode_f) (nrps tolm tohm : Nat)
    (sse : Int) (res : decoded_addr) (baddr brow frg : Nat)
    (htohm : tohm + 0x1000 ≤ 2 ^ 64) (hlt : tolm ≤ tohm) (hpos : 0 < tolm)
    (hdec : ∀ r : decoded_addr, r.addr < tohm →
      ((skx_decode brow) r).1 = true ∧ ((skx_decode brow) r).2.socket = 0 ∧
        ((skx_decode brow) r).2.subarray_group = 0)
    (n : Nat) (hn : tohm ≤ n * 0x1000) :
    ∃ s, early_skx_init_sweeps skx_decode nrps tolm tohm sse (n + 1) res baddr brow frg =
        some (SweepExit.done s) ∧ s.rc = 0 ∧ s.himem_subarray_boundary_addr = baddr ∧
      s.himem_subarray_boundary_row = brow ∧ s.first_remote_group = frg := by
  unfold early_skx_init_sweeps
  simp only []
  obtain ⟨s1, a1, a2, a3, a4, a5, a6⟩ := lomem_sweep_all_zero (skx_decode brow) tolm (by omega)
    (fun r hr => hdec r (by omega)) n 0
    { res := res, lomem_subarray_groups_map := fun _ => false, rc := 0,
      himem_subarray_boundary_addr := baddr, himem_subarray_boundary_row := brow,
      first_remote_group := frg } (by omega) rfl
  rw [a1]
  simp only [a2, if_true]
  simp only [] at a4 a5 a6
  rw [a5]
  obtain ⟨s2, b1, b2, b4, b5, b6⟩ := himem_sweep_all_zero (skx_decode brow) tohm nrps htohm hdec
    n 0x100000000 s1 (by omega) a2 (a3 (Or.inl hpos))
  rw [b1]
  simp only [b2, true_and]
  rw [b5, a5] 
  by_cases hs : sse = 0
  · rw [if_pos hs]
    obtain ⟨s3, c1, c2, c4, c5, c6⟩ := remote_sweep_all_zero (skx_decode brow) tohm htohm hdec
      n (tohm / 2) s2 (by omega) b2
    exact ⟨s3, c1, c2, by rw [c4, b4, a4], by rw [c5, b5, a5], by rw [c6, b6, a6]⟩
  · rw [if_neg hs]
    exact ⟨s2, rfl, b2, by rw [b4, a4], by rw [b5, a5], by rw [b6, a6]⟩

theorem early_skx_get_dimm_config_mcmtr (hw : EarlyHw) (env : SkxEnv) (imc : skx_imc)
    (h : hw.early_init_read_pci_config (imc.chan 0).cdev_bus (imc.chan 0).cdev_dev
      (imc.chan 0).cdev_func 0x87c = none) :
    early_skx_get_dimm_config hw env imc = (1, imc) := by
  unfold early_skx_get_dimm_config
  rw [h]

theorem hw_mcmtr_fails_enumerated :
    early_skx_init_enumerate hw_mcmtr_fails g_boot = some (Step.go g_enumerated) := by
  have h : enumerate_fell_through (early_skx_init_enumerate hw_mcmtr_fails g_boot) = true := by
    decide
  unfold g_enumerated
  cases hx : early_skx_init_enumerate hw_mcmtr_fails g_boot with
  | none => rw [hx] at h; exact absurd h Bool.false_ne_true
  | some st =>
    cases st with
    | ret rc g1 => rw [hx] at h; exact absurd h Bool.false_ne_true
    | go g3 => rfl

theorem g_enumerated_blank :
    BlankGeometry { g_enumerated.env with himem_subarray_boundary_row := 0 } := by
  decide

theorem g_enumerated_tops :
    g_enumerated.env.himem_subarray_boundary_row = 0 ∧
      g_enumerated.env.skx_tolm = 0x80000000 ∧ g_enumerated.env.skx_tohm = 0x880000000 :=
  ⟨by decide, by decide, by decide⟩

theorem early_skx_init_blank (hw : EarlyHw) (g g3 : EarlyGlobals) (res : decoded_addr)
    (baddr frg : Nat) (he : early_skx_init_enumerate hw g = some (Step.go g3))
    (hB : BlankGeometry { g3.env with himem_subarray_boundary_row := 0 })
    (hrow : g3.env.himem_subarray_boundary_row = 0) (hpos : 0 < g3.env.skx_tolm)
    (hle : g3.env.skx_tolm ≤ g3.env.skx_tohm) (htop : g3.env.skx_tohm ≤ 2 ^ 40)
    (n : Nat) (hn : g3.env.skx_tohm ≤ n * 0x1000) :
    early_skx_init_rc (early_skx_init hw (n + 1) g res baddr frg) = some 0 := by
  unfold early_skx_init
  rw [he]
  simp only []
  rw [hrow]
  obtain ⟨s, hs, hrc, -⟩ := early_skx_init_sweeps_all_zero (early_skx_decode_at g3.env)
    g3.env.num_rows_per_subarray g3.env.skx_tolm g3.env.skx_tohm
    g3.second_socket_empty res baddr 0 frg (by omega) hle hpos
    (fun r hr => blank_decode_local _ hB r (by omega)) n hn
  rw [hs]
  simp only [early_skx_init_rc, hrc]

/-- Claim C24, refuted for the `mcmtr` read.  On `hw_mcmtr_fails` every
`mcmtr` read fails, so every call of `early_skx_get_dimm_config` returns 1
and leaves the controller as it was; `early_skx_init` tests that value with
`rc < 0`, goes on, and with enough fuel for the sweeps returns 0. -/
theorem C24_failed_mcmtr_read_is_ignored :
    (∀ bus dev func, hw_mcmtr_fails.early_init_read_pci_config bus dev func 0x87c = none) ∧
    (∀ (env : SkxEnv) (imc : skx_imc),
      early_skx_get_dimm_config hw_mcmtr_fails env imc = (1, imc)) ∧
    (∀ (n : Nat) (res : decoded_addr), 0x880000 ≤ n →
      early_skx_init_rc (early_skx_init hw_mcmtr_fails (n + 1) g_boot res 0
        FIRST_REMOTE_GROUP_UNSET) = some 0) := by
  refine ⟨fun _ _ _ => rfl, fun env imc => early_skx_get_dimm_config_mcmtr _ env imc rfl, ?_⟩
  intro n res hn
  obtain ⟨hrow, htolm, htohm⟩ := g_enumerated_tops
  exact early_skx_init_blank hw_mcmtr_fails g_boot g_enumerated res 0 FIRST_REMOTE_GROUP_UNSET
    hw_mcmtr_fails_enumerated g_enumerated_blank hrow (by rw [htolm]; norm_num)
    (by rw [htolm, htohm]; norm_num) (by rw [htohm]; norm_num) n (by rw [htohm]; omega)

/-! ## De-interleave inverts striping -/

theorem striped_eq_add (q s y : Nat) (hy : y < 2 ^ s) : (q <<< s) ||| y = 2 ^ s * q + y := by
  rw [Nat.shiftLeft_eq, Nat.mul_comm, Nat.mul_add_lt_is_or hy]

/-- C31: `skx_do_interleave` inverts `w`-way striping at `2 ^ s`
granularity.  For every shift `s`, every `w ≥ 1`, every channel address `c`
and every way index `k < w`, when the striped address
`a = ((((c >> s) * w + k) << s) | (c mod 2 ^ s))` fits in 64 bits,
`skx_do_interleave(a, s, w, a) = c`; with `w = 1` (and so `k = 0`) the
striped address is `c` itself and the function is the identity.  (C defines
the shifts for `s < 64`; the equation holds for the embedding at every
`s`.) -/
theorem C31_do_interleave_inverts_striping (s w c k : Nat) (hw : 1 ≤ w) (hk : k < w)
    (hfit : ((((c >>> s) * w + k) <<< s) ||| (c % 2 ^ s)) < 2 ^ 64) :
    skx_do_interleave ((((c >>> s) * w + k) <<< s) ||| (c % 2 ^ s)) s w
        ((((c >>> s) * w + k) <<< s) ||| (c % 2 ^ s)) = c ∧
    (w = 1 → ((((c >>> s) * w + k) <<< s) ||| (c % 2 ^ s)) = c ∧ skx_do_interleave c s 1 c = c) := by
  have hy : c % 2 ^ s < 2 ^ s := Nat.mod_lt _ (by positivity)
  have hpos : 0 < 2 ^ s := by positivity
  have ha := striped_eq_add ((c >>> s) * w + k) s (c % 2 ^ s) hy
  rw [Nat.shiftRight_eq_div_pow] at ha hfit ⊢
  have hmain : skx_do_interleave ((((c / 2 ^ s) * w + k) <<< s) ||| (c % 2 ^ s)) s w
      ((((c / 2 ^ s) * w + k) <<< s) ||| (c % 2 ^ s)) = c := by
    rw [ha] at hfit ⊢
    unfold skx_do_interleave
    have h2 : (1 <<< s : Nat) = 2 ^ s := by rw [Nat.shiftLeft_eq, Nat.one_mul]
    rw [h2, Nat.and_pow_two_sub_one_eq_mod, Nat.shiftRight_eq_div_pow]
    have e1 : (2 ^ s * (c / 2 ^ s * w + k) + c % 2 ^ s) / 2 ^ s = c / 2 ^ s * w + k := by
      rw [Nat.mul_add_div hpos, Nat.div_eq_of_lt hy, Nat.add_zero]
    have e2 : (c / 2 ^ s * w + k) / w = c / 2 ^ s := by
      rw [Nat.add_comm, Nat.add_mul_div_right _ _ (by omega), Nat.div_eq_of_lt hk, Nat.zero_add]
    have e3 : (2 ^ s * (c / 2 ^ s * w + k) + c % 2 ^ s) % 2 ^ s = c % 2 ^ s := by
      rw [Nat.mul_add_mod, Nat.mod_mod]
    rw [e1, e2, e3, Nat.shiftLeft_eq]
    have hle : c / 2 ^ s * 2 ^ s ≤ 2 ^ s * (c / 2 ^ s * w + k) + c % 2 ^ s := by
      have h1 : c / 2 ^ s ≤ c / 2 ^ s * w + k :=
        le_trans (Nat.le_mul_of_pos_right _ (by omega)) (Nat.le_add_right _ _)
      have h3 : c / 2 ^ s * 2 ^ s ≤ 2 ^ s * (c / 2 ^ s * w + k) := by
        rw [Nat.mul_comm]
        exact Nat.mul_le_mul_left _ h1
      omega
    rw [Nat.mod_eq_of_lt (by omega), Nat.mul_comm, ← Nat.mul_add_lt_is_or hy]
    exact Nat.div_add_mod c (2 ^ s)
  refine ⟨hmain, ?_⟩
  intro h1
  subst h1
  have hk0 : k = 0 := by omega
  subst hk0
  have hc : ((c / 2 ^ s * 1 + 0) <<< s) ||| (c % 2 ^ s) = c := by
    rw [ha, Nat.mul_one, Nat.add_zero]
    exact Nat.div_add_mod c (2 ^ s)
  refine ⟨hc, ?_⟩
  rw [hc] at hmain
  exact hmain

/-- Witness of C31: the channel address `0x12345` striped 3 ways at bit 6
with way index 2 is `0x36A45`. -/
theorem C31_do_interleave_inverts_striping_witness :
    skx_do_interleave 0x36A45 6 3 0x36A45 = 0x12345 :=
  (C31_do_interleave_inverts_striping 6 3 0x12345 2 (by decide) (by decide) (by decide)).1

/-! ## The boundary row and the decode -/

theorem early_skx_sad_decode_boundary (env : SkxEnv) (B : Nat) (res : decoded_addr) :
    early_skx_sad_decode { env with himem_subarray_boundary_row := B } res =
      early_skx_sad_decode env res := rfl

theorem early_skx_tad_scan_boundary (env : SkxEnv) (B : Nat) (res : decoded_addr) (n i : Nat) :
    early_skx_tad_scan { env with himem_subarray_boundary_row := B } res n i =
      early_skx_tad_scan env res n i := by
  induction n generalizing i with
  | zero => rfl
  | succ n ih => simp only [early_skx_tad_scan, ih]

theorem early_skx_tad_decode_boundary (env : SkxEnv) (B : Nat) (res : decoded_addr) :
    early_skx_tad_decode { env with himem_subarray_boundary_row := B } res =
      early_skx_tad_decode env res := by
  unfold early_skx_tad_decode
  rw [early_skx_tad_scan_boundary]

theorem early_skx_rir_decode_boundary (env : SkxEnv) (B : Nat) (res : decoded_addr) :
    early_skx_rir_decode { env with himem_subarray_boundary_row := B } res =
      early_skx_rir_decode env res := rfl

/-- The record `early_skx_mad_decode` leaves, as the record it leaves with
boundary row 0 and the group of the boundary row in force. -/
theorem early_skx_mad_decode_boundary (env : SkxEnv) (B : Nat) (r : decoded_addr) :
    early_skx_mad_decode { env with himem_subarray_boundary_row := B } r =
      (true, { (early_skx_mad_decode { env with himem_subarray_boundary_row := 0 } r).2 with
        subarray_group :=
          early_skx_reserved_group { env with himem_subarray_boundary_row := B } r.socket
            (early_skx_mad_row env r)
            (early_skx_provisional_group env ((env.skx_sock_devs r.dev).imc r.imc) r.socket
              (early_skx_mad_row env r)) }) := rfl

/-- Outside the reserved window of socket 0, and on every other socket, the
reserved-id statement does not depend on the boundary row. -/
theorem early_skx_reserved_group_boundary (env : SkxEnv) (B : Nat) (socket : Int) (row : Nat)
    (p : Int) (h : socket ≠ 0 ∨ row < B ∨ B + 32 ≤ row) :
    early_skx_reserved_group { env with himem_subarray_boundary_row := B } socket row p =
      early_skx_reserved_group { env with himem_subarray_boundary_row := 0 } socket row p := by
  unfold early_skx_reserved_group
  simp only []
  by_cases hs : socket ≠ 0
  · rw [if_pos hs, if_pos hs]
  · rw [if_neg hs, if_neg hs]
    have hw : ¬ (row ≥ B ∧ row < (B + 32) % 2 ^ 32) := by
      rintro ⟨h1, h2⟩
      have h3 : (B + 32) % 2 ^ 32 ≤ B + 32 := Nat.mod_le _ _
      rcases h with h | h | h
      · exact hs h
      · omega
      · omega
    have h0 : ¬ ((0 : Nat) ≠ 0) := fun hc => hc rfl
    by_cases hB : B ≠ 0
    · rw [if_pos hB, if_neg hw, if_neg h0]
    · rw [if_neg hB, if_neg h0]

/-- C39: recording the high-memory boundary row changes the early decode
only inside the reserved window.  For every configuration, every boundary
row `B` and every record, the decode with boundary row `B` and the decode
with boundary row 0 return the same flag and the same record but for
`subarray_group`; and the subarray group is the same too whenever the
decode with boundary row `B` lands on a socket other than 0, or at a row
outside `[B, B + 32)`. -/
theorem C39_boundary_row_frame (env : SkxEnv) (B : Nat) (res : decoded_addr) :
    (early_skx_decode_at env B res).1 = (early_skx_decode_at env 0 res).1 ∧
    (early_skx_decode_at env B res).2 =
      { (early_skx_decode_at env 0 res).2 with
        subarray_group := (early_skx_decode_at env B res).2.subarray_group } ∧
    (((early_skx_decode_at env B res).2.socket ≠ 0 ∨
        (early_skx_decode_at env B res).2.row < (B : Int) ∨
        (B : Int) + 32 ≤ (early_skx_decode_at env B res).2.row) →
      (early_skx_decode_at env B res).2.subarray_group =
        (early_skx_decode_at env 0 res).2.subarray_group) := by
  unfold early_skx_decode_at early_skx_decode_local
  simp only [early_skx_sad_decode_boundary, early_skx_tad_decode_boundary,
    early_skx_rir_decode_boundary]
  by_cases h1 : (early_skx_sad_decode env res).1 = true
  · simp only [h1, if_true]
    by_cases h2 : (early_skx_tad_decode env (early_skx_sad_decode env res).2).1 = true
    · simp only [h2, if_true]
      by_cases h3 : (early_skx_rir_decode env
          (early_skx_tad_decode env (early_skx_sad_decode env res).2).2).1 = true
      · simp only [h3, if_true]
        generalize (early_skx_rir_decode env
          (early_skx_tad_decode env (early_skx_sad_decode env res).2).2).2 = r
        refine ⟨rfl, ?_, ?_⟩
        · rw [early_skx_mad_decode_boundary env B r]
        · intro h
          rw [early_skx_mad_decode_boundary env B r] at h ⊢
          rw [early_skx_mad_decode_boundary env 0 r]
          simp only [] at h ⊢
          apply early_skx_reserved_group_boundary
          have hrow : (early_skx_mad_decode { env with himem_subarray_boundary_row := 0 } r).2.row =
              (early_skx_mad_row env r : Int) := rfl
          have hsock : (early_skx_mad_decode { env with himem_subarray_boundary_row := 0 }
              r).2.socket = r.socket := rfl
          rw [hrow, hsock] at h
          rcases h with h | h | h
          · exact Or.inl h
          · exact Or.inr (Or.inl (by exact_mod_cast h))
          · exact Or.inr (Or.inr (by exact_mod_cast h))
      · simp only [h3, Bool.false_eq_true, if_false]
        exact ⟨trivial, trivial, fun _ => trivial⟩
    · simp only [h2, Bool.false_eq_true, if_false]
      exact ⟨trivial, trivial, fun _ => trivial⟩
  · simp only [h1, Bool.false_eq_true, if_false]
    exact ⟨trivial, trivial, fun _ => trivial⟩

/-! ## Stage 4 loses no address bit -/

theorem skx_bits_succ (addr n : Nat) (bits : List Nat) :
    skx_bits addr (n + 1) bits =
      skx_bits addr n bits ||| (((addr >>> bits.getD n 0) &&& 1) <<< n) := by
  unfold skx_bits
  rw [List.range_succ, List.foldl_append]
  rfl

/-- Bit `i` of `skx_bits(addr, nbits, bits)` is bit `bits[i]` of `addr` for
`i < nbits`, and clear from `nbits` on. -/
theorem skx_bits_testBit (addr : Nat) (bits : List Nat) (n i : Nat) :
    (skx_bits addr n bits).testBit i = (decide (i < n) && addr.testBit (bits.getD i 0)) := by
  induction n with
  | zero => simp [skx_bits]
  | succ n ih =>
    rw [skx_bits_succ, Nat.testBit_or, ih, Nat.testBit_shiftLeft, Nat.and_one_is_mod]
    have h2 : (addr >>> bits.getD n 0) % 2 = (addr >>> bits.getD n 0) % 2 ^ 1 := by norm_num
    rw [h2, Nat.testBit_mod_two_pow, Nat.testBit_shiftRight]
    by_cases h1 : i < n
    · have e1 : ¬ (i ≥ n) := by omega
      have e2 : i < n + 1 := by omega
      simp [h1, e1, e2]
    · by_cases h3 : i = n
      · subst h3
        simp
      · have e1 : ¬ (i < n + 1) := by omega
        have e2 : ¬ (i - n < 1) := by omega
        simp [h1, e1, e2]

theorem GET_BITFIELD_bit_testBit (v b j : Nat) :
    (GET_BITFIELD v b b).testBit j = (decide (j = 0) && v.testBit b) := by
  unfold GET_BITFIELD
  have h : b + 1 - b = 1 := by omega
  rw [h, Nat.testBit_mod_two_pow, Nat.testBit_shiftRight]
  by_cases hj : j = 0
  · subst hj
    simp
  · have : ¬ j < 1 := by omega
    simp [hj, this]

/-- Bit 0 and bit 1 of `skx_bank_bits`. -/
theorem skx_bank_bits_testBit (addr b0 b1 do_xor x0 x1 : Nat) :
    (skx_bank_bits addr b0 b1 do_xor x0 x1).testBit 0 =
        xor (addr.testBit b0) (decide (do_xor ≠ 0) && addr.testBit x0) ∧
    (skx_bank_bits addr b0 b1 do_xor x0 x1).testBit 1 =
        xor (addr.testBit b1) (decide (do_xor ≠ 0) && addr.testBit x1) := by
  unfold skx_bank_bits
  by_cases hx : do_xor ≠ 0
  · simp only [if_pos hx]
    simp only [Nat.testBit_xor, Nat.testBit_or, Nat.testBit_shiftLeft, GET_BITFIELD_bit_testBit]
    simp [hx]
  · simp only [if_neg hx]
    simp only [Nat.testBit_or, Nat.testBit_shiftLeft, GET_BITFIELD_bit_testBit]
    simp [hx]

theorem skx_bits_masked_agree (a b n : Nat) (bits : List Nat)
    (h : skx_bits a n bits &&& (2 ^ n - 1) = skx_bits b n bits &&& (2 ^ n - 1)) (i : Nat)
    (hi : i < n) : a.testBit (bits.getD i 0) = b.testBit (bits.getD i 0) := by
  have h1 := congrArg (fun x => x.testBit i) h
  simp only [Nat.testBit_and, Nat.testBit_two_pow_sub_one, skx_bits_testBit] at h1
  simpa [hi] using h1

theorem skx_bits_agree (a b n : Nat) (bits : List Nat)
    (h : skx_bits a n bits = skx_bits b n bits) (i : Nat)
    (hi : i < n) : a.testBit (bits.getD i 0) = b.testBit (bits.getD i 0) := by
  have h1 := congrArg (fun x => x.testBit i) h
  simp only [skx_bits_testBit] at h1
  simpa [hi] using h1

theorem skx_bits_autoprecharge_agree (a b : Nat) (bits : List Nat)
    (h : skx_bits a 10 bits ||| 0x400 = skx_bits b 10 bits ||| 0x400) (i : Nat)
    (hi : i < 10) : a.testBit (bits.getD i 0) = b.testBit (bits.getD i 0) := by
  have h1 := congrArg (fun x => x.testBit i) h
  have h2 : (0x400 : Nat) = 2 ^ 10 := by norm_num
  have h3 : (10 : Nat) ≠ i := by omega
  simp only [Nat.testBit_or, skx_bits_testBit, h2, Nat.testBit_two_pow, h3] at h1
  simpa [hi] using h1

theorem bool_xor_cancel (x y c : Bool) (h : xor x c = xor y c) : x = y := by
  cases x <;> cases y <;> cases c <;> simp_all

theorem forall_mem_of_getD (P : Nat → Prop) (bits : List Nat)
    (h : ∀ i, i < bits.length → P (bits.getD i 0)) : ∀ b, b ∈ bits → P b := by
  intro b hb
  obtain ⟨i, hi, rfl⟩ := List.mem_iff_getElem.mp hb
  have := h i hi
  rwa [List.getD_eq_getElem _ _ hi] at this

/-- With 17 row bits and 10 column bits the positions read by stage 4 are
pairwise distinct and are exactly the bits 3 to 33. -/
theorem early_skx_mad_positions_cover (imc : skx_imc) (hrb : imc.rowbits = 17)
    (hcb : imc.colbits = 10) :
    (early_skx_mad_positions imc).Nodup ∧
    ∀ b, b ∈ early_skx_mad_positions imc ↔ 3 ≤ b ∧ b ≤ 33 := by
  unfold early_skx_mad_positions
  rw [hrb, hcb]
  by_cases hcp : imc.close_pg ≠ 0
  · simp only [if_pos hcp]
    refine ⟨by decide, fun b => ⟨fun h => ?_, fun h => ?_⟩⟩
    · simp [skx_close_row, skx_close_column] at h
      omega
    · obtain ⟨h1, h2⟩ := h
      interval_cases b <;> decide
  · simp only [if_neg hcp]
    by_cases hf : imc.fine_grain_bank ≠ 0
    · simp only [if_pos hf]
      refine ⟨by decide, fun b => ⟨fun h => ?_, fun h => ?_⟩⟩
      · simp [skx_open_row, skx_open_fine_column] at h
        omega
      · obtain ⟨h1, h2⟩ := h
        interval_cases b <;> decide
    · simp only [if_neg hf]
      refine ⟨by decide, fun b => ⟨fun h => ?_, fun h => ?_⟩⟩
      · simp [skx_open_row, skx_open_column] at h
        omega
      · obtain ⟨h1, h2⟩ := h
        interval_cases b <;> decide

/-- Two rank addresses that `early_skx_mad_decode` maps to the same row,
column, bank address and bank group, for a geometry of 17 row bits and 10
column bits, agree on every position of `early_skx_mad_positions`. -/
theorem early_skx_mad_decode_positions_agree (env : SkxEnv) (r r' : decoded_addr)
    (hdev : r'.dev = r.dev) (himc : r'.imc = r.imc)
    (hrb : ((env.skx_sock_devs r.dev).imc r.imc).rowbits = 17)
    (hcb : ((env.skx_sock_devs r.dev).imc r.imc).colbits = 10)
    (hrow : (early_skx_mad_decode env r).2.row = (early_skx_mad_decode env r').2.row)
    (hcol : (early_skx_mad_decode env r).2.column = (early_skx_mad_decode env r').2.column)
    (hba : (early_skx_mad_decode env r).2.bank_address =
      (early_skx_mad_decode env r').2.bank_address)
    (hbg : (early_skx_mad_decode env r).2.bank_group =
      (early_skx_mad_decode env r').2.bank_group) :
    ∀ b, b ∈ early_skx_mad_positions ((env.skx_sock_devs r.dev).imc r.imc) →
      r.rank_address.testBit b = r'.rank_address.testBit b := by
  simp only [early_skx_mad_decode, hdev, himc, hrb, hcb, Nat.cast_inj] at hrow hcol hba hbg
  unfold early_skx_mad_positions
  rw [hrb, hcb]
  generalize ((env.skx_sock_devs r.dev).imc r.imc).close_pg = cp at *
  generalize ((env.skx_sock_devs r.dev).imc r.imc).fine_grain_bank = fg at *
  generalize ((env.skx_sock_devs r.dev).imc r.imc).bank_xor_enable = bx at *
  generalize r.rank_address = a at *
  generalize r'.rank_address = a' at *
  by_cases hcp : cp ≠ 0
  · simp only [if_pos hcp] at hrow hcol hba hbg ⊢
    have hR := forall_mem_of_getD (fun b => a.testBit b = a'.testBit b) skx_close_row
      (fun i hi => skx_bits_masked_agree a a' 17 skx_close_row hrow i hi)
    have hC := forall_mem_of_getD (fun b => a.testBit b = a'.testBit b) skx_close_column
      (fun i hi => skx_bits_autoprecharge_agree a a' skx_close_column hcol i hi)
    simp only [] at hR hC
    have h22 := hR 22 (by decide)
    have h28 := hR 28 (by decide)
    have h20 := hR 20 (by decide)
    have h21 := hR 21 (by decide)
    have b0 := congrArg (fun x => x.testBit 0) hba
    have b1 := congrArg (fun x => x.testBit 1) hba
    have g0 := congrArg (fun x => x.testBit 0) hbg
    have g1 := congrArg (fun x => x.testBit 1) hbg
    simp only [(skx_bank_bits_testBit _ _ _ _ _ _).1, (skx_bank_bits_testBit _ _ _ _ _ _).2,
      h22, h28, h20, h21] at b0 b1 g0 g1
    have b0' := bool_xor_cancel _ _ _ b0
    have b1' := bool_xor_cancel _ _ _ b1
    have g0' := bool_xor_cancel _ _ _ g0
    have g1' := bool_xor_cancel _ _ _ g1
    intro b hb
    simp only [List.mem_append, List.mem_cons, List.mem_singleton, List.not_mem_nil,
      or_false] at hb
    rcases hb with ((hb | hb) | hb | hb) | hb | hb
    · exact hR b (List.mem_of_mem_take hb)
    · exact hC b (List.mem_of_mem_take hb)
    · rw [hb]; exact b0'
    · rw [hb]; exact b1'
    · rw [hb]; exact g0'
    · rw [hb]; exact g1'
  · simp only [if_neg hcp] at hrow hcol hba hbg ⊢
    by_cases hf : fg ≠ 0
    · simp only [if_pos hf] at hrow hcol hba hbg ⊢
      have hR := forall_mem_of_getD (fun b => a.testBit b = a'.testBit b) skx_open_row
        (fun i hi => skx_bits_masked_agree a a' 17 skx_open_row hrow i hi)
      have hC := forall_mem_of_getD (fun b => a.testBit b = a'.testBit b) skx_open_fine_column
        (fun i hi => skx_bits_agree a a' 10 skx_open_fine_column hcol i hi)
      simp only [] at hR hC
      have h22 := hR 22 (by decide)
      have h23 := hR 23 (by decide)
      have h20 := hR 20 (by decide)
      have h21 := hR 21 (by decide)
      have b0 := congrArg (fun x => x.testBit 0) hba
      have b1 := congrArg (fun x => x.testBit 1) hba
      have g0 := congrArg (fun x => x.testBit 0) hbg
      have g1 := congrArg (fun x => x.testBit 1) hbg
      simp only [(skx_bank_bits_testBit _ _ _ _ _ _).1, (skx_bank_bits_testBit _ _ _ _ _ _).2,
        h22, h23, h20, h21] at b0 b1 g0 g1
      have b0' := bool_xor_cancel _ _ _ b0
      have b1' := bool_xor_cancel _ _ _ b1
      have g0' := bool_xor_cancel _ _ _ g0
      have g1' := bool_xor_cancel _ _ _ g1
      intro b hb
      simp only [List.mem_append, List.mem_cons, List.mem_singleton, List.not_mem_nil,
        or_false] at hb
      rcases hb with ((hb | hb) | hb | hb) | hb | hb
      · exact hR b (List.mem_of_mem_take hb)
      · exact hC b (List.mem_of_mem_take hb)
      · rw [hb]; exact b0'
      · rw [hb]; exact b1'
      · rw [hb]; exact g0'
      · rw [hb]; exact g1'
    · simp only [if_neg hf] at hrow hcol hba hbg ⊢
      have hR := forall_mem_of_getD (fun b => a.testBit b = a'.testBit b) skx_open_row
        (fun i hi => skx_bits_masked_agree a a' 17 skx_open_row hrow i hi)
      have hC := forall_mem_of_getD (fun b => a.testBit b = a'.testBit b) skx_open_column
        (fun i hi => skx_bits_agree a a' 10 skx_open_column hcol i hi)
      simp only [] at hR hC
      have h22 := hR 22 (by decide)
      have h23 := hR 23 (by decide)
      have h20 := hR 20 (by decide)
      have h21 := hR 21 (by decide)
      have b0 := congrArg (fun x => x.testBit 0) hba
      have b1 := congrArg (fun x => x.testBit 1) hba
      have g0 := congrArg (fun x => x.testBit 0) hbg
      have g1 := congrArg (fun x => x.testBit 1) hbg
      simp only [(skx_bank_bits_testBit _ _ _ _ _ _).1, (skx_bank_bits_testBit _ _ _ _ _ _).2,
        h22, h23, h20, h21] at b0 b1 g0 g1
      have b0' := bool_xor_cancel _ _ _ b0
      have b1' := bool_xor_cancel _ _ _ b1
      have g0' := bool_xor_cancel _ _ _ g0
      have g1' := bool_xor_cancel _ _ _ g1
      intro b hb
      simp only [List.mem_append, List.mem_cons, List.mem_singleton, List.not_mem_nil,
        or_false] at hb
      rcases hb with ((hb | hb) | hb | hb) | hb | hb
      · exact hR b (List.mem_of_mem_take hb)
      · exact hC b (List.mem_of_mem_take hb)
      · rw [hb]; exact b0'
      · rw [hb]; exact b1'
      · rw [hb]; exact g0'
      · rw [hb]; exact g1'

/-- C37: with `rowbits = 17` and `colbits = 10`, in close-page mode, in
open-page mode and in open-page fine-grain-bank mode, with bank xor on or
off, stage 4 loses no bit of the rank address in the range 3..33: two
records of the same device and controller that `early_skx_mad_decode` maps
to the same row, column, bank address and bank group have rank addresses
that agree on every bit from 3 to 33.  The positions the function reads for
the four fields are pairwise distinct and are exactly the bits 3..33. -/
theorem C37_mad_decode_keeps_bits_3_to_33 (env : SkxEnv) (r r' : decoded_addr)
    (hdev : r'.dev = r.dev) (himc : r'.imc = r.imc)
    (hrb : ((env.skx_sock_devs r.dev).imc r.imc).rowbits = 17)
    (hcb : ((env.skx_sock_devs r.dev).imc r.imc).colbits = 10)
    (hrow : (early_skx_mad_decode env r).2.row = (early_skx_mad_decode env r').2.row)
    (hcol : (early_skx_mad_decode env r).2.column = (early_skx_mad_decode env r').2.column)
    (hba : (early_skx_mad_decode env r).2.bank_address =
      (early_skx_mad_decode env r').2.bank_address)
    (hbg : (early_skx_mad_decode env r).2.bank_group =
      (early_skx_mad_decode env r').2.bank_group) :
    (∀ b, 3 ≤ b → b ≤ 33 → r.rank_address.testBit b = r'.rank_address.testBit b) ∧
    GET_BITFIELD r.rank_address 3 33 = GET_BITFIELD r'.rank_address 3 33 ∧
    (early_skx_mad_positions ((env.skx_sock_devs r.dev).imc r.imc)).Nodup ∧
    (∀ b, b ∈ early_skx_mad_positions ((env.skx_sock_devs r.dev).imc r.imc) ↔
      3 ≤ b ∧ b ≤ 33) := by
  obtain ⟨hnd, hcover⟩ := early_skx_mad_positions_cover _ hrb hcb
  have hag := early_skx_mad_decode_positions_agree env r r' hdev himc hrb hcb hrow hcol hba hbg
  have hbits : ∀ b, 3 ≤ b → b ≤ 33 → r.rank_address.testBit b = r'.rank_address.testBit b :=
    fun b h1 h2 => hag b ((hcover b).mpr ⟨h1, h2⟩)
  refine ⟨hbits, ?_, hnd, hcover⟩
  unfold GET_BITFIELD
  apply Nat.eq_of_testBit_eq
  intro i
  rw [Nat.testBit_mod_two_pow, Nat.testBit_mod_two_pow, Nat.testBit_shiftRight,
    Nat.testBit_shiftRight]
  by_cases hi : i < 33 + 1 - 3
  · rw [hbits (3 + i) (by omega) (by omega)]
  · simp [hi]

/-- Witness of C37: on the open-page geometry of `env0` (17 row bits, 10
column bits, bank xor on) the rank addresses `0x12500000` and `0x12500007`
decode to the same row, column, bank address and bank group; they differ in
bits 0 to 2 only. -/
theorem C37_mad_decode_keeps_bits_3_to_33_witness :
    GET_BITFIELD (rec_rank 0 0x12500000).rank_address 3 33 =
      GET_BITFIELD (rec_rank 0 0x12500007).rank_address 3 33 :=
  (C37_mad_decode_keeps_bits_3_to_33 env0 (rec_rank 0 0x12500000) (rec_rank 0 0x12500007)
    rfl rfl (by decide) (by decide) (by decide) (by decide) (by decide) (by decide)).2.1

/-! ## Stage 3: first fit and the shift -/

/-- The scan rule of the code and the rule "valid, limit at least the
channel address" select the same first entry when every entry before it is
valid. -/
theorem rir_fits_iff_of_valid_prefix (rir : Nat → Nat) (chan_addr i : Nat)
    (hvalid : ∀ j, j < i → SKX_RIR_VALID (rir j) ≠ 0)
    (hnone : ∀ j, j < i → ¬ RirEntryValidBelowLimit rir chan_addr j) :
    RirEntryFits rir chan_addr i ↔ RirEntryValidBelowLimit rir chan_addr i := by
  unfold RirEntryFits RirEntryValidBelowLimit
  constructor
  · intro h
    exact ⟨h.1, h.2.2⟩
  · intro h
    refine ⟨h.1, ?_, h.2⟩
    cases i with
    | zero => exact Nat.zero_le _
    | succ j =>
      have h1 := hnone j (by omega)
      unfold RirEntryValidBelowLimit at h1
      have h2 := hvalid j (by omega)
      simp only [rir_prev_limit]
      by_contra hc
      exact h1 ⟨h2, by omega⟩

/-- What the scan `early_skx_rir_scan` returns, started at entry `i` with the bound
of entry `i` in force. -/
theorem early_skx_rir_scan_spec (env : SkxEnv) (res : decoded_addr) :
    ∀ n i prev : Nat, prev = rir_prev_limit (early_skx_rir_table env res) i →
      match early_skx_rir_scan env res n i prev with
      | some (j, w) =>
        i ≤ j ∧ j < i + n ∧ w = early_skx_rir_table env res j ∧
          RirEntryFits (early_skx_rir_table env res) res.chan_addr j ∧
          ∀ l, i ≤ l → l < j → ¬ RirEntryFits (early_skx_rir_table env res) res.chan_addr l
      | none =>
        ∀ l, i ≤ l → l < i + n → ¬ RirEntryFits (early_skx_rir_table env res) res.chan_addr l := by
  intro n
  induction n with
  | zero =>
    intro i prev _
    simp only [early_skx_rir_scan]
    intro l h1 h2
    omega
  | succ n ih =>
    intro i prev hprev
    simp only [early_skx_rir_scan]
    by_cases hc : SKX_RIR_VALID (env.early_skx_rirwayness res.socket res.imc res.channel i) ≠ 0 ∧ prev ≤ res.chan_addr ∧
        res.chan_addr ≤ SKX_RIR_LIMIT (env.early_skx_rirwayness res.socket res.imc res.channel i)
    · rw [if_pos hc]
      refine ⟨le_refl _, by omega, rfl, ?_, ?_⟩
      · unfold RirEntryFits
        rw [← hprev]
        exact hc
      · intro l h1 h2
        omega
    · rw [if_neg hc]
      have hi := ih (i + 1) (SKX_RIR_LIMIT (env.early_skx_rirwayness res.socket res.imc res.channel i)) rfl
      have hnot : ¬ RirEntryFits (early_skx_rir_table env res) res.chan_addr i := by
        unfold RirEntryFits
        rw [← hprev]
        exact hc
      revert hi
      cases early_skx_rir_scan env res n (i + 1) (SKX_RIR_LIMIT (env.early_skx_rirwayness res.socket res.imc res.channel i)) with
      | none =>
        intro hi l h1 h2
        by_cases hl : l = i
        · rw [hl]; exact hnot
        · exact hi l (by omega) (by omega)
      | some p =>
        obtain ⟨j, w⟩ := p
        intro hi
        obtain ⟨a, b, c, e, f⟩ := hi
        refine ⟨by omega, by omega, c, e, ?_⟩
        intro l h1 h2
        by_cases hl : l = i
        · rw [hl]; exact hnot
        · exact f l (by omega) h2

/-- The scan `early_skx_rir_scan` over the 4 entries is first fit. -/
theorem early_skx_rir_scan_first_fit (env : SkxEnv) (res : decoded_addr) :
    (∀ i w : Nat, early_skx_rir_scan env res SKX_MAX_RIR 0 0 = some (i, w) ↔
      (i < 4 ∧ w = early_skx_rir_table env res i ∧ RirEntryFits (early_skx_rir_table env res) res.chan_addr i ∧
        ∀ j, j < i → ¬ RirEntryFits (early_skx_rir_table env res) res.chan_addr j)) ∧
    (early_skx_rir_scan env res SKX_MAX_RIR 0 0 = none ↔
      ∀ i, i < 4 → ¬ RirEntryFits (early_skx_rir_table env res) res.chan_addr i) := by
  have hs := early_skx_rir_scan_spec env res SKX_MAX_RIR 0 0 rfl
  revert hs
  cases early_skx_rir_scan env res SKX_MAX_RIR 0 0 with
  | none =>
    intro hs
    have hs' : ∀ i, i < 4 → ¬ RirEntryFits (early_skx_rir_table env res) res.chan_addr i :=
      fun i hi => hs i (by omega) (by simp only [SKX_MAX_RIR]; omega)
    refine ⟨fun i w => ⟨fun h => Option.noConfusion h, fun h => absurd h.2.2.1 (hs' i h.1)⟩,
      fun _ => hs', fun _ => rfl⟩
  | some p =>
    obtain ⟨j, w2⟩ := p
    intro hs
    obtain ⟨_, b, c, e, f⟩ := hs
    have hj : j < 4 := by simp only [SKX_MAX_RIR] at b; omega
    refine ⟨fun i w => ⟨fun h => ?_, fun h => ?_⟩,
      fun h => Option.noConfusion h, fun h => absurd e (h j hj)⟩
    · simp only [Option.some.injEq, Prod.mk.injEq] at h
      obtain ⟨h1, h2⟩ := h
      subst h1; subst h2
      exact ⟨hj, c, e, fun l hl => f l (by omega) hl⟩
    · obtain ⟨h1, h2, h3, h4⟩ := h
      have hij : j = i := by
        rcases Nat.lt_trichotomy j i with hlt | heq | hgt
        · exact absurd e (h4 j hlt)
        · exact heq
        · exact absurd h3 (f i (by omega) hgt)
      subst hij
      rw [c, h2]

/-- What the scan `skx_rir_scan` returns, started at entry `i` with the bound
of entry `i` in force. -/
theorem skx_rir_scan_spec (env : SkxEnv) (res : decoded_addr) :
    ∀ n i prev : Nat, prev = rir_prev_limit (skx_rir_table env res) i →
      match skx_rir_scan env res n i prev with
      | some (j, w) =>
        i ≤ j ∧ j < i + n ∧ w = skx_rir_table env res j ∧
          RirEntryFits (skx_rir_table env res) res.chan_addr j ∧
          ∀ l, i ≤ l → l < j → ¬ RirEntryFits (skx_rir_table env res) res.chan_addr l
      | none =>
        ∀ l, i ≤ l → l < i + n → ¬ RirEntryFits (skx_rir_table env res) res.chan_addr l := by
  intro n
  induction n with
  | zero =>
    intro i prev _
    simp only [skx_rir_scan]
    intro l h1 h2
    omega
  | succ n ih =>
    intro i prev hprev
    simp only [skx_rir_scan]
    by_cases hc : SKX_RIR_VALID (env.pci_read_config_dword
          (((env.skx_sock_devs res.dev).imc res.imc).chan res.channel).cdev (0x108 + 4 * i)) ≠ 0 ∧ prev ≤ res.chan_addr ∧
        res.chan_addr ≤ SKX_RIR_LIMIT (env.pci_read_config_dword
          (((env.skx_sock_devs res.dev).imc res.imc).chan res.channel).cdev (0x108 + 4 * i))
    · rw [if_pos hc]
      refine ⟨le_refl _, by omega, rfl, ?_, ?_⟩
      · unfold RirEntryFits
        rw [← hprev]
        exact hc
      · intro l h1 h2
        omega
    · rw [if_neg hc]
      have hi := ih (i + 1) (SKX_RIR_LIMIT (env.pci_read_config_dword
          (((env.skx_sock_devs res.dev).imc res.imc).chan res.channel).cdev (0x108 + 4 * i))) rfl
      have hnot : ¬ RirEntryFits (skx_rir_table env res) res.chan_addr i := by
        unfold RirEntryFits
        rw [← hprev]
        exact hc
      revert hi
      cases skx_rir_scan env res n (i + 1) (SKX_RIR_LIMIT (env.pci_read_config_dword
          (((env.skx_sock_devs res.dev).imc res.imc).chan res.channel).cdev (0x108 + 4 * i))) with
      | none =>
        intro hi l h1 h2
        by_cases hl : l = i
        · rw [hl]; exact hnot
        · exact hi l (by omega) (by omega)
      | some p =>
        obtain ⟨j, w⟩ := p
        intro hi
        obtain ⟨a, b, c, e, f⟩ := hi
        refine ⟨by omega, by omega, c, e, ?_⟩
        intro l h1 h2
        by_cases hl : l = i
        · rw [hl]; exact hnot
        · exact f l (by omega) h2

/-- The scan `skx_rir_scan` over the 4 entries is first fit. -/
theorem skx_rir_scan_first_fit (env : SkxEnv) (res : decoded_addr) :
    (∀ i w : Nat, skx_rir_scan env res SKX_MAX_RIR 0 0 = some (i, w) ↔
      (i < 4 ∧ w = skx_rir_table env res i ∧ RirEntryFits (skx_rir_table env res) res.chan_addr i ∧
        ∀ j, j < i → ¬ RirEntryFits (skx_rir_table env res) res.chan_addr j)) ∧
    (skx_rir_scan env res SKX_MAX_RIR 0 0 = none ↔
      ∀ i, i < 4 → ¬ RirEntryFits (skx_rir_table env res) res.chan_addr i) := by
  have hs := skx_rir_scan_spec env res SKX_MAX_RIR 0 0 rfl
  revert hs
  cases skx_rir_scan env res SKX_MAX_RIR 0 0 with
  | none =>
    intro hs
    have hs' : ∀ i, i < 4 → ¬ RirEntryFits (skx_rir_table env res) res.chan_addr i :=
      fun i hi => hs i (by omega) (by simp only [SKX_MAX_RIR]; omega)
    refine ⟨fun i w => ⟨fun h => Option.noConfusion h, fun h => absurd h.2.2.1 (hs' i h.1)⟩,
      fun _ => hs', fun _ => rfl⟩
  | some p =>
    obtain ⟨j, w2⟩ := p
    intro hs
    obtain ⟨_, b, c, e, f⟩ := hs
    have hj : j < 4 := by simp only [SKX_MAX_RIR] at b; omega
    refine ⟨fun i w => ⟨fun h => ?_, fun h => ?_⟩,
      fun h => Option.noConfusion h, fun h => absurd e (h j hj)⟩
    · simp only [Option.some.injEq, Prod.mk.injEq] at h
      obtain ⟨h1, h2⟩ := h
      subst h1; subst h2
      exact ⟨hj, c, e, fun l hl => f l (by omega) hl⟩
    · obtain ⟨h1, h2, h3, h4⟩ := h
      have hij : j = i := by
        rcases Nat.lt_trichotomy j i with hlt | heq | hgt
        · exact absurd e (h4 j hlt)
        · exact heq
        · exact absurd h3 (f i (by omega) hgt)
      subst hij
      rw [c, h2]

/-- C32 (amended): stage 3 of both pipelines is first fit with a lower
bound.  With `prev_0 = 0` and `prev_i` the limit of entry `i - 1` (valid or
not), the scan of the 4 entries returns entry `i` exactly when `i` is the
lowest index whose entry is valid and has `prev_i <= chan_addr <= limit_i`;
it ends without an entry exactly when no entry is so, and the stage then
returns false and leaves the record as it was.  When every entry before `i`
is valid and none of them has a limit of at least the channel address,
entry `i` passes that test exactly when it is valid and its limit is at
least the channel address.  When the scan returns an entry the stage
returns true, and the de-interleave of the rank address uses the shift 6
in close-page mode (of the controller in the early pipeline, of DIMM 0 of
the channel in the attached one) and 13 otherwise. -/
theorem C32_rir_first_fit_and_shift (env : SkxEnv) (res : decoded_addr) :
    (∀ rir : Nat → Nat, rir_prev_limit rir 0 = 0 ∧
      ∀ i, rir_prev_limit rir (i + 1) = SKX_RIR_LIMIT (rir i)) ∧
    (∀ i w : Nat, early_skx_rir_scan env res SKX_MAX_RIR 0 0 = some (i, w) ↔
      (i < 4 ∧ w = early_skx_rir_table env res i ∧
        RirEntryFits (early_skx_rir_table env res) res.chan_addr i ∧
        ∀ j, j < i → ¬ RirEntryFits (early_skx_rir_table env res) res.chan_addr j)) ∧
    (early_skx_rir_scan env res SKX_MAX_RIR 0 0 = none ↔
      ∀ i, i < 4 → ¬ RirEntryFits (early_skx_rir_table env res) res.chan_addr i) ∧
    (early_skx_rir_scan env res SKX_MAX_RIR 0 0 = none →
      early_skx_rir_decode env res = (false, res)) ∧
    (∀ i w : Nat, early_skx_rir_scan env res SKX_MAX_RIR 0 0 = some (i, w) →
      (early_skx_rir_decode env res).1 = true ∧
      (early_skx_rir_decode env res).2.rank_address =
        ((((((res.chan_addr >>> early_skx_rir_shift env res) / SKX_RIR_WAYS w) <<<
              early_skx_rir_shift env res) % 2 ^ 64) |||
            (res.chan_addr &&& (2 ^ early_skx_rir_shift env res - 1))) + 2 ^ 64 -
          SKX_RIR_OFFSET (env.early_skx_ririlv res.socket res.imc res.channel i
            ((res.chan_addr >>> early_skx_rir_shift env res) % SKX_RIR_WAYS w))) % 2 ^ 64) ∧
    (∀ i w : Nat, skx_rir_scan env res SKX_MAX_RIR 0 0 = some (i, w) ↔
      (i < 4 ∧ w = skx_rir_table env res i ∧
        RirEntryFits (skx_rir_table env res) res.chan_addr i ∧
        ∀ j, j < i → ¬ RirEntryFits (skx_rir_table env res) res.chan_addr j)) ∧
    (skx_rir_scan env res SKX_MAX_RIR 0 0 = none ↔
      ∀ i, i < 4 → ¬ RirEntryFits (skx_rir_table env res) res.chan_addr i) ∧
    (skx_rir_scan env res SKX_MAX_RIR 0 0 = none → skx_rir_decode env res = (false, res)) ∧
    (∀ i w : Nat, skx_rir_scan env res SKX_MAX_RIR 0 0 = some (i, w) →
      (skx_rir_decode env res).1 = true ∧
      (skx_rir_decode env res).2.rank_address =
        ((((((res.chan_addr >>> skx_rir_shift env res) / SKX_RIR_WAYS w) <<<
              skx_rir_shift env res) % 2 ^ 64) |||
            (res.chan_addr &&& (2 ^ skx_rir_shift env res - 1))) + 2 ^ 64 -
          SKX_RIR_OFFSET (env.pci_read_config_dword
            (((env.skx_sock_devs res.dev).imc res.imc).chan res.channel).cdev
            (0x120 + 16 * ((res.chan_addr >>> skx_rir_shift env res) % SKX_RIR_WAYS w) +
              4 * i))) % 2 ^ 64) ∧
    (∀ (rir : Nat → Nat) (i : Nat), (∀ j, j < i → SKX_RIR_VALID (rir j) ≠ 0) →
      (∀ j, j < i → ¬ RirEntryValidBelowLimit rir res.chan_addr j) →
      (RirEntryFits rir res.chan_addr i ↔ RirEntryValidBelowLimit rir res.chan_addr i)) := by
  obtain ⟨e1, e2⟩ := early_skx_rir_scan_first_fit env res
  obtain ⟨a1, a2⟩ := skx_rir_scan_first_fit env res
  refine ⟨fun rir => ⟨rfl, fun i => rfl⟩, e1, e2, ?_, ?_, a1, a2, ?_, ?_,
    fun rir i hv hn => rir_fits_iff_of_valid_prefix rir res.chan_addr i hv hn⟩
  · intro h
    unfold early_skx_rir_decode
    simp only [h]
  · intro i w h
    unfold early_skx_rir_decode early_skx_rir_shift
    simp only [h]
    exact ⟨trivial, trivial⟩
  · intro h
    unfold skx_rir_decode
    simp only [h]
  · intro i w h
    unfold skx_rir_decode skx_rir_shift
    simp only [h]
    exact ⟨trivial, trivial⟩

/-- C32 (counterexample): in `env_rir_gap` entry 0 of the table is invalid
and entry 1 is valid with a limit above the channel address `0x1000`, so
entry 1 is the first valid entry whose limit is at least the channel
address; the bound in force at entry 1 is the limit `2 ^ 29 - 1` of
entry 0, the scan passes entry 1 over, and both stages return false. -/
theorem C32_counterexample :
    ¬ RirEntryValidBelowLimit (early_skx_rir_table env_rir_gap { rec0 0 with chan_addr := 0x1000 })
      0x1000 0 ∧
    RirEntryValidBelowLimit (early_skx_rir_table env_rir_gap { rec0 0 with chan_addr := 0x1000 })
      0x1000 1 ∧
    rir_prev_limit (early_skx_rir_table env_rir_gap { rec0 0 with chan_addr := 0x1000 }) 1 =
      2 ^ 29 - 1 ∧
    (early_skx_rir_decode env_rir_gap { rec0 0 with chan_addr := 0x1000 }).1 = false ∧
    (skx_rir_decode env_rir_gap { rec0 0 with chan_addr := 0x1000 }).1 = false := by
  decide

/-! ## Stage 3: the sub-entry index -/

/-- The index of `early_skx_rir_decode` is the one the stage passes to
`early_skx_ririlv`. -/
theorem early_skx_rir_decode_idx (env : SkxEnv) (res : decoded_addr) (i w : Nat)
    (h : early_skx_rir_scan env res SKX_MAX_RIR 0 0 = some (i, w)) :
    ∃ idx, early_skx_rir_idx env res = some idx ∧ idx < SKX_RIR_WAYS w ∧
      (early_skx_rir_decode env res).2.channel_rank =
        (SKX_RIR_CHAN_RANK (env.early_skx_ririlv res.socket res.imc res.channel i idx) : Int) := by
  unfold early_skx_rir_idx early_skx_rir_decode
  simp only [h]
  exact ⟨_, rfl, Nat.mod_lt _ (SKX_RIR_WAYS_bounds w).1, rfl⟩

/-- C33 (the code, in general and at the failing input).  The sub-entry
index of stage 3 is below `SKX_RIR_WAYS(rirway)`, which is 1, 2, 4 or 8:
it is below 8, and below 4 when the way field is not 3.  In
`env_rir_eight` (way field 3, open page) the channel address `0x8000` gets
index 4: the stage reads `early_skx_ririlv[0][0][0][0][4]`, past the 4
sub-entries of the row, and takes the rank identifier 5 from it. -/
theorem C33_rir_index_reaches_past_sub_table :
    (∀ (env : SkxEnv) (res : decoded_addr) (idx : Nat),
      early_skx_rir_idx env res = some idx → idx < 8) ∧
    (∀ (env : SkxEnv) (res : decoded_addr) (i w idx : Nat),
      early_skx_rir_scan env res SKX_MAX_RIR 0 0 = some (i, w) →
      early_skx_rir_idx env res = some idx → GET_BITFIELD w 28 29 ≠ 3 → idx < 4) ∧
    SKX_RIR_WAYS 0xB0000FFE = 8 ∧
    early_skx_rir_scan env_rir_eight { rec0 0 with chan_addr := 0x8000 } SKX_MAX_RIR 0 0 =
      some (0, 0xB0000FFE) ∧
    early_skx_rir_idx env_rir_eight { rec0 0 with chan_addr := 0x8000 } = some 4 ∧
    (early_skx_rir_decode env_rir_eight { rec0 0 with chan_addr := 0x8000 }).1 = true ∧
    (early_skx_rir_decode env_rir_eight { rec0 0 with chan_addr := 0x8000 }).2.channel_rank =
      5 := by
  refine ⟨?_, ?_, by decide, by decide, by decide, by decide, by decide⟩
  · intro env res idx h
    unfold early_skx_rir_idx at h
    simp only [] at h
    cases hs : early_skx_rir_scan env res SKX_MAX_RIR 0 0 with
    | none => rw [hs] at h; exact Option.noConfusion h
    | some p =>
      obtain ⟨i, w⟩ := p
      rw [hs] at h
      simp only [Option.some.injEq] at h
      have h1 := SKX_RIR_WAYS_bounds w
      have h2 := Nat.mod_lt (res.chan_addr >>>
        (if ((env.skx_sock_devs res.dev).imc res.imc).close_pg ≠ 0 then 6 else 13)) h1.1
      omega
  · intro env res i w idx hs h hw
    unfold early_skx_rir_idx at h
    simp only [hs, Option.some.injEq] at h
    have hk : GET_BITFIELD w 28 29 < 4 := by
      unfold GET_BITFIELD
      exact Nat.mod_lt _ (by norm_num)
    have h1 : SKX_RIR_WAYS w ≤ 4 ∧ 0 < SKX_RIR_WAYS w := by
      unfold SKX_RIR_WAYS
      generalize GET_BITFIELD w 28 29 = k at hk hw
      interval_cases k
      · decide
      · decide
      · decide
      · exact absurd rfl hw
    have h2 := Nat.mod_lt (res.chan_addr >>>
      (if ((env.skx_sock_devs res.dev).imc res.imc).close_pg ≠ 0 then 6 else 13)) h1.2
    omega

/-! ## Stage 1: the controller and channel numbers -/

theorem GET_BITFIELD_lt (v lo hi : Nat) : GET_BITFIELD v lo hi < 2 ^ (hi + 1 - lo) := by
  unfold GET_BITFIELD
  exact Nat.mod_lt _ (by positivity)

/-- C36 (the code, in general and at the failing input).  The controller
number stage 1 takes from the routing word is a 3-bit field and the channel
number a 2-bit field: they are below 8 and below 4, whatever the routing
word is.  In `env_route_wide` (routing word `0xC0007`) the address
`0x10000000` decodes in stage 1 to controller 7 and channel 3, not below
`SKX_NUM_IMC = 2` and `SKX_NUM_CHANNELS = 3`, and stages 2 and 3 succeed on
the table entries at these indices: `early_skx_tadwayness[0][7][0]` and
`early_skx_rirwayness[0][7][3][0]`. -/
theorem C36_route_fields_exceed_tables :
    (∀ (env : SkxEnv) (di sad tgt : Nat) (res : decoded_addr),
      (early_skx_sad_finish env di sad tgt res).1 = true →
      0 ≤ (early_skx_sad_finish env di sad tgt res).2.imc ∧
      (early_skx_sad_finish env di sad tgt res).2.imc < 8 ∧
      0 ≤ (early_skx_sad_finish env di sad tgt res).2.channel ∧
      (early_skx_sad_finish env di sad tgt res).2.channel < 4) ∧
    SKX_NUM_IMC = 2 ∧ SKX_NUM_CHANNELS = 3 ∧
    (early_skx_sad_decode env_route_wide (rec0 0x10000000)).1 = true ∧
    (early_skx_sad_decode env_route_wide (rec0 0x10000000)).2.imc = 7 ∧
    (early_skx_sad_decode env_route_wide (rec0 0x10000000)).2.channel = 3 ∧
    early_skx_tad_scan env_route_wide (early_skx_sad_decode env_route_wide (rec0 0x10000000)).2
      SKX_MAX_TAD 0 = some (0, 0, env_route_wide.early_skx_tadwayness 0 7 0) ∧
    env_route_wide.early_skx_tadwayness 0 7 0 ≠ env_route_wide.early_skx_tadwayness 0 1 0 ∧
    (early_skx_decode_local env_route_wide (rec0 0x10000000)).1 = true := by
  refine ⟨?_, rfl, rfl, by decide, by decide, by decide, by decide, by decide, by decide⟩
  intro env di sad tgt res h
  unfold early_skx_sad_finish at h ⊢
  cases hl : skx_sad_lchan res.addr sad tgt with
  | none => rw [hl] at h; exact absurd h Bool.false_ne_true
  | some lchan =>
    simp only []
    have h1 := GET_BITFIELD_lt (env.skx_sock_devs di).mcroute (lchan * 3) (lchan * 3 + 2)
    have h2 := GET_BITFIELD_lt (env.skx_sock_devs di).mcroute (lchan * 2 + 18) (lchan * 2 + 19)
    have e1 : lchan * 3 + 2 + 1 - lchan * 3 = 3 := by omega
    have e3 : lchan * 2 + 19 + 1 - (lchan * 2 + 18) = 2 := by omega
    rw [e1] at h1
    rw [e3] at h2
    refine ⟨by positivity, by exact_mod_cast h1, by positivity, by exact_mod_cast h2⟩

/-! ## The reserved ids -/

/-- On socket 0 the provisional group id is not negative, for a geometry of
at most 31 row bits. -/
theorem early_skx_provisional_group_nonneg (env : SkxEnv) (imc : skx_imc) (row : Nat)
    (hrb : imc.rowbits ≤ 31) (hrow : row < 2 ^ imc.rowbits) :
    0 ≤ early_skx_provisional_group env imc 0 row := by
  have hpow : 2 ^ imc.rowbits ≤ 2 ^ 31 := Nat.pow_le_pow_right (by norm_num) hrb
  unfold early_skx_provisional_group
  split
  · have e : (0 : Int) * ((2 ^ imc.rowbits : Nat) : Int) + (row : Int) = (row : Int) := by ring
    rw [e, u64_of_int_natCast row (by omega)]
    have hq : row / ((env.num_rows_per_subarray *
        u64_of_int (early_skx_subarrays_touched env imc)) % 2 ^ 64) < 2 ^ 31 :=
      lt_of_le_of_lt (Nat.div_le_self _ _) (by omega)
    rw [int_of_u64_small _ hq]
    positivity
  · exact le_refl _

/-- C34 (amended): the reserved ids are produced only for reserved rows,
when the rows of every socket other than 0 lie beyond the first two
provisional groups.  For every geometry of at most 31 row bits, every
rows-per-group and every boundary row `B`, and every record such that, when
its socket is not 0 and its row is at least 32, the provisional group id is
at least 2: `early_skx_mad_decode` returns a subarray group in
`{2, 3, 4, 5}` only when the row lies in the reserved window of the socket
(socket 0: `[B, B + 32)` with `B ≠ 0`; another socket: rows below 32), and
every other row gets 0, 1 or an id of at least 6.  The condition on the
provisional id holds when the socket is positive, rows-per-group is not 0
and `2 * rows_per_group * t ≤ socket * 2 ^ rowbits + row` (no conversion
wrapping), with `t` the number of subarrays a huge page touches. -/
theorem C34_reserved_ids_only_for_reserved_rows (env : SkxEnv) (r : decoded_addr)
    (hrb : ((env.skx_sock_devs r.dev).imc r.imc).rowbits ≤ 31)
    (hp : r.socket ≠ 0 → 32 ≤ early_skx_mad_row env r →
      2 ≤ early_skx_provisional_group env ((env.skx_sock_devs r.dev).imc r.imc) r.socket
        (early_skx_mad_row env r)) :
    (((early_skx_mad_decode env r).2.subarray_group = 2 ∨
        (early_skx_mad_decode env r).2.subarray_group = 3 ∨
        (early_skx_mad_decode env r).2.subarray_group = 4 ∨
        (early_skx_mad_decode env r).2.subarray_group = 5) →
      (r.socket = 0 ∧ env.himem_subarray_boundary_row ≠ 0 ∧
          env.himem_subarray_boundary_row ≤ early_skx_mad_row env r ∧
          early_skx_mad_row env r < env.himem_subarray_boundary_row + 32) ∨
        (r.socket ≠ 0 ∧ early_skx_mad_row env r < 32)) ∧
    (¬ ((r.socket = 0 ∧ env.himem_subarray_boundary_row ≠ 0 ∧
          env.himem_subarray_boundary_row ≤ early_skx_mad_row env r ∧
          early_skx_mad_row env r < env.himem_subarray_boundary_row + 32) ∨
        (r.socket ≠ 0 ∧ early_skx_mad_row env r < 32)) →
      (early_skx_mad_decode env r).2.subarray_group = 0 ∨
        (early_skx_mad_decode env r).2.subarray_group = 1 ∨
        6 ≤ (early_skx_mad_decode env r).2.subarray_group) ∧
    (0 < r.socket →
      r.socket * (2 ^ ((env.skx_sock_devs r.dev).imc r.imc).rowbits : Nat) +
        (early_skx_mad_row env r : Int) < 2 ^ 31 →
      env.num_rows_per_subarray < 2 ^ 64 →
      (((env.skx_sock_devs r.dev).imc r.imc).close_pg ≠ 0 →
        env.num_rows_per_subarray + 4095 < 2 ^ 64) →
      env.num_rows_per_subarray ≠ 0 →
      2 * ((env.num_rows_per_subarray *
          (if ((env.skx_sock_devs r.dev).imc r.imc).close_pg ≠ 0 then
            (4095 + env.num_rows_per_subarray) / env.num_rows_per_subarray
           else 1) : Nat) : Int) ≤
        r.socket * (2 ^ ((env.skx_sock_devs r.dev).imc r.imc).rowbits : Nat) +
          (early_skx_mad_row env r : Int) →
      2 ≤ early_skx_provisional_group env ((env.skx_sock_devs r.dev).imc r.imc) r.socket
        (early_skx_mad_row env r)) := by
  have hrow := early_skx_mad_row_lt env r
  have hmain : ¬ ((r.socket = 0 ∧ env.himem_subarray_boundary_row ≠ 0 ∧
          env.himem_subarray_boundary_row ≤ early_skx_mad_row env r ∧
          early_skx_mad_row env r < env.himem_subarray_boundary_row + 32) ∨
        (r.socket ≠ 0 ∧ early_skx_mad_row env r < 32)) →
      (early_skx_mad_decode env r).2.subarray_group = 0 ∨
        (early_skx_mad_decode env r).2.subarray_group = 1 ∨
        6 ≤ (early_skx_mad_decode env r).2.subarray_group := by
    intro hw
    rw [early_skx_mad_decode_group]
    unfold early_skx_subarray_group early_skx_reserved_group
    simp only [SOCKET_1_GUARD_ROWS_NODE, SOCKET_0_EPT_NODE, SOCKET_0_GUARD_ROWS_NODE,
      SOCKET_1_EPT_NODE]
    by_cases hs : r.socket ≠ 0
    · have h32 : ¬ early_skx_mad_row env r < 32 := fun h => hw (Or.inr ⟨hs, h⟩)
      have hp2 := hp hs (by omega)
      rw [if_pos hs, if_neg h32]
      omega
    · have hs0 : r.socket = 0 := not_not.mp hs
      have hnn := early_skx_provisional_group_nonneg env _ (early_skx_mad_row env r) hrb hrow
      rw [if_neg hs, hs0]
      generalize early_skx_provisional_group env _ 0 _ = p at hnn ⊢
      by_cases hB : env.himem_subarray_boundary_row ≠ 0
      · have hwin : ¬ (early_skx_mad_row env r ≥ env.himem_subarray_boundary_row ∧
            early_skx_mad_row env r < (env.himem_subarray_boundary_row + 32) % 2 ^ 32) := by
          rintro ⟨h1, h2⟩
          have h3 : (env.himem_subarray_boundary_row + 32) % 2 ^ 32 ≤
              env.himem_subarray_boundary_row + 32 := Nat.mod_le _ _
          exact hw (Or.inl ⟨hs0, hB, h1, by omega⟩)
        rw [if_pos hB, if_neg hwin]
        split_ifs <;> omega
      · rw [if_neg hB]
        split_ifs <;> omega
  refine ⟨?_, hmain, ?_⟩
  · intro hg
    by_contra hw
    have := hmain hw
    omega
  · intro hs hfit hn hwrap hnz hle
    rw [early_skx_provisional_group_eq env _ r.socket _ (le_of_lt hs) hfit hn hwrap hnz]
    have hpos : (0 : Int) < ((env.num_rows_per_subarray *
          (if ((env.skx_sock_devs r.dev).imc r.imc).close_pg ≠ 0 then
            (4095 + env.num_rows_per_subarray) / env.num_rows_per_subarray
           else 1) : Nat) : Int) := by
      have hn0 : 0 < env.num_rows_per_subarray := Nat.pos_of_ne_zero hnz
      have ht : 0 < (if ((env.skx_sock_devs r.dev).imc r.imc).close_pg ≠ 0 then
          (4095 + env.num_rows_per_subarray) / env.num_rows_per_subarray else 1) := by
        split
        · exact Nat.div_pos (by omega) hn0
        · exact Nat.one_pos
      exact_mod_cast Nat.mul_pos hn0 ht
    exact Int.le_ediv_of_mul_le hpos hle

/-- Witness of C34: on socket 1 of the geometry of `env0` (17 row bits, 512
rows per group) the rank address `0x12500000` has row 600 and provisional
group 257; it gets the id 261. -/
theorem C34_reserved_ids_only_for_reserved_rows_witness :
    (early_skx_mad_decode env0 (rec_rank 1 0x12500000)).2.subarray_group = 0 ∨
      (early_skx_mad_decode env0 (rec_rank 1 0x12500000)).2.subarray_group = 1 ∨
      6 ≤ (early_skx_mad_decode env0 (rec_rank 1 0x12500000)).2.subarray_group :=
  (C34_reserved_ids_only_for_reserved_rows env0 (rec_rank 1 0x12500000) (by decide)
    (fun _ _ => by decide)).2.1 (by decide)

/-- C34 (counterexample): socket 1, row 600 (outside the reserved window,
rows below 32) in the geometry of `env0`.  With rows-per-group 0 the
provisional id is 0 and the row gets `0 + 4 = SOCKET_1_EPT_NODE`; with
`2 ^ 17` rows per group the provisional id is 1 and the row gets
`1 + 4 = SOCKET_1_GUARD_ROWS_NODE`. -/
theorem C34_counterexample :
    (early_skx_mad_decode { env0 with num_rows_per_subarray := 0 }
      (rec_rank 1 0x12500000)).2.row = 600 ∧
    (early_skx_mad_decode { env0 with num_rows_per_subarray := 0 }
      (rec_rank 1 0x12500000)).2.subarray_group = SOCKET_1_EPT_NODE ∧
    (early_skx_mad_decode { env0 with num_rows_per_subarray := 2 ^ 17 }
      (rec_rank 1 0x12500000)).2.row = 600 ∧
    (early_skx_mad_decode { env0 with num_rows_per_subarray := 2 ^ 17 }
      (rec_rank 1 0x12500000)).2.subarray_group = SOCKET_1_GUARD_ROWS_NODE := by
  decide

/-! ## Distances and the socket assignment -/

/-- Outside the firmware matrix, for two distinct non-guard indices below
`siloz_total_nodes`, neither of which is `first_remote_group` and which are
not nodes 1 and 4 together, with `first_remote_group` at least 6: the
expected distance is the local distance when the test of the node-to-domain
adjustment gives both indices the same domain, and the remote distance
otherwise. -/
theorem slit_synth_distance_by_domain (k : SratConst) (T : Int) (frg : Nat) (L R : Int)
    (i j : Nat) (hij : i ≠ j) (hi : (i : Int) < T) (hj : (j : Int) < T) (hfrg : 6 ≤ frg)
    (hng : i ≠ 3 ∧ i ≠ 5 ∧ j ≠ 3 ∧ j ≠ 5) (hif : i ≠ frg) (hjf : j ≠ frg)
    (h14 : ¬ ((i = 1 ∨ i = 4) ∧ (j = 1 ∨ j = 4))) :
    slit_synth_distance k T frg L R i j =
      if (if i = 1 ∨ (i : Int) = SOCKET_1_EPT_NODE ∨ (i : Int) = SOCKET_1_GUARD_ROWS_NODE ∨
            (i ≥ frg ∧ (i : Int) ≠ T - 1) then (1 : Int) else 0) =
          (if j = 1 ∨ (j : Int) = SOCKET_1_EPT_NODE ∨ (j : Int) = SOCKET_1_GUARD_ROWS_NODE ∨
            (j ≥ frg ∧ (j : Int) ≠ T - 1) then (1 : Int) else 0) then L else R := by
  unfold slit_synth_distance
  simp only [SOCKET_0_EPT_NODE, SOCKET_0_GUARD_ROWS_NODE, SOCKET_1_EPT_NODE,
    SOCKET_1_GUARD_ROWS_NODE]
  rw [if_neg hij]
  have g1 : ¬ ((i : Int) = 3 ∨ (i : Int) = 5 ∨ (j : Int) = 3 ∨ (j : Int) = 5) := by omega
  rw [if_neg g1]
  split_ifs <;> first | rfl | omega

/-- C38 (the code, in general and at the failing input).  In the two-socket
case with `first_remote_group ≥ 6`, for a pair of distinct non-guard
indices `(i, j)` below `siloz_total_nodes`, not both below the firmware
locality count, neither of which is `first_remote_group` and which are not
nodes 1 and 4 together: the iteration for `(i, j)` sets the distance to
`local_distance` when the node-to-domain adjustment of `acpi_numa_init`
gives `i` and `j` the same domain, and to `remote_distance` otherwise.  At
the other pairs the two disagree: with the two-socket table `slit_two`
(local 10, remote 21), ten logical nodes and first remote group 7, nodes 1
and 4 are both in domain 1 and get the remote distance 21; node 6 is in
domain 0 and node 7 in domain 1 and the pair `(6, 7)` gets the local
distance 10; nodes 7 and 8 are both in domain 1 and get the remote
distance 21. -/
theorem C38_distance_disagrees_with_domain :
    (∀ (k : SratConst) (m m2 : PxmMaps) (T : Int) (frg : Nat) (slit : acpi_table_slit)
        (st : SlitState) (i j : Nat) (from_node : Int),
      frg ≠ FIRST_REMOTE_GROUP_UNSET → 6 ≤ frg → i ≠ j → (i : Int) < T → (j : Int) < T →
      ¬ (i < slit.locality_count ∧ j < slit.locality_count) →
      (i ≠ 3 ∧ i ≠ 5 ∧ j ≠ 3 ∧ j ≠ 5) → i ≠ frg → j ≠ frg →
      ¬ ((i = 1 ∨ i = 4) ∧ (j = 1 ∨ j = 4)) →
      slit_node k m slit j ≠ NUMA_NO_NODE →
      (acpi_numa_slit_init_cell k m T frg slit i from_node st j).numa_distance from_node
          (slit_node k m slit j) =
        some (if node_to_pxm (acpi_numa_init_adjust m2 T frg) (i : Int) =
            node_to_pxm (acpi_numa_init_adjust m2 T frg) (j : Int)
          then st.local_distance else st.remote_distance)) ∧
    (acpi_numa_slit_init k1 pxm_maps_two 10 7 slit_two slit_state_init).local_distance = 10 ∧
    (acpi_numa_slit_init k1 pxm_maps_two 10 7 slit_two slit_state_init).remote_distance = 21 ∧
    node_to_pxm (acpi_numa_init_adjust pxm_maps_two 10 7) 1 = 1 ∧
    node_to_pxm (acpi_numa_init_adjust pxm_maps_two 10 7) 4 = 1 ∧
    (acpi_numa_slit_init k1 pxm_maps_two 10 7 slit_two slit_state_init).numa_distance 1 4 =
      some 21 ∧
    (acpi_numa_slit_init k1 pxm_maps_two 10 7 slit_two slit_state_init).numa_distance 4 1 =
      some 21 ∧
    node_to_pxm (acpi_numa_init_adjust pxm_maps_two 10 7) 6 = 0 ∧
    node_to_pxm (acpi_numa_init_adjust pxm_maps_two 10 7) 7 = 1 ∧
    (acpi_numa_slit_init k1 pxm_maps_two 10 7 slit_two slit_state_init).numa_distance 6 7 =
      some 10 ∧
    node_to_pxm (acpi_numa_init_adjust pxm_maps_two 10 7) 8 = 1 ∧
    (acpi_numa_slit_init k1 pxm_maps_two 10 7 slit_two slit_state_init).numa_distance 7 8 =
      some 21 := by
  refine ⟨?_, by decide, by decide, by decide, by decide, by decide, by decide, by decide,
    by decide, by decide, by decide, by decide⟩
  intro k m m2 T frg slit st i j from_node hfrg h6 hij hi hj hout hng hif hjf h14 hto
  have hni : ¬ ((i : Int) < 0) := by omega
  have hnj : ¬ ((j : Int) < 0) := by omega
  rw [slit_init_cell_eq k m T frg slit i j from_node st hto, if_neg hout,
    slit_synth_distance_by_domain k T frg _ _ i j hij hi hj h6 hng hif hjf h14]
  unfold node_to_pxm
  rw [if_neg hni, if_neg hnj, acpi_numa_init_adjust_map m2 T frg hfrg i (by omega),
    acpi_numa_init_adjust_map m2 T frg hfrg j (by omega)]
  simp only [numa_set_distance, and_self, if_true]

/-! ## The logical-node count -/

/-- A run of `rest_walk` does not lower `siloz_total_nodes`, and every block
it adds before running to its end has a node id below the count it
leaves. -/
theorem rest_walk_counts (env : SratEnv) (decode : skx_decode_f) (end_ : Nat) :
    ∀ (fuel : Nat) (w : Walk) (b : Nat) (x : WalkExit),
      rest_walk env decode end_ fuel w b = some x →
      (∀ w' b', x = WalkExit.finished w' b' →
        w.siloz_total_nodes ≤ w'.siloz_total_nodes ∧
        ∃ blks, w'.memblks = w.memblks ++ blks ∧
          ∀ blk, blk ∈ blks → blk.nid < w'.siloz_total_nodes) ∧
      (∀ w', x = WalkExit.bad_srat w' → w.siloz_total_nodes ≤ w'.siloz_total_nodes) := by
  intro fuel
  induction fuel with
  | zero =>
    intro w b x h
    simp only [rest_walk] at h
    exact absurd h (by simp)
  | succ n ih =>
    intro w b x h
    rw [rest_walk] at h
    by_cases hb : b < end_
    · rw [if_pos hb] at h
      simp only [] at h
      generalize decode { w.res with addr := b, subarray_group := -1 } = d at h
      by_cases hd : d.1 = false
      · rw [if_pos hd] at h
        simp only [Option.some.injEq] at h
        subst h
        exact ⟨fun w' b' hc => (by cases hc), fun w' hc => by cases hc⟩
      · rw [if_neg hd] at h
        by_cases hg : d.2.subarray_group ≠ w.last_subarray_group
        · rw [if_pos hg] at h
          by_cases hadd : env.numa_add_memblk w.memblks w.last_subarray_group w.start b < 0
          · rw [if_pos hadd] at h
            simp only [Option.some.injEq] at h
            subst h
            refine ⟨fun w' b' hc => (by cases hc), fun w' hc => ?_⟩
            simp only [WalkExit.bad_srat.injEq] at hc
            subst hc
            exact le_refl _
          · rw [if_neg hadd] at h
            obtain ⟨i1, i2⟩ := ih _ _ x h
            refine ⟨fun w' b' hc => ?_, fun w' hc => ?_⟩
            · obtain ⟨m1, blks, e, hcnt⟩ := i1 w' b' hc
              simp only [] at m1 e
              have hmax : w.siloz_total_nodes ≤ max w.siloz_total_nodes (w.last_subarray_group + 1) :=
                le_max_left _ _
              have hnid : w.last_subarray_group + 1 ≤
                  max w.siloz_total_nodes (w.last_subarray_group + 1) := le_max_right _ _
              refine ⟨le_trans hmax m1, ⟨w.last_subarray_group, w.start, b⟩ :: blks, ?_, ?_⟩
              · rw [e]; simp
              · intro blk hblk
                rcases List.mem_cons.mp hblk with hh | hh
                · rw [hh]
                  show w.last_subarray_group < w'.siloz_total_nodes
                  omega
                · exact hcnt blk hh
            · have m1 := i2 w' hc
              simp only [] at m1
              exact le_trans (le_max_left _ _) m1
        · rw [if_neg hg] at h
          obtain ⟨i1, i2⟩ := ih _ _ x h
          exact ⟨fun w' b' hc => i1 w' b' hc, fun w' hc => i2 w' hc⟩
    · rw [if_neg hb] at h
      simp only [Option.some.injEq] at h
      subst h
      refine ⟨fun w' b' hc => ?_, fun w' hc => by cases hc⟩
      simp only [WalkExit.finished.injEq] at hc
      rw [← hc.1]
      exact ⟨le_refl _, [], by simp, fun blk hblk => absurd hblk (List.not_mem_nil _)⟩

/-- A run of `first_group_walk` leaves `siloz_total_nodes` as it was and
adds at most one block. -/
theorem first_group_walk_total (env : SratEnv) (decode : skx_decode_f) (end_ : Nat) :
    ∀ (fuel : Nat) (w : Walk) (b : Nat) (x : WalkExit),
      first_group_walk env decode end_ fuel w b = some x →
      (∀ w' b', x = WalkExit.finished w' b' →
        w'.siloz_total_nodes = w.siloz_total_nodes ∧
        ∃ blks, w'.memblks = w.memblks ++ blks ∧ blks.length ≤ 1) ∧
      (∀ w', x = WalkExit.bad_srat w' → w'.siloz_total_nodes = w.siloz_total_nodes) := by
  intro fuel
  induction fuel with
  | zero =>
    intro w b x h
    simp only [first_group_walk] at h
    exact absurd h (by simp)
  | succ n ih =>
    intro w b x h
    rw [first_group_walk] at h
    by_cases hb : b < end_
    · rw [if_pos hb] at h
      simp only [] at h
      generalize decode { w.res with addr := b, subarray_group := -1 } = d at h
      by_cases hd : d.1 = false
      · rw [if_pos hd] at h
        simp only [Option.some.injEq] at h
        subst h
        exact ⟨fun w' b' hc => (by cases hc), fun w' hc => by cases hc⟩
      · rw [if_neg hd] at h
        by_cases hg : d.2.subarray_group ≠ w.last_subarray_group
        · rw [if_pos hg] at h
          by_cases hadd : env.numa_add_memblk w.memblks w.last_subarray_group w.start b < 0
          · rw [if_pos hadd] at h
            simp only [Option.some.injEq] at h
            subst h
            refine ⟨fun w' b' hc => (by cases hc), fun w' hc => ?_⟩
            simp only [WalkExit.bad_srat.injEq] at hc
            subst hc
            rfl
          · rw [if_neg hadd] at h
            simp only [Option.some.injEq] at h
            subst h
            refine ⟨fun w' b' hc => ?_, fun w' hc => by cases hc⟩
            simp only [WalkExit.finished.injEq] at hc
            rw [← hc.1]
            exact ⟨rfl, [⟨w.last_subarray_group, w.start, b⟩], rfl, le_refl _⟩
        · rw [if_neg hg] at h
          obtain ⟨i1, i2⟩ := ih _ _ x h
          exact ⟨fun w' b' hc => i1 w' b' hc, fun w' hc => i2 w' hc⟩
    · rw [if_neg hb] at h
      simp only [Option.some.injEq] at h
      subst h
      refine ⟨fun w' b' hc => ?_, fun w' hc => by cases hc⟩
      simp only [WalkExit.finished.injEq] at hc
      rw [← hc.1]
      exact ⟨rfl, [], by simp, by simp⟩

/-- The start of the range leaves `siloz_total_nodes` as it was and adds at
most one block. -/
theorem srat_range_start_total (env : SratEnv) (decode : skx_decode_f) (fuel : Nat)
    (himem tolm : Nat) (node : Int) (end_ : Nat) (w : Walk) (x : WalkExit)
    (h : srat_range_start env decode fuel himem tolm node end_ w = some x) :
    (∀ w' b', x = WalkExit.finished w' b' →
      w'.siloz_total_nodes = w.siloz_total_nodes ∧
      ∃ blks, w'.memblks = w.memblks ++ blks ∧ blks.length ≤ 1) ∧
    (∀ w', x = WalkExit.bad_srat w' → w'.siloz_total_nodes = w.siloz_total_nodes) := by
  unfold srat_range_start at h
  by_cases hbr : node ≠ 0 ∨ w.start = 0
  · rw [if_pos hbr] at h
    simp only [] at h
    generalize decode { w.res with addr := w.start, subarray_group := -1 } = d at h
    by_cases hd : d.1 = false
    · rw [if_pos hd] at h
      simp only [Option.some.injEq] at h
      subst h
      exact ⟨fun w' b' hc => (by cases hc), fun w' hc => by cases hc⟩
    · rw [if_neg hd] at h
      split at h
      · simp only [Option.some.injEq] at h
        subst h
        exact ⟨fun w' b' hc => (by cases hc), fun w' hc => by cases hc⟩
      · split at h
        · simp only [Option.some.injEq] at h
          subst h
          exact ⟨fun w' b' hc => (by cases hc), fun w' hc => by cases hc⟩
        · obtain ⟨i1, i2⟩ := first_group_walk_total env decode end_ fuel _ _ x h
          exact ⟨fun w' b' hc => i1 w' b' hc, fun w' hc => i2 w' hc⟩
  · rw [if_neg hbr] at h
    by_cases hz : himem = 0
    · rw [if_pos hz] at h
      simp only [Option.some.injEq] at h
      subst h
      exact ⟨fun w' b' hc => (by cases hc), fun w' hc => by cases hc⟩
    · rw [if_neg hz] at h
      simp only [] at h
      by_cases hne : himem ≠ w.start
      · rw [if_pos hne] at h
        generalize (tolm + 2 ^ 64 - 0x1000) % 2 ^ 64 = ta at h
        generalize decode { w.res with addr := ta, subarray_group := -1 } = dj at h
        by_cases hd : dj.1 = false
        · rw [if_pos hd] at h
          simp only [Option.some.injEq] at h
          subst h
          exact ⟨fun w' b' hc => (by cases hc), fun w' hc => by cases hc⟩
        · rw [if_neg hd] at h
          by_cases hadd : env.numa_add_memblk w.memblks dj.2.subarray_group w.start himem < 0
          · rw [if_pos hadd] at h
            simp only [Option.some.injEq] at h
            subst h
            refine ⟨fun w' b' hc => (by cases hc), fun w' hc => ?_⟩
            simp only [WalkExit.bad_srat.injEq] at hc
            subst hc
            rfl
          · rw [if_neg hadd] at h
            simp only [] at h
            split at h
            · simp only [Option.some.injEq] at h
              subst h
              exact ⟨fun w' b' hc => (by cases hc), fun w' hc => by cases hc⟩
            · simp only [Option.some.injEq] at h
              subst h
              refine ⟨fun w' b' hc => ?_, fun w' hc => by cases hc⟩
              simp only [WalkExit.finished.injEq] at hc
              rw [← hc.1]
              exact ⟨rfl, [⟨dj.2.subarray_group, w.start, himem⟩], rfl, le_refl _⟩
      · rw [if_neg hne] at h
        simp only [] at h
        split at h
        · simp only [Option.some.injEq] at h
          subst h
          exact ⟨fun w' b' hc => (by cases hc), fun w' hc => by cases hc⟩
        · simp only [Option.some.injEq] at h
          subst h
          refine ⟨fun w' b' hc => ?_, fun w' hc => by cases hc⟩
          simp only [WalkExit.finished.injEq] at hc
          rw [← hc.1]
          exact ⟨rfl, [], by simp, by simp⟩

/-- The walk does not lower `siloz_total_nodes`; when it returns 0, the
blocks it added are at most one block of the start of the range followed by
blocks whose node ids are below the count it leaves, the last block of the
record among them. -/
theorem memory_affinity_walk_total (env : SratEnv) (decode : skx_decode_f) (fuel : Nat)
    (st : SratState) (node : Int) (start end_ : Nat) (res : decoded_addr)
    (o : ParseOutcome) (st' : SratState)
    (h : memory_affinity_walk env decode fuel st node start end_ res = some (o, st')) :
    st.siloz_total_nodes ≤ st'.siloz_total_nodes ∧
    (o = ParseOutcome.returned 0 →
      ∃ pre post, st'.memblks = st.memblks ++ pre ++ post ∧ pre.length ≤ 1 ∧ post ≠ [] ∧
        ∀ blk, blk ∈ post → blk.nid < st'.siloz_total_nodes) := by
  unfold memory_affinity_walk at h
  simp only [] at h
  cases hrs : srat_range_start env decode fuel st.himem_subarray_boundary_addr st.skx_tolm node
      end_
      { res := res, start := start, last_subarray_group := 0, himem_increment := 0x1000,
        siloz_total_nodes := st.siloz_total_nodes,
        parsed_numa_memblks := st.parsed_numa_memblks, memblks := st.memblks } with
  | none => rw [hrs] at h; exact absurd h (by simp)
  | some x =>
    rw [hrs] at h
    obtain ⟨s1, s2⟩ := srat_range_start_total env decode fuel _ _ node end_ _ x hrs
    cases x with
    | panicked =>
      simp only [Option.some.injEq, Prod.mk.injEq] at h
      rw [← h.1, ← h.2]
      exact ⟨le_refl _, fun hc => ParseOutcome.noConfusion hc⟩
    | bad_srat w =>
      simp only [Option.some.injEq, Prod.mk.injEq] at h
      have e := s2 w rfl
      simp only [] at e
      rw [← h.1, ← h.2]
      refine ⟨?_, fun hc => ?_⟩
      · show st.siloz_total_nodes ≤ w.siloz_total_nodes
        rw [e]
      · simp only [ParseOutcome.returned.injEq] at hc
        exact absurd hc (by decide)
    | finished w1 b1 =>
      simp only [] at h
      obtain ⟨e1, blks1, a1, a2⟩ := s1 w1 b1 rfl
      simp only [] at e1 a1
      generalize (if env.num_rows_per_subarray % 512 = 0 then
            himem_stride w1.last_subarray_group w1.himem_increment
          else w1.himem_increment) = inc at h
      cases hrw : rest_walk env decode end_ fuel { w1 with himem_increment := inc }
          ((w1.start + inc) % 2 ^ 64) with
      | none => rw [hrw] at h; exact absurd h (by simp)
      | some y =>
        rw [hrw] at h
        obtain ⟨r1, r2⟩ := rest_walk_counts env decode end_ fuel _ _ y hrw
        cases y with
        | panicked =>
          simp only [Option.some.injEq, Prod.mk.injEq] at h
          rw [← h.1, ← h.2]
          exact ⟨le_refl _, fun hc => ParseOutcome.noConfusion hc⟩
        | bad_srat w =>
          simp only [Option.some.injEq, Prod.mk.injEq] at h
          have e := r2 w rfl
          simp only [] at e
          rw [← h.1, ← h.2]
          refine ⟨?_, fun hc => ?_⟩
          · show st.siloz_total_nodes ≤ w.siloz_total_nodes
            omega
          · simp only [ParseOutcome.returned.injEq] at hc
            exact absurd hc (by decide)
        | finished w2 b2 =>
          simp only [] at h
          obtain ⟨m2, blks2, c1, c2⟩ := r1 w2 b2 rfl
          simp only [] at m2 c1
          by_cases hbe : b2 ≠ end_
          · rw [if_pos hbe] at h
            simp only [Option.some.injEq, Prod.mk.injEq] at h
            rw [← h.1, ← h.2]
            exact ⟨le_refl _, fun hc => ParseOutcome.noConfusion hc⟩
          · rw [if_neg hbe] at h
            by_cases hadd : env.numa_add_memblk w2.memblks w2.res.subarray_group w2.start b2 < 0
            · rw [if_pos hadd] at h
              simp only [Option.some.injEq, Prod.mk.injEq] at h
              rw [← h.1, ← h.2]
              refine ⟨?_, fun hc => ?_⟩
              · show st.siloz_total_nodes ≤ w2.siloz_total_nodes
                omega
              · simp only [ParseOutcome.returned.injEq] at hc
                exact absurd hc (by decide)
            · rw [if_neg hadd] at h
              simp only [Option.some.injEq, Prod.mk.injEq] at h
              rw [← h.2]
              have hmax1 : w2.siloz_total_nodes ≤
                  max w2.siloz_total_nodes (w2.res.subarray_group + 1) := le_max_left _ _
              have hmax2 : w2.res.subarray_group + 1 ≤
                  max w2.siloz_total_nodes (w2.res.subarray_group + 1) := le_max_right _ _
              refine ⟨?_, fun _ => ⟨blks1, blks2 ++ [⟨w2.res.subarray_group, w2.start, b2⟩],
                ?_, a2, by simp, ?_⟩⟩
              · show st.siloz_total_nodes ≤ max w2.siloz_total_nodes (w2.res.subarray_group + 1)
                omega
              · show w2.memblks ++ [⟨w2.res.subarray_group, w2.start, b2⟩] =
                  st.memblks ++ blks1 ++ (blks2 ++ [⟨w2.res.subarray_group, w2.start, b2⟩])
                rw [c1, a1]
                simp only [List.append_assoc]
              · intro blk hblk
                show blk.nid < max w2.siloz_total_nodes (w2.res.subarray_group + 1)
                rcases List.mem_append.mp hblk with hh | hh
                · have := c2 blk hh
                  omega
                · simp only [List.mem_singleton] at hh
                  rw [hh]
                  show w2.res.subarray_group < _
                  omega

theorem srat_early_init_total (env : SratEnv) (st st1 : SratState) (f : skx_decode_f)
    (h : srat_early_init env st = some (st1, f)) :
    st1.siloz_total_nodes = st.siloz_total_nodes := by
  unfold srat_early_init at h
  cases hd : st.skx_decode with
  | some g =>
    rw [hd] at h
    simp only [Option.some.injEq, Prod.mk.injEq] at h
    rw [← h.1]
  | none =>
    rw [hd] at h
    simp only [] at h
    split at h
    · exact absurd h (by simp)
    · simp only [Option.some.injEq, Prod.mk.injEq] at h
      rw [← h.1]

/-- C35 (amended): `siloz_total_nodes` never decreases, and it is a
high-water mark over the blocks emitted together with its update.  Every
call of `acpi_numa_memory_affinity_init` that ends (by a return or in
`panic()`) leaves a count that is not below the one it found, so a block
whose node id was below the count stays below it.  When the call returns 0,
the blocks it added are `pre ++ post`, where `pre` is at most one block,
the one the start of the range emits (by the first-group loop or by the
jump to the boundary address) without updating the count, and `post`, not
empty, holds the blocks of the rest of the record up to its last one: every
block of `post` has a node id strictly below the count the call leaves. -/
theorem C35_total_nodes_high_water (env : SratEnv) (fuel : Nat) (st : SratState)
    (ma : acpi_srat_mem_affinity) (res : decoded_addr) (o : ParseOutcome) (st' : SratState)
    (h : acpi_numa_memory_affinity_init env fuel st ma res = some (o, st')) :
    st.siloz_total_nodes ≤ st'.siloz_total_nodes ∧
    (∀ blk, blk ∈ st.memblks → blk.nid < st.siloz_total_nodes →
      blk.nid < st'.siloz_total_nodes) ∧
    (o = ParseOutcome.returned 0 →
      ∃ pre post, st'.memblks = st.memblks ++ pre ++ post ∧ pre.length ≤ 1 ∧ post ≠ [] ∧
        ∀ blk, blk ∈ post → blk.nid < st'.siloz_total_nodes) := by
  have hmain : st.siloz_total_nodes ≤ st'.siloz_total_nodes ∧
      (o = ParseOutcome.returned 0 →
        ∃ pre post, st'.memblks = st.memblks ++ pre ++ post ∧ pre.length ≤ 1 ∧ post ≠ [] ∧
          ∀ blk, blk ∈ post → blk.nid < st'.siloz_total_nodes) := by
    unfold acpi_numa_memory_affinity_init at h
    cases hi : srat_early_init env st with
    | none =>
      rw [hi] at h
      simp only [Option.some.injEq, Prod.mk.injEq] at h
      rw [← h.1, ← h.2]
      exact ⟨le_refl _, fun hc => ParseOutcome.noConfusion hc⟩
    | some p =>
      obtain ⟨st1, decode⟩ := p
      rw [hi] at h
      have f1 := srat_early_init_total env st st1 decode hi
      have f2 := (srat_early_init_frame env st st1 decode hi).1
      simp only [] at h
      have hearly : ∀ s : SratState,
          some (ParseOutcome.returned (-EINVAL), s) = some (o, st') →
          s.siloz_total_nodes = st1.siloz_total_nodes →
          st.siloz_total_nodes ≤ st'.siloz_total_nodes ∧
          (o = ParseOutcome.returned 0 →
            ∃ pre post, st'.memblks = st.memblks ++ pre ++ post ∧ pre.length ≤ 1 ∧ post ≠ [] ∧
              ∀ blk, blk ∈ post → blk.nid < st'.siloz_total_nodes) := by
        intro s he hs
        simp only [Option.some.injEq, Prod.mk.injEq] at he
        rw [← he.1, ← he.2, hs, f1]
        refine ⟨le_refl _, fun hc => ?_⟩
        simp only [ParseOutcome.returned.injEq] at hc
        exact absurd hc (by decide)
      split at h
      · exact hearly _ h rfl
      · split at h
        · exact hearly _ h rfl
        · split at h
          · exact hearly _ h rfl
          · split at h
            · exact hearly _ h rfl
            · split at h
              · exact hearly _ h rfl
              · obtain ⟨g1, g2⟩ := memory_affinity_walk_total env decode fuel _ _ _ _ res o st' h
                simp only [] at g1 g2
                rw [f1] at g1
                rw [f2] at g2
                exact ⟨g1, g2⟩
  exact ⟨hmain.1, fun blk _ hlt => lt_of_lt_of_le hlt hmain.1, hmain.2⟩

/-- Witness of C35 (amended): the record `[0x100000000, 0x100400000)` of
node 0 parsed with the boundary address `0x100200000` and the decode
`decode_lomem_seven`: the call returns 0 and raises the count from 0. -/
theorem C35_total_nodes_high_water_witness :
    (srat_state0 decode_lomem_seven 0x100200000).siloz_total_nodes ≤
      srat_state_after_seven.siloz_total_nodes :=
  (C35_total_nodes_high_water srat_env0 4 (srat_state0 decode_lomem_seven 0x100200000)
    (srat_record0 0x100000000 0x400000) (rec0 0) (ParseOutcome.returned 0)
    srat_state_after_seven rfl).1

/-- C35 (counterexample): the record `[0x100000000, 0x100400000)` of node 0
parsed from the initial state (count 0, no block) with the boundary address
`0x100200000`, when the page below `skx_tolm` decodes to group 7 and the
record to group 1.  The call returns 0 after the blocks
`(7, 0x100000000, 0x100200000)` and `(1, 0x100200000, 0x100400000)` and
leaves the count 2: the node id 7 of the first block is not below it. -/
theorem C35_counterexample :
    outcome_blocks (acpi_numa_memory_affinity_init srat_env0 4
      (srat_state0 decode_lomem_seven 0x100200000) (srat_record0 0x100000000 0x400000)
      (rec0 0)) =
      some (some 0, [(7, 0x100000000, 0x100200000), (1, 0x100200000, 0x100400000)]) ∧
    srat_state_after_seven.siloz_total_nodes = 2 ∧
    (srat_state0 decode_lomem_seven 0x100200000).siloz_total_nodes = 0 := by
  decide

end Siloz
